import Mathlib

/-!
# Scalar solvers of the Cantera sources

A shallow embedding of

* `vcsUtil_root1d` (`Cantera/src/equil/vcs_root1d.cpp`), the generic one dimensional
  root finder, and
* `ThermoPhase::setState_HPorUV` / `ThermoPhase::setState_SPorSV`
  (`src/thermo/ThermoPhase.cpp`), the temperature inversions,

together with theorems about them.

## Conventions of the embedding

There are two embeddings.  The first (namespaces `VCSnonideal` and `Cantera`) works in exact
arithmetic; the second (namespaces `VCSnonideal.Fl` and `Cantera.Fl`) takes the arithmetic
as a parameter and is described where it starts.  In the first embedding:

* A `double` is idealised as a rational number and every operation is exact.
* A division whose divisor is zero has no rational value (the C++ code produces an
  infinity or a NaN there and carries on with it).  Such a run leaves the idealisation:
  the embedded functions return `none` for it.  Divisions by the literals `2.0`, `3.0`,
  `10.`, `100.` and by `fnorm` (which is positive, see `fnormOf_pos`) are plain divisions.
* `sqrt` is a parameter of the root finder: every theorem holds for any function
  `ℚ → ℚ` put in its place.
* The callback `func(x, FuncTargVal, varID, fptrPassthrough, &err)` is a pure function of
  `x` and `FuncTargVal` that returns the residual (function value minus target); the
  pass-through arguments and the debug printing leave no trace in the results.
* Every call of the callback is recorded, in call order, in `evals`; every call of a
  method of the phase object is recorded in `log`.
-/

/-- Quotient of two doubles: `none` when the divisor is zero. -/
def fdiv (a b : ℚ) : Option ℚ := if b = 0 then none else some (a / b)

namespace VCSnonideal

/-! ## Constants and macros of `vcs_defs.h` / `vcs_internal.h` -/

/-- Return code for success, `#define VCS_SUCCESS 0` of the header `vcs_defs.h`. -/
def VCS_SUCCESS : Int := 0

/-- Return code `#define VCS_FAILED_CONVERGENCE -1` of the header `vcs_defs.h`. -/
def VCS_FAILED_CONVERGENCE : Int := -1

/-- Return code `#define VCS_PUB_BAD -3` of the header `vcs_defs.h`. -/
def VCS_PUB_BAD : Int := -3

/-- The macro `DSIGN(x)`: `0` at `0`, otherwise `1.0` or `-1.0`. -/
def DSIGN (x : ℚ) : ℚ := if x = 0 then 0 else if x > 0 then 1 else -1

/-- The macro `SQUARE(x)`. -/
def SQUARE (x : ℚ) : ℚ := x * x

/-- The macro `MIN(x, y)`, that is `((x) < (y) ? (x) : (y))`. -/
def MIN (x y : ℚ) : ℚ := if x < y then x else y

/-- The convergence tolerance `1.0E-5` of the loop test (also `TOL_CONV`). -/
def TOL_CONV : ℚ := 1 / 100000

/-- Modelled from the spec: `vcsUtil_mlequ(c, 3, 3, f, 1)` (its source file is not among
the sources) for the system built in `vcsUtil_root1d`, "an interpolating quadratic
through the last three `(x, f)` pairs (solved via a 3×3 linear system)".  The result is
`none` when the system is singular (the routine returns `1`), and otherwise the
coefficients `(f[0], f[1], f[2])` of `f[0] + f[1] x + f[2] x^2` through the three points
(the routine returns `0`). -/
def vcsUtil_mlequ (x0 x1 x2 f0 f1 f2 : ℚ) : Option (ℚ × ℚ × ℚ) :=
  if x0 = x1 ∨ x1 = x2 ∨ x0 = x2 then none
  else
    let d01 := (f1 - f0) / (x1 - x0)
    let d12 := (f2 - f1) / (x2 - x1)
    let a := (d12 - d01) / (x2 - x0)
    let b := d01 - a * (x0 + x1)
    let c := f0 - b * x0 - a * SQUARE x0
    some (c, b, a)

/-! ## The root finder `vcsUtil_root1d` -/

/-- The local variables of `vcsUtil_root1d` that live across loop iterations. -/
structure LoopState where
  x0 : ℚ
  f0 : ℚ
  x1 : ℚ
  f1 : ℚ
  x2 : ℚ
  f2 : ℚ
  its : Nat
  retn : Int
  foundPosF : Bool
  foundNegF : Bool
  foundStraddle : Bool
  posStraddle : Bool
  xPosF : ℚ
  xNegF : ℚ
  converged : Bool
  evals : List ℚ
  deriving DecidableEq

/-- What `vcsUtil_root1d` hands back: the returned `int`, the final `*xbest`, the points at
which `func` was called (in call order) and the number of loop iterations executed. -/
structure Root1dResult where
  retn : Int
  xbest : ℚ
  evals : List ℚ
  its : Nat
  deriving DecidableEq

/-- Lines 165-168: the first point, the caller's `*xbest` or the midpoint of the interval
when that lies outside of it. -/
def firstPoint (xmin xmax xbest : ℚ) : ℚ :=
  if xbest < xmin ∨ xbest > xmax then (xmin + xmax) / 2 else xbest

/-- Lines 187-188: the second start-up point. -/
def secondPoint (xmin xmax x1 : ℚ) : ℚ :=
  if x1 * (11 / 10) > xmax then x1 - (xmax - xmin) / 100 else x1 * (11 / 10)

/-- Lines 197-201: the norm that makes the residual dimensionless. -/
def fnormOf (FuncTargVal f1 f2 : ℚ) : ℚ :=
  if FuncTargVal ≠ 0 then |FuncTargVal| + 1 / 10 ^ 13
  else 1 / 2 * (|f1| + |f2|) + |FuncTargVal|

/-- Lines 227-234: the linear (secant) estimate. -/
def linearStep (s : LoopState) : Option ℚ :=
  match fdiv (s.f2 - s.f1) (s.x2 - s.x1) with
  | none => none
  | some slope =>
    if slope = 0 then some (2 * s.x2 - s.x1 + 1 / 1000)
    else some (s.x2 - s.f2 / slope)

/-- Lines 246-285: the quadratic fit, executed when `its > 0`.  Returns the new `retn`
and the new `xnew`. -/
def quadStep (sqrt : ℚ → ℚ) (s : LoopState) (xnew : ℚ) : Option (Int × ℚ) :=
  if s.its > 0 then
    match vcsUtil_mlequ s.x0 s.x1 s.x2 s.f0 s.f1 s.f2 with
    | none => some (1, xnew)
    | some (c, b, a) =>
      let root := b * b - 4 * c * a
      if root ≥ 0 then
        match fdiv (-b + sqrt root) (2 * a), fdiv (-b - sqrt root) (2 * a) with
        | some xn1, some xn2 =>
          let xquad := if |xn2 - s.x2| < |xn1 - s.x2| ∧ xn2 > 0 then xn2 else xn1
          match fdiv |xquad - xnew| |xnew - s.x2| with
          | some theta0 =>
            let theta := MIN 1 theta0
            some (0, theta * xnew + (1 - theta) * xquad)
          | none => none
        | _, _ => none
      else if DSIGN (xnew - s.x2) = DSIGN (s.x2 - s.x1) ∧
          DSIGN (s.x2 - s.x1) = DSIGN (s.x1 - s.x0) then
        some (0, xnew + (xnew - s.x2))
      else some (0, xnew)
  else some (s.retn, xnew)

/-- Lines 292-330: the heuristic bounds on the step jump. -/
def stepHeuristics (x1 x2 xnew : ℚ) : ℚ :=
  if (xnew > x1 ∧ xnew < x2) ∨ (xnew < x1 ∧ xnew > x2) then
    let slope := |x2 - x1| / 10
    let xa := if |xnew - x1| < slope then x1 + DSIGN (xnew - x1) * slope else xnew
    if |xa - x2| < slope then x2 + DSIGN (xa - x2) * slope else xa
  else
    let slope := 2 * |x2 - x1|
    if |slope| < |xnew - x2| then x2 + DSIGN (xnew - x2) * slope else xnew

/-- Lines 333-348: the limits `xmax` and `xmin`. -/
def boundStep (xmin xmax x2 xnew : ℚ) : ℚ :=
  let xa := if xnew > xmax then x2 + (xmax - x2) / 2 else xnew
  if xa < xmin then x2 + (x2 - xmin) / 2 else xa

/-- Lines 349-377: keep the candidate inside a known straddle. -/
def straddleStep (s : LoopState) (xnew : ℚ) : ℚ :=
  if s.foundStraddle then
    if s.posStraddle then
      if s.f2 > 0 then
        let xa := if xnew > s.x2 then (s.xNegF + s.x2) / 2 else xnew
        if xa < s.xNegF then (s.xNegF + s.x2) / 2 else xa
      else
        let xa := if xnew < s.x2 then (s.xPosF + s.x2) / 2 else xnew
        if xa > s.xPosF then (s.xPosF + s.x2) / 2 else xa
    else
      if s.f2 > 0 then
        let xa := if xnew < s.x2 then (s.xNegF + s.x2) / 2 else xnew
        if xa > s.xNegF then (s.xNegF + s.x2) / 2 else xa
      else
        let xa := if xnew > s.x2 then (s.xPosF + s.x2) / 2 else xnew
        if xa < s.xPosF then (s.xPosF + s.x2) / 2 else xa
  else xnew

/-- Lines 227-377: the point at which `func` is called in this iteration, with the value
of `retn` after the quadratic fit. -/
def candidate (sqrt : ℚ → ℚ) (xmin xmax : ℚ) (s : LoopState) : Option (Int × ℚ) :=
  match linearStep s with
  | none => none
  | some xlin =>
    match quadStep sqrt s xlin with
    | none => none
    | some (retn, xq) =>
      some (retn, straddleStep s (boundStep xmin xmax s.x2 (stepHeuristics s.x1 s.x2 xq)))

/-- Lines 388-422: the update of the straddle after `fnew = func(xnew)`. -/
def updateStraddle (s : LoopState) (xnew fnew : ℚ) : LoopState :=
  if s.foundStraddle then
    if s.posStraddle then
      if fnew > 0 then
        if xnew < s.xPosF then { s with xPosF := xnew } else s
      else
        if xnew > s.xNegF then { s with xNegF := xnew } else s
    else
      if fnew > 0 then
        if xnew > s.xPosF then { s with xPosF := xnew } else s
      else
        if xnew < s.xNegF then { s with xNegF := xnew } else s
  else
    if fnew > 0 then
      if ¬ s.foundPosF then
        { s with foundPosF := true, xPosF := xnew, foundStraddle := true,
                 posStraddle := decide (xnew > s.xNegF) }
      else s
    else
      if ¬ s.foundNegF then
        { s with foundNegF := true, xNegF := xnew, foundStraddle := true,
                 posStraddle := decide (s.xPosF > xnew) }
      else s

/-- Lines 222-433: one pass through the body of the `do ... while` loop. -/
def loopBody (sqrt : ℚ → ℚ) (xmin xmax : ℚ) (func : ℚ → ℚ → ℚ) (FuncTargVal fnorm : ℚ)
    (s : LoopState) : Option LoopState :=
  match candidate sqrt xmin xmax s with
  | none => none
  | some (retn, xnew) =>
    let fnew := func xnew FuncTargVal
    let t := updateStraddle s xnew fnew
    some { t with
      x0 := s.x1, f0 := s.f1, x1 := s.x2, f1 := s.f2, x2 := xnew, f2 := fnew,
      retn := retn,
      converged := s.converged || decide (|fnew / fnorm| < TOL_CONV),
      its := s.its + 1,
      evals := s.evals ++ [xnew] }

/-- The loop `do { ... } while (! converged && its < itmax)`.  The first argument is
the number of further passes that `its < itmax` still allows after the coming one: the
body runs once, and again as long as the test did not succeed and passes remain. -/
def doWhile (sqrt : ℚ → ℚ) (xmin xmax : ℚ) (func : ℚ → ℚ → ℚ) (FuncTargVal fnorm : ℚ) :
    Nat → LoopState → Option LoopState
  | 0, s => loopBody sqrt xmin xmax func FuncTargVal fnorm s
  | n + 1, s =>
    match loopBody sqrt xmin xmax func FuncTargVal fnorm s with
    | none => none
    | some t => if t.converged then some t
                else doWhile sqrt xmin xmax func FuncTargVal fnorm n t

/-- The state after `k` passes through the loop body, were the loop not left on
convergence: `none` when one of the passes divides by zero.  It names the point and the
residual of the `k`-th loop iteration in the statements below. -/
def passes (sqrt : ℚ → ℚ) (xmin xmax : ℚ) (func : ℚ → ℚ → ℚ) (FuncTargVal fnorm : ℚ) :
    Nat → LoopState → Option LoopState
  | 0, s => some s
  | k + 1, s =>
    match loopBody sqrt xmin xmax func FuncTargVal fnorm s with
    | none => none
    | some t => passes sqrt xmin xmax func FuncTargVal fnorm k t

/-- Lines 134-145 and 176-186: the initial values of the locals and the classification
of the first residual `f1` (which is not zero here). -/
def initState (x1 f1 : ℚ) : LoopState :=
  let s : LoopState :=
    { x0 := 0, f0 := 0, x1 := x1, f1 := f1, x2 := 0, f2 := 0, its := 0,
      retn := VCS_SUCCESS, foundPosF := false, foundNegF := false,
      foundStraddle := false, posStraddle := false, xPosF := 0, xNegF := 0,
      converged := false, evals := [x1] }
  if f1 > 0 then { s with foundPosF := true, xPosF := x1 }
  else { s with foundNegF := true, xNegF := x1 }

/-- Lines 187-220: the state with which the loop is entered, given the two start-up
points and their residuals (neither of which is zero). -/
def startState (x1 f1 x2 f2 : ℚ) : LoopState :=
  let s := { initState x1 f1 with x2 := x2, f2 := f2, evals := [x1, x2] }
  let s :=
    if f2 > 0 then
      if ¬ s.foundPosF then { s with foundPosF := true, xPosF := x2 } else s
    else
      if ¬ s.foundNegF then { s with foundNegF := true, xNegF := x2 } else s
  let s := { s with foundStraddle := s.foundPosF && s.foundNegF }
  if s.foundStraddle then { s with posStraddle := decide (s.xPosF > s.xNegF) } else s

/-- The function `vcsUtil_root1d(xmin, xmax, itmax, func, fptrPassthrough, FuncTargVal,
varID, xbest, printLvl)`.  The result is `none` when a division by zero occurs. -/
def vcsUtil_root1d (sqrt : ℚ → ℚ) (xmin xmax : ℚ) (itmax : Int) (func : ℚ → ℚ → ℚ)
    (FuncTargVal xbest : ℚ) : Option Root1dResult :=
  if xmax ≤ xmin then
    some { retn := VCS_PUB_BAD, xbest := xbest, evals := [], its := 0 }
  else
    let x1 := firstPoint xmin xmax xbest
    let f1 := func x1 FuncTargVal
    if f1 = 0 then
      some { retn := VCS_SUCCESS, xbest := x1, evals := [x1], its := 0 }
    else
      let x2 := secondPoint xmin xmax x1
      let f2 := func x2 FuncTargVal
      let fnorm := fnormOf FuncTargVal f1 f2
      if f2 = 0 then
        some { retn := VCS_SUCCESS, xbest := xbest, evals := [x1, x2], its := 0 }
      else
        match doWhile sqrt xmin xmax func FuncTargVal fnorm (itmax.toNat - 1)
            (startState x1 f1 x2 f2) with
        | none => none
        | some t =>
          some { retn := if t.converged then t.retn else VCS_FAILED_CONVERGENCE,
                 xbest := t.x2, evals := t.evals, its := t.its }

/-- The residual at the first start-up point of a call. -/
def f1At (xmin xmax : ℚ) (func : ℚ → ℚ → ℚ) (FuncTargVal xbest : ℚ) : ℚ :=
  func (firstPoint xmin xmax xbest) FuncTargVal

/-- The residual at the second start-up point of a call. -/
def f2At (xmin xmax : ℚ) (func : ℚ → ℚ → ℚ) (FuncTargVal xbest : ℚ) : ℚ :=
  func (secondPoint xmin xmax (firstPoint xmin xmax xbest)) FuncTargVal

/-- The value of `fnorm` of a call. -/
def fnormAt (xmin xmax : ℚ) (func : ℚ → ℚ → ℚ) (FuncTargVal xbest : ℚ) : ℚ :=
  fnormOf FuncTargVal (f1At xmin xmax func FuncTargVal xbest)
    (f2At xmin xmax func FuncTargVal xbest)

/-- The state with which a call enters the loop. -/
def startAt (xmin xmax : ℚ) (func : ℚ → ℚ → ℚ) (FuncTargVal xbest : ℚ) : LoopState :=
  startState (firstPoint xmin xmax xbest) (f1At xmin xmax func FuncTargVal xbest)
    (secondPoint xmin xmax (firstPoint xmin xmax xbest))
    (f2At xmin xmax func FuncTargVal xbest)

/-- What the recorded straddle points stand for, in a state of the loop: `f2` is the
residual at `x2`; one of `xPosF`, `xNegF` is recorded; a recorded `xPosF` has a positive
residual and a recorded `xNegF` a residual that is not positive (negative while
`converged` is unset); `foundStraddle` says that both are recorded, and then
`posStraddle` tells their order and `x2` is the one of the two that has the sign of
`f2`. -/
def BracketInv (func : ℚ → ℚ → ℚ) (FuncTargVal : ℚ) (s : LoopState) : Prop :=
  s.f2 = func s.x2 FuncTargVal ∧
  (s.foundPosF = true ∨ s.foundNegF = true) ∧
  s.foundStraddle = (s.foundPosF && s.foundNegF) ∧
  (s.foundPosF = true → 0 < func s.xPosF FuncTargVal) ∧
  (s.foundNegF = true → func s.xNegF FuncTargVal ≤ 0 ∧
    (s.converged = false → func s.xNegF FuncTargVal < 0)) ∧
  (s.foundStraddle = true → s.posStraddle = decide (s.xPosF > s.xNegF)) ∧
  (s.foundStraddle = true →
    (s.f2 > 0 → s.x2 = s.xPosF) ∧ (¬ s.f2 > 0 → s.x2 = s.xNegF))

/-- Lines 253-258: the two roots `xn1`, `xn2` of the fitted quadratic and the one of them
that is kept as `xquad`, in a state of the loop in which the fit is not singular and the
discriminant is not negative; `none` otherwise, and when the root formula divides by
zero. -/
def quadRoots (sqrt : ℚ → ℚ) (s : LoopState) : Option (ℚ × ℚ × ℚ) :=
  match vcsUtil_mlequ s.x0 s.x1 s.x2 s.f0 s.f1 s.f2 with
  | none => none
  | some (c, b, a) =>
    let root := b * b - 4 * c * a
    if root ≥ 0 then
      match fdiv (-b + sqrt root) (2 * a), fdiv (-b - sqrt root) (2 * a) with
      | some xn1, some xn2 =>
        some (xn1, xn2, if |xn2 - s.x2| < |xn1 - s.x2| ∧ xn2 > 0 then xn2 else xn1)
      | _, _ => none
    else none

end VCSnonideal

namespace Cantera

/-! ## The phase object seen by `setState_HPorUV` and `setState_SPorSV` -/

/-- The methods of the (virtual) phase interface that the two inversions call, as
functions of the state `σ` of the phase object.  The setters return the new state, the
`const` getters read it. -/
structure ThermoPhase (σ : Type) where
  setDensity : σ → ℚ → σ
  setPressure : σ → ℚ → σ
  setTemperature : σ → ℚ → σ
  temperature : σ → ℚ
  maxTemp : σ → ℚ
  minTemp : σ → ℚ
  enthalpy_mass : σ → ℚ
  intEnergy_mass : σ → ℚ
  entropy_mass : σ → ℚ
  cp_mass : σ → ℚ
  cv_mass : σ → ℚ

/-- One call of a method of the phase object. -/
inductive Call
  | setDensity (rho : ℚ)
  | setPressure (p : ℚ)
  | setTemperature (t : ℚ)
  | temperature
  | maxTemp
  | minTemp
  | enthalpy_mass
  | intEnergy_mass
  | entropy_mass
  | cp_mass
  | cv_mass
  deriving DecidableEq

/-- The phase object together with the calls made on it so far, in call order. -/
structure Traced (σ : Type) where
  ph : σ
  log : List Call

/-- How a call of `setState_HPorUV` or `setState_SPorSV` ends. -/
inductive Exit
  /-- A `return` statement. -/
  | returned
  /-- The statement `throw CanteraError(..., "Input ... is too small or negative ...")`. -/
  | inputTooSmall
  /-- The statement `throw CanteraError(..., "No convergence in 500 iterations ...")`. -/
  | noConvergence
  /-- A division by zero: the run leaves the rational idealisation. -/
  | nonFinite
  deriving DecidableEq

/-- The statuses `SolveStatus` that the specification names. -/
inductive SolveStatus
  | Converged
  | MaxIterationsExceeded
  | InvalidBounds
  | InvalidInput
  | DomainExhausted
  deriving DecidableEq

/-- The status that the specification gives to each way in which the C++ function ends
(a normal return, the input check, the iteration cap); a run that leaves the
idealisation has none. -/
def Exit.status : Exit → Option SolveStatus
  | Exit.returned => some SolveStatus.Converged
  | Exit.inputTooSmall => some SolveStatus.InvalidInput
  | Exit.noConvergence => some SolveStatus.MaxIterationsExceeded
  | Exit.nonFinite => none

/-- What a call leaves behind: how it ended, the phase object with the calls made on it,
and the number of Newton iterations that were started. -/
structure SetStateResult (σ : Type) where
  exit : Exit
  w : Traced σ
  iters : Nat

variable {σ : Type}

/-- Record a call of a getter. -/
def note (w : Traced σ) (c : Call) : Traced σ := { w with log := w.log ++ [c] }

/-- The call `setDensity(rho)`. -/
def callSetDensity (P : ThermoPhase σ) (w : Traced σ) (rho : ℚ) : Traced σ :=
  { ph := P.setDensity w.ph rho, log := w.log ++ [Call.setDensity rho] }

/-- The call `setPressure(p)`. -/
def callSetPressure (P : ThermoPhase σ) (w : Traced σ) (p : ℚ) : Traced σ :=
  { ph := P.setPressure w.ph p, log := w.log ++ [Call.setPressure p] }

/-- The call `setTemperature(t)`. -/
def callSetTemperature (P : ThermoPhase σ) (w : Traced σ) (t : ℚ) : Traced σ :=
  { ph := P.setTemperature w.ph t, log := w.log ++ [Call.setTemperature t] }

/-- The method `ThermoPhase::setState_conditional_TP(t, p, set_p)`. -/
def setState_conditional_TP (P : ThermoPhase σ) (w : Traced σ) (t p : ℚ) (set_p : Bool) :
    Traced σ :=
  let w := callSetTemperature P w t
  if set_p then callSetPressure P w p else w

/-- Modelled from the spec: the helper `clip(value, lower, upper)` of the utilities header,
which is not among the sources: "`dT = clip((target − current) / derivative, −100, 100)`
(hard cap of 100 K per step)". -/
def clip (value lower upper : ℚ) : ℚ := max lower (min upper value)

/-- The smallest admitted pressure or specific volume, the literal `1.0E-300`. -/
def tiny : ℚ := 1 / 10 ^ 300

/-- `doUV ? intEnergy_mass() : enthalpy_mass()`, with the call recorded. -/
def evalH (P : ThermoPhase σ) (doUV : Bool) (w : Traced σ) : ℚ × Traced σ :=
  if doUV then (P.intEnergy_mass w.ph, note w Call.intEnergy_mass)
  else (P.enthalpy_mass w.ph, note w Call.enthalpy_mass)

/-- `doUV ? cv_mass() : cp_mass()`, with the call recorded. -/
def evalCp (P : ThermoPhase σ) (doUV : Bool) (w : Traced σ) : ℚ × Traced σ :=
  if doUV then (P.cv_mass w.ph, note w Call.cv_mass)
  else (P.cp_mass w.ph, note w Call.cp_mass)

/-- `entropy_mass()`, with the call recorded. -/
def evalS (P : ThermoPhase σ) (w : Traced σ) : ℚ × Traced σ :=
  (P.entropy_mass w.ph, note w Call.entropy_mass)

/-! ## `setState_HPorUV` -/

/-- The local variables of `setState_HPorUV` that live across Newton iterations, with
the phase object. -/
structure NewtonState (σ : Type) where
  w : Traced σ
  Tnew : ℚ
  Hnew : ℚ
  Cpnew : ℚ
  Htop : ℚ
  Ttop : ℚ
  Hbot : ℚ
  Tbot : ℚ
  Told : ℚ
  Hold : ℚ
  dt : ℚ
  ignoreBounds : Bool
  unstablePhase : Bool
  Tunstable : ℚ
  unstablePhaseNew : Bool

/-- How one pass through the body of the Newton loop ends. -/
inductive Step (α : Type)
  /-- The end of the body is reached: the loop goes on. -/
  | next (s : α)
  /-- A `return` statement is reached. -/
  | done (s : α)
  /-- A division by zero. -/
  | fault (s : α)

/-- Lines 487-498: the limit on the step that keeps the iteration convergent. -/
def safeguardHP (Htarget : ℚ) (s : NewtonState σ) : NewtonState σ :=
  if (s.dt > 0 ∧ s.unstablePhase) ∨ (s.dt ≤ 0 ∧ ¬ s.unstablePhase) then
    if s.Hbot < Htarget ∧ s.Tnew < 3 / 4 * s.Tbot + 1 / 4 * s.Told then
      let dt := 3 / 4 * (s.Tbot - s.Told)
      { s with dt := dt, Tnew := s.Told + dt }
    else s
  else if s.Htop > Htarget ∧ s.Tnew > 3 / 4 * s.Ttop + 1 / 4 * s.Told then
    let dt := 3 / 4 * (s.Ttop - s.Told)
    { s with dt := dt, Tnew := s.Told + dt }
  else s

/-- Lines 501-518: the check at the maximum temperature. -/
def probeMaxHP (P : ThermoPhase σ) (Htarget p : ℚ) (doUV : Bool) (Tmax : ℚ)
    (s : NewtonState σ) : NewtonState σ :=
  if s.Tnew > Tmax ∧ ¬ s.ignoreBounds then
    let w := setState_conditional_TP P s.w Tmax p (!doUV)
    let (Hmax, w) := evalH P doUV w
    let s := { s with w := w }
    if Hmax ≥ Htarget then
      if s.Htop < Htarget then { s with Ttop := Tmax, Htop := Hmax } else s
    else { s with Tnew := Tmax + 1, ignoreBounds := true }
  else s

/-- Lines 519-535: the check at the minimum temperature. -/
def probeMinHP (P : ThermoPhase σ) (Htarget p : ℚ) (doUV : Bool) (Tmin : ℚ)
    (s : NewtonState σ) : NewtonState σ :=
  if s.Tnew < Tmin ∧ ¬ s.ignoreBounds then
    let w := setState_conditional_TP P s.w Tmin p (!doUV)
    let (Hmin, w) := evalH P doUV w
    let s := { s with w := w }
    if Hmin ≤ Htarget then
      if s.Hbot > Htarget then { s with Tbot := Tmin, Hbot := Hmin } else s
    else { s with Tnew := Tmin - 1, ignoreBounds := true }
  else s

/-- Lines 541-563: one pass through the body of the inner loop.  The second component
tells whether the pass ended in `break`. -/
def stabilityPassHP (P : ThermoPhase σ) (p : ℚ) (doUV : Bool) (s : NewtonState σ) :
    NewtonState σ × Bool :=
  let s : NewtonState σ := { s with Tnew := s.Told + s.dt }
  let s : NewtonState σ :=
    if s.Tnew < s.Told / 3 then { s with Tnew := s.Told / 3, dt := -2 * s.Told / 3 } else s
  let w := setState_conditional_TP P s.w s.Tnew p (!doUV)
  let (Hnew, w) := evalH P doUV w
  let (Cpnew, w) := evalCp P doUV w
  let s : NewtonState σ := { s with w := w, Hnew := Hnew, Cpnew := Cpnew }
  if s.Cpnew < 0 then
    let s : NewtonState σ := { s with unstablePhaseNew := true, Tunstable := s.Tnew }
    if s.unstablePhase = false ∧ s.unstablePhaseNew = true then
      ({ s with dt := s.dt * (1 / 4) }, false)
    else (s, false)
  else ({ s with unstablePhaseNew := false }, true)

/-- Lines 540-564: the inner loop `for (int its = 0; its < 10; its++)`, the first
argument being the number of passes that remain. -/
def stabilityLoopHP (P : ThermoPhase σ) (p : ℚ) (doUV : Bool) :
    Nat → NewtonState σ → NewtonState σ
  | 0, s => s
  | k + 1, s =>
    let r := stabilityPassHP P p doUV s
    if r.2 then r.1 else stabilityLoopHP P p doUV k r.1

/-- Lines 568-574: the update of the bracket `(Ttop, Htop)`, `(Tbot, Hbot)`, reached
when `Hnew != Htarget`. -/
def bracketHP (Htarget : ℚ) (s : NewtonState σ) : NewtonState σ :=
  if s.Hnew > Htarget ∧ (s.Htop < Htarget ∨ s.Hnew < s.Htop) then
    { s with Htop := s.Hnew, Ttop := s.Tnew }
  else if s.Hnew < Htarget ∧ (s.Hbot > Htarget ∨ s.Hnew > s.Hbot) then
    { s with Hbot := s.Hnew, Tbot := s.Tnew }
  else s

/-- Lines 474-582: one pass through the body of the Newton loop. -/
def newtonStepHP (P : ThermoPhase σ) (Htarget p dTtol : ℚ) (doUV : Bool) (Tmax Tmin : ℚ)
    (s : NewtonState σ) : Step (NewtonState σ) :=
  let s := { s with Told := s.Tnew, Hold := s.Hnew }
  let cpd := s.Cpnew
  let s := if cpd < 0 then { s with unstablePhase := true, Tunstable := s.Tnew } else s
  match fdiv (Htarget - s.Hold) cpd with
  | none => Step.fault s
  | some q =>
    let s := { s with dt := clip q (-100) 100 }
    let s := { s with Tnew := s.Told + s.dt }
    let s := safeguardHP Htarget s
    let s := probeMaxHP P Htarget p doUV Tmax s
    let s := probeMinHP P Htarget p doUV Tmin s
    let s := stabilityLoopHP P p doUV 10 s
    if s.Hnew = Htarget then Step.done s
    else
      let s := bracketHP Htarget s
      let Herr := Htarget - s.Hnew
      let acpd := max |cpd| (1 / 100000)
      let denom := max |Htarget| (acpd * dTtol)
      match fdiv Herr denom with
      | none => Step.fault s
      | some e =>
        if |e| < 1 / 100000 * dTtol ∨ |s.dt| < dTtol then Step.done s else Step.next s

/-- Lines 473-612: the loop `for (int n = 0; n < 500; n++)` and the `throw` behind it.
The first argument is the number of iterations that remain, the second the number of
iterations started so far. -/
def newtonLoopHP (P : ThermoPhase σ) (Htarget p dTtol : ℚ) (doUV : Bool) (Tmax Tmin : ℚ) :
    Nat → Nat → NewtonState σ → SetStateResult σ
  | 0, n, s => { exit := Exit.noConvergence, w := s.w, iters := n }
  | k + 1, n, s =>
    match newtonStepHP P Htarget p dTtol doUV Tmax Tmin s with
    | Step.done t => { exit := Exit.returned, w := t.w, iters := n + 1 }
    | Step.fault t => { exit := Exit.nonFinite, w := t.w, iters := n + 1 }
    | Step.next t => newtonLoopHP P Htarget p dTtol doUV Tmax Tmin k (n + 1) t

/-- Lines 431-470 of `setState_HPorUV`: the bounds, the starting temperature and the
initial values of the locals, given the phase after `setDensity` or `setPressure`.
Returns `(Tmax, Tmin, state)`. -/
def initHP (P : ThermoPhase σ) (p : ℚ) (doUV : Bool) (w : Traced σ) :
    ℚ × ℚ × NewtonState σ :=
  let Tmax := P.maxTemp w.ph + 1 / 10
  let w := note w Call.maxTemp
  let Tmin := P.minTemp w.ph - 1 / 10
  let w := note w Call.minTemp
  let Tinit := P.temperature w.ph
  let w := note w Call.temperature
  let Tnew := if Tinit > Tmax then Tmax - 1 else if Tinit < Tmin then Tmin + 1 else Tinit
  let w := if Tnew ≠ Tinit then setState_conditional_TP P w Tnew p (!doUV) else w
  let (Hnew, w) := evalH P doUV w
  let (Cpnew, w) := evalCp P doUV w
  (Tmax, Tmin,
    { w := w, Tnew := Tnew, Hnew := Hnew, Cpnew := Cpnew,
      Htop := Hnew, Ttop := Tnew, Hbot := Hnew, Tbot := Tnew, Told := Tnew, Hold := Hnew,
      dt := 0, ignoreBounds := false, unstablePhase := false, Tunstable := -1,
      unstablePhaseNew := false })

/-- The method `ThermoPhase::setState_HPorUV(Htarget, p, dTtol, doUV)`, called on the
phase object `ph`. -/
def setState_HPorUV (P : ThermoPhase σ) (ph : σ) (Htarget p dTtol : ℚ) (doUV : Bool) :
    SetStateResult σ :=
  let w : Traced σ := { ph := ph, log := [] }
  if p < tiny then { exit := Exit.inputTooSmall, w := w, iters := 0 }
  else
    let w := if doUV then callSetDensity P w (1 / p) else callSetPressure P w p
    let i := initHP P p doUV w
    newtonLoopHP P Htarget p dTtol doUV i.1 i.2.1 500 0 i.2.2

/-! ## `setState_SPorSV` -/

/-- The local variables of `setState_SPorSV` that live across Newton iterations, with
the phase object. -/
structure NewtonStateS (σ : Type) where
  w : Traced σ
  Tnew : ℚ
  Snew : ℚ
  Cpnew : ℚ
  Stop : ℚ
  Ttop : ℚ
  Sbot : ℚ
  Tbot : ℚ
  Told : ℚ
  Sold : ℚ
  dt : ℚ
  ignoreBounds : Bool
  unstablePhase : Bool
  Tunstable : ℚ
  unstablePhaseNew : Bool

/-- Lines 691-700: the limit on the step that keeps the iteration convergent. -/
def safeguardSP (Starget : ℚ) (s : NewtonStateS σ) : NewtonStateS σ :=
  if (s.dt > 0 ∧ s.unstablePhase) ∨ (s.dt ≤ 0 ∧ ¬ s.unstablePhase) then
    if s.Sbot < Starget ∧ s.Tnew < s.Tbot then
      let dt := 3 / 4 * (s.Tbot - s.Told)
      { s with dt := dt, Tnew := s.Told + dt }
    else s
  else if s.Stop > Starget ∧ s.Tnew > s.Ttop then
    let dt := 3 / 4 * (s.Ttop - s.Told)
    { s with dt := dt, Tnew := s.Told + dt }
  else s

/-- Lines 702-727: the checks at the maximum and at the minimum temperature.  In the
second branch `Smin` is read with `enthalpy_mass()` and both assignments go to `Sbot`. -/
def probeSP (P : ThermoPhase σ) (Starget p : ℚ) (doSV : Bool) (Tmax Tmin : ℚ)
    (s : NewtonStateS σ) : NewtonStateS σ :=
  if s.Tnew > Tmax ∧ ¬ s.ignoreBounds then
    let w := setState_conditional_TP P s.w Tmax p (!doSV)
    let (Smax, w) := evalS P w
    let s : NewtonStateS σ := { s with w := w }
    if Smax ≥ Starget then
      if s.Stop < Starget then { s with Ttop := Tmax, Stop := Smax } else s
    else { s with Tnew := Tmax + 1, ignoreBounds := true }
  else if s.Tnew < Tmin ∧ ¬ s.ignoreBounds then
    let w := setState_conditional_TP P s.w Tmin p (!doSV)
    let Smin := P.enthalpy_mass w.ph
    let w := note w Call.enthalpy_mass
    let s : NewtonStateS σ := { s with w := w }
    if Smin ≤ Starget then
      if s.Sbot > Starget then
        let s : NewtonStateS σ := { s with Sbot := Tmin }
        { s with Sbot := Smin }
      else s
    else { s with Tnew := Tmin - 1, ignoreBounds := true }
  else s

/-- Lines 733-746: one pass through the body of the inner loop.  The second component
tells whether the pass ended in `break`. -/
def stabilityPassSP (P : ThermoPhase σ) (p : ℚ) (doSV : Bool) (s : NewtonStateS σ) :
    NewtonStateS σ × Bool :=
  let s : NewtonStateS σ := { s with Tnew := s.Told + s.dt }
  let w := setState_conditional_TP P s.w s.Tnew p (!doSV)
  let (Cpnew, w) := evalCp P doSV w
  let (Snew, w) := evalS P w
  let s : NewtonStateS σ := { s with w := w, Snew := Snew, Cpnew := Cpnew }
  if s.Cpnew < 0 then
    let s : NewtonStateS σ := { s with unstablePhaseNew := true, Tunstable := s.Tnew }
    if s.unstablePhase = false ∧ s.unstablePhaseNew = true then
      ({ s with dt := s.dt * (1 / 4) }, false)
    else (s, false)
  else ({ s with unstablePhaseNew := false }, true)

/-- Lines 732-747: the inner loop `for (int its = 0; its < 10; its++)`, the first
argument being the number of passes that remain. -/
def stabilityLoopSP (P : ThermoPhase σ) (p : ℚ) (doSV : Bool) :
    Nat → NewtonStateS σ → NewtonStateS σ
  | 0, s => s
  | k + 1, s =>
    let r := stabilityPassSP P p doSV s
    if r.2 then r.1 else stabilityLoopSP P p doSV k r.1

/-- Lines 751-757: the update of the bracket `(Ttop, Stop)`, `(Tbot, Sbot)`, reached
when `Snew != Starget`. -/
def bracketSP (Starget : ℚ) (s : NewtonStateS σ) : NewtonStateS σ :=
  if s.Snew > Starget ∧ (s.Stop < Starget ∨ s.Snew < s.Stop) then
    { s with Stop := s.Snew, Ttop := s.Tnew }
  else if s.Snew < Starget ∧ (s.Sbot > Starget ∨ s.Snew > s.Sbot) then
    { s with Sbot := s.Snew, Tbot := s.Tnew }
  else s

/-- Lines 680-765: one pass through the body of the Newton loop. -/
def newtonStepSP (P : ThermoPhase σ) (Starget p dTtol : ℚ) (doSV : Bool) (Tmax Tmin : ℚ)
    (s : NewtonStateS σ) : Step (NewtonStateS σ) :=
  let s : NewtonStateS σ := { s with Told := s.Tnew, Sold := s.Snew }
  let cpd := s.Cpnew
  let s : NewtonStateS σ :=
    if cpd < 0 then { s with unstablePhase := true, Tunstable := s.Tnew } else s
  match fdiv ((Starget - s.Sold) * s.Told) cpd with
  | none => Step.fault s
  | some q =>
    let s : NewtonStateS σ := { s with dt := clip q (-100) 100 }
    let s : NewtonStateS σ := { s with Tnew := s.Told + s.dt }
    let s := safeguardSP Starget s
    let s := probeSP P Starget p doSV Tmax Tmin s
    let s := stabilityLoopSP P p doSV 10 s
    if s.Snew = Starget then Step.done s
    else
      let s := bracketSP Starget s
      let Serr := Starget - s.Snew
      let acpd := max |cpd| (1 / 100000)
      let denom := max |Starget| (acpd * dTtol)
      match fdiv (Serr * s.Tnew) denom with
      | none => Step.fault s
      | some e =>
        if |e| < 1 / 100000 * dTtol ∨ |s.dt| < dTtol then Step.done s else Step.next s

/-- Lines 679-795: the loop `for (int n = 0; n < 500; n++)` and the `throw` behind it.
The first argument is the number of iterations that remain, the second the number of
iterations started so far. -/
def newtonLoopSP (P : ThermoPhase σ) (Starget p dTtol : ℚ) (doSV : Bool) (Tmax Tmin : ℚ) :
    Nat → Nat → NewtonStateS σ → SetStateResult σ
  | 0, n, s => { exit := Exit.noConvergence, w := s.w, iters := n }
  | k + 1, n, s =>
    match newtonStepSP P Starget p dTtol doSV Tmax Tmin s with
    | Step.done t => { exit := Exit.returned, w := t.w, iters := n + 1 }
    | Step.fault t => { exit := Exit.nonFinite, w := t.w, iters := n + 1 }
    | Step.next t => newtonLoopSP P Starget p dTtol doSV Tmax Tmin k (n + 1) t

/-- Lines 644-676 of `setState_SPorSV`: the bounds, the starting temperature and the
initial values of the locals, given the phase after `setDensity` or `setPressure`.
Returns `(Tmax, Tmin, state)`. -/
def initSP (P : ThermoPhase σ) (p : ℚ) (doSV : Bool) (w : Traced σ) :
    ℚ × ℚ × NewtonStateS σ :=
  let Tmax := P.maxTemp w.ph + 1 / 10
  let w := note w Call.maxTemp
  let Tmin := P.minTemp w.ph - 1 / 10
  let w := note w Call.minTemp
  let Tinit := P.temperature w.ph
  let w := note w Call.temperature
  let Tnew := if Tinit > Tmax then Tmax - 1 else if Tinit < Tmin then Tmin + 1 else Tinit
  let w := if Tnew ≠ Tinit then setState_conditional_TP P w Tnew p (!doSV) else w
  let (Snew, w) := evalS P w
  let (Cpnew, w) := evalCp P doSV w
  (Tmax, Tmin,
    { w := w, Tnew := Tnew, Snew := Snew, Cpnew := Cpnew,
      Stop := Snew, Ttop := Tnew, Sbot := Snew, Tbot := Tnew, Told := Tnew, Sold := Snew,
      dt := 0, ignoreBounds := false, unstablePhase := false, Tunstable := -1,
      unstablePhaseNew := false })

/-- The method `ThermoPhase::setState_SPorSV(Starget, p, dTtol, doSV)`, called on the
phase object `ph`. -/
def setState_SPorSV (P : ThermoPhase σ) (ph : σ) (Starget p dTtol : ℚ) (doSV : Bool) :
    SetStateResult σ :=
  let w : Traced σ := { ph := ph, log := [] }
  if p < tiny then { exit := Exit.inputTooSmall, w := w, iters := 0 }
  else
    let w := if doSV then callSetDensity P w (1 / p) else callSetPressure P w p
    let i := initSP P p doSV w
    newtonLoopSP P Starget p dTtol doSV i.1 i.2.1 500 0 i.2.2

/-- The locals that a pass through the body of a Newton loop leaves behind, however the
pass ends. -/
def Step.state {α : Type} : Step α → α
  | Step.next s => s
  | Step.done s => s
  | Step.fault s => s

/-- The bounds `(Tmax, Tmin)` and the locals with which a call of `setState_HPorUV` with
an admitted `p` enters its Newton loop. -/
def startHP (P : ThermoPhase σ) (ph : σ) (p : ℚ) (doUV : Bool) : ℚ × ℚ × NewtonState σ :=
  let w : Traced σ := { ph := ph, log := [] }
  initHP P p doUV (if doUV then callSetDensity P w (1 / p) else callSetPressure P w p)

/-- The bounds `(Tmax, Tmin)` and the locals with which a call of `setState_SPorSV` with
an admitted `p` enters its Newton loop. -/
def startSP (P : ThermoPhase σ) (ph : σ) (p : ℚ) (doSV : Bool) : ℚ × ℚ × NewtonStateS σ :=
  let w : Traced σ := { ph := ph, log := [] }
  initSP P p doSV (if doSV then callSetDensity P w (1 / p) else callSetPressure P w p)

/-- The locals of `setState_HPorUV` after `k` passes through the body of the Newton loop
none of which reached a `return`: `none` when one of the passes returns or divides by
zero. -/
def nextsHP (P : ThermoPhase σ) (Htarget p dTtol : ℚ) (doUV : Bool) (Tmax Tmin : ℚ) :
    Nat → NewtonState σ → Option (NewtonState σ)
  | 0, s => some s
  | k + 1, s =>
    match newtonStepHP P Htarget p dTtol doUV Tmax Tmin s with
    | Step.next t => nextsHP P Htarget p dTtol doUV Tmax Tmin k t
    | _ => none

/-- The number of calls of `cp_mass()` and `cv_mass()` in a trace. -/
def cpCalls (log : List Call) : Nat :=
  log.countP (fun c => decide (c = Call.cp_mass ∨ c = Call.cv_mass))

/-- Lines 474-498: the head of the body of the Newton loop of `setState_HPorUV`, from the
top of the body to the end of the safeguard; `none` when the Newton step divides by
zero. -/
def proposeHP (Htarget : ℚ) (s : NewtonState σ) : Option (NewtonState σ) :=
  let s := { s with Told := s.Tnew, Hold := s.Hnew }
  let cpd := s.Cpnew
  let s := if cpd < 0 then { s with unstablePhase := true, Tunstable := s.Tnew } else s
  match fdiv (Htarget - s.Hold) cpd with
  | none => none
  | some q =>
    let s := { s with dt := clip q (-100) 100 }
    let s := { s with Tnew := s.Told + s.dt }
    some (safeguardHP Htarget s)

/-- Lines 680-700: the head of the body of the Newton loop of `setState_SPorSV`, from the
top of the body to the end of the safeguard; `none` when the Newton step divides by
zero. -/
def proposeSP (Starget : ℚ) (s : NewtonStateS σ) : Option (NewtonStateS σ) :=
  let s : NewtonStateS σ := { s with Told := s.Tnew, Sold := s.Snew }
  let cpd := s.Cpnew
  let s : NewtonStateS σ :=
    if cpd < 0 then { s with unstablePhase := true, Tunstable := s.Tnew } else s
  match fdiv ((Starget - s.Sold) * s.Told) cpd with
  | none => none
  | some q =>
    let s : NewtonStateS σ := { s with dt := clip q (-100) 100 }
    let s : NewtonStateS σ := { s with Tnew := s.Told + s.dt }
    some (safeguardSP Starget s)

/-- The temperatures of the calls of `setTemperature` in a trace, in call order. -/
def tempsSet (log : List Call) : List ℚ :=
  log.filterMap (fun c => match c with
    | Call.setTemperature t => some t
    | _ => none)

/-- The way in which a pass ends, with the locals changed by `f`. -/
def Step.map {α β : Type} (f : α → β) : Step α → Step β
  | Step.next s => Step.next (f s)
  | Step.done s => Step.done (f s)
  | Step.fault s => Step.fault (f s)

/-- The phase whose enthalpy, internal energy and heat capacities are `k` times those of
`P`, everything else being as for `P`. -/
def scalePhase (k : ℚ) (P : ThermoPhase σ) : ThermoPhase σ :=
  { P with
    enthalpy_mass := fun s => k * P.enthalpy_mass s
    intEnergy_mass := fun s => k * P.intEnergy_mass s
    cp_mass := fun s => k * P.cp_mass s
    cv_mass := fun s => k * P.cv_mass s }

end Cantera

/-! ## Synthetic inputs used in the examples -/

namespace Examples

/-- State of the synthetic phase: temperature, pressure and density. -/
structure LinState where
  T : ℚ
  P : ℚ
  rho : ℚ
  deriving DecidableEq

/-- A synthetic phase with constant heat capacity `Cp`: enthalpy and internal energy are
`H0 + Cp (T - T0)`, the entropy `Cp (T - T0)`, and the valid temperatures are
`[Tlo, Thi]`. -/
def linearPhase (H0 Cp T0 Tlo Thi : ℚ) : Cantera.ThermoPhase LinState where
  setDensity s rho := { s with rho := rho }
  setPressure s p := { s with P := p }
  setTemperature s t := { s with T := t }
  temperature s := s.T
  maxTemp _ := Thi
  minTemp _ := Tlo
  enthalpy_mass s := H0 + Cp * (s.T - T0)
  intEnergy_mass s := H0 + Cp * (s.T - T0)
  entropy_mass s := Cp * (s.T - T0)
  cp_mass _ := Cp
  cv_mass _ := Cp

/-- The callback of the residual `f x - target` for a function `f`. -/
def residualOf (f : ℚ → ℚ) (x target : ℚ) : ℚ := f x - target

/-- The linear function `a x + b`. -/
def linear (a b x : ℚ) : ℚ := a * x + b

/-- The parabola `16 (x - 21/20) (x - 89/80)`; its values at `1` and `11/10` are `9/100`
and `-1/100`. -/
def twoRoots (x : ℚ) : ℚ := 16 * x * x - 173 / 5 * x + 1869 / 100

/-- The parabola `(x - 46)^2` above `40`, and zero up to `40`. -/
def shelf (x : ℚ) : ℚ := if x ≤ 40 then 0 else (x - 46) * (x - 46)

/-- A synthetic phase that is stable up to 300 K, where `H(T) = T` and `Cp = 1`, and
unstable above, where `H(T) = 600 - T` and `Cp = -1`.  The valid temperatures are
`[200, 1000]`. -/
def cuspPhase : Cantera.ThermoPhase LinState where
  setDensity s rho := { s with rho := rho }
  setPressure s p := { s with P := p }
  setTemperature s t := { s with T := t }
  temperature s := s.T
  maxTemp _ := 1000
  minTemp _ := 200
  enthalpy_mass s := if s.T ≤ 300 then s.T else 600 - s.T
  intEnergy_mass s := if s.T ≤ 300 then s.T else 600 - s.T
  entropy_mass s := if s.T ≤ 300 then s.T else 600 - s.T
  cp_mass s := if s.T ≤ 300 then 1 else -1
  cv_mass s := if s.T ≤ 300 then 1 else -1

/-- The parabola `16 (x + 21/20) (x + 89/80)`, the mirror image of `twoRoots`. -/
def twoRootsLeft (x : ℚ) : ℚ := 16 * x * x + 173 / 5 * x + 1869 / 100

/-- A synthetic phase whose reported heat capacity is `1/10` up to 990 K and `1` above,
with `H(T) = 990 + (T - 990) / 10` up to 990 K and `H(T) = T` above.  The valid
temperatures are `[200, 1000]`. -/
def kinkPhase : Cantera.ThermoPhase LinState where
  setDensity s rho := { s with rho := rho }
  setPressure s p := { s with P := p }
  setTemperature s t := { s with T := t }
  temperature s := s.T
  maxTemp _ := 1000
  minTemp _ := 200
  enthalpy_mass s := if s.T ≤ 990 then 990 + (s.T - 990) / 10 else s.T
  intEnergy_mass s := if s.T ≤ 990 then 990 + (s.T - 990) / 10 else s.T
  entropy_mass s := if s.T ≤ 990 then 990 + (s.T - 990) / 10 else s.T
  cp_mass s := if s.T ≤ 990 then 1 / 10 else 1
  cv_mass s := if s.T ≤ 990 then 1 / 10 else 1

/-- The locals with which `setState_HPorUV` enters its Newton loop in the
enthalpy/pressure mode on the synthetic phase with `H(T) = T`, `Cp = 1` and valid
temperatures `[200, 1000]`, at 300 K and the pressure `101325`. -/
def roomHP : Cantera.NewtonState LinState :=
  (Cantera.startHP (linearPhase 0 1 0 200 1000) { T := 300, P := 1, rho := 1 } 101325
    false).2.2

/-- The locals with which `setState_SPorSV` enters its Newton loop in the
entropy/pressure mode on the synthetic phase with `S(T) = T`, `Cp = 1` and valid
temperatures `[200, 1000]`, at 300 K and the pressure `101325`. -/
def roomSP : Cantera.NewtonStateS LinState :=
  (Cantera.startSP (linearPhase 0 1 0 200 1000) { T := 300, P := 1, rho := 1 } 101325
    false).2.2

/-- A synthetic phase with the enthalpy `(T - 300)^2` and the heat capacity `2 (T - 300)`,
its derivative.  The valid temperatures are `[200, 1000]`. -/
def squarePhase : Cantera.ThermoPhase LinState where
  setDensity s rho := { s with rho := rho }
  setPressure s p := { s with P := p }
  setTemperature s t := { s with T := t }
  temperature s := s.T
  maxTemp _ := 1000
  minTemp _ := 200
  enthalpy_mass s := (s.T - 300) * (s.T - 300)
  intEnergy_mass s := (s.T - 300) * (s.T - 300)
  entropy_mass s := s.T
  cp_mass s := 2 * (s.T - 300)
  cv_mass s := 2 * (s.T - 300)

end Examples

/-! ## The embedding over an arbitrary arithmetic

The second embedding makes no assumption about the arithmetic of the type `double`: the
operations and comparisons are the fields of an `Arith F`, arbitrary functions on an
arbitrary type `F` of values.  Rounding, overflow, infinities, NaN and signed zeros are
whatever these functions make of them, and a division by zero is a division like any
other: the embedded functions are total, as the C++ functions are.  A theorem that holds
for every `Arith F` holds for the IEEE arithmetic of the compiled code.
-/

/-- The operations and comparisons on the type `double` that the embedded code uses:
`lit q` is the value of a numeric literal, `fabs` and `sqrt` are the library functions,
`lt`, `le`, `eq` are the operators `<`, `<=`, `==`. -/
structure Arith (F : Type) where
  lit : ℚ → F
  add : F → F → F
  sub : F → F → F
  mul : F → F → F
  div : F → F → F
  neg : F → F
  fabs : F → F
  sqrt : F → F
  lt : F → F → Bool
  le : F → F → Bool
  eq : F → F → Bool

namespace Arith

variable {F : Type}

/-- The operator `>`: `a > b` is `b < a`. -/
def gt (A : Arith F) (a b : F) : Bool := A.lt b a

/-- The operator `>=`: `a >= b` is `b <= a`. -/
def ge (A : Arith F) (a b : F) : Bool := A.le b a

/-- The operator `!=`, the negation of `==`. -/
def ne (A : Arith F) (a b : F) : Bool := !A.eq a b

/-- The library function `std::max(a, b)`, that is `(a < b) ? b : a`. -/
def max (A : Arith F) (a b : F) : F := if A.lt a b then b else a

/-- The library function `std::min(a, b)`, that is `(b < a) ? b : a`. -/
def min (A : Arith F) (a b : F) : F := if A.lt b a then b else a

end Arith

namespace VCSnonideal

namespace Fl

variable {F : Type}

/-- The macro `DSIGN(x)`, that is
`(((x) == (0.0)) ? (0.0) : (((x) > 0.0) ? 1.0 : -1.0))`. -/
def DSIGN (A : Arith F) (x : F) : F :=
  if A.eq x (A.lit 0) then A.lit 0 else if A.gt x (A.lit 0) then A.lit 1 else A.lit (-1)

/-- The macro `SQUARE(x)`, that is `((x) * (x))`. -/
def SQUARE (A : Arith F) (x : F) : F := A.mul x x

/-- The macro `MIN(x, y)`, that is `(((x) < (y)) ? (x) : (y))`. -/
def MIN (A : Arith F) (x y : F) : F := if A.lt x y then x else y

/-- The type of the routine `vcsUtil_mlequ(c, 3, 3, f, 1)`, whose source file is not
among the sources, as `vcsUtil_root1d` calls it: the arguments are the three columns
`c[0..2]`, `c[3..5]`, `c[6..8]` of the matrix and the right-hand side `f[0..2]`, the
result is the returned `int` with the contents of `f[0..2]` after the call. -/
abbrev Mlequ (F : Type) : Type := F × F × F → F × F × F → F × F × F → F × F × F → Int × F × F × F

/-- The local variables of `vcsUtil_root1d` that live across loop iterations, with the
points at which `func` was called so far. -/
structure LoopState (F : Type) where
  x0 : F
  f0 : F
  x1 : F
  f1 : F
  x2 : F
  f2 : F
  its : Nat
  retn : Int
  foundPosF : Bool
  foundNegF : Bool
  foundStraddle : Bool
  posStraddle : Bool
  xPosF : F
  xNegF : F
  converged : Bool
  evals : List F
  deriving DecidableEq

/-- What `vcsUtil_root1d` hands back: the returned `int`, the final `*xbest`, the points at
which `func` was called (in call order) and the number of loop iterations executed. -/
structure Root1dResult (F : Type) where
  retn : Int
  xbest : F
  evals : List F
  its : Nat
  deriving DecidableEq

/-- Lines 165-168: the first point, the caller's `*xbest` or the midpoint of the interval
when that lies outside of it. -/
def firstPoint (A : Arith F) (xmin xmax xbest : F) : F :=
  if A.lt xbest xmin || A.gt xbest xmax then A.div (A.add xmin xmax) (A.lit 2) else xbest

/-- Lines 187-188: the second start-up point. -/
def secondPoint (A : Arith F) (xmin xmax x1 : F) : F :=
  if A.gt (A.mul x1 (A.lit (11 / 10))) xmax then
    A.sub x1 (A.div (A.sub xmax xmin) (A.lit 100))
  else A.mul x1 (A.lit (11 / 10))

/-- Lines 197-201: the norm that makes the residual dimensionless. -/
def fnormOf (A : Arith F) (FuncTargVal f1 f2 : F) : F :=
  if A.ne FuncTargVal (A.lit 0) then A.add (A.fabs FuncTargVal) (A.lit (1 / 10 ^ 13))
  else A.add (A.mul (A.lit (1 / 2)) (A.add (A.fabs f1) (A.fabs f2))) (A.fabs FuncTargVal)

/-- Lines 227-234: the linear (secant) estimate. -/
def linearStep (A : Arith F) (s : LoopState F) : F :=
  let slope := A.div (A.sub s.f2 s.f1) (A.sub s.x2 s.x1)
  if A.eq slope (A.lit 0) then
    A.add (A.sub (A.mul (A.lit 2) s.x2) s.x1) (A.lit (1 / 1000))
  else A.sub s.x2 (A.div s.f2 slope)

/-- Lines 246-285: the quadratic fit, executed when `its > 0`.  Returns the new `retn`
and the new `xnew`. -/
def quadStep (A : Arith F) (mlequ : Mlequ F) (s : LoopState F) (xnew : F) : Int × F :=
  if s.its > 0 then
    let r := mlequ (A.lit 1, A.lit 1, A.lit 1) (s.x0, s.x1, s.x2)
      (SQUARE A s.x0, SQUARE A s.x1, SQUARE A s.x2) (A.neg s.f0, A.neg s.f1, A.neg s.f2)
    if r.1 = 1 then (r.1, xnew)
    else
      let fa := r.2.1
      let fb := r.2.2.1
      let fc := r.2.2.2
      let root := A.sub (A.mul fb fb) (A.mul (A.mul (A.lit 4) fa) fc)
      if A.ge root (A.lit 0) then
        let xn1 := A.div (A.add (A.neg fb) (A.sqrt root)) (A.mul (A.lit 2) fc)
        let xn2 := A.div (A.sub (A.neg fb) (A.sqrt root)) (A.mul (A.lit 2) fc)
        let xquad :=
          if A.lt (A.fabs (A.sub xn2 s.x2)) (A.fabs (A.sub xn1 s.x2)) && A.gt xn2 (A.lit 0)
          then xn2 else xn1
        let theta := A.div (A.fabs (A.sub xquad xnew)) (A.fabs (A.sub xnew s.x2))
        let theta := MIN A (A.lit 1) theta
        (r.1, A.add (A.mul theta xnew) (A.mul (A.sub (A.lit 1) theta) xquad))
      else if A.eq (DSIGN A (A.sub xnew s.x2)) (DSIGN A (A.sub s.x2 s.x1)) &&
          A.eq (DSIGN A (A.sub s.x2 s.x1)) (DSIGN A (A.sub s.x1 s.x0)) then
        (r.1, A.add xnew (A.sub xnew s.x2))
      else (r.1, xnew)
  else (s.retn, xnew)

/-- Lines 292-330: the heuristic bounds on the step jump. -/
def stepHeuristics (A : Arith F) (x1 x2 xnew : F) : F :=
  if (A.gt xnew x1 && A.lt xnew x2) || (A.lt xnew x1 && A.gt xnew x2) then
    let slope := A.div (A.fabs (A.sub x2 x1)) (A.lit 10)
    let xa :=
      if A.lt (A.fabs (A.sub xnew x1)) slope then
        A.add x1 (A.mul (DSIGN A (A.sub xnew x1)) slope)
      else xnew
    if A.lt (A.fabs (A.sub xa x2)) slope then A.add x2 (A.mul (DSIGN A (A.sub xa x2)) slope)
    else xa
  else
    let slope := A.mul (A.lit 2) (A.fabs (A.sub x2 x1))
    if A.lt (A.fabs slope) (A.fabs (A.sub xnew x2)) then
      A.add x2 (A.mul (DSIGN A (A.sub xnew x2)) slope)
    else xnew

/-- Lines 333-348: the limits `xmax` and `xmin`. -/
def boundStep (A : Arith F) (xmin xmax x2 xnew : F) : F :=
  let xa := if A.gt xnew xmax then A.add x2 (A.div (A.sub xmax x2) (A.lit 2)) else xnew
  if A.lt xa xmin then A.add x2 (A.div (A.sub x2 xmin) (A.lit 2)) else xa

/-- Lines 349-377: keep the candidate inside a known straddle. -/
def straddleStep (A : Arith F) (s : LoopState F) (xnew : F) : F :=
  if s.foundStraddle then
    if s.posStraddle then
      if A.gt s.f2 (A.lit 0) then
        let xa := if A.gt xnew s.x2 then A.div (A.add s.xNegF s.x2) (A.lit 2) else xnew
        if A.lt xa s.xNegF then A.div (A.add s.xNegF s.x2) (A.lit 2) else xa
      else
        let xa := if A.lt xnew s.x2 then A.div (A.add s.xPosF s.x2) (A.lit 2) else xnew
        if A.gt xa s.xPosF then A.div (A.add s.xPosF s.x2) (A.lit 2) else xa
    else
      if A.gt s.f2 (A.lit 0) then
        let xa := if A.lt xnew s.x2 then A.div (A.add s.xNegF s.x2) (A.lit 2) else xnew
        if A.gt xa s.xNegF then A.div (A.add s.xNegF s.x2) (A.lit 2) else xa
      else
        let xa := if A.gt xnew s.x2 then A.div (A.add s.xPosF s.x2) (A.lit 2) else xnew
        if A.lt xa s.xPosF then A.div (A.add s.xPosF s.x2) (A.lit 2) else xa
  else xnew

/-- Lines 227-377: the value of `retn` after the quadratic fit and the point at which
`func` is called in this iteration. -/
def candidate (A : Arith F) (mlequ : Mlequ F) (xmin xmax : F) (s : LoopState F) : Int × F :=
  let q := quadStep A mlequ s (linearStep A s)
  (q.1, straddleStep A s (boundStep A xmin xmax s.x2 (stepHeuristics A s.x1 s.x2 q.2)))

/-- Lines 388-422: the update of the straddle after `fnew = func(xnew)`. -/
def updateStraddle (A : Arith F) (s : LoopState F) (xnew fnew : F) : LoopState F :=
  if s.foundStraddle then
    if s.posStraddle then
      if A.gt fnew (A.lit 0) then
        if A.lt xnew s.xPosF then { s with xPosF := xnew } else s
      else
        if A.gt xnew s.xNegF then { s with xNegF := xnew } else s
    else
      if A.gt fnew (A.lit 0) then
        if A.gt xnew s.xPosF then { s with xPosF := xnew } else s
      else
        if A.lt xnew s.xNegF then { s with xNegF := xnew } else s
  else
    if A.gt fnew (A.lit 0) then
      if !s.foundPosF then
        { s with foundPosF := true, xPosF := xnew, foundStraddle := true,
                 posStraddle := A.gt xnew s.xNegF }
      else s
    else
      if !s.foundNegF then
        { s with foundNegF := true, xNegF := xnew, foundStraddle := true,
                 posStraddle := A.gt s.xPosF xnew }
      else s

/-- Line 430: the convergence test `fabs(fnew / fnorm) < 1.0E-5`. -/
def convTest (A : Arith F) (fnorm fnew : F) : Bool :=
  A.lt (A.fabs (A.div fnew fnorm)) (A.lit (1 / 100000))

/-- Lines 222-433: one pass through the body of the `do ... while` loop. -/
def loopBody (A : Arith F) (mlequ : Mlequ F) (xmin xmax : F) (func : F → F → F)
    (FuncTargVal fnorm : F) (s : LoopState F) : LoopState F :=
  let c := candidate A mlequ xmin xmax s
  let xnew := c.2
  let fnew := func xnew FuncTargVal
  let t := updateStraddle A s xnew fnew
  { t with
    x0 := s.x1, f0 := s.f1, x1 := s.x2, f1 := s.f2, x2 := xnew, f2 := fnew,
    retn := c.1,
    converged := s.converged || convTest A fnorm fnew,
    its := s.its + 1,
    evals := s.evals ++ [xnew] }

/-- The loop `do { ... } while (! converged && its < itmax)`.  The first argument is
the number of further passes that `its < itmax` still allows after the coming one: the
body runs once, and again as long as the test did not succeed and passes remain. -/
def doWhile (A : Arith F) (mlequ : Mlequ F) (xmin xmax : F) (func : F → F → F)
    (FuncTargVal fnorm : F) : Nat → LoopState F → LoopState F
  | 0, s => loopBody A mlequ xmin xmax func FuncTargVal fnorm s
  | n + 1, s =>
    let t := loopBody A mlequ xmin xmax func FuncTargVal fnorm s
    if t.converged then t else doWhile A mlequ xmin xmax func FuncTargVal fnorm n t

/-- Lines 134-145 and 176-186: the initial values of the locals and the classification
of the first residual `f1`. -/
def initState (A : Arith F) (x1 f1 : F) : LoopState F :=
  let s : LoopState F :=
    { x0 := A.lit 0, f0 := A.lit 0, x1 := x1, f1 := f1, x2 := A.lit 0, f2 := A.lit 0,
      its := 0, retn := VCS_SUCCESS, foundPosF := false, foundNegF := false,
      foundStraddle := false, posStraddle := false, xPosF := A.lit 0, xNegF := A.lit 0,
      converged := false, evals := [x1] }
  if A.gt f1 (A.lit 0) then { s with foundPosF := true, xPosF := x1 }
  else { s with foundNegF := true, xNegF := x1 }

/-- Lines 187-220: the state with which the loop is entered, given the two start-up
points and their residuals. -/
def startState (A : Arith F) (x1 f1 x2 f2 : F) : LoopState F :=
  let s := { initState A x1 f1 with x2 := x2, f2 := f2, evals := [x1, x2] }
  let s :=
    if A.gt f2 (A.lit 0) then
      if !s.foundPosF then { s with foundPosF := true, xPosF := x2 } else s
    else
      if !s.foundNegF then { s with foundNegF := true, xNegF := x2 } else s
  let s := { s with foundStraddle := s.foundPosF && s.foundNegF }
  if s.foundStraddle then { s with posStraddle := A.gt s.xPosF s.xNegF } else s

/-- The function `vcsUtil_root1d(xmin, xmax, itmax, func, fptrPassthrough, FuncTargVal,
varID, xbest, printLvl)`. -/
def vcsUtil_root1d (A : Arith F) (mlequ : Mlequ F) (xmin xmax : F) (itmax : Int)
    (func : F → F → F) (FuncTargVal xbest : F) : Root1dResult F :=
  if A.le xmax xmin then
    { retn := VCS_PUB_BAD, xbest := xbest, evals := [], its := 0 }
  else
    let x1 := firstPoint A xmin xmax xbest
    let f1 := func x1 FuncTargVal
    if A.eq f1 (A.lit 0) then
      { retn := VCS_SUCCESS, xbest := x1, evals := [x1], its := 0 }
    else
      let x2 := secondPoint A xmin xmax x1
      let f2 := func x2 FuncTargVal
      let fnorm := fnormOf A FuncTargVal f1 f2
      if A.eq f2 (A.lit 0) then
        { retn := VCS_SUCCESS, xbest := xbest, evals := [x1, x2], its := 0 }
      else
        let t := doWhile A mlequ xmin xmax func FuncTargVal fnorm (itmax.toNat - 1)
          (startState A x1 f1 x2 f2)
        { retn := if t.converged then t.retn else VCS_FAILED_CONVERGENCE,
          xbest := t.x2, evals := t.evals, its := t.its }

/-- The state with which a call enters the loop. -/
def startAt (A : Arith F) (xmin xmax : F) (func : F → F → F) (FuncTargVal xbest : F) :
    LoopState F :=
  startState A (firstPoint A xmin xmax xbest)
    (func (firstPoint A xmin xmax xbest) FuncTargVal)
    (secondPoint A xmin xmax (firstPoint A xmin xmax xbest))
    (func (secondPoint A xmin xmax (firstPoint A xmin xmax xbest)) FuncTargVal)

/-- The value of `fnorm` of a call. -/
def fnormAt (A : Arith F) (xmin xmax : F) (func : F → F → F) (FuncTargVal xbest : F) : F :=
  fnormOf A FuncTargVal (func (firstPoint A xmin xmax xbest) FuncTargVal)
    (func (secondPoint A xmin xmax (firstPoint A xmin xmax xbest)) FuncTargVal)

end Fl

end VCSnonideal

/-! ## An arithmetic with infinities, NaN and signed zeros

The values of the IEEE 754 formats without the rounding: every rational number is a
value and the result of an operation on finite values is exact. -/

/-- A value of the arithmetic: a rational number (`fin 0` is `+0`), the negative zero,
an infinity or NaN. -/
inductive XQ
  | fin (q : ℚ)
  | negZero
  | posInf
  | negInf
  | nan
  deriving DecidableEq

namespace XQ

/-- The sign bit of a value that is not NaN. -/
def signBit : XQ → Bool
  | fin q => decide (q < 0)
  | negZero => true
  | posInf => false
  | negInf => true
  | nan => false

/-- The zero with the sign bit `s`. -/
def zero (s : Bool) : XQ := if s then negZero else fin 0

/-- The infinity with the sign bit `s`. -/
def inf (s : Bool) : XQ := if s then negInf else posInf

/-- The rational number that a finite value stands for. -/
def val : XQ → Option ℚ
  | fin q => some q
  | negZero => some 0
  | _ => none

/-- The operator unary `-`. -/
def neg : XQ → XQ
  | fin q => if q = 0 then negZero else fin (-q)
  | negZero => fin 0
  | posInf => negInf
  | negInf => posInf
  | nan => nan

/-- The function `fabs`. -/
def fabs : XQ → XQ
  | fin q => fin |q|
  | negZero => fin 0
  | posInf => posInf
  | negInf => posInf
  | nan => nan

/-- The operator `+`: a sum of finite values that is zero is `+0`, except for
`(-0) + (-0)`; infinities of opposite sign add up to NaN. -/
def add : XQ → XQ → XQ
  | nan, _ => nan
  | _, nan => nan
  | posInf, negInf => nan
  | negInf, posInf => nan
  | posInf, _ => posInf
  | negInf, _ => negInf
  | _, posInf => posInf
  | _, negInf => negInf
  | negZero, negZero => negZero
  | negZero, fin q => fin q
  | fin q, negZero => fin q
  | fin a, fin b => fin (a + b)

/-- The operator binary `-`: `a - b` is `a + (-b)`. -/
def sub (a b : XQ) : XQ := add a (neg b)

/-- The operator `*`: the sign of the result is the product of the signs; zero times an
infinity is NaN. -/
def mul (a b : XQ) : XQ :=
  match a, b with
  | nan, _ => nan
  | _, nan => nan
  | _, _ =>
    match a.val, b.val with
    | some x, some y =>
      if x * y = 0 then zero (a.signBit != b.signBit) else fin (x * y)
    | some x, none => if x = 0 then nan else inf (a.signBit != b.signBit)
    | none, some y => if y = 0 then nan else inf (a.signBit != b.signBit)
    | none, none => inf (a.signBit != b.signBit)

/-- The operator `/`: the sign of the result is the product of the signs; `0/0` and
`inf/inf` are NaN, a finite value that is not zero divided by a zero is an infinity. -/
def div (a b : XQ) : XQ :=
  match a, b with
  | nan, _ => nan
  | _, nan => nan
  | _, _ =>
    match a.val, b.val with
    | some x, some y =>
      if y = 0 then (if x = 0 then nan else inf (a.signBit != b.signBit))
      else if x = 0 then zero (a.signBit != b.signBit) else fin (x / y)
    | some _, none => zero (a.signBit != b.signBit)
    | none, some _ => inf (a.signBit != b.signBit)
    | none, none => nan

/-- The function `sqrt`, with `Rat.sqrt` on the positive rational numbers: exact on the
squares of rational numbers. -/
def sqrt : XQ → XQ
  | fin q => if q < 0 then nan else fin (Rat.sqrt q)
  | negZero => negZero
  | posInf => posInf
  | negInf => nan
  | nan => nan

/-- The operator `<`: false when an operand is NaN; the two zeros are equal. -/
def lt : XQ → XQ → Bool
  | nan, _ => false
  | _, nan => false
  | posInf, _ => false
  | _, negInf => false
  | negInf, _ => true
  | _, posInf => true
  | fin a, fin b => decide (a < b)
  | fin a, negZero => decide (a < 0)
  | negZero, fin b => decide (0 < b)
  | negZero, negZero => false

/-- The operator `==`: false when an operand is NaN; the two zeros are equal. -/
def eq : XQ → XQ → Bool
  | nan, _ => false
  | _, nan => false
  | posInf, posInf => true
  | negInf, negInf => true
  | fin a, fin b => decide (a = b)
  | fin a, negZero => decide (a = 0)
  | negZero, fin b => decide (b = 0)
  | negZero, negZero => true
  | _, _ => false

/-- The operator `<=`: `a < b` or `a == b`. -/
def le (a b : XQ) : Bool := lt a b || eq a b

/-- The arithmetic on `XQ`; a literal has its rational value. -/
def arith : Arith XQ where
  lit := fin
  add := add
  sub := sub
  mul := mul
  div := div
  neg := neg
  fabs := fabs
  sqrt := sqrt
  lt := lt
  le := le
  eq := eq

end XQ

namespace Examples

/-- Modelled from the spec: a stand-in on `XQ` for `vcsUtil_mlequ(c, 3, 3, f, 1)`, whose
source file is not among the sources: "an interpolating quadratic through the last three
`(x, f)` pairs (solved via a 3×3 linear system)".  The routine solves `C X + B = 0`.  For
finite entries it is `VCSnonideal.vcsUtil_mlequ`: it returns `1` and leaves the right-hand
side when two abscissae coincide, `0` with the coefficients otherwise.  With an entry
that is not finite the stand-in returns `0` with NaN coefficients. -/
def mlequX : VCSnonideal.Fl.Mlequ XQ := fun _ c1 _ b =>
  match c1.1.val, c1.2.1.val, c1.2.2.val, b.1.val, b.2.1.val, b.2.2.val with
  | some x0, some x1, some x2, some b0, some b1, some b2 =>
    match VCSnonideal.vcsUtil_mlequ x0 x1 x2 (-b0) (-b1) (-b2) with
    | none => (1, b)
    | some (c, b, a) => (0, XQ.fin c, XQ.fin b, XQ.fin a)
  | _, _, _, _, _, _ => (0, XQ.nan, XQ.nan, XQ.nan)

/-- The callback of a function `f` given on the rational numbers, on `XQ`: the residual
`f(x) - target` at a finite point for a finite target, NaN otherwise. -/
def residualX (f : ℚ → ℚ) (x target : XQ) : XQ :=
  match x.val, target.val with
  | some q, some t => XQ.fin (f q - t)
  | _, _ => XQ.nan

/-- The callback of `f(x) = 1/2 - x`, computed in the arithmetic of `XQ`. -/
def halfMinus (x target : XQ) : XQ := XQ.sub (XQ.sub (XQ.fin (1 / 2)) x) target

end Examples

namespace Cantera

namespace Fl

/-! ## The phase object, over an arbitrary arithmetic -/

/-- The methods of the (virtual) phase interface that the two inversions call, as
functions of the state `σ` of the phase object, with values in `F`.  The setters return
the new state, the `const` getters read it. -/
structure ThermoPhase (F σ : Type) where
  setDensity : σ → F → σ
  setPressure : σ → F → σ
  setTemperature : σ → F → σ
  temperature : σ → F
  maxTemp : σ → F
  minTemp : σ → F
  enthalpy_mass : σ → F
  intEnergy_mass : σ → F
  entropy_mass : σ → F
  cp_mass : σ → F
  cv_mass : σ → F

/-- One call of a method of the phase object. -/
inductive Call (F : Type)
  | setDensity (rho : F)
  | setPressure (p : F)
  | setTemperature (t : F)
  | temperature
  | maxTemp
  | minTemp
  | enthalpy_mass
  | intEnergy_mass
  | entropy_mass
  | cp_mass
  | cv_mass
  deriving DecidableEq

/-- The phase object together with the calls made on it so far, in call order. -/
structure Traced (F σ : Type) where
  ph : σ
  log : List (Call F)

/-- How a call of `setState_HPorUV` or `setState_SPorSV` ends. -/
inductive Exit
  /-- A `return` statement. -/
  | returned
  /-- The statement `throw CanteraError(..., "Input ... is too small or negative ...")`. -/
  | inputTooSmall
  /-- The statement `throw CanteraError(..., "No convergence in 500 iterations ...")`. -/
  | noConvergence
  deriving DecidableEq

/-- What a call leaves behind: how it ended, the phase object with the calls made on it,
and the number of Newton iterations that were started. -/
structure SetStateResult (F σ : Type) where
  exit : Exit
  w : Traced F σ
  iters : Nat

/-- How one pass through the body of the Newton loop ends. -/
inductive Step (α : Type)
  /-- The end of the body is reached: the loop goes on. -/
  | next (s : α)
  /-- A `return` statement is reached. -/
  | done (s : α)

/-- The locals that a pass through the body of a Newton loop leaves behind, however the
pass ends. -/
def Step.state {α : Type} : Step α → α
  | Step.next s => s
  | Step.done s => s

variable {F σ : Type}

/-- Record a call of a getter. -/
def note (w : Traced F σ) (c : Call F) : Traced F σ := { w with log := w.log ++ [c] }

/-- The call `setDensity(rho)`. -/
def callSetDensity (P : ThermoPhase F σ) (w : Traced F σ) (rho : F) : Traced F σ :=
  { ph := P.setDensity w.ph rho, log := w.log ++ [Call.setDensity rho] }

/-- The call `setPressure(p)`. -/
def callSetPressure (P : ThermoPhase F σ) (w : Traced F σ) (p : F) : Traced F σ :=
  { ph := P.setPressure w.ph p, log := w.log ++ [Call.setPressure p] }

/-- The call `setTemperature(t)`. -/
def callSetTemperature (P : ThermoPhase F σ) (w : Traced F σ) (t : F) : Traced F σ :=
  { ph := P.setTemperature w.ph t, log := w.log ++ [Call.setTemperature t] }

/-- The method `ThermoPhase::setState_conditional_TP(t, p, set_p)`, lines 403-409. -/
def setState_conditional_TP (P : ThermoPhase F σ) (w : Traced F σ) (t p : F)
    (set_p : Bool) : Traced F σ :=
  let w := callSetTemperature P w t
  if set_p then callSetPressure P w p else w

/-- Modelled from the spec: the helper `clip(value, lower, upper)` of the utilities header,
which is not among the sources: "`dT = clip((target − current) / derivative, −100, 100)`
(hard cap of 100 K per step)", as `std::max(lower, std::min(upper, value))`. -/
def clip (A : Arith F) (value lower upper : F) : F := A.max lower (A.min upper value)

/-- `doUV ? intEnergy_mass() : enthalpy_mass()`, with the call recorded. -/
def evalH (P : ThermoPhase F σ) (doUV : Bool) (w : Traced F σ) : F × Traced F σ :=
  if doUV then (P.intEnergy_mass w.ph, note w Call.intEnergy_mass)
  else (P.enthalpy_mass w.ph, note w Call.enthalpy_mass)

/-- `doUV ? cv_mass() : cp_mass()`, with the call recorded. -/
def evalCp (P : ThermoPhase F σ) (doUV : Bool) (w : Traced F σ) : F × Traced F σ :=
  if doUV then (P.cv_mass w.ph, note w Call.cv_mass)
  else (P.cp_mass w.ph, note w Call.cp_mass)

/-- `entropy_mass()`, with the call recorded. -/
def evalS (P : ThermoPhase F σ) (w : Traced F σ) : F × Traced F σ :=
  (P.entropy_mass w.ph, note w Call.entropy_mass)

/-! ## `setState_HPorUV`, over an arbitrary arithmetic -/

/-- The local variables of `setState_HPorUV` that live across Newton iterations, with
the phase object. -/
structure NewtonState (F σ : Type) where
  w : Traced F σ
  Tnew : F
  Hnew : F
  Cpnew : F
  Htop : F
  Ttop : F
  Hbot : F
  Tbot : F
  Told : F
  Hold : F
  dt : F
  ignoreBounds : Bool
  unstablePhase : Bool
  Tunstable : F
  unstablePhaseNew : Bool

/-- Lines 474-498: the head of the body of the Newton loop, from the top of the body to
the end of the safeguard: the Newton step, clipped to 100 K, and the limit on the step
that keeps the iteration convergent. -/
def proposeHP (A : Arith F) (Htarget : F) (s : NewtonState F σ) : NewtonState F σ :=
  let s := { s with Told := s.Tnew, Hold := s.Hnew }
  let cpd := s.Cpnew
  let s :=
    if A.lt cpd (A.lit 0) then { s with unstablePhase := true, Tunstable := s.Tnew } else s
  let q := A.div (A.sub Htarget s.Hold) cpd
  let s := { s with dt := clip A q (A.lit (-100)) (A.lit 100) }
  let s := { s with Tnew := A.add s.Told s.dt }
  if (A.gt s.dt (A.lit 0) && s.unstablePhase) || (A.le s.dt (A.lit 0) && !s.unstablePhase) then
    if A.lt s.Hbot Htarget &&
        A.lt s.Tnew (A.add (A.mul (A.lit (3 / 4)) s.Tbot) (A.mul (A.lit (1 / 4)) s.Told)) then
      let dt := A.mul (A.lit (3 / 4)) (A.sub s.Tbot s.Told)
      { s with dt := dt, Tnew := A.add s.Told dt }
    else s
  else if A.gt s.Htop Htarget &&
      A.gt s.Tnew (A.add (A.mul (A.lit (3 / 4)) s.Ttop) (A.mul (A.lit (1 / 4)) s.Told)) then
    let dt := A.mul (A.lit (3 / 4)) (A.sub s.Ttop s.Told)
    { s with dt := dt, Tnew := A.add s.Told dt }
  else s

/-- Lines 501-518: the check at the maximum temperature. -/
def probeMaxHP (A : Arith F) (P : ThermoPhase F σ) (Htarget p : F) (doUV : Bool) (Tmax : F)
    (s : NewtonState F σ) : NewtonState F σ :=
  if A.gt s.Tnew Tmax && !s.ignoreBounds then
    let w := setState_conditional_TP P s.w Tmax p (!doUV)
    let h := evalH P doUV w
    let s := { s with w := h.2 }
    if A.ge h.1 Htarget then
      if A.lt s.Htop Htarget then { s with Ttop := Tmax, Htop := h.1 } else s
    else { s with Tnew := A.add Tmax (A.lit 1), ignoreBounds := true }
  else s

/-- Lines 519-535: the check at the minimum temperature. -/
def probeMinHP (A : Arith F) (P : ThermoPhase F σ) (Htarget p : F) (doUV : Bool) (Tmin : F)
    (s : NewtonState F σ) : NewtonState F σ :=
  if A.lt s.Tnew Tmin && !s.ignoreBounds then
    let w := setState_conditional_TP P s.w Tmin p (!doUV)
    let h := evalH P doUV w
    let s := { s with w := h.2 }
    if A.le h.1 Htarget then
      if A.gt s.Hbot Htarget then { s with Tbot := Tmin, Hbot := h.1 } else s
    else { s with Tnew := A.sub Tmin (A.lit 1), ignoreBounds := true }
  else s

/-- Lines 501-535: the check at the maximum temperature, then the check at the minimum
temperature (two `if` statements in a row). -/
def probeHP (A : Arith F) (P : ThermoPhase F σ) (Htarget p : F) (doUV : Bool) (Tmax Tmin : F)
    (s : NewtonState F σ) : NewtonState F σ :=
  probeMinHP A P Htarget p doUV Tmin (probeMaxHP A P Htarget p doUV Tmax s)

/-- Lines 541-563: one pass through the body of the inner loop.  The second component
tells whether the pass ended in `break`. -/
def stabilityPassHP (A : Arith F) (P : ThermoPhase F σ) (p : F) (doUV : Bool)
    (s : NewtonState F σ) : NewtonState F σ × Bool :=
  let s : NewtonState F σ := { s with Tnew := A.add s.Told s.dt }
  let s : NewtonState F σ :=
    if A.lt s.Tnew (A.div s.Told (A.lit 3)) then
      { s with Tnew := A.div s.Told (A.lit 3),
               dt := A.div (A.mul (A.lit (-2)) s.Told) (A.lit 3) }
    else s
  let w := setState_conditional_TP P s.w s.Tnew p (!doUV)
  let h := evalH P doUV w
  let c := evalCp P doUV h.2
  let s : NewtonState F σ := { s with w := c.2, Hnew := h.1, Cpnew := c.1 }
  if A.lt s.Cpnew (A.lit 0) then
    let s : NewtonState F σ := { s with unstablePhaseNew := true, Tunstable := s.Tnew }
    if s.unstablePhase = false ∧ s.unstablePhaseNew = true then
      ({ s with dt := A.mul s.dt (A.lit (1 / 4)) }, false)
    else (s, false)
  else ({ s with unstablePhaseNew := false }, true)

/-- Lines 540-564: the inner loop `for (int its = 0; its < 10; its++)`, the first
argument being the number of passes that remain. -/
def stabilityLoopHP (A : Arith F) (P : ThermoPhase F σ) (p : F) (doUV : Bool) :
    Nat → NewtonState F σ → NewtonState F σ
  | 0, s => s
  | k + 1, s =>
    let r := stabilityPassHP A P p doUV s
    if r.2 then r.1 else stabilityLoopHP A P p doUV k r.1

/-- Lines 474-564: the body of the Newton loop up to the end of the inner loop. -/
def trialHP (A : Arith F) (P : ThermoPhase F σ) (Htarget p : F) (doUV : Bool) (Tmax Tmin : F)
    (s : NewtonState F σ) : NewtonState F σ :=
  stabilityLoopHP A P p doUV 10 (probeHP A P Htarget p doUV Tmax Tmin (proposeHP A Htarget s))

/-- Lines 568-574: the update of the bracket `(Ttop, Htop)`, `(Tbot, Hbot)`, reached
when `Hnew == Htarget` is false. -/
def bracketHP (A : Arith F) (Htarget : F) (s : NewtonState F σ) : NewtonState F σ :=
  if A.gt s.Hnew Htarget && (A.lt s.Htop Htarget || A.lt s.Hnew s.Htop) then
    { s with Htop := s.Hnew, Ttop := s.Tnew }
  else if A.lt s.Hnew Htarget && (A.gt s.Hbot Htarget || A.gt s.Hnew s.Hbot) then
    { s with Hbot := s.Hnew, Tbot := s.Tnew }
  else s

/-- Lines 576-580: the convergence test
`HConvErr < 0.00001 * dTtol || fabs(dt) < dTtol`, with the heat capacity `cpd` of the
start of the iteration. -/
def convTestHP (A : Arith F) (Htarget dTtol cpd : F) (s : NewtonState F σ) : Bool :=
  let Herr := A.sub Htarget s.Hnew
  let acpd := A.max (A.fabs cpd) (A.lit (1 / 100000))
  let denom := A.max (A.fabs Htarget) (A.mul acpd dTtol)
  let HConvErr := A.fabs (A.div Herr denom)
  A.lt HConvErr (A.mul (A.lit (1 / 100000)) dTtol) || A.lt (A.fabs s.dt) dTtol

/-- Lines 474-582: one pass through the body of the Newton loop. -/
def newtonStepHP (A : Arith F) (P : ThermoPhase F σ) (Htarget p dTtol : F) (doUV : Bool)
    (Tmax Tmin : F) (s : NewtonState F σ) : Step (NewtonState F σ) :=
  let r := trialHP A P Htarget p doUV Tmax Tmin s
  if A.eq r.Hnew Htarget then Step.done r
  else
    let b := bracketHP A Htarget r
    if convTestHP A Htarget dTtol s.Cpnew b then Step.done b else Step.next b

/-- Lines 473-612: the loop `for (int n = 0; n < 500; n++)` and the `throw` behind it.
The first argument is the number of iterations that remain, the second the number of
iterations started so far. -/
def newtonLoopHP (A : Arith F) (P : ThermoPhase F σ) (Htarget p dTtol : F) (doUV : Bool)
    (Tmax Tmin : F) : Nat → Nat → NewtonState F σ → SetStateResult F σ
  | 0, n, s => { exit := Exit.noConvergence, w := s.w, iters := n }
  | k + 1, n, s =>
    match newtonStepHP A P Htarget p dTtol doUV Tmax Tmin s with
    | Step.done t => { exit := Exit.returned, w := t.w, iters := n + 1 }
    | Step.next t => newtonLoopHP A P Htarget p dTtol doUV Tmax Tmin k (n + 1) t

/-- Lines 431-470 of `setState_HPorUV`: the bounds, the starting temperature and the
initial values of the locals, given the phase after `setDensity` or `setPressure`.
Returns `(Tmax, Tmin, state)`.  The local `dt` is declared without a value and is
assigned in the loop before it is read. -/
def initHP (A : Arith F) (P : ThermoPhase F σ) (p : F) (doUV : Bool) (w : Traced F σ) :
    F × F × NewtonState F σ :=
  let Tmax := A.add (P.maxTemp w.ph) (A.lit (1 / 10))
  let w := note w Call.maxTemp
  let Tmin := A.sub (P.minTemp w.ph) (A.lit (1 / 10))
  let w := note w Call.minTemp
  let Tinit := P.temperature w.ph
  let w := note w Call.temperature
  let Tnew :=
    if A.gt Tinit Tmax then A.sub Tmax (A.lit 1)
    else if A.lt Tinit Tmin then A.add Tmin (A.lit 1) else Tinit
  let w := if A.ne Tnew Tinit then setState_conditional_TP P w Tnew p (!doUV) else w
  let h := evalH P doUV w
  let c := evalCp P doUV h.2
  (Tmax, Tmin,
    { w := c.2, Tnew := Tnew, Hnew := h.1, Cpnew := c.1,
      Htop := h.1, Ttop := Tnew, Hbot := h.1, Tbot := Tnew, Told := Tnew, Hold := h.1,
      dt := A.lit 0, ignoreBounds := false, unstablePhase := false, Tunstable := A.lit (-1),
      unstablePhaseNew := false })

/-- The bounds `(Tmax, Tmin)` and the locals with which a call of `setState_HPorUV` with
an admitted `p` enters its Newton loop (lines 419-470). -/
def startHP (A : Arith F) (P : ThermoPhase F σ) (ph : σ) (p : F) (doUV : Bool) :
    F × F × NewtonState F σ :=
  let w : Traced F σ := { ph := ph, log := [] }
  initHP A P p doUV
    (if doUV then callSetDensity P w (A.div (A.lit 1) p) else callSetPressure P w p)

/-- The method `ThermoPhase::setState_HPorUV(Htarget, p, dTtol, doUV)`, called on the
phase object `ph`. -/
def setState_HPorUV (A : Arith F) (P : ThermoPhase F σ) (ph : σ) (Htarget p dTtol : F)
    (doUV : Bool) : SetStateResult F σ :=
  if A.lt p (A.lit (1 / 10 ^ 300)) then
    { exit := Exit.inputTooSmall, w := { ph := ph, log := [] }, iters := 0 }
  else
    newtonLoopHP A P Htarget p dTtol doUV (startHP A P ph p doUV).1 (startHP A P ph p doUV).2.1
      500 0 (startHP A P ph p doUV).2.2

/-- The locals at the end of a pass through the body of the Newton loop of
`setState_HPorUV` that reaches no `return` (lines 474-574). -/
def passHP (A : Arith F) (P : ThermoPhase F σ) (Htarget p : F) (doUV : Bool) (Tmax Tmin : F)
    (s : NewtonState F σ) : NewtonState F σ :=
  bracketHP A Htarget (trialHP A P Htarget p doUV Tmax Tmin s)

/-! ## `setState_SPorSV`, over an arbitrary arithmetic -/

/-- The local variables of `setState_SPorSV` that live across Newton iterations, with
the phase object. -/
structure NewtonStateS (F σ : Type) where
  w : Traced F σ
  Tnew : F
  Snew : F
  Cpnew : F
  Stop : F
  Ttop : F
  Sbot : F
  Tbot : F
  Told : F
  Sold : F
  dt : F
  ignoreBounds : Bool
  unstablePhase : Bool
  Tunstable : F
  unstablePhaseNew : Bool

/-- Lines 680-700: the head of the body of the Newton loop, from the top of the body to
the end of the safeguard. -/
def proposeSP (A : Arith F) (Starget : F) (s : NewtonStateS F σ) : NewtonStateS F σ :=
  let s : NewtonStateS F σ := { s with Told := s.Tnew, Sold := s.Snew }
  let cpd := s.Cpnew
  let s : NewtonStateS F σ :=
    if A.lt cpd (A.lit 0) then { s with unstablePhase := true, Tunstable := s.Tnew } else s
  let q := A.div (A.mul (A.sub Starget s.Sold) s.Told) cpd
  let s : NewtonStateS F σ := { s with dt := clip A q (A.lit (-100)) (A.lit 100) }
  let s : NewtonStateS F σ := { s with Tnew := A.add s.Told s.dt }
  if (A.gt s.dt (A.lit 0) && s.unstablePhase) || (A.le s.dt (A.lit 0) && !s.unstablePhase) then
    if A.lt s.Sbot Starget && A.lt s.Tnew s.Tbot then
      let dt := A.mul (A.lit (3 / 4)) (A.sub s.Tbot s.Told)
      { s with dt := dt, Tnew := A.add s.Told dt }
    else s
  else if A.gt s.Stop Starget && A.gt s.Tnew s.Ttop then
    let dt := A.mul (A.lit (3 / 4)) (A.sub s.Ttop s.Told)
    { s with dt := dt, Tnew := A.add s.Told dt }
  else s

/-- Lines 702-727: the checks at the maximum and at the minimum temperature.  In the
second branch `Smin` is read with `enthalpy_mass()` and both assignments go to `Sbot`. -/
def probeSP (A : Arith F) (P : ThermoPhase F σ) (Starget p : F) (doSV : Bool) (Tmax Tmin : F)
    (s : NewtonStateS F σ) : NewtonStateS F σ :=
  if A.gt s.Tnew Tmax && !s.ignoreBounds then
    let w := setState_conditional_TP P s.w Tmax p (!doSV)
    let e := evalS P w
    let s : NewtonStateS F σ := { s with w := e.2 }
    if A.ge e.1 Starget then
      if A.lt s.Stop Starget then { s with Ttop := Tmax, Stop := e.1 } else s
    else { s with Tnew := A.add Tmax (A.lit 1), ignoreBounds := true }
  else if A.lt s.Tnew Tmin && !s.ignoreBounds then
    let w := setState_conditional_TP P s.w Tmin p (!doSV)
    let Smin := P.enthalpy_mass w.ph
    let w := note w Call.enthalpy_mass
    let s : NewtonStateS F σ := { s with w := w }
    if A.le Smin Starget then
      if A.gt s.Sbot Starget then
        let s : NewtonStateS F σ := { s with Sbot := Tmin }
        { s with Sbot := Smin }
      else s
    else { s with Tnew := A.sub Tmin (A.lit 1), ignoreBounds := true }
  else s

/-- Lines 733-746: one pass through the body of the inner loop.  The second component
tells whether the pass ended in `break`. -/
def stabilityPassSP (A : Arith F) (P : ThermoPhase F σ) (p : F) (doSV : Bool)
    (s : NewtonStateS F σ) : NewtonStateS F σ × Bool :=
  let s : NewtonStateS F σ := { s with Tnew := A.add s.Told s.dt }
  let w := setState_conditional_TP P s.w s.Tnew p (!doSV)
  let c := evalCp P doSV w
  let e := evalS P c.2
  let s : NewtonStateS F σ := { s with w := e.2, Snew := e.1, Cpnew := c.1 }
  if A.lt s.Cpnew (A.lit 0) then
    let s : NewtonStateS F σ := { s with unstablePhaseNew := true, Tunstable := s.Tnew }
    if s.unstablePhase = false ∧ s.unstablePhaseNew = true then
      ({ s with dt := A.mul s.dt (A.lit (1 / 4)) }, false)
    else (s, false)
  else ({ s with unstablePhaseNew := false }, true)

/-- Lines 732-747: the inner loop `for (int its = 0; its < 10; its++)`, the first
argument being the number of passes that remain. -/
def stabilityLoopSP (A : Arith F) (P : ThermoPhase F σ) (p : F) (doSV : Bool) :
    Nat → NewtonStateS F σ → NewtonStateS F σ
  | 0, s => s
  | k + 1, s =>
    let r := stabilityPassSP A P p doSV s
    if r.2 then r.1 else stabilityLoopSP A P p doSV k r.1

/-- Lines 680-747: the body of the Newton loop up to the end of the inner loop. -/
def trialSP (A : Arith F) (P : ThermoPhase F σ) (Starget p : F) (doSV : Bool) (Tmax Tmin : F)
    (s : NewtonStateS F σ) : NewtonStateS F σ :=
  stabilityLoopSP A P p doSV 10 (probeSP A P Starget p doSV Tmax Tmin (proposeSP A Starget s))

/-- Lines 751-757: the update of the bracket `(Ttop, Stop)`, `(Tbot, Sbot)`, reached
when `Snew == Starget` is false. -/
def bracketSP (A : Arith F) (Starget : F) (s : NewtonStateS F σ) : NewtonStateS F σ :=
  if A.gt s.Snew Starget && (A.lt s.Stop Starget || A.lt s.Snew s.Stop) then
    { s with Stop := s.Snew, Ttop := s.Tnew }
  else if A.lt s.Snew Starget && (A.gt s.Sbot Starget || A.gt s.Snew s.Sbot) then
    { s with Sbot := s.Snew, Tbot := s.Tnew }
  else s

/-- Lines 759-763: the convergence test
`SConvErr < 0.00001 * dTtol || fabs(dt) < dTtol`, with the heat capacity `cpd` of the
start of the iteration. -/
def convTestSP (A : Arith F) (Starget dTtol cpd : F) (s : NewtonStateS F σ) : Bool :=
  let Serr := A.sub Starget s.Snew
  let acpd := A.max (A.fabs cpd) (A.lit (1 / 100000))
  let denom := A.max (A.fabs Starget) (A.mul acpd dTtol)
  let SConvErr := A.fabs (A.div (A.mul Serr s.Tnew) denom)
  A.lt SConvErr (A.mul (A.lit (1 / 100000)) dTtol) || A.lt (A.fabs s.dt) dTtol

/-- Lines 680-765: one pass through the body of the Newton loop. -/
def newtonStepSP (A : Arith F) (P : ThermoPhase F σ) (Starget p dTtol : F) (doSV : Bool)
    (Tmax Tmin : F) (s : NewtonStateS F σ) : Step (NewtonStateS F σ) :=
  let r := trialSP A P Starget p doSV Tmax Tmin s
  if A.eq r.Snew Starget then Step.done r
  else
    let b := bracketSP A Starget r
    if convTestSP A Starget dTtol s.Cpnew b then Step.done b else Step.next b

/-- Lines 679-795: the loop `for (int n = 0; n < 500; n++)` and the `throw` behind it.
The first argument is the number of iterations that remain, the second the number of
iterations started so far. -/
def newtonLoopSP (A : Arith F) (P : ThermoPhase F σ) (Starget p dTtol : F) (doSV : Bool)
    (Tmax Tmin : F) : Nat → Nat → NewtonStateS F σ → SetStateResult F σ
  | 0, n, s => { exit := Exit.noConvergence, w := s.w, iters := n }
  | k + 1, n, s =>
    match newtonStepSP A P Starget p dTtol doSV Tmax Tmin s with
    | Step.done t => { exit := Exit.returned, w := t.w, iters := n + 1 }
    | Step.next t => newtonLoopSP A P Starget p dTtol doSV Tmax Tmin k (n + 1) t

/-- Lines 644-676 of `setState_SPorSV`: the bounds, the starting temperature and the
initial values of the locals, given the phase after `setDensity` or `setPressure`.
Returns `(Tmax, Tmin, state)`.  The local `dt` is declared without a value and is
assigned in the loop before it is read. -/
def initSP (A : Arith F) (P : ThermoPhase F σ) (p : F) (doSV : Bool) (w : Traced F σ) :
    F × F × NewtonStateS F σ :=
  let Tmax := A.add (P.maxTemp w.ph) (A.lit (1 / 10))
  let w := note w Call.maxTemp
  let Tmin := A.sub (P.minTemp w.ph) (A.lit (1 / 10))
  let w := note w Call.minTemp
  let Tinit := P.temperature w.ph
  let w := note w Call.temperature
  let Tnew :=
    if A.gt Tinit Tmax then A.sub Tmax (A.lit 1)
    else if A.lt Tinit Tmin then A.add Tmin (A.lit 1) else Tinit
  let w := if A.ne Tnew Tinit then setState_conditional_TP P w Tnew p (!doSV) else w
  let e := evalS P w
  let c := evalCp P doSV e.2
  (Tmax, Tmin,
    { w := c.2, Tnew := Tnew, Snew := e.1, Cpnew := c.1,
      Stop := e.1, Ttop := Tnew, Sbot := e.1, Tbot := Tnew, Told := Tnew, Sold := e.1,
      dt := A.lit 0, ignoreBounds := false, unstablePhase := false, Tunstable := A.lit (-1),
      unstablePhaseNew := false })

/-- The bounds `(Tmax, Tmin)` and the locals with which a call of `setState_SPorSV` with
an admitted `p` enters its Newton loop (lines 632-676). -/
def startSP (A : Arith F) (P : ThermoPhase F σ) (ph : σ) (p : F) (doSV : Bool) :
    F × F × NewtonStateS F σ :=
  let w : Traced F σ := { ph := ph, log := [] }
  initSP A P p doSV
    (if doSV then callSetDensity P w (A.div (A.lit 1) p) else callSetPressure P w p)

/-- The method `ThermoPhase::setState_SPorSV(Starget, p, dTtol, doSV)`, called on the
phase object `ph`. -/
def setState_SPorSV (A : Arith F) (P : ThermoPhase F σ) (ph : σ) (Starget p dTtol : F)
    (doSV : Bool) : SetStateResult F σ :=
  if A.lt p (A.lit (1 / 10 ^ 300)) then
    { exit := Exit.inputTooSmall, w := { ph := ph, log := [] }, iters := 0 }
  else
    newtonLoopSP A P Starget p dTtol doSV (startSP A P ph p doSV).1 (startSP A P ph p doSV).2.1
      500 0 (startSP A P ph p doSV).2.2

/-- The locals at the end of a pass through the body of the Newton loop of
`setState_SPorSV` that reaches no `return` (lines 680-757). -/
def passSP (A : Arith F) (P : ThermoPhase F σ) (Starget p : F) (doSV : Bool) (Tmax Tmin : F)
    (s : NewtonStateS F σ) : NewtonStateS F σ :=
  bracketSP A Starget (trialSP A P Starget p doSV Tmax Tmin s)

/-- The number of calls of `cp_mass()` and `cv_mass()` in a trace. -/
def cpCalls (log : List (Call F)) : Nat :=
  (log.filter (fun c => match c with
    | Call.cp_mass => true
    | Call.cv_mass => true
    | _ => false)).length

/-- The temperatures set on the phase in a trace, in call order. -/
def tempsSet (log : List (Call F)) : List F :=
  log.filterMap (fun c => match c with
    | Call.setTemperature t => some t
    | _ => none)

end Fl

end Cantera

namespace Cantera

namespace Fl

variable {F σ : Type}

/-- Lines 566 and 576-580: whether the pass through the body of the Newton loop of
`setState_HPorUV` that starts with the locals `s` reaches a `return`: by the exact match
`Hnew == Htarget` or by the convergence test. -/
def returnsHP (A : Arith F) (P : ThermoPhase F σ) (Htarget p dTtol : F) (doUV : Bool)
    (Tmax Tmin : F) (s : NewtonState F σ) : Bool :=
  A.eq (trialHP A P Htarget p doUV Tmax Tmin s).Hnew Htarget ||
    convTestHP A Htarget dTtol s.Cpnew (passHP A P Htarget p doUV Tmax Tmin s)

/-- Lines 749 and 759-763: whether the pass through the body of the Newton loop of
`setState_SPorSV` that starts with the locals `s` reaches a `return`. -/
def returnsSP (A : Arith F) (P : ThermoPhase F σ) (Starget p dTtol : F) (doSV : Bool)
    (Tmax Tmin : F) (s : NewtonStateS F σ) : Bool :=
  A.eq (trialSP A P Starget p doSV Tmax Tmin s).Snew Starget ||
    convTestSP A Starget dTtol s.Cpnew (passSP A P Starget p doSV Tmax Tmin s)

end Fl

end Cantera

namespace Examples

/-- The state of a synthetic phase over `XQ`: the temperature, the pressure and the
density last set. -/
structure XState where
  T : XQ
  P : XQ
  rho : XQ
  deriving DecidableEq

/-- The value at the temperature `t` of a function given on the rational numbers: NaN
when `t` is not finite. -/
def atTemp (f : ℚ → ℚ) (t : XQ) : XQ :=
  match t.val with
  | some q => XQ.fin (f q)
  | none => XQ.nan

/-- A synthetic phase over `XQ` with the enthalpy and internal energy `H(T)`, the entropy
`S(T)`, the heat capacities `Cp(T)` and the valid temperatures `[Tlo, Thi]`. -/
def tablePhase (H S Cp : ℚ → ℚ) (Tlo Thi : ℚ) : Cantera.Fl.ThermoPhase XQ XState where
  setDensity s rho := { s with rho := rho }
  setPressure s p := { s with P := p }
  setTemperature s t := { s with T := t }
  temperature s := s.T
  maxTemp _ := XQ.fin Thi
  minTemp _ := XQ.fin Tlo
  enthalpy_mass s := atTemp H s.T
  intEnergy_mass s := atTemp H s.T
  entropy_mass s := atTemp S s.T
  cp_mass s := atTemp Cp s.T
  cv_mass s := atTemp Cp s.T

/-- The synthetic phase with enthalpy, entropy and heat capacity all zero, valid on
`[200, 1000]`. -/
def flatPhase : Cantera.Fl.ThermoPhase XQ XState :=
  tablePhase (fun _ => 0) (fun _ => 0) (fun _ => 0) 200 1000

/-- The synthetic phase over `XQ` whose heat capacity is `1/8` up to 992 K and `1` above,
with `H(T) = S(T) = 992 + (T - 992) / 8` up to 992 K and `H(T) = S(T) = T` above, valid on
`[200, 2000]`. -/
def stepPhaseX : Cantera.Fl.ThermoPhase XQ XState :=
  tablePhase (fun t => if t ≤ 992 then 992 + (t - 992) / 8 else t)
    (fun t => if t ≤ 992 then 992 + (t - 992) / 8 else t)
    (fun t => if t ≤ 992 then 1 / 8 else 1) 200 2000

/-- The phase object at the temperature `t`, with pressure and density `1`. -/
def atT (t : ℚ) : XState := { T := XQ.fin t, P := XQ.fin 1, rho := XQ.fin 1 }

end Examples

namespace Examples

/-- The synthetic phase over `XQ` with `H(T) = (T - 300)^2 / 128` and the heat capacity
`(T - 300) / 64`, valid on `[200, 1000]`. -/
def bowlPhaseX : Cantera.Fl.ThermoPhase XQ XState :=
  tablePhase (fun t => (t - 300) ^ 2 / 128) (fun t => (t - 300) ^ 2 / 128)
    (fun t => (t - 300) / 64) 200 1000

end Examples

namespace Examples

/-- The synthetic phase over `XQ` with the constant heat capacity `1/2` and
`H(T) = S(T) = T / 2 + 10`, valid on `[200, 1000]`. -/
def linPhaseX : Cantera.Fl.ThermoPhase XQ XState :=
  tablePhase (fun t => t / 2 + 10) (fun t => t / 2 + 10) (fun _ => 1 / 2) 200 1000

end Examples

namespace Arith

variable {F : Type}

/-- The laws of the comparisons `<` and `<=` that the statements about the brackets use.
They hold for the comparisons of the IEEE arithmetic, NaN and infinities included: `<`
implies `<=`, `a <= b` excludes `b < a`, `<=` is transitive, and a value that takes part
in a true comparison compares `<=` to itself. -/
structure Ordered (A : Arith F) : Prop where
  lt_le : ∀ a b, A.lt a b = true → A.le a b = true
  le_not_lt : ∀ a b, A.le a b = true → A.lt b a = false
  le_trans : ∀ a b c, A.le a b = true → A.le b c = true → A.le a c = true
  le_self : ∀ a b, A.le a b = true → A.le a a = true ∧ A.le b b = true

end Arith

namespace Cantera

namespace Fl

variable {F σ : Type}

/-- The pair `(T, H)` is a temperature together with the value of the property that was
read from the phase at that temperature: `H` is the value read right after the
temperature `T` was set with `setState_conditional_TP`, or `T` is the temperature of the
phase object from which `H` is read (it is that value, or it compares `==` to it, the
case in which the start of the call sets no temperature). -/
def Sampled (A : Arith F) (P : ThermoPhase F σ) (p : F) (doUV : Bool) (T H : F) : Prop :=
  (∃ w : Traced F σ, H = (evalH P doUV (setState_conditional_TP P w T p (!doUV))).1) ∨
  (∃ w : Traced F σ, (T = P.temperature w.ph ∨ A.eq T (P.temperature w.ph) = true) ∧
    H = (evalH P doUV w).1)

/-- From the locals `e` to the later locals `l`: if `Htop >= Htarget` holds in `e`, it
holds in `l` and `Htop` has not increased. -/
def KeepsTop (A : Arith F) (Htarget : F) (e l : NewtonState F σ) : Prop :=
  A.ge e.Htop Htarget = true → A.ge l.Htop Htarget = true ∧ A.le l.Htop e.Htop = true

/-- From the locals `e` to the later locals `l`: if `Hbot <= Htarget` holds in `e`, it
holds in `l` and `Hbot` has not decreased. -/
def KeepsBot (A : Arith F) (Htarget : F) (e l : NewtonState F σ) : Prop :=
  A.le e.Hbot Htarget = true → A.le l.Hbot Htarget = true ∧ A.le e.Hbot l.Hbot = true

end Fl

end Cantera

namespace Arith

variable {F : Type}

/-- Multiplication by the literal `k` is exact where `setState_HPorUV` needs it, for the
tolerance `t`: `D1` holds of values of the property, its derivative and the target, `D2`
of these and of the differences, magnitudes and products with `t` that the solver forms
from them.  On these values the multiplication by `k` keeps the order and the sign,
commutes with `-`, `fabs` and the product with `t`, and cancels in a quotient.  In exact
arithmetic every `k > 0` is such a factor for all values; in binary floating point a
power of two is, for the values whose multiples neither overflow nor underflow. -/
structure Scaling (A : Arith F) (k : ℚ) (t : F) (D1 D2 : F → Prop) : Prop where
  mem : ∀ a, D1 a → D2 a
  sub_mem : ∀ a b, D1 a → D1 b → D2 (A.sub a b)
  fabs_mem : ∀ a, D1 a → D2 (A.fabs a)
  mul_mem : ∀ a, D1 a → D2 (A.mul (A.fabs a) t)
  lt : ∀ a b, D2 a → D2 b → A.lt (A.mul (A.lit k) a) (A.mul (A.lit k) b) = A.lt a b
  le : ∀ a b, D2 a → D2 b → A.le (A.mul (A.lit k) a) (A.mul (A.lit k) b) = A.le a b
  eq : ∀ a b, D2 a → D2 b → A.eq (A.mul (A.lit k) a) (A.mul (A.lit k) b) = A.eq a b
  lt_zero : ∀ a, D1 a → A.lt (A.mul (A.lit k) a) (A.lit 0) = A.lt a (A.lit 0)
  sub : ∀ a b, D1 a → D1 b →
    A.sub (A.mul (A.lit k) a) (A.mul (A.lit k) b) = A.mul (A.lit k) (A.sub a b)
  fabs : ∀ a, D1 a → A.fabs (A.mul (A.lit k) a) = A.mul (A.lit k) (A.fabs a)
  mul : ∀ a, D1 a →
    A.mul (A.mul (A.lit k) (A.fabs a)) t = A.mul (A.lit k) (A.mul (A.fabs a) t)
  div : ∀ a b, D2 a → D2 b → A.div (A.mul (A.lit k) a) (A.mul (A.lit k) b) = A.div a b

end Arith

namespace Cantera

namespace Fl

variable {F σ : Type}

/-- The phase `P` with the property and its derivative multiplied by `k`: `enthalpy_mass`,
`intEnergy_mass`, `cp_mass` and `cv_mass` return `k` times the value of `P`, as computed;
the other methods are those of `P`. -/
def scalePhase (A : Arith F) (k : ℚ) (P : ThermoPhase F σ) : ThermoPhase F σ :=
  { P with
    enthalpy_mass := fun s => A.mul (A.lit k) (P.enthalpy_mass s)
    intEnergy_mass := fun s => A.mul (A.lit k) (P.intEnergy_mass s)
    cp_mass := fun s => A.mul (A.lit k) (P.cp_mass s)
    cv_mass := fun s => A.mul (A.lit k) (P.cv_mass s) }

/-- The locals `t` of a run on the phase `scalePhase A k P` correspond to the locals `s` of
a run on `P`: the values of the property and of its derivative are `k` times those of
`s`, as computed, and everything else is that of `s`; the values of `s` are in `D1`, and
`fabs(Cpnew) < 1.0E-5` is false in both runs.  The local `Hold` is left out: it is
assigned at the top of the loop body before it is read. -/
structure ScaledHP (A : Arith F) (k : ℚ) (D1 : F → Prop) (t s : NewtonState F σ) : Prop where
  w : t.w = s.w
  Tnew : t.Tnew = s.Tnew
  Ttop : t.Ttop = s.Ttop
  Tbot : t.Tbot = s.Tbot
  Told : t.Told = s.Told
  dt : t.dt = s.dt
  ignoreBounds : t.ignoreBounds = s.ignoreBounds
  unstablePhase : t.unstablePhase = s.unstablePhase
  Tunstable : t.Tunstable = s.Tunstable
  unstablePhaseNew : t.unstablePhaseNew = s.unstablePhaseNew
  Hnew : t.Hnew = A.mul (A.lit k) s.Hnew
  Cpnew : t.Cpnew = A.mul (A.lit k) s.Cpnew
  Htop : t.Htop = A.mul (A.lit k) s.Htop
  Hbot : t.Hbot = A.mul (A.lit k) s.Hbot
  memHnew : D1 s.Hnew
  memCpnew : D1 s.Cpnew
  memHtop : D1 s.Htop
  memHbot : D1 s.Hbot
  floor : A.lt (A.fabs s.Cpnew) (A.lit (1 / 100000)) = false
  floorScaled : A.lt (A.fabs t.Cpnew) (A.lit (1 / 100000)) = false

end Fl

end Cantera

/-! ## Theorems about `vcsUtil_root1d` -/

namespace VCSnonideal

open Examples

/-! ### The loop -/

/-- The modelled `vcsUtil_mlequ` returns the coefficients of the quadratic through the
three points. -/
theorem vcsUtil_mlequ_interpolates {x0 x1 x2 f0 f1 f2 c b a : ℚ}
    (h : vcsUtil_mlequ x0 x1 x2 f0 f1 f2 = some (c, b, a)) :
    c + b * x0 + a * x0 ^ 2 = f0 ∧ c + b * x1 + a * x1 ^ 2 = f1 ∧
      c + b * x2 + a * x2 ^ 2 = f2 := by
  unfold vcsUtil_mlequ at h
  split at h
  · cases h
  · rename_i hne
    push_neg at hne
    obtain ⟨h01, h12, h02⟩ := hne
    have d01 : x1 - x0 ≠ 0 := sub_ne_zero.mpr (Ne.symm h01)
    have d12 : x2 - x1 ≠ 0 := sub_ne_zero.mpr (Ne.symm h12)
    have d02 : x2 - x0 ≠ 0 := sub_ne_zero.mpr (Ne.symm h02)
    simp only [Option.some.injEq, Prod.mk.injEq, SQUARE] at h
    obtain ⟨rfl, rfl, rfl⟩ := h
    refine ⟨?_, ?_, ?_⟩ <;> field_simp <;> ring

/-- The modelled `vcsUtil_mlequ` reports a singular system exactly when two of the three
abscissae coincide. -/
theorem vcsUtil_mlequ_singular (x0 x1 x2 f0 f1 f2 : ℚ) :
    vcsUtil_mlequ x0 x1 x2 f0 f1 f2 = none ↔ (x0 = x1 ∨ x1 = x2 ∨ x0 = x2) := by
  unfold vcsUtil_mlequ
  split <;> simp_all

theorem loopBody_some {sqrt : ℚ → ℚ} {xmin xmax : ℚ} {func : ℚ → ℚ → ℚ}
    {FuncTargVal fnorm : ℚ} {s t : LoopState}
    (h : loopBody sqrt xmin xmax func FuncTargVal fnorm s = some t) :
    ∃ retn xnew, candidate sqrt xmin xmax s = some (retn, xnew) ∧
      t.x2 = xnew ∧ t.f2 = func xnew FuncTargVal ∧ t.evals = s.evals ++ [xnew] ∧
      t.its = s.its + 1 ∧ t.retn = retn ∧
      t.converged = (s.converged || decide (|func xnew FuncTargVal / fnorm| < TOL_CONV)) := by
  unfold loopBody at h
  cases hc : candidate sqrt xmin xmax s with
  | none => simp [hc] at h
  | some rx =>
    obtain ⟨retn, xnew⟩ := rx
    simp only [hc, Option.some.injEq] at h
    subst h
    exact ⟨retn, xnew, rfl, rfl, rfl, rfl, rfl, rfl, rfl⟩

section Loop

variable {sqrt : ℚ → ℚ} {xmin xmax : ℚ} {func : ℚ → ℚ → ℚ} {FuncTargVal fnorm : ℚ}

theorem passes_succ_bind (k : Nat) (s : LoopState) :
    passes sqrt xmin xmax func FuncTargVal fnorm (k + 1) s =
      (loopBody sqrt xmin xmax func FuncTargVal fnorm s).bind
        (passes sqrt xmin xmax func FuncTargVal fnorm k) := by
  cases h : loopBody sqrt xmin xmax func FuncTargVal fnorm s <;> simp [passes, h]

theorem passes_one (s : LoopState) :
    passes sqrt xmin xmax func FuncTargVal fnorm 1 s =
      loopBody sqrt xmin xmax func FuncTargVal fnorm s := by
  cases h : loopBody sqrt xmin xmax func FuncTargVal fnorm s <;> simp [passes, h]

end Loop

section Call

variable (sqrt : ℚ → ℚ) (xmin xmax : ℚ) (itmax : Int) (func : ℚ → ℚ → ℚ)
  (FuncTargVal xbest : ℚ)

theorem startState_facts (x1 f1 x2 f2 : ℚ) :
    (startState x1 f1 x2 f2).converged = false ∧ (startState x1 f1 x2 f2).retn = 0 ∧
    (startState x1 f1 x2 f2).its = 0 ∧ (startState x1 f1 x2 f2).evals = [x1, x2] := by
  unfold startState initState
  dsimp only
  split_ifs <;> simp [VCS_SUCCESS]

/-- The call in the case in which the loop is entered. -/
theorem root1d_loop (hb : xmin < xmax) (h1 : f1At xmin xmax func FuncTargVal xbest ≠ 0)
    (h2 : f2At xmin xmax func FuncTargVal xbest ≠ 0) :
    vcsUtil_root1d sqrt xmin xmax itmax func FuncTargVal xbest =
      (doWhile sqrt xmin xmax func FuncTargVal (fnormAt xmin xmax func FuncTargVal xbest)
        (itmax.toNat - 1) (startAt xmin xmax func FuncTargVal xbest)).map
        (fun t => { retn := if t.converged then t.retn else VCS_FAILED_CONVERGENCE,
                    xbest := t.x2, evals := t.evals, its := t.its }) := by
  unfold f1At at h1
  unfold f2At at h2
  simp only [vcsUtil_root1d, not_le.mpr hb, if_false, h1, h2, fnormAt, startAt, f1At, f2At]
  cases doWhile sqrt xmin xmax func FuncTargVal _ (itmax.toNat - 1) _ <;> rfl

end Call

/-! ### The straddle -/

section Straddle

variable {sqrt : ℚ → ℚ} {xmin xmax : ℚ} {func : ℚ → ℚ → ℚ} {FuncTargVal fnorm : ℚ}

/-- The state with which the loop ends is the state after some number of passes. -/
theorem doWhile_passes {n : Nat} {s t : LoopState}
    (h : doWhile sqrt xmin xmax func FuncTargVal fnorm n s = some t) :
    ∃ k, 1 ≤ k ∧ k ≤ n + 1 ∧ passes sqrt xmin xmax func FuncTargVal fnorm k s = some t := by
  induction n generalizing s with
  | zero =>
    simp only [doWhile] at h
    exact ⟨1, le_refl _, le_refl _, by rw [passes_one]; exact h⟩
  | succ n ih =>
    simp only [doWhile] at h
    cases hb : loopBody sqrt xmin xmax func FuncTargVal fnorm s with
    | none => simp [hb] at h
    | some t1 =>
      simp only [hb] at h
      by_cases hc : t1.converged = true
      · simp only [hc, if_true, Option.some.injEq] at h
        subst h
        exact ⟨1, le_refl _, by omega, by rw [passes_one]; exact hb⟩
      · have hc' : t1.converged = false := by simpa using hc
        simp only [hc', Bool.false_eq_true, if_false] at h
        obtain ⟨k, hk1, hk2, hk⟩ := ih h
        refine ⟨k + 1, by omega, by omega, ?_⟩
        rw [passes_succ_bind, hb]
        exact hk

end Straddle

/-- The state with which the loop is entered satisfies `BracketInv`. -/
theorem startState_inv (func : ℚ → ℚ → ℚ) (t x1 x2 : ℚ)
    (h1 : func x1 t ≠ 0) (h2 : func x2 t ≠ 0) :
    BracketInv func t (startState x1 (func x1 t) x2 (func x2 t)) := by
  unfold BracketInv startState initState
  rcases lt_or_gt_of_ne h1 with a1 | a1 <;> rcases lt_or_gt_of_ne h2 with a2 | a2
  · have p1 : ¬ func x1 t > 0 := not_lt.mpr a1.le
    have p2 : ¬ func x2 t > 0 := not_lt.mpr a2.le
    simp [p1, p2, a1, a1.le]
  · have p1 : ¬ func x1 t > 0 := not_lt.mpr a1.le
    simp [p1, a2, a1, a1.le]
  · have p2 : ¬ func x2 t > 0 := not_lt.mpr a2.le
    have a1' : 0 < func x1 t := a1
    simp [p2, a1', a2, a2.le]
  · have a1' : 0 < func x1 t := a1
    have a2' : 0 < func x2 t := a2
    simp [a1', a2']

/-- With a straddle, the point that leaves `straddleStep` lies between the recorded
points. -/
theorem straddleStep_mem {func : ℚ → ℚ → ℚ} {t : ℚ} {s : LoopState}
    (hinv : BracketInv func t s) (hs : s.foundStraddle = true) (y : ℚ) :
    min s.xNegF s.xPosF ≤ straddleStep s y ∧ straddleStep s y ≤ max s.xNegF s.xPosF := by
  obtain ⟨-, -, -, -, -, h4, h6⟩ := hinv
  have h4 := h4 hs
  obtain ⟨h6a, h6b⟩ := h6 hs
  unfold straddleStep
  by_cases hp : s.xPosF > s.xNegF
  · have hpos : s.posStraddle = true := by rw [h4]; exact decide_eq_true hp
    rw [min_eq_left hp.le, max_eq_right hp.le]
    by_cases hf : s.f2 > 0
    · have hx := h6a hf
      simp only [hs, hpos, hf, if_true]
      rw [hx]
      constructor <;> split_ifs <;> linarith
    · have hx := h6b hf
      simp only [hs, hpos, hf, if_true, if_false]
      rw [hx]
      constructor <;> split_ifs <;> linarith
  · have hpos : s.posStraddle = false := by rw [h4]; exact decide_eq_false hp
    have hp' : s.xPosF ≤ s.xNegF := not_lt.mp hp
    rw [min_eq_right hp', max_eq_left hp']
    by_cases hf : s.f2 > 0
    · have hx := h6a hf
      simp only [hs, hpos, hf, if_true, Bool.false_eq_true, if_false]
      rw [hx]
      constructor <;> split_ifs <;> linarith
    · have hx := h6b hf
      simp only [hs, hpos, hf, if_true, Bool.false_eq_true, if_false]
      rw [hx]
      constructor <;> split_ifs <;> linarith

/-- The candidate of an iteration is a result of `straddleStep`. -/
theorem candidate_straddle {sqrt : ℚ → ℚ} {xmin xmax : ℚ} {s : LoopState} {retn : Int}
    {xnew : ℚ} (h : candidate sqrt xmin xmax s = some (retn, xnew)) :
    ∃ y, xnew = straddleStep s y := by
  unfold candidate at h
  split at h
  · cases h
  · split at h
    · cases h
    · simp only [Option.some.injEq, Prod.mk.injEq] at h
      exact ⟨_, h.2.symm⟩

/-- The fields of the state after a pass through the loop body. -/
theorem loopBody_fields {sqrt : ℚ → ℚ} {xmin xmax : ℚ} {func : ℚ → ℚ → ℚ}
    {FuncTargVal fnorm : ℚ} {s t : LoopState}
    (h : loopBody sqrt xmin xmax func FuncTargVal fnorm s = some t) :
    ∃ retn xnew, candidate sqrt xmin xmax s = some (retn, xnew) ∧
      t = { updateStraddle s xnew (func xnew FuncTargVal) with
            x0 := s.x1, f0 := s.f1, x1 := s.x2, f1 := s.f2, x2 := xnew,
            f2 := func xnew FuncTargVal, retn := retn,
            converged := s.converged || decide (|func xnew FuncTargVal / fnorm| < TOL_CONV),
            its := s.its + 1, evals := s.evals ++ [xnew] } := by
  unfold loopBody at h
  cases hc : candidate sqrt xmin xmax s with
  | none => simp [hc] at h
  | some rx =>
    obtain ⟨retn, xnew⟩ := rx
    simp only [hc, Option.some.injEq] at h
    exact ⟨retn, xnew, rfl, h.symm⟩

/-- What `updateStraddle` must keep, stated for its result `u`, the new point `xnew` and
the new value `cv` of `converged`. -/
theorem updateStraddle_inv_new {func : ℚ → ℚ → ℚ} {T : ℚ} {s : LoopState} {xnew : ℚ}
    {cv : Bool}
    (h2 : s.foundPosF = true ∨ s.foundNegF = true)
    (h3 : s.foundStraddle = (s.foundPosF && s.foundNegF))
    (h4 : s.foundPosF = true → 0 < func s.xPosF T)
    (h5 : s.foundNegF = true → func s.xNegF T ≤ 0 ∧
      (s.converged = false → func s.xNegF T < 0))
    (hcv : cv = false → s.converged = false)
    (hz : ¬ func xnew T > 0 → cv = false → func xnew T < 0)
    (hfs : s.foundStraddle = false) :
    ((updateStraddle s xnew (func xnew T)).foundPosF = true ∨
      (updateStraddle s xnew (func xnew T)).foundNegF = true) ∧
    (updateStraddle s xnew (func xnew T)).foundStraddle =
      ((updateStraddle s xnew (func xnew T)).foundPosF &&
        (updateStraddle s xnew (func xnew T)).foundNegF) ∧
    ((updateStraddle s xnew (func xnew T)).foundPosF = true →
      0 < func (updateStraddle s xnew (func xnew T)).xPosF T) ∧
    ((updateStraddle s xnew (func xnew T)).foundNegF = true →
      func (updateStraddle s xnew (func xnew T)).xNegF T ≤ 0 ∧
      (cv = false → func (updateStraddle s xnew (func xnew T)).xNegF T < 0)) ∧
    ((updateStraddle s xnew (func xnew T)).foundStraddle = true →
      (updateStraddle s xnew (func xnew T)).posStraddle =
        decide ((updateStraddle s xnew (func xnew T)).xPosF >
          (updateStraddle s xnew (func xnew T)).xNegF)) ∧
    ((updateStraddle s xnew (func xnew T)).foundStraddle = true →
      (func xnew T > 0 → xnew = (updateStraddle s xnew (func xnew T)).xPosF) ∧
      (¬ func xnew T > 0 → xnew = (updateStraddle s xnew (func xnew T)).xNegF)) := by
  unfold updateStraddle
  rw [hfs] at h3
  by_cases hf : func xnew T > 0
  · cases hpf : s.foundPosF <;> cases hnf : s.foundNegF <;>
      simp only [hfs, hf, hpf, hnf, if_true, if_false, Bool.false_eq_true,
        not_false_eq_true, not_true_eq_false] <;>
      simp only [hpf, hnf] at h2 h3 h4 h5 <;> simp at h2 h3 h4 h5 ⊢ <;> tauto
  · have hle : func xnew T ≤ 0 := not_lt.mp hf
    have hz := hz hf
    cases hpf : s.foundPosF <;> cases hnf : s.foundNegF <;>
      simp only [hfs, hf, hpf, hnf, if_true, if_false, Bool.false_eq_true,
        not_false_eq_true, not_true_eq_false] <;>
      simp only [hpf, hnf] at h2 h3 h4 h5 <;> simp at h2 h3 h4 h5 ⊢ <;> tauto

/-- The same for a state that has a straddle already; the new point lies between the
recorded points. -/
theorem updateStraddle_inv_old {func : ℚ → ℚ → ℚ} {T : ℚ} {s : LoopState} {xnew : ℚ}
    {cv : Bool}
    (hpf : s.foundPosF = true) (hnf : s.foundNegF = true)
    (h4 : 0 < func s.xPosF T)
    (h5a : func s.xNegF T ≤ 0) (h5b : s.converged = false → func s.xNegF T < 0)
    (h6 : s.posStraddle = decide (s.xPosF > s.xNegF))
    (hb : min s.xNegF s.xPosF ≤ xnew ∧ xnew ≤ max s.xNegF s.xPosF)
    (hcv : cv = false → s.converged = false)
    (hz : ¬ func xnew T > 0 → cv = false → func xnew T < 0)
    (hfs : s.foundStraddle = true) :
    ((updateStraddle s xnew (func xnew T)).foundPosF = true ∨
      (updateStraddle s xnew (func xnew T)).foundNegF = true) ∧
    (updateStraddle s xnew (func xnew T)).foundStraddle =
      ((updateStraddle s xnew (func xnew T)).foundPosF &&
        (updateStraddle s xnew (func xnew T)).foundNegF) ∧
    ((updateStraddle s xnew (func xnew T)).foundPosF = true →
      0 < func (updateStraddle s xnew (func xnew T)).xPosF T) ∧
    ((updateStraddle s xnew (func xnew T)).foundNegF = true →
      func (updateStraddle s xnew (func xnew T)).xNegF T ≤ 0 ∧
      (cv = false → func (updateStraddle s xnew (func xnew T)).xNegF T < 0)) ∧
    ((updateStraddle s xnew (func xnew T)).foundStraddle = true →
      (updateStraddle s xnew (func xnew T)).posStraddle =
        decide ((updateStraddle s xnew (func xnew T)).xPosF >
          (updateStraddle s xnew (func xnew T)).xNegF)) ∧
    ((updateStraddle s xnew (func xnew T)).foundStraddle = true →
      (func xnew T > 0 → xnew = (updateStraddle s xnew (func xnew T)).xPosF) ∧
      (¬ func xnew T > 0 → xnew = (updateStraddle s xnew (func xnew T)).xNegF)) := by
  have hle : ¬ func xnew T > 0 → func xnew T ≤ 0 := fun hf => not_lt.mp hf
  have hne : ∀ a b : ℚ, func a T > 0 → func b T ≤ 0 → a ≠ b := by
    intro a b ha hb' e
    rw [e] at ha
    linarith
  unfold updateStraddle
  by_cases hp : s.xPosF > s.xNegF
  · have hpos : s.posStraddle = true := by rw [h6]; exact decide_eq_true hp
    rw [min_eq_left hp.le, max_eq_right hp.le] at hb
    by_cases hf : func xnew T > 0
    · have hlt : s.xNegF < xnew := lt_of_le_of_ne hb.1 (Ne.symm (hne _ _ hf h5a))
      by_cases hx : xnew < s.xPosF <;>
        simp only [hfs, hpos, hf, hx, hpf, hnf, if_true, if_false, Bool.false_eq_true,
          not_false_eq_true, not_true_eq_false] <;>
        simp [hpf, hnf, h4, h5a]
      · exact ⟨fun hc => h5b (hcv hc), hlt⟩
      · exact ⟨fun hc => h5b (hcv hc), hp, le_antisymm hb.2 (not_lt.mp hx)⟩
    · have hlt : xnew < s.xPosF := lt_of_le_of_ne hb.2 (Ne.symm (hne _ _ h4 (hle hf)))
      by_cases hx : xnew > s.xNegF <;>
        simp only [hfs, hpos, hf, hx, hpf, hnf, if_true, if_false, Bool.false_eq_true,
          not_false_eq_true, not_true_eq_false] <;>
        simp [hpf, hnf, h4, h5a]
      · exact ⟨⟨hle hf, fun hc => hz hf hc⟩, hlt⟩
      · exact ⟨fun hc => h5b (hcv hc), hp, le_antisymm (not_lt.mp hx) hb.1⟩
  · have hpos : s.posStraddle = false := by rw [h6]; exact decide_eq_false hp
    have hp' : s.xPosF ≤ s.xNegF := not_lt.mp hp
    rw [min_eq_right hp', max_eq_left hp'] at hb
    by_cases hf : func xnew T > 0
    · have hlt : xnew < s.xNegF := lt_of_le_of_ne hb.2 (hne _ _ hf h5a)
      by_cases hx : xnew > s.xPosF <;>
        simp only [hfs, hpos, hf, hx, hpf, hnf, if_true, if_false, Bool.false_eq_true,
          not_false_eq_true, not_true_eq_false] <;>
        simp [hpf, hnf, h4, h5a]
      · exact ⟨fun hc => h5b (hcv hc), hlt.le⟩
      · exact ⟨fun hc => h5b (hcv hc), hp', le_antisymm (not_lt.mp hx) hb.1⟩
    · have hlt : s.xPosF < xnew := lt_of_le_of_ne hb.1 (hne _ _ h4 (hle hf))
      by_cases hx : xnew < s.xNegF <;>
        simp only [hfs, hpos, hf, hx, hpf, hnf, if_true, if_false, Bool.false_eq_true,
          not_false_eq_true, not_true_eq_false] <;>
        simp [hpf, hnf, h4, h5a]
      · exact ⟨⟨hle hf, fun hc => hz hf hc⟩, hlt.le⟩
      · exact ⟨fun hc => h5b (hcv hc), hp', le_antisymm hb.2 (not_lt.mp hx)⟩

/-- A pass through the loop body keeps `BracketInv`. -/
theorem loopBody_inv {sqrt : ℚ → ℚ} {xmin xmax : ℚ} {func : ℚ → ℚ → ℚ}
    {FuncTargVal fnorm : ℚ} {s t : LoopState}
    (hinv : BracketInv func FuncTargVal s)
    (h : loopBody sqrt xmin xmax func FuncTargVal fnorm s = some t) :
    BracketInv func FuncTargVal t := by
  obtain ⟨retn, xnew, hc, rfl⟩ := loopBody_fields h
  obtain ⟨y, hy⟩ := candidate_straddle hc
  have hmem := fun hs => straddleStep_mem hinv hs y
  rw [← hy] at hmem
  obtain ⟨h1, h2, h3, h4, h5, h6, h7⟩ := hinv
  have hz : ¬ func xnew FuncTargVal > 0 →
      (s.converged || decide (|func xnew FuncTargVal / fnorm| < TOL_CONV)) = false →
      func xnew FuncTargVal < 0 := by
    intro hn hcv
    rcases lt_or_eq_of_le (not_lt.mp hn) with hlt | h0
    · exact hlt
    · rw [h0] at hcv
      simp [TOL_CONV] at hcv
  have hcv : (s.converged || decide (|func xnew FuncTargVal / fnorm| < TOL_CONV)) = false →
      s.converged = false := by
    intro hcv
    cases hsc : s.converged
    · rfl
    · rw [hsc] at hcv; simp at hcv
  cases hfs : s.foundStraddle
  · exact ⟨rfl, updateStraddle_inv_new h2 h3 h4 h5 hcv hz hfs⟩
  · have hfound : s.foundPosF = true ∧ s.foundNegF = true := by
      rw [hfs] at h3
      simpa using h3.symm
    exact ⟨rfl, updateStraddle_inv_old hfound.1 hfound.2 (h4 hfound.1) (h5 hfound.2).1
      (h5 hfound.2).2 (h6 hfs) (hmem hfs) hcv hz hfs⟩

/-- Any number of passes keeps `BracketInv`. -/
theorem passes_inv {sqrt : ℚ → ℚ} {xmin xmax : ℚ} {func : ℚ → ℚ → ℚ}
    {FuncTargVal fnorm : ℚ} {k : Nat} {s u : LoopState}
    (hinv : BracketInv func FuncTargVal s)
    (h : passes sqrt xmin xmax func FuncTargVal fnorm k s = some u) :
    BracketInv func FuncTargVal u := by
  induction k generalizing s with
  | zero =>
    simp only [passes, Option.some.injEq] at h
    subst h
    exact hinv
  | succ k ih =>
    rw [passes_succ_bind] at h
    cases hb : loopBody sqrt xmin xmax func FuncTargVal fnorm s with
    | none => simp [hb] at h
    | some t1 =>
      rw [hb] at h
      exact ih (loopBody_inv hinv hb) h

/-- The loop of a call is entered in a state that satisfies `BracketInv`. -/
theorem startAt_inv (xmin xmax : ℚ) (func : ℚ → ℚ → ℚ) (FuncTargVal xbest : ℚ)
    (h1 : f1At xmin xmax func FuncTargVal xbest ≠ 0)
    (h2 : f2At xmin xmax func FuncTargVal xbest ≠ 0) :
    BracketInv func FuncTargVal (startAt xmin xmax func FuncTargVal xbest) :=
  startState_inv func FuncTargVal _ _ h1 h2

/-- With a straddle, `updateStraddle` moves at most one of the two recorded points, to
the new point, and the interval between them does not grow. -/
theorem updateStraddle_width {s : LoopState} {xnew fnew : ℚ}
    (hfs : s.foundStraddle = true)
    (h6 : s.posStraddle = decide (s.xPosF > s.xNegF))
    (hb : min s.xNegF s.xPosF ≤ xnew ∧ xnew ≤ max s.xNegF s.xPosF) :
    |(updateStraddle s xnew fnew).xPosF - (updateStraddle s xnew fnew).xNegF| ≤
      |s.xPosF - s.xNegF| := by
  unfold updateStraddle
  by_cases hp : s.xPosF > s.xNegF
  · have hpos : s.posStraddle = true := by rw [h6]; exact decide_eq_true hp
    rw [min_eq_left hp.le, max_eq_right hp.le] at hb
    rw [abs_of_pos (sub_pos.mpr hp)]
    simp only [hfs, hpos, if_true]
    split_ifs <;> (try dsimp only) <;> rw [abs_le] <;> constructor <;> linarith
  · have hpos : s.posStraddle = false := by rw [h6]; exact decide_eq_false hp
    have hp' : s.xPosF ≤ s.xNegF := not_lt.mp hp
    rw [min_eq_right hp', max_eq_left hp'] at hb
    rw [abs_of_nonpos (sub_nonpos.mpr hp')]
    simp only [hfs, hpos, if_true, Bool.false_eq_true, if_false]
    split_ifs <;> (try dsimp only) <;> rw [abs_le] <;> constructor <;> linarith

/-! ### The claims -/

/-- C1: when `xmax <= xmin`, `vcsUtil_root1d` returns `VCS_PUB_BAD`, calls `func` not even
once (the list of evaluated points is empty, whatever `func` is) and leaves `*xbest` as
the caller set it. -/
theorem root1d_bad_bounds (sqrt : ℚ → ℚ) (xmin xmax : ℚ) (itmax : Int)
    (func : ℚ → ℚ → ℚ) (FuncTargVal xbest : ℚ) (h : xmax ≤ xmin) :
    vcsUtil_root1d sqrt xmin xmax itmax func FuncTargVal xbest =
      some { retn := VCS_PUB_BAD, xbest := xbest, evals := [], its := 0 } := by
  simp [vcsUtil_root1d, h]

/-- Witness of `root1d_bad_bounds`: the call `solve(xMax = 1, xMin = 2, ...)`. -/
theorem root1d_bad_bounds_witness :
    (1 : ℚ) ≤ 2 ∧
    vcsUtil_root1d Rat.sqrt 2 1 10 (residualOf (linear 1 0)) 0 (3 / 2) =
      some { retn := VCS_PUB_BAD, xbest := 3 / 2, evals := [], its := 0 } :=
  ⟨by norm_num, root1d_bad_bounds Rat.sqrt 2 1 10 (residualOf (linear 1 0)) 0 (3 / 2)
    (by norm_num)⟩

/-- C3: for `xmin < xmax`, a guess inside `[xmin, xmax]` and a residual that is exactly
zero at the guess, `vcsUtil_root1d` returns `VCS_SUCCESS` with `*xbest` equal to the guess
after exactly one call of `func` (at the guess) and no loop iteration. -/
theorem root1d_immediate_match (sqrt : ℚ → ℚ) (xmin xmax : ℚ) (itmax : Int)
    (func : ℚ → ℚ → ℚ) (FuncTargVal guess : ℚ) (hb : xmin < xmax)
    (hlo : xmin ≤ guess) (hhi : guess ≤ xmax) (hf : func guess FuncTargVal = 0) :
    vcsUtil_root1d sqrt xmin xmax itmax func FuncTargVal guess =
      some { retn := VCS_SUCCESS, xbest := guess, evals := [guess], its := 0 } := by
  have hx : firstPoint xmin xmax guess = guess := by
    simp [firstPoint, not_lt.mpr hlo, not_lt.mpr hhi]
  simp [vcsUtil_root1d, not_le.mpr hb, hx, hf]

/-- Witness of `root1d_immediate_match`: `f x = x - 3` on `[0, 10]` with guess `3`. -/
theorem root1d_immediate_match_witness :
    (0 : ℚ) < 10 ∧ (0 : ℚ) ≤ 3 ∧ (3 : ℚ) ≤ 10 ∧ residualOf (linear 1 (-3)) 3 0 = 0 ∧
    vcsUtil_root1d Rat.sqrt 0 10 10 (residualOf (linear 1 (-3))) 0 3 =
      some { retn := VCS_SUCCESS, xbest := 3, evals := [3], its := 0 } :=
  ⟨by norm_num, by norm_num, by norm_num, by norm_num [residualOf, linear],
    root1d_immediate_match Rat.sqrt 0 10 10 (residualOf (linear 1 (-3))) 0 3
      (by norm_num) (by norm_num) (by norm_num) (by norm_num [residualOf, linear])⟩

/-- C4 (the code at the failing input): for `f x = x - 11/10` on `[0, 10]` with guess `1`
the first residual is not zero and the second start-up point `x2 = 11/10` matches the
target exactly; `vcsUtil_root1d` returns `VCS_SUCCESS` after the two calls of `func`, but
`*xbest` still holds the guess `1`, not the matching point `11/10`. -/
theorem root1d_second_match_keeps_guess :
    residualOf (linear 1 (-11 / 10)) (firstPoint 0 10 1) 0 ≠ 0 ∧
    secondPoint 0 10 (firstPoint 0 10 1) = 11 / 10 ∧
    residualOf (linear 1 (-11 / 10)) (11 / 10) 0 = 0 ∧
    vcsUtil_root1d Rat.sqrt 0 10 10 (residualOf (linear 1 (-11 / 10))) 0 1 =
      some { retn := VCS_SUCCESS, xbest := 1, evals := [1, 11 / 10], its := 0 } := by
  have h1 : firstPoint 0 10 1 = 1 := by norm_num [firstPoint]
  have h2 : secondPoint 0 10 1 = 11 / 10 := by norm_num [secondPoint]
  refine ⟨?_, ?_, ?_, ?_⟩
  · rw [h1]; norm_num [residualOf, linear]
  · rw [h1, h2]
  · norm_num [residualOf, linear]
  · simp only [vcsUtil_root1d, h1, h2]
    norm_num [residualOf, linear]

theorem loopBody_of_candidate {sqrt : ℚ → ℚ} {xmin xmax : ℚ} {func : ℚ → ℚ → ℚ}
    {FuncTargVal fnorm : ℚ} {s : LoopState} {retn : Int} {xnew : ℚ}
    (hc : candidate sqrt xmin xmax s = some (retn, xnew)) :
    ∃ t, loopBody sqrt xmin xmax func FuncTargVal fnorm s = some t ∧
      t.x2 = xnew ∧ t.f2 = func xnew FuncTargVal ∧ t.evals = s.evals ++ [xnew] ∧
      t.its = s.its + 1 ∧ t.retn = retn ∧
      t.converged = (s.converged || decide (|func xnew FuncTargVal / fnorm| < TOL_CONV)) := by
  cases hb : loopBody sqrt xmin xmax func FuncTargVal fnorm s with
  | none => simp [loopBody, hc] at hb
  | some t =>
    obtain ⟨retn1, xnew1, hc1, h2, h3, h4, h5, h6, h7⟩ := loopBody_some hb
    rw [hc] at hc1
    simp only [Option.some.injEq, Prod.mk.injEq] at hc1
    obtain ⟨rfl, rfl⟩ := hc1
    exact ⟨t, rfl, h2, h3, h4, h5, h6, h7⟩

theorem doWhile_first_converged {sqrt : ℚ → ℚ} {xmin xmax : ℚ} {func : ℚ → ℚ → ℚ}
    {FuncTargVal fnorm : ℚ} {s t : LoopState} (n : Nat)
    (hb : loopBody sqrt xmin xmax func FuncTargVal fnorm s = some t)
    (hc : t.converged = true) :
    doWhile sqrt xmin xmax func FuncTargVal fnorm n s = some t := by
  cases n with
  | zero => simpa only [doWhile] using hb
  | succ n => simp only [doWhile, hb, hc, if_true]

/-- The straddle clamp leaves alone a candidate that lies between the two start-up points
whenever these have residuals of opposite sign. -/
theorem straddleStep_start (x1 f1 x2 f2 r : ℚ)
    (h : (f1 > 0 ∧ ¬ f2 > 0) ∨ (¬ f1 > 0 ∧ f2 > 0) → min x1 x2 ≤ r ∧ r ≤ max x1 x2) :
    straddleStep (startState x1 f1 x2 f2) r = r := by
  unfold straddleStep startState initState
  by_cases p1 : f1 > 0 <;> by_cases p2 : f2 > 0 <;> simp only [p1, p2, if_true, if_false] <;>
    simp
  · obtain ⟨hlo, hhi⟩ := h (Or.inl ⟨p1, p2⟩)
    rcases le_total x1 x2 with hle | hle
    · rw [min_eq_left hle] at hlo; rw [max_eq_right hle] at hhi
      split_ifs <;> linarith
    · rw [min_eq_right hle] at hlo; rw [max_eq_left hle] at hhi
      split_ifs <;> linarith
  · obtain ⟨hlo, hhi⟩ := h (Or.inr ⟨p1, p2⟩)
    rcases le_total x1 x2 with hle | hle
    · rw [min_eq_left hle] at hlo; rw [max_eq_right hle] at hhi
      split_ifs <;> linarith
    · rw [min_eq_right hle] at hlo; rw [max_eq_left hle] at hhi
      split_ifs <;> linarith

/-- The step-size heuristics leave alone a candidate within reach: between 10% and 90% of
the way between the two last points, or outside of them and no further from `x2` than
twice their distance. -/
theorem stepHeuristics_reach (x1 x2 r : ℚ)
    (h : (((x1 < r ∧ r < x2) ∨ (x2 < r ∧ r < x1)) ∧
            |x2 - x1| / 10 ≤ |r - x1| ∧ |x2 - x1| / 10 ≤ |r - x2|) ∨
          (¬ ((x1 < r ∧ r < x2) ∨ (x2 < r ∧ r < x1)) ∧ |r - x2| ≤ 2 * |x2 - x1|)) :
    stepHeuristics x1 x2 r = r := by
  unfold stepHeuristics
  rcases h with ⟨hbt, h1, h2⟩ | ⟨hnb, h2⟩
  · have hc : (r > x1 ∧ r < x2) ∨ (r < x1 ∧ r > x2) := by
      rcases hbt with ⟨p, q⟩ | ⟨p, q⟩
      · exact Or.inl ⟨p, q⟩
      · exact Or.inr ⟨q, p⟩
    simp only [hc, if_true, not_lt.mpr h1, if_false, not_lt.mpr h2]
  · have hc : ¬ ((r > x1 ∧ r < x2) ∨ (r < x1 ∧ r > x2)) := by
      intro hc
      apply hnb
      rcases hc with ⟨p, q⟩ | ⟨p, q⟩
      · exact Or.inl ⟨p, q⟩
      · exact Or.inr ⟨q, p⟩
    have h3 : ¬ |(2 * |x2 - x1|)| < |r - x2| := by
      rw [abs_of_nonneg (by positivity)]
      exact not_lt.mpr h2
    simp only [hc, if_false, h3]

theorem boundStep_inside (xmin xmax x2 r : ℚ) (hlo : xmin ≤ r) (hhi : r ≤ xmax) :
    boundStep xmin xmax x2 r = r := by
  simp [boundStep, not_lt.mpr hlo, not_lt.mpr hhi]

theorem startState_proj (x1 f1 x2 f2 : ℚ) :
    (startState x1 f1 x2 f2).x1 = x1 ∧ (startState x1 f1 x2 f2).f1 = f1 ∧
    (startState x1 f1 x2 f2).x2 = x2 ∧ (startState x1 f1 x2 f2).f2 = f2 := by
  unfold startState initState
  dsimp only
  split_ifs <;> simp

/-- In exact arithmetic: for `f x = a x + b` with `a ≠ 0`, target `0`, the root `-b/a` and
the guess inside `[xmin, xmax]`, two distinct start-up points neither of which is the
root, and the root within reach of the first secant step (between 10% and 90% of the way
between the start-up points, or outside of them and no further from `x2` than twice their
distance), `vcsUtil_root1d` returns `VCS_SUCCESS` after exactly one loop iteration, for
every `itmax`, with `*xbest` exactly `-b/a`. -/
theorem root1d_linear_one_step (sqrt : ℚ → ℚ) (a b xmin xmax guess : ℚ) (itmax : Int)
    (ha : a ≠ 0) (hb : xmin < xmax)
    (hrlo : xmin ≤ -b / a) (hrhi : -b / a ≤ xmax)
    (hglo : xmin ≤ guess) (hghi : guess ≤ xmax)
    (hx : secondPoint xmin xmax guess ≠ guess)
    (h1 : -b / a ≠ guess) (h2 : -b / a ≠ secondPoint xmin xmax guess)
    (hreach :
      (((guess < -b / a ∧ -b / a < secondPoint xmin xmax guess) ∨
          (secondPoint xmin xmax guess < -b / a ∧ -b / a < guess)) ∧
        |secondPoint xmin xmax guess - guess| / 10 ≤ |-b / a - guess| ∧
        |secondPoint xmin xmax guess - guess| / 10 ≤ |-b / a - secondPoint xmin xmax guess|) ∨
      (¬ ((guess < -b / a ∧ -b / a < secondPoint xmin xmax guess) ∨
          (secondPoint xmin xmax guess < -b / a ∧ -b / a < guess)) ∧
        |-b / a - secondPoint xmin xmax guess| ≤ 2 * |secondPoint xmin xmax guess - guess|)) :
    vcsUtil_root1d sqrt xmin xmax itmax (residualOf (linear a b)) 0 guess =
      some { retn := VCS_SUCCESS, xbest := -b / a,
             evals := [guess, secondPoint xmin xmax guess, -b / a], its := 1 } := by
  have hfp : firstPoint xmin xmax guess = guess := by
    simp [firstPoint, not_lt.mpr hglo, not_lt.mpr hghi]
  have hlin : ∀ x, residualOf (linear a b) x 0 = a * (x - -b / a) := by
    intro x
    simp only [residualOf, linear]
    field_simp
    ring
  have hf1 : f1At xmin xmax (residualOf (linear a b)) 0 guess = a * (guess - -b / a) := by
    rw [f1At, hfp, hlin]
  have hf2 : f2At xmin xmax (residualOf (linear a b)) 0 guess =
      a * (secondPoint xmin xmax guess - -b / a) := by
    rw [f2At, hfp, hlin]
  have hf1ne : f1At xmin xmax (residualOf (linear a b)) 0 guess ≠ 0 := by
    rw [hf1]
    exact mul_ne_zero ha (sub_ne_zero.mpr (Ne.symm h1))
  have hf2ne : f2At xmin xmax (residualOf (linear a b)) 0 guess ≠ 0 := by
    rw [hf2]
    exact mul_ne_zero ha (sub_ne_zero.mpr (Ne.symm h2))
  obtain ⟨hs0, hs1, hs2, hs3⟩ := startState_facts guess
    (f1At xmin xmax (residualOf (linear a b)) 0 guess) (secondPoint xmin xmax guess)
    (f2At xmin xmax (residualOf (linear a b)) 0 guess)
  obtain ⟨hp1, hp2, hp3, hp4⟩ := startState_proj guess
    (f1At xmin xmax (residualOf (linear a b)) 0 guess) (secondPoint xmin xmax guess)
    (f2At xmin xmax (residualOf (linear a b)) 0 guess)
  have hstart : startAt xmin xmax (residualOf (linear a b)) 0 guess =
      startState guess (f1At xmin xmax (residualOf (linear a b)) 0 guess)
        (secondPoint xmin xmax guess) (f2At xmin xmax (residualOf (linear a b)) 0 guess) := by
    rw [startAt, hfp]
  have hdx : secondPoint xmin xmax guess - guess ≠ 0 := sub_ne_zero.mpr hx
  -- the secant estimate is the root
  have hlinstep : linearStep (startAt xmin xmax (residualOf (linear a b)) 0 guess) =
      some (-b / a) := by
    have hslope : (f2At xmin xmax (residualOf (linear a b)) 0 guess -
        f1At xmin xmax (residualOf (linear a b)) 0 guess) /
        (secondPoint xmin xmax guess - guess) = a := by
      rw [hf1, hf2]
      field_simp
      ring
    rw [hstart]
    simp only [linearStep, hp1, hp2, hp3, hp4, fdiv, hdx, if_false, hslope, ha]
    rw [hf2]
    congr 1
    field_simp
  -- no other step moves it
  have hbetween : (f1At xmin xmax (residualOf (linear a b)) 0 guess > 0 ∧
        ¬ f2At xmin xmax (residualOf (linear a b)) 0 guess > 0) ∨
      (¬ f1At xmin xmax (residualOf (linear a b)) 0 guess > 0 ∧
        f2At xmin xmax (residualOf (linear a b)) 0 guess > 0) →
      min guess (secondPoint xmin xmax guess) ≤ -b / a ∧
        -b / a ≤ max guess (secondPoint xmin xmax guess) := by
    rw [hf1, hf2]
    intro hsign
    rcases lt_or_gt_of_ne ha with hneg | hpos
    · rcases hsign with ⟨p, q⟩ | ⟨p, q⟩
      · have p1 : guess - -b / a < 0 := by
          by_contra hcon
          exact absurd p (not_lt.mpr (mul_nonpos_of_nonpos_of_nonneg hneg.le (not_lt.mp hcon)))
        have q1 : 0 ≤ secondPoint xmin xmax guess - -b / a := by
          by_contra hcon
          exact q (mul_pos_of_neg_of_neg hneg (not_le.mp hcon))
        exact ⟨min_le_of_left_le (by linarith), le_max_of_le_right (by linarith)⟩
      · have p1 : 0 ≤ guess - -b / a := by
          by_contra hcon
          exact p (mul_pos_of_neg_of_neg hneg (not_le.mp hcon))
        have q1 : secondPoint xmin xmax guess - -b / a < 0 := by
          by_contra hcon
          exact absurd q (not_lt.mpr (mul_nonpos_of_nonpos_of_nonneg hneg.le (not_lt.mp hcon)))
        exact ⟨min_le_of_right_le (by linarith), le_max_of_le_left (by linarith)⟩
    · rcases hsign with ⟨p, q⟩ | ⟨p, q⟩
      · have p1 : 0 < guess - -b / a := by
          by_contra hcon
          exact absurd p (not_lt.mpr (mul_nonpos_of_nonneg_of_nonpos hpos.le (not_lt.mp hcon)))
        have q1 : secondPoint xmin xmax guess - -b / a ≤ 0 := by
          by_contra hcon
          exact q (mul_pos hpos (not_le.mp hcon))
        exact ⟨min_le_of_right_le (by linarith), le_max_of_le_left (by linarith)⟩
      · have p1 : guess - -b / a ≤ 0 := by
          by_contra hcon
          exact p (mul_pos hpos (not_le.mp hcon))
        have q1 : 0 < secondPoint xmin xmax guess - -b / a := by
          by_contra hcon
          exact absurd q (not_lt.mpr (mul_nonpos_of_nonneg_of_nonpos hpos.le (not_lt.mp hcon)))
        exact ⟨min_le_of_left_le (by linarith), le_max_of_le_right (by linarith)⟩
  have hcand : candidate sqrt xmin xmax (startAt xmin xmax (residualOf (linear a b)) 0 guess) =
      some (0, -b / a) := by
    have hq : quadStep sqrt (startAt xmin xmax (residualOf (linear a b)) 0 guess) (-b / a) =
        some (0, -b / a) := by
      rw [hstart]
      simp [quadStep, hs2, hs1]
    simp only [candidate, hlinstep, hq]
    rw [hstart, hp1, hp3, stepHeuristics_reach _ _ _ hreach,
      boundStep_inside _ _ _ _ hrlo hrhi, straddleStep_start _ _ _ _ _ hbetween]
  obtain ⟨t, hbody, tx2, tf2, tev, tits, tretn, tconv⟩ :=
    @loopBody_of_candidate sqrt xmin xmax (residualOf (linear a b)) 0
      (fnormAt xmin xmax (residualOf (linear a b)) 0 guess) _ _ _ hcand
  have hzero : residualOf (linear a b) (-b / a) 0 = 0 := by rw [hlin]; ring
  have tconv1 : t.converged = true := by
    rw [tconv, hzero]
    simp [TOL_CONV]
  rw [root1d_loop sqrt xmin xmax itmax _ 0 guess hb hf1ne hf2ne,
    doWhile_first_converged _ hbody tconv1]
  rw [hstart, hs3] at tev
  rw [hstart, hs2] at tits
  simp [tconv1, tretn, tx2, tev, tits, VCS_SUCCESS]

/-- Witness of `root1d_linear_one_step`: `f x = x - 6/5` on `[0, 10]` with guess `1`; the
start-up points are `1` and `11/10`, and the root `6/5` lies `1/10` beyond `x2`. -/
theorem root1d_linear_one_step_witness :
    (1 : ℚ) ≠ 0 ∧ (0 : ℚ) < 10 ∧ (0 : ℚ) ≤ -(-6 / 5) / 1 ∧ -(-6 / 5) / 1 ≤ (10 : ℚ) ∧
    vcsUtil_root1d Rat.sqrt 0 10 5 (residualOf (linear 1 (-6 / 5))) 0 1 =
      some { retn := VCS_SUCCESS, xbest := -(-6 / 5) / 1,
             evals := [1, secondPoint 0 10 1, -(-6 / 5) / 1], its := 1 } :=
  ⟨by decide!, by decide!, by decide!, by decide!,
    root1d_linear_one_step Rat.sqrt 1 (-6 / 5) 0 10 1 5 (by decide!) (by decide!)
      (by decide!) (by decide!) (by decide!) (by decide!) (by decide!) (by decide!)
      (by decide!) (by decide!)⟩

/-- C8 (counterexample): `f x = x - 100` on `[0, 1000]` with guess `1`, target `0` and
`itmax = 5`.  The first secant step asks for the root `100`, but the step is cut to twice
the distance of the start-up points and `func` is called at `13/10`; in the second
iteration the three points are collinear, the fitted quadratic has leading coefficient
zero and the root formula divides by zero.  The call does not return `VCS_SUCCESS`. -/
theorem root1d_linear_not_five_steps :
    (1 : ℚ) ≠ 0 ∧ (0 : ℚ) ≤ -(-100) / 1 ∧ -(-100) / 1 ≤ (1000 : ℚ) ∧
    (passes Rat.sqrt 0 1000 (residualOf (linear 1 (-100))) 0
        (fnormAt 0 1000 (residualOf (linear 1 (-100))) 0 1) 1
        (startAt 0 1000 (residualOf (linear 1 (-100))) 0 1)).map (fun u => (u.x2, u.converged))
      = some (13 / 10, false) ∧
    vcsUtil_root1d Rat.sqrt 0 1000 5 (residualOf (linear 1 (-100))) 0 1 = none ∧
    ¬ ∃ r, vcsUtil_root1d Rat.sqrt 0 1000 5 (residualOf (linear 1 (-100))) 0 1 = some r ∧
        r.retn = VCS_SUCCESS ∧ r.its ≤ 5 := by
  have h : vcsUtil_root1d Rat.sqrt 0 1000 5 (residualOf (linear 1 (-100))) 0 1 = none := by
    decide!
  refine ⟨by decide!, by decide!, by decide!, by decide!, h, ?_⟩
  rintro ⟨r, hr, -⟩
  rw [h] at hr
  cases hr

/-- As long as no pass through the loop body divides by zero: in every state of the loop
in which `foundStraddle` is set (the state after any number of passes, and so also the
state with which the loop ends), the residual at the recorded `xPosF` is positive and the
residual at the recorded `xNegF` is not positive; it is negative unless `converged` is
set, that is unless the point was recorded in the iteration that converged. -/
theorem root1d_bracket_signs (sqrt : ℚ → ℚ) (xmin xmax : ℚ) (func : ℚ → ℚ → ℚ)
    (FuncTargVal xbest : ℚ)
    (h1 : func (firstPoint xmin xmax xbest) FuncTargVal ≠ 0)
    (h2 : func (secondPoint xmin xmax (firstPoint xmin xmax xbest)) FuncTargVal ≠ 0) :
    (∀ k u, passes sqrt xmin xmax func FuncTargVal (fnormAt xmin xmax func FuncTargVal xbest) k
        (startAt xmin xmax func FuncTargVal xbest) = some u → u.foundStraddle = true →
      0 < func u.xPosF FuncTargVal ∧ func u.xNegF FuncTargVal ≤ 0 ∧
        (u.converged = false → func u.xNegF FuncTargVal < 0)) ∧
    (∀ n t, doWhile sqrt xmin xmax func FuncTargVal (fnormAt xmin xmax func FuncTargVal xbest) n
        (startAt xmin xmax func FuncTargVal xbest) = some t → t.foundStraddle = true →
      0 < func t.xPosF FuncTargVal ∧ func t.xNegF FuncTargVal ≤ 0 ∧
        (t.converged = false → func t.xNegF FuncTargVal < 0)) := by
  have hstart := startAt_inv xmin xmax func FuncTargVal xbest h1 h2
  have key : ∀ k u, passes sqrt xmin xmax func FuncTargVal
      (fnormAt xmin xmax func FuncTargVal xbest) k
      (startAt xmin xmax func FuncTargVal xbest) = some u → u.foundStraddle = true →
      0 < func u.xPosF FuncTargVal ∧ func u.xNegF FuncTargVal ≤ 0 ∧
        (u.converged = false → func u.xNegF FuncTargVal < 0) := by
    intro k u hu hs
    obtain ⟨-, -, h3, h4, h5, -, -⟩ := passes_inv hstart hu
    rw [hs] at h3
    have hfound : u.foundPosF = true ∧ u.foundNegF = true := by simpa using h3.symm
    exact ⟨h4 hfound.1, (h5 hfound.2).1, (h5 hfound.2).2⟩
  refine ⟨key, ?_⟩
  intro n t ht hs
  obtain ⟨k, -, -, hk⟩ := doWhile_passes ht
  exact key k t hk hs

/-- Witness of `root1d_bracket_signs`: `f x = x - 26/25` on `[0, 10]` with guess `1`.  The
two start-up points `1` and `11/10` straddle the root, so the statement speaks about every
state of the loop. -/
theorem root1d_bracket_signs_witness :
    residualOf (linear 1 (-26 / 25)) (firstPoint 0 10 1) 0 ≠ 0 ∧
    residualOf (linear 1 (-26 / 25)) (secondPoint 0 10 (firstPoint 0 10 1)) 0 ≠ 0 ∧
    (startAt 0 10 (residualOf (linear 1 (-26 / 25))) 0 1).foundStraddle = true ∧
    ((∀ k u, passes Rat.sqrt 0 10 (residualOf (linear 1 (-26 / 25))) 0
        (fnormAt 0 10 (residualOf (linear 1 (-26 / 25))) 0 1) k
        (startAt 0 10 (residualOf (linear 1 (-26 / 25))) 0 1) = some u →
        u.foundStraddle = true →
        0 < residualOf (linear 1 (-26 / 25)) u.xPosF 0 ∧
        residualOf (linear 1 (-26 / 25)) u.xNegF 0 ≤ 0 ∧
          (u.converged = false → residualOf (linear 1 (-26 / 25)) u.xNegF 0 < 0)) ∧
     (∀ n t, doWhile Rat.sqrt 0 10 (residualOf (linear 1 (-26 / 25))) 0
        (fnormAt 0 10 (residualOf (linear 1 (-26 / 25))) 0 1) n
        (startAt 0 10 (residualOf (linear 1 (-26 / 25))) 0 1) = some t →
        t.foundStraddle = true →
        0 < residualOf (linear 1 (-26 / 25)) t.xPosF 0 ∧
        residualOf (linear 1 (-26 / 25)) t.xNegF 0 ≤ 0 ∧
          (t.converged = false → residualOf (linear 1 (-26 / 25)) t.xNegF 0 < 0))) :=
  ⟨by decide!, by decide!, by decide!,
    root1d_bracket_signs Rat.sqrt 0 10 (residualOf (linear 1 (-26 / 25))) 0 1
      (by decide!) (by decide!)⟩

/-- In a loop iteration that starts with `foundStraddle` set and divides by no zero, the
point at which `func` is called lies in the closed interval between the recorded `xNegF`
and `xPosF`, and the distance `|xPosF - xNegF|` of the recorded points after the
iteration is not larger than before. -/
theorem root1d_straddle_kept (sqrt : ℚ → ℚ) (xmin xmax : ℚ) (func : ℚ → ℚ → ℚ)
    (FuncTargVal xbest : ℚ)
    (h1 : func (firstPoint xmin xmax xbest) FuncTargVal ≠ 0)
    (h2 : func (secondPoint xmin xmax (firstPoint xmin xmax xbest)) FuncTargVal ≠ 0)
    (k : Nat) (s t : LoopState)
    (hs : passes sqrt xmin xmax func FuncTargVal (fnormAt xmin xmax func FuncTargVal xbest) k
      (startAt xmin xmax func FuncTargVal xbest) = some s)
    (hst : s.foundStraddle = true)
    (ht : loopBody sqrt xmin xmax func FuncTargVal (fnormAt xmin xmax func FuncTargVal xbest) s
      = some t) :
    t.evals = s.evals ++ [t.x2] ∧
    min s.xNegF s.xPosF ≤ t.x2 ∧ t.x2 ≤ max s.xNegF s.xPosF ∧
    |t.xPosF - t.xNegF| ≤ |s.xPosF - s.xNegF| := by
  have hinv := passes_inv (startAt_inv xmin xmax func FuncTargVal xbest h1 h2) hs
  obtain ⟨retn, xnew, hc, rfl⟩ := loopBody_fields ht
  obtain ⟨y, hy⟩ := candidate_straddle hc
  have hmem := straddleStep_mem hinv hst y
  rw [← hy] at hmem
  obtain ⟨-, -, -, -, -, h6, -⟩ := hinv
  exact ⟨rfl, hmem.1, hmem.2, updateStraddle_width hst (h6 hst) hmem⟩

/-- Witness of `root1d_straddle_kept`: `f x = x - 26/25` on `[0, 10]` with guess `1`; the
first loop iteration calls `func` at `26/25`, between the recorded points `1` and `11/10`,
and the recorded points are `26/25` and `11/10` afterwards. -/
theorem root1d_straddle_kept_witness :
    (startAt 0 10 (residualOf (linear 1 (-26 / 25))) 0 1).foundStraddle = true ∧
    ([1, 11 / 10, 26 / 25] : List ℚ) =
      (startAt 0 10 (residualOf (linear 1 (-26 / 25))) 0 1).evals ++ [26 / 25] ∧
    min (startAt 0 10 (residualOf (linear 1 (-26 / 25))) 0 1).xNegF
      (startAt 0 10 (residualOf (linear 1 (-26 / 25))) 0 1).xPosF ≤ 26 / 25 ∧
    26 / 25 ≤ max (startAt 0 10 (residualOf (linear 1 (-26 / 25))) 0 1).xNegF
      (startAt 0 10 (residualOf (linear 1 (-26 / 25))) 0 1).xPosF ∧
    |(11 / 10 : ℚ) - 26 / 25| ≤
      |(startAt 0 10 (residualOf (linear 1 (-26 / 25))) 0 1).xPosF -
        (startAt 0 10 (residualOf (linear 1 (-26 / 25))) 0 1).xNegF| :=
  ⟨by decide!,
    root1d_straddle_kept Rat.sqrt 0 10 (residualOf (linear 1 (-26 / 25))) 0 1
      (by decide!) (by decide!) 0 (startAt 0 10 (residualOf (linear 1 (-26 / 25))) 0 1)
      { x0 := 1, f0 := -1 / 25, x1 := 11 / 10, f1 := 3 / 50, x2 := 26 / 25, f2 := 0,
        its := 1, retn := 0, foundPosF := true, foundNegF := true, foundStraddle := true,
        posStraddle := true, xPosF := 11 / 10, xNegF := 26 / 25, converged := true,
        evals := [1, 11 / 10, 26 / 25] }
      rfl (by decide!) (by decide!)⟩

/-- A pass through the loop body appends to the trace of calls. -/
theorem passes_evals_head {sqrt : ℚ → ℚ} {xmin xmax : ℚ} {func : ℚ → ℚ → ℚ}
    {FuncTargVal fnorm : ℚ} {k : Nat} {s t : LoopState} {x : ℚ}
    (hs : s.evals.head? = some x)
    (h : passes sqrt xmin xmax func FuncTargVal fnorm k s = some t) :
    t.evals.head? = some x := by
  induction k generalizing s with
  | zero =>
    simp only [passes, Option.some.injEq] at h
    subst h
    exact hs
  | succ k ih =>
    simp only [passes] at h
    cases hb : loopBody sqrt xmin xmax func FuncTargVal fnorm s with
    | none => simp [hb] at h
    | some u =>
      simp only [hb] at h
      obtain ⟨retn, xnew, -, hu⟩ := loopBody_fields hb
      have hue : u.evals = s.evals ++ [xnew] := by rw [hu]
      refine ih ?_ h
      rw [hue]
      cases hse : s.evals with
      | nil => rw [hse] at hs; simp at hs
      | cons a l => rw [hse] at hs; simpa using hs

/-- The first point at which a call evaluates `func` is `firstPoint`. -/
theorem root1d_evals_head (sqrt : ℚ → ℚ) (xmin xmax : ℚ) (itmax : Int) (func : ℚ → ℚ → ℚ)
    (FuncTargVal xbest : ℚ) (hb : xmin < xmax) {r : Root1dResult}
    (h : vcsUtil_root1d sqrt xmin xmax itmax func FuncTargVal xbest = some r) :
    r.evals.head? = some (firstPoint xmin xmax xbest) := by
  by_cases h1 : f1At xmin xmax func FuncTargVal xbest = 0
  · unfold f1At at h1
    simp only [vcsUtil_root1d, not_le.mpr hb, if_false, h1, if_true, Option.some.injEq] at h
    subst h
    rfl
  · by_cases h2 : f2At xmin xmax func FuncTargVal xbest = 0
    · unfold f1At at h1
      unfold f2At at h2
      simp only [vcsUtil_root1d, not_le.mpr hb, if_false, h1, h2, if_true,
        Option.some.injEq] at h
      subst h
      rfl
    · rw [root1d_loop sqrt xmin xmax itmax func FuncTargVal xbest hb h1 h2] at h
      cases hd : doWhile sqrt xmin xmax func FuncTargVal
          (fnormAt xmin xmax func FuncTargVal xbest) (itmax.toNat - 1)
          (startAt xmin xmax func FuncTargVal xbest) with
      | none => simp [hd] at h
      | some t =>
        simp only [hd, Option.map_some', Option.some.injEq] at h
        subst h
        obtain ⟨k, -, -, hk⟩ := doWhile_passes hd
        refine passes_evals_head ?_ hk
        unfold startAt
        rw [(startState_facts _ _ _ _).2.2.2]
        rfl

/-- C16 (counterexample): `f x = x - 5` on `[0, 10]` with the guesses `20` and `-3`, both
outside the interval.  Either call evaluates `func` first (and only) at the midpoint `5`
of the interval, not at the bound `10` or `0` next to the guess. -/
theorem root1d_guess_not_clamped :
    (0 : ℚ) < 10 ∧ (20 : ℚ) > 10 ∧ (-3 : ℚ) < 0 ∧
    vcsUtil_root1d Rat.sqrt 0 10 20 (residualOf (linear 1 (-5))) 0 20 =
      some { retn := VCS_SUCCESS, xbest := 5, evals := [5], its := 0 } ∧
    vcsUtil_root1d Rat.sqrt 0 10 20 (residualOf (linear 1 (-5))) 0 (-3) =
      some { retn := VCS_SUCCESS, xbest := 5, evals := [5], its := 0 } ∧
    ([5] : List ℚ).head? ≠ some 10 ∧ ([5] : List ℚ).head? ≠ some 0 :=
  ⟨by decide!, by decide!, by decide!, by decide!, by decide!, by decide!, by decide!⟩

/-- C16 (amended): for `xmin < xmax` and a guess `*xbest` outside `[xmin, xmax]`, the first
point is the midpoint `(xmin + xmax) / 2` of the interval, which lies strictly inside, and
it is the first point at which a call that returns has evaluated `func`. -/
theorem root1d_guess_replaced_by_midpoint (sqrt : ℚ → ℚ) (xmin xmax : ℚ) (itmax : Int)
    (func : ℚ → ℚ → ℚ) (FuncTargVal xbest : ℚ) (hb : xmin < xmax)
    (hg : xbest < xmin ∨ xbest > xmax) :
    firstPoint xmin xmax xbest = (xmin + xmax) / 2 ∧
    xmin < firstPoint xmin xmax xbest ∧ firstPoint xmin xmax xbest < xmax ∧
    ∀ r, vcsUtil_root1d sqrt xmin xmax itmax func FuncTargVal xbest = some r →
      r.evals.head? = some ((xmin + xmax) / 2) := by
  have hf : firstPoint xmin xmax xbest = (xmin + xmax) / 2 := by
    unfold firstPoint
    simp only [hg, if_true]
  refine ⟨hf, by rw [hf]; linarith, by rw [hf]; linarith, ?_⟩
  intro r hr
  rw [← hf]
  exact root1d_evals_head sqrt xmin xmax itmax func FuncTargVal xbest hb hr

/-- Witness of `root1d_guess_replaced_by_midpoint`: the interval `[0, 10]` with the guess
`20` and `f x = x - 6`, for which the call goes through a loop iteration. -/
theorem root1d_guess_replaced_by_midpoint_witness :
    vcsUtil_root1d Rat.sqrt 0 10 20 (residualOf (linear 1 (-6))) 0 20 =
      some { retn := VCS_SUCCESS, xbest := 6, evals := [5, 11 / 2, 6], its := 1 } ∧
    firstPoint 0 10 20 = (0 + 10) / 2 ∧
    (0 : ℚ) < firstPoint 0 10 20 ∧ firstPoint 0 10 20 < 10 ∧
    ∀ r, vcsUtil_root1d Rat.sqrt 0 10 20 (residualOf (linear 1 (-6))) 0 20 = some r →
      r.evals.head? = some ((0 + 10) / 2) :=
  ⟨by decide!,
    root1d_guess_replaced_by_midpoint Rat.sqrt 0 10 20 (residualOf (linear 1 (-6))) 0 20
      (by decide!) (Or.inr (by decide!))⟩

/-- C17 (failing input): `f x = x - 1/2` on `[-1, 1]` with guess `-1`, target `0` and
`itmax = 1`.  The second start-up point is `1.1 * (-1) = -11/10`; it is not greater than
`xmax`, so it is kept, and `func` is called at it although it lies below `xmin = -1`. -/
theorem root1d_second_point_below_xmin :
    (-1 : ℚ) < 1 ∧ (-1 : ℚ) ≤ -1 ∧ (-1 : ℚ) ≤ 1 ∧
    firstPoint (-1) 1 (-1) = -1 ∧
    secondPoint (-1) 1 (firstPoint (-1) 1 (-1)) = -11 / 10 ∧
    vcsUtil_root1d Rat.sqrt (-1) 1 1 (residualOf (linear 1 (-1 / 2))) 0 (-1) =
      some { retn := VCS_FAILED_CONVERGENCE, xbest := -9 / 10,
             evals := [-1, -11 / 10, -9 / 10], its := 1 } ∧
    (-11 / 10 : ℚ) ∈ ([-1, -11 / 10, -9 / 10] : List ℚ) ∧
    ¬ ((-1 : ℚ) ≤ -11 / 10 ∧ (-11 / 10 : ℚ) ≤ 1) :=
  ⟨by decide!, by decide!, by decide!, by decide!, by decide!, by decide!, by decide!,
    by decide!⟩

/-- C18 (failing input): `f = shelf` on `[-448, 52]` with guess `48` and target `0`.  The
points of the call are `48, 43, 52, 43, 40`: the third loop iteration starts with
`x0 = x2 = 43`, its quadratic fit is singular and leaves `retn = 1`, and its point `40` has
the residual `0`, so the loop ends converged.  The call returns `1`, which is neither
`VCS_SUCCESS` nor `VCS_FAILED_CONVERGENCE`. -/
theorem root1d_singular_fit_returns_one :
    (-448 : ℚ) < 52 ∧
    (passes Rat.sqrt (-448) 52 (residualOf shelf) 0
        (fnormAt (-448) 52 (residualOf shelf) 0 48) 2
        (startAt (-448) 52 (residualOf shelf) 0 48)).map
      (fun s => ((s.x0, s.x1, s.x2), (s.f0, s.f1, s.f2), s.retn, s.converged)) =
      some ((43, 52, 43), (9, 36, 9), VCS_SUCCESS, false) ∧
    vcsUtil_mlequ 43 52 43 9 36 9 = none ∧
    vcsUtil_root1d Rat.sqrt (-448) 52 10 (residualOf shelf) 0 48 =
      some { retn := 1, xbest := 40, evals := [48, 43, 52, 43, 40], its := 3 } ∧
    residualOf shelf 40 0 = 0 ∧
    (1 : Int) ≠ VCS_SUCCESS ∧ (1 : Int) ≠ VCS_FAILED_CONVERGENCE :=
  ⟨by decide!, by decide!, by decide!, by decide!, by decide!, by decide!, by decide!⟩

/-- C24 (failing input): `f x = x + 10` on `[1, 10]` with guess `1`, target `0` and
`itmax = 1`.  The start-up points are `x1 = 1` and `x2 = 11/10`; the secant step asks for
`-10` and the step heuristics cut it to `x2 - 2 |x2 - x1| = 9/10`, which is less than
`xmin = 1`.  The fallback then sets `x2 + (x2 - xmin) / 2 = 23/20`, not the midpoint
`(x2 + xmin) / 2 = 21/20` of the last iterate and `xmin`, and `func` is called at `23/20`.
For every candidate below `xmin` (and not above `xmax`) the fallback is
`x2 + (x2 - xmin) / 2`. -/
theorem root1d_lower_fallback_not_midpoint :
    (∀ xmin xmax x2 xnew : ℚ, xnew ≤ xmax → xnew < xmin →
      boundStep xmin xmax x2 xnew = x2 + (x2 - xmin) / 2) ∧
    (1 : ℚ) < 10 ∧
    (startAt 1 10 (residualOf (linear 1 10)) 0 1).x1 = 1 ∧
    (startAt 1 10 (residualOf (linear 1 10)) 0 1).x2 = 11 / 10 ∧
    linearStep (startAt 1 10 (residualOf (linear 1 10)) 0 1) = some (-10) ∧
    stepHeuristics 1 (11 / 10) (-10) = 9 / 10 ∧ (9 / 10 : ℚ) < 1 ∧
    boundStep 1 10 (11 / 10) (9 / 10) = 23 / 20 ∧
    (23 / 20 : ℚ) ≠ (11 / 10 + 1) / 2 ∧
    vcsUtil_root1d Rat.sqrt 1 10 1 (residualOf (linear 1 10)) 0 1 =
      some { retn := VCS_FAILED_CONVERGENCE, xbest := 23 / 20,
             evals := [1, 11 / 10, 23 / 20], its := 1 } := by
  refine ⟨?_, by decide!, by decide!, by decide!, by decide!, by decide!, by decide!,
    by decide!, by decide!, by decide!⟩
  intro xmin xmax x2 xnew h1 h2
  simp [boundStep, not_lt.mpr h1, h2]

/-- C27 (failing input): `f x = x - 1/2` on `[-1, 1]` with guess `0` and target `0`.  The
first point is `x1 = 0` and the second `x2 = 1.1 * 0 = 0`; neither residual is zero, the
loop is entered, and the first statement of its body divides `f2 - f1 = 0` by
`x2 - x1 = 0`. -/
theorem root1d_secant_divides_by_zero :
    (-1 : ℚ) < 1 ∧ (-1 : ℚ) ≤ 0 ∧ (0 : ℚ) ≤ 1 ∧
    firstPoint (-1) 1 0 = 0 ∧ secondPoint (-1) 1 (firstPoint (-1) 1 0) = 0 ∧
    residualOf (linear 1 (-1 / 2)) (firstPoint (-1) 1 0) 0 ≠ 0 ∧
    residualOf (linear 1 (-1 / 2)) (secondPoint (-1) 1 (firstPoint (-1) 1 0)) 0 ≠ 0 ∧
    (startAt (-1) 1 (residualOf (linear 1 (-1 / 2))) 0 0).x2 =
      (startAt (-1) 1 (residualOf (linear 1 (-1 / 2))) 0 0).x1 ∧
    linearStep (startAt (-1) 1 (residualOf (linear 1 (-1 / 2))) 0 0) = none ∧
    vcsUtil_root1d Rat.sqrt (-1) 1 10 (residualOf (linear 1 (-1 / 2))) 0 0 = none :=
  ⟨by decide!, by decide!, by decide!, by decide!, by decide!, by decide!, by decide!,
    by decide!, by decide!, by decide!⟩

/-- C28 (failing input): `f x = 2 x - 7` on `[0, 10]` with guess `1` and target `0`.  The
second loop iteration fits the quadratic through the collinear points `(1, -5)`,
`(11/10, -24/5)`, `(13/10, -22/5)`: the fit is not singular, its coefficients are `-7`,
`2` and the leading coefficient `0`, the discriminant is `4`, and the root formula
divides by `2 * 0`. -/
theorem root1d_root_formula_divides_by_zero :
    (0 : ℚ) < 10 ∧
    (passes Rat.sqrt 0 10 (residualOf (linear 2 (-7))) 0
        (fnormAt 0 10 (residualOf (linear 2 (-7))) 0 1) 1
        (startAt 0 10 (residualOf (linear 2 (-7))) 0 1)).map
      (fun s => ((s.x0, s.x1, s.x2), (s.f0, s.f1, s.f2), s.its, s.converged)) =
      some ((1, 11 / 10, 13 / 10), (-5, -24 / 5, -22 / 5), 1, false) ∧
    vcsUtil_mlequ 1 (11 / 10) (13 / 10) (-5) (-24 / 5) (-22 / 5) = some (-7, 2, 0) ∧
    (2 : ℚ) * 2 - 4 * (-7) * 0 ≥ 0 ∧
    fdiv (-2 + Rat.sqrt (2 * 2 - 4 * (-7) * 0)) (2 * 0) = none ∧
    (passes Rat.sqrt 0 10 (residualOf (linear 2 (-7))) 0
        (fnormAt 0 10 (residualOf (linear 2 (-7))) 0 1) 1
        (startAt 0 10 (residualOf (linear 2 (-7))) 0 1)).bind (quadRoots Rat.sqrt) = none ∧
    vcsUtil_root1d Rat.sqrt 0 10 10 (residualOf (linear 2 (-7))) 0 1 = none :=
  ⟨by decide!, by decide!, by decide!, by decide!, by decide!, by decide!, by decide!⟩

/-- The quadratic step of an iteration in terms of the roots of `quadRoots`. -/
theorem quadStep_quadRoots {sqrt : ℚ → ℚ} {s : LoopState} {xn1 xn2 xq : ℚ} (xnew : ℚ)
    (hi : s.its > 0) (h : quadRoots sqrt s = some (xn1, xn2, xq)) :
    quadStep sqrt s xnew =
      (fdiv |xq - xnew| |xnew - s.x2|).map
        (fun theta0 => ((0 : Int), MIN 1 theta0 * xnew + (1 - MIN 1 theta0) * xq)) := by
  unfold quadRoots at h
  unfold quadStep
  simp only [hi, if_true]
  cases hm : vcsUtil_mlequ s.x0 s.x1 s.x2 s.f0 s.f1 s.f2 with
  | none => simp [hm] at h
  | some cba =>
    obtain ⟨c, b, a⟩ := cba
    simp only [hm] at h ⊢
    by_cases hr : b * b - 4 * c * a ≥ 0
    · simp only [hr, if_true] at h ⊢
      cases h1 : fdiv (-b + sqrt (b * b - 4 * c * a)) (2 * a) with
      | none => simp [h1] at h
      | some y1 =>
        cases h2 : fdiv (-b - sqrt (b * b - 4 * c * a)) (2 * a) with
        | none => simp [h1, h2] at h
        | some y2 =>
          simp only [h1, h2, Option.some.injEq, Prod.mk.injEq] at h ⊢
          obtain ⟨rfl, rfl, rfl⟩ := h
          cases fdiv |(if |y2 - s.x2| < |y1 - s.x2| ∧ y2 > 0 then y2 else y1) - xnew|
            |xnew - s.x2| <;> rfl
    · simp [hr] at h

/-- C26 (counterexample): `f = twoRootsLeft` on `[-10, 0]` with guess `-1` and target
`0`.  The second loop iteration starts at `x2 = -109/100`; the fitted quadratic has the
roots `xn1 = -21/20` and `xn2 = -89/80`.  The root `xn2` is the nearer one to `x2`, but it
is not positive, and `xn1` is kept as `xquad`. -/
theorem root1d_far_root_chosen :
    (-10 : ℚ) < 0 ∧
    (passes Rat.sqrt (-10) 0 (residualOf twoRootsLeft) 0
        (fnormAt (-10) 0 (residualOf twoRootsLeft) 0 (-1)) 1
        (startAt (-10) 0 (residualOf twoRootsLeft) 0 (-1))).map
      (fun s => (s.x2, s.its, s.converged)) = some (-109 / 100, 1, false) ∧
    (passes Rat.sqrt (-10) 0 (residualOf twoRootsLeft) 0
        (fnormAt (-10) 0 (residualOf twoRootsLeft) 0 (-1)) 1
        (startAt (-10) 0 (residualOf twoRootsLeft) 0 (-1))).bind (quadRoots Rat.sqrt) =
      some (-21 / 20, -89 / 80, -21 / 20) ∧
    |(-89 / 80 : ℚ) - -109 / 100| < |(-21 / 20 : ℚ) - -109 / 100| ∧
    ¬ |(-21 / 20 : ℚ) - -109 / 100| ≤ |(-89 / 80 : ℚ) - -109 / 100| :=
  ⟨by decide!, by decide!, by decide!, by decide!, by decide!⟩

/-- The root that `quadRoots` keeps, by the test of lines 257-258. -/
theorem quadRoots_choice {sqrt : ℚ → ℚ} {s : LoopState} {xn1 xn2 xq : ℚ}
    (h : quadRoots sqrt s = some (xn1, xn2, xq)) :
    xq = if |xn2 - s.x2| < |xn1 - s.x2| ∧ xn2 > 0 then xn2 else xn1 := by
  unfold quadRoots at h
  cases hm : vcsUtil_mlequ s.x0 s.x1 s.x2 s.f0 s.f1 s.f2 with
  | none => simp [hm] at h
  | some cba =>
    obtain ⟨c, b, a⟩ := cba
    simp only [hm] at h
    by_cases hr : b * b - 4 * c * a ≥ 0
    · simp only [hr, if_true] at h
      cases h1 : fdiv (-b + sqrt (b * b - 4 * c * a)) (2 * a) with
      | none => simp [h1] at h
      | some y1 =>
        cases h2 : fdiv (-b - sqrt (b * b - 4 * c * a)) (2 * a) with
        | none => simp [h1, h2] at h
        | some y2 =>
          simp only [h1, h2, Option.some.injEq, Prod.mk.injEq] at h
          obtain ⟨rfl, rfl, rfl⟩ := h
          rfl
    · simp [hr] at h

/-- C26 (amended): when the two roots `xn1 = (-b + sqrt(root)) / (2a)` and
`xn2 = (-b - sqrt(root)) / (2a)` of a fit are computed, the root kept as `xquad` is one of
them; it is a root nearest to `x2` whenever `xn2` is positive; and it is `xn1`, whatever
the distances, when `xn2` is zero or negative.  In an iteration after the first this
`xquad` is the one that is blended with the secant estimate. -/
theorem root1d_root_choice (sqrt : ℚ → ℚ) (s : LoopState) (xn1 xn2 xq : ℚ)
    (h : quadRoots sqrt s = some (xn1, xn2, xq)) :
    (xq = xn1 ∨ xq = xn2) ∧
    (xn2 > 0 → |xq - s.x2| ≤ |xn1 - s.x2| ∧ |xq - s.x2| ≤ |xn2 - s.x2|) ∧
    (xn2 ≤ 0 → xq = xn1) ∧
    (s.its > 0 → ∀ xnew, quadStep sqrt s xnew =
      (fdiv |xq - xnew| |xnew - s.x2|).map
        (fun theta0 => ((0 : Int), MIN 1 theta0 * xnew + (1 - MIN 1 theta0) * xq))) := by
  have hq := quadRoots_choice h
  refine ⟨?_, ?_, ?_, fun hi xnew => quadStep_quadRoots xnew hi h⟩
  · by_cases hc : |xn2 - s.x2| < |xn1 - s.x2| ∧ xn2 > 0
    · rw [if_pos hc] at hq
      exact Or.inr hq
    · rw [if_neg hc] at hq
      exact Or.inl hq
  · intro h0
    by_cases hc : |xn2 - s.x2| < |xn1 - s.x2| ∧ xn2 > 0
    · rw [if_pos hc] at hq
      rw [hq]
      exact ⟨hc.1.le, le_refl _⟩
    · rw [if_neg hc] at hq
      rw [hq]
      exact ⟨le_refl _, not_lt.mp (fun hlt => hc ⟨hlt, h0⟩)⟩
  · intro h0
    have hc : ¬ (|xn2 - s.x2| < |xn1 - s.x2| ∧ xn2 > 0) := fun hc => not_lt.mpr h0 hc.2
    rw [if_neg hc] at hq
    exact hq

/-- Witness of `root1d_root_choice`: the second loop iteration for `f = twoRoots` on
`[0, 10]` with guess `1`, where both roots are positive and `xn1 = 89/80` is the nearer
one to `x2 = 109/100`. -/
theorem root1d_root_choice_witness :
    (passes Rat.sqrt 0 10 (residualOf twoRoots) 0 (fnormAt 0 10 (residualOf twoRoots) 0 1) 1
      (startAt 0 10 (residualOf twoRoots) 0 1)) =
      some { x0 := 1, f0 := 9 / 100, x1 := 11 / 10, f1 := -1 / 100, x2 := 109 / 100,
             f2 := -9 / 625, its := 1, retn := 0, foundPosF := true, foundNegF := true,
             foundStraddle := true, posStraddle := false, xPosF := 1,
             xNegF := 109 / 100, converged := false,
             evals := [1, 11 / 10, 109 / 100] } ∧
    ((89 / 80 : ℚ) = 89 / 80 ∨ (89 / 80 : ℚ) = 21 / 20) ∧
    ((21 / 20 : ℚ) > 0 → |(89 / 80 : ℚ) - 109 / 100| ≤ |(89 / 80 : ℚ) - 109 / 100| ∧
      |(89 / 80 : ℚ) - 109 / 100| ≤ |(21 / 20 : ℚ) - 109 / 100|) ∧
    ((21 / 20 : ℚ) ≤ 0 → (89 / 80 : ℚ) = 89 / 80) ∧
    ((1 : Nat) > 0 → ∀ xnew, quadStep Rat.sqrt
        { x0 := 1, f0 := 9 / 100, x1 := 11 / 10, f1 := -1 / 100, x2 := 109 / 100,
          f2 := -9 / 625, its := 1, retn := 0, foundPosF := true, foundNegF := true,
          foundStraddle := true, posStraddle := false, xPosF := 1,
          xNegF := 109 / 100, converged := false,
          evals := [1, 11 / 10, 109 / 100] } xnew =
      (fdiv |89 / 80 - xnew| |xnew - 109 / 100|).map
        (fun theta0 => ((0 : Int), MIN 1 theta0 * xnew + (1 - MIN 1 theta0) * (89 / 80)))) :=
  ⟨by decide!,
    root1d_root_choice Rat.sqrt
      { x0 := 1, f0 := 9 / 100, x1 := 11 / 10, f1 := -1 / 100, x2 := 109 / 100,
        f2 := -9 / 625, its := 1, retn := 0, foundPosF := true, foundNegF := true,
        foundStraddle := true, posStraddle := false, xPosF := 1,
        xNegF := 109 / 100, converged := false,
        evals := [1, 11 / 10, 109 / 100] } (89 / 80) (21 / 20) (89 / 80) (by decide!)⟩

section Budget

variable {sqrt : ℚ → ℚ} {xmin xmax : ℚ} {func : ℚ → ℚ → ℚ} {FuncTargVal fnorm : ℚ}

end Budget

end VCSnonideal

/-! ## Theorems about `setState_HPorUV` and `setState_SPorSV` -/

namespace Cantera

open Examples

variable {σ : Type}

theorem newtonLoopHP_exit (P : ThermoPhase σ) (Htarget p dTtol : ℚ) (doUV : Bool)
    (Tmax Tmin : ℚ) (k n : Nat) (s : NewtonState σ) :
    (newtonLoopHP P Htarget p dTtol doUV Tmax Tmin k n s).exit ≠ Exit.inputTooSmall := by
  induction k generalizing n s with
  | zero => simp [newtonLoopHP]
  | succ k ih =>
    simp only [newtonLoopHP]
    cases newtonStepHP P Htarget p dTtol doUV Tmax Tmin s with
    | next t => exact ih (n + 1) t
    | done t => simp
    | fault t => simp

theorem newtonLoopSP_exit (P : ThermoPhase σ) (Starget p dTtol : ℚ) (doSV : Bool)
    (Tmax Tmin : ℚ) (k n : Nat) (s : NewtonStateS σ) :
    (newtonLoopSP P Starget p dTtol doSV Tmax Tmin k n s).exit ≠ Exit.inputTooSmall := by
  induction k generalizing n s with
  | zero => simp [newtonLoopSP]
  | succ k ih =>
    simp only [newtonLoopSP]
    cases newtonStepSP P Starget p dTtol doSV Tmax Tmin s with
    | next t => exact ih (n + 1) t
    | done t => simp
    | fault t => simp

/-- The input check does not fire for a fixed value of at least `1.0E-300`. -/
theorem setState_HPorUV_accepts (P : ThermoPhase σ) (ph : σ) (Htarget p dTtol : ℚ)
    (doUV : Bool) (hp : tiny ≤ p) :
    (setState_HPorUV P ph Htarget p dTtol doUV).exit ≠ Exit.inputTooSmall := by
  simp only [setState_HPorUV, not_lt.mpr hp, if_false]
  exact newtonLoopHP_exit _ _ _ _ _ _ _ _ _ _

theorem setState_SPorSV_accepts (P : ThermoPhase σ) (ph : σ) (Starget p dTtol : ℚ)
    (doSV : Bool) (hp : tiny ≤ p) :
    (setState_SPorSV P ph Starget p dTtol doSV).exit ≠ Exit.inputTooSmall := by
  simp only [setState_SPorSV, not_lt.mpr hp, if_false]
  exact newtonLoopSP_exit _ _ _ _ _ _ _ _ _ _

/-- C2 (amended): in all four modes, a fixed value (pressure or specific volume) strictly
below `1.0E-300` makes the call end in the input error (`InvalidInput`) with no call made
on the phase object, whose state is unchanged; a fixed value of at least `1.0E-300`,
the value `1.0E-300` itself included, never ends in the input error. -/
theorem setState_input_check (P : ThermoPhase σ) (ph : σ) (target p dTtol : ℚ)
    (mode : Bool) :
    (p < tiny →
      (setState_HPorUV P ph target p dTtol mode).exit = Exit.inputTooSmall ∧
      (setState_HPorUV P ph target p dTtol mode).w.ph = ph ∧
      (setState_HPorUV P ph target p dTtol mode).w.log = [] ∧
      (setState_SPorSV P ph target p dTtol mode).exit = Exit.inputTooSmall ∧
      (setState_SPorSV P ph target p dTtol mode).w.ph = ph ∧
      (setState_SPorSV P ph target p dTtol mode).w.log = []) ∧
    (tiny ≤ p →
      (setState_HPorUV P ph target p dTtol mode).exit ≠ Exit.inputTooSmall ∧
      (setState_SPorSV P ph target p dTtol mode).exit ≠ Exit.inputTooSmall) := by
  refine ⟨fun hp => ?_, fun hp => ⟨setState_HPorUV_accepts P ph target p dTtol mode hp,
    setState_SPorSV_accepts P ph target p dTtol mode hp⟩⟩
  simp [setState_HPorUV, setState_SPorSV, hp]

/-- C2 (counterexample): the fixed value `1.0E-300` is not strictly greater than
`1.0E-300`, yet `setState_HPorUV` (enthalpy/pressure mode, synthetic phase at 300 K,
target enthalpy 350) does not end in the input error: it calls `setPressure(1.0E-300)`
first and returns normally. -/
theorem setState_accepts_tiny :
    ¬ ((1 : ℚ) / 10 ^ 300 > 1 / 10 ^ 300) ∧
    (setState_HPorUV (linearPhase 0 1 0 200 1000) { T := 300, P := 1, rho := 1 } 350
        (1 / 10 ^ 300) (1 / 100) false).exit = Exit.returned ∧
    (setState_HPorUV (linearPhase 0 1 0 200 1000) { T := 300, P := 1, rho := 1 } 350
        (1 / 10 ^ 300) (1 / 100) false).exit.status ≠ some SolveStatus.InvalidInput ∧
    (setState_HPorUV (linearPhase 0 1 0 200 1000) { T := 300, P := 1, rho := 1 } 350
        (1 / 10 ^ 300) (1 / 100) false).w.log.head? = some (Call.setPressure (1 / 10 ^ 300)) := by
  decide!

/-- Witness of `setState_input_check`: the fixed values `-1` and `101325` on the synthetic
phase. -/
theorem setState_input_check_witness :
    (-1 : ℚ) < tiny ∧ tiny ≤ (101325 : ℚ) ∧
    ((setState_HPorUV (linearPhase 0 1 0 200 1000) { T := 300, P := 1, rho := 1 } 350
        (-1) (1 / 100) false).exit = Exit.inputTooSmall ∧
      (setState_HPorUV (linearPhase 0 1 0 200 1000) { T := 300, P := 1, rho := 1 } 350
        (-1) (1 / 100) false).w.ph = { T := 300, P := 1, rho := 1 } ∧
      (setState_HPorUV (linearPhase 0 1 0 200 1000) { T := 300, P := 1, rho := 1 } 350
        (-1) (1 / 100) false).w.log = [] ∧
      (setState_SPorSV (linearPhase 0 1 0 200 1000) { T := 300, P := 1, rho := 1 } 350
        (-1) (1 / 100) false).exit = Exit.inputTooSmall ∧
      (setState_SPorSV (linearPhase 0 1 0 200 1000) { T := 300, P := 1, rho := 1 } 350
        (-1) (1 / 100) false).w.ph = { T := 300, P := 1, rho := 1 } ∧
      (setState_SPorSV (linearPhase 0 1 0 200 1000) { T := 300, P := 1, rho := 1 } 350
        (-1) (1 / 100) false).w.log = []) ∧
    ((setState_HPorUV (linearPhase 0 1 0 200 1000) { T := 300, P := 1, rho := 1 } 350
        101325 (1 / 100) false).exit ≠ Exit.inputTooSmall ∧
      (setState_SPorSV (linearPhase 0 1 0 200 1000) { T := 300, P := 1, rho := 1 } 350
        101325 (1 / 100) false).exit ≠ Exit.inputTooSmall) :=
  ⟨by decide!, by decide!,
    (setState_input_check (linearPhase 0 1 0 200 1000) { T := 300, P := 1, rho := 1 } 350
      (-1) (1 / 100) false).1 (by decide!),
    (setState_input_check (linearPhase 0 1 0 200 1000) { T := 300, P := 1, rho := 1 } 350
      101325 (1 / 100) false).2 (by decide!)⟩

/-- C9 (counterexample): constant heat capacity `Cp = 1`, `H(T) = T`, valid temperatures
`[10, 1000]`, start at 120 K, target enthalpy `30`.  The exact solution `T* = 30` lies
inside the bounds and 90 K from the start, but the first step is cut at `Told / 3 = 40`
and the call needs a second Newton iteration to return with the temperature `30`. -/
theorem setState_HP_linear_two_steps :
    (0 : ℚ) < 1 ∧ (10 : ℚ) - 1 / 10 ≤ 120 ∧ (120 : ℚ) ≤ 1000 + 1 / 10 ∧
    (10 : ℚ) - 1 / 10 ≤ 30 ∧ (30 : ℚ) ≤ 1000 + 1 / 10 ∧ |(30 : ℚ) - 120| ≤ 100 ∧
    (linearPhase 0 1 0 10 1000).enthalpy_mass { T := 30, P := 101325, rho := 1 } = 30 ∧
    (setState_HPorUV (linearPhase 0 1 0 10 1000) { T := 120, P := 1, rho := 1 } 30
        101325 (1 / 100) false).exit = Exit.returned ∧
    (setState_HPorUV (linearPhase 0 1 0 10 1000) { T := 120, P := 1, rho := 1 } 30
        101325 (1 / 100) false).iters = 2 ∧
    (setState_HPorUV (linearPhase 0 1 0 10 1000) { T := 120, P := 1, rho := 1 } 30
        101325 (1 / 100) false).w.ph.T = 30 ∧
    (setState_HPorUV (linearPhase 0 1 0 10 1000) { T := 120, P := 1, rho := 1 } 30
        101325 (1 / 100) false).w.log.filter (fun c => c matches Call.setTemperature _) =
      [Call.setTemperature 40, Call.setTemperature 30] := by
  decide!

theorem newtonLoopHP_done (P : ThermoPhase σ) (Htarget p dTtol : ℚ) (doUV : Bool)
    (Tmax Tmin : ℚ) (k n : Nat) (s t : NewtonState σ)
    (h : newtonStepHP P Htarget p dTtol doUV Tmax Tmin s = Step.done t) :
    newtonLoopHP P Htarget p dTtol doUV Tmax Tmin (k + 1) n s =
      { exit := Exit.returned, w := t.w, iters := n + 1 } := by
  simp only [newtonLoopHP, h]

theorem clip_inside (q : ℚ) (h : |q| ≤ 100) : clip q (-100) 100 = q := by
  obtain ⟨h1, h2⟩ := abs_le.mp h
  simp [clip, min_eq_right h2, max_eq_right h1]

/-- In exact arithmetic: for the synthetic phase with constant heat capacity `Cp > 0` and
`H(T) = H0 + Cp (T - T0)`, an admitted pressure, a starting temperature `T` inside the
search bounds `[Tmin - 0.1, Tmax + 0.1]`, and a target whose exact solution
`T* = T0 + (Htarget - H0) / Cp` lies inside the search bounds, within 100 K of `T` and
not below `T / 3`, the enthalpy/pressure mode of `setState_HPorUV` returns normally after
exactly one Newton iteration with the temperature of the phase equal to `T*`. -/
theorem setState_HP_linear_one_step (H0 Cp T0 Tlo Thi T Pr rho Htarget p dTtol : ℚ)
    (hCp : 0 < Cp) (hp : tiny ≤ p)
    (hTlo : Tlo - 1 / 10 ≤ T) (hThi : T ≤ Thi + 1 / 10)
    (hSlo : Tlo - 1 / 10 ≤ T0 + (Htarget - H0) / Cp)
    (hShi : T0 + (Htarget - H0) / Cp ≤ Thi + 1 / 10)
    (h100 : |T0 + (Htarget - H0) / Cp - T| ≤ 100)
    (h3 : T / 3 ≤ T0 + (Htarget - H0) / Cp) :
    (setState_HPorUV (linearPhase H0 Cp T0 Tlo Thi) { T := T, P := Pr, rho := rho }
        Htarget p dTtol false).exit = Exit.returned ∧
    (setState_HPorUV (linearPhase H0 Cp T0 Tlo Thi) { T := T, P := Pr, rho := rho }
        Htarget p dTtol false).iters = 1 ∧
    (linearPhase H0 Cp T0 Tlo Thi).temperature
      (setState_HPorUV (linearPhase H0 Cp T0 Tlo Thi) { T := T, P := Pr, rho := rho }
        Htarget p dTtol false).w.ph = T0 + (Htarget - H0) / Cp := by
  have hCp0 : Cp ≠ 0 := ne_of_gt hCp
  have hq : (Htarget - (H0 + Cp * (T - T0))) / Cp = T0 + (Htarget - H0) / Cp - T := by
    field_simp
    ring
  have hsum : T + (T0 + (Htarget - H0) / Cp - T) = T0 + (Htarget - H0) / Cp := by ring
  have hHt : H0 + Cp * (T0 + (Htarget - H0) / Cp - T0) = Htarget := by
    field_simp
    ring
  -- the sign of the step decides on which side of the target the start lies
  have hside : H0 + Cp * (T - T0) - Htarget = Cp * (T - (T0 + (Htarget - H0) / Cp)) := by
    field_simp
    ring
  have hstep : ∃ t, newtonStepHP (linearPhase H0 Cp T0 Tlo Thi) Htarget p dTtol false
      (Thi + 1 / 10) (Tlo - 1 / 10)
      (initHP (linearPhase H0 Cp T0 Tlo Thi) p false
        (callSetPressure (linearPhase H0 Cp T0 Tlo Thi)
          { ph := { T := T, P := Pr, rho := rho }, log := [] } p)).2.2 = Step.done t ∧
      t.w.ph.T = T0 + (Htarget - H0) / Cp := by
    by_cases hd : T0 + (Htarget - H0) / Cp - T ≤ 0
    · have hb : ¬ (H0 + Cp * (T - T0) < Htarget) := by
        have : 0 ≤ Cp * (T - (T0 + (Htarget - H0) / Cp)) :=
          mul_nonneg hCp.le (by linarith)
        linarith
      simp only [initHP, callSetPressure, note, evalH, evalCp, linearPhase, newtonStepHP,
        not_lt.mpr hTlo, not_lt.mpr hThi, gt_iff_lt, if_false, Bool.false_eq_true, ne_eq,
        not_true_eq_false, fdiv, hCp0, hq, clip_inside _ h100, not_lt.mpr hCp.le,
        safeguardHP, hd, hb, hsum, probeMaxHP, probeMinHP, not_lt.mpr hShi, not_lt.mpr hSlo,
        stabilityLoopHP, stabilityPassHP, setState_conditional_TP, callSetTemperature,
        not_lt.mpr h3, hHt, false_and, and_false, or_false, false_or, not_false_eq_true,
        and_true, true_and, if_true, Bool.not_false, not_lt.mpr hd]
      exact ⟨_, rfl, rfl⟩
    · have hb : ¬ (Htarget < H0 + Cp * (T - T0)) := by
        have : Cp * (T - (T0 + (Htarget - H0) / Cp)) ≤ 0 :=
          mul_nonpos_of_nonneg_of_nonpos hCp.le (by linarith)
        linarith
      simp only [initHP, callSetPressure, note, evalH, evalCp, linearPhase, newtonStepHP,
        not_lt.mpr hTlo, not_lt.mpr hThi, gt_iff_lt, if_false, Bool.false_eq_true, ne_eq,
        not_true_eq_false, fdiv, hCp0, hq, clip_inside _ h100, not_lt.mpr hCp.le,
        safeguardHP, hd, hb, hsum, probeMaxHP, probeMinHP, not_lt.mpr hShi, not_lt.mpr hSlo,
        stabilityLoopHP, stabilityPassHP, setState_conditional_TP, callSetTemperature,
        not_lt.mpr h3, hHt, false_and, and_false, or_false, false_or, not_false_eq_true,
        and_true, true_and, if_true, Bool.not_false]
      exact ⟨_, rfl, rfl⟩
  obtain ⟨t, ht, htT⟩ := hstep
  have hrun : setState_HPorUV (linearPhase H0 Cp T0 Tlo Thi) { T := T, P := Pr, rho := rho }
      Htarget p dTtol false = { exit := Exit.returned, w := t.w, iters := 1 } := by
    simp only [setState_HPorUV, not_lt.mpr hp, if_false, Bool.false_eq_true]
    exact newtonLoopHP_done _ _ _ _ _ _ _ 499 0 _ t ht
  rw [hrun]
  exact ⟨rfl, rfl, htT⟩

/-- Witness of `setState_HP_linear_one_step`: `Cp = 1`, `H(T) = T`, valid temperatures
`[200, 1000]`, start at 300 K, target enthalpy `350`. -/
theorem setState_HP_linear_one_step_witness :
    (0 : ℚ) < 1 ∧ tiny ≤ (101325 : ℚ) ∧ (200 : ℚ) - 1 / 10 ≤ 300 ∧
    (300 : ℚ) ≤ 1000 + 1 / 10 ∧ (200 : ℚ) - 1 / 10 ≤ 0 + (350 - 0) / 1 ∧
    (0 : ℚ) + (350 - 0) / 1 ≤ 1000 + 1 / 10 ∧ |(0 : ℚ) + (350 - 0) / 1 - 300| ≤ 100 ∧
    (300 : ℚ) / 3 ≤ 0 + (350 - 0) / 1 ∧
    (setState_HPorUV (linearPhase 0 1 0 200 1000) { T := 300, P := 1, rho := 1 }
        350 101325 (1 / 100) false).exit = Exit.returned ∧
    (setState_HPorUV (linearPhase 0 1 0 200 1000) { T := 300, P := 1, rho := 1 }
        350 101325 (1 / 100) false).iters = 1 ∧
    (linearPhase 0 1 0 200 1000).temperature
      (setState_HPorUV (linearPhase 0 1 0 200 1000) { T := 300, P := 1, rho := 1 }
        350 101325 (1 / 100) false).w.ph = 0 + (350 - 0) / 1 :=
  ⟨by decide!, by decide!, by decide!, by decide!, by decide!, by decide!, by decide!,
    by decide!,
    setState_HP_linear_one_step 0 1 0 200 1000 300 1 1 350 101325 (1 / 100)
      (by decide!) (by decide!) (by decide!) (by decide!) (by decide!) (by decide!)
      (by decide!) (by decide!)⟩

theorem bracketHP_w (Htarget : ℚ) (s : NewtonState σ) : (bracketHP Htarget s).w = s.w := by
  unfold bracketHP
  split_ifs <;> rfl

theorem bracketSP_w (Starget : ℚ) (s : NewtonStateS σ) : (bracketSP Starget s).w = s.w := by
  unfold bracketSP
  split_ifs <;> rfl

/-! ### The size of the temperature step -/

/-- C20 (failing input): the synthetic phase `cuspPhase` at 300 K with the target enthalpy
`1000`, the pressure `101325` and `dTtol = 2/10000`.  The first Newton iteration has
`Told = 300`, `cpd = 1` and the clipped step `dt = 100`.  Each of the ten passes of the
inner loop sets `Told + dt`, finds `Cp < 0` there and multiplies `dt` by `0.25`; the last
pass sets `300 + 100/4^9` and leaves `dt = 100/4^10`.  The enthalpy there is not the
target, the relative error is about `0.7`, and the temperature was moved by `100/4^9`, which is
not below `dTtol`; but `|dt| = 100/4^10 < dTtol`, and the call returns. -/
theorem setState_HP_returns_on_stale_step :
    tiny ≤ 101325 ∧
    ((setState_HPorUV cuspPhase { T := 300, P := 1, rho := 1 } 1000 101325 (2 / 10000)
        false).exit,
      (setState_HPorUV cuspPhase { T := 300, P := 1, rho := 1 } 1000 101325 (2 / 10000)
        false).iters,
      cpCalls (setState_HPorUV cuspPhase { T := 300, P := 1, rho := 1 } 1000 101325
        (2 / 10000) false).w.log,
      (setState_HPorUV cuspPhase { T := 300, P := 1, rho := 1 } 1000 101325 (2 / 10000)
        false).w.ph.T) = (Exit.returned, 1, 11, 300 + 100 / 4 ^ 9) ∧
    ((fun s : NewtonState LinState => (s.Told, s.Tnew, s.dt, s.Hnew))
      (newtonStepHP cuspPhase 1000 101325 (2 / 10000) false
        (startHP cuspPhase { T := 300, P := 1, rho := 1 } 101325 false).1
        (startHP cuspPhase { T := 300, P := 1, rho := 1 } 101325 false).2.1
        (startHP cuspPhase { T := 300, P := 1, rho := 1 } 101325 false).2.2).state) =
      (300, 300 + 100 / 4 ^ 9, 100 / 4 ^ 10, 300 - 100 / 4 ^ 9) ∧
    (startHP cuspPhase { T := 300, P := 1, rho := 1 } 101325 false).2.2.Cpnew = 1 ∧
    (300 - 100 / 4 ^ 9 : ℚ) ≠ 1000 ∧
    ¬ |(1000 - (300 - 100 / 4 ^ 9)) / max |(1000 : ℚ)| (max |(1 : ℚ)| (1 / 100000) * (2 / 10000))|
        < 1 / 100000 * (2 / 10000) ∧
    ¬ |(300 + 100 / 4 ^ 9 : ℚ) - 300| < 2 / 10000 ∧
    |(100 / 4 ^ 10 : ℚ)| < 2 / 10000 :=
  ⟨by decide!, by decide!, by decide!, by decide!, by decide!, by decide!, by decide!,
    by decide!⟩

/-! ### The safeguard and the probes -/

/-- C23 (failing input): `setState_SPorSV(Starget = 205, p = 101325, dTtol = 1/100)` in
the entropy/pressure mode on a phase at 210 K with valid temperatures `[200, 1000]`,
entropy `S(T) = T`, enthalpy `H(T) = T - 100` and `Cp = 1`.  The first Newton step is
clipped to `-100` and proposes 110 K, below the lower search bound `Tmin = 199.9`.  The
probe sets 199.9 K and reads `enthalpy_mass()`, which is `99.9`, while the entropy there is
`199.9`; with `Sbot = 210 > Starget` it assigns `99.9` to `Sbot` and leaves `Tbot = 210`.
The pair `(Tbot, Sbot)` is `(210, 99.9)` and not `(199.9, 199.9)`.  The call then
alternates between 110 K and 210 K and ends without convergence. -/
theorem setState_SP_lower_probe_reads_enthalpy :
    tiny ≤ 101325 ∧
    (proposeSP 205
        (startSP (linearPhase (-100) 1 0 200 1000) { T := 210, P := 1, rho := 1 } 101325
          false).2.2).map
      (fun c => ((c.Told, c.Tnew, c.Tbot, c.Sbot), c.ignoreBounds, c.w.log)) =
      some ((210, 110, 210, 210), false,
        [Call.setPressure 101325, Call.maxTemp, Call.minTemp, Call.temperature,
          Call.entropy_mass, Call.cp_mass]) ∧
    (proposeSP 205
        (startSP (linearPhase (-100) 1 0 200 1000) { T := 210, P := 1, rho := 1 } 101325
          false).2.2).map
      (fun c => (fun d : NewtonStateS LinState => (d.Tbot, d.Sbot, d.ignoreBounds, d.w.log))
        (probeSP (linearPhase (-100) 1 0 200 1000) 205 101325 false (10001 / 10) (1999 / 10)
          c)) =
      some (210, 999 / 10, false,
        [Call.setPressure 101325, Call.maxTemp, Call.minTemp, Call.temperature,
          Call.entropy_mass, Call.cp_mass, Call.setTemperature (1999 / 10),
          Call.setPressure 101325, Call.enthalpy_mass]) ∧
    (linearPhase (-100) 1 0 200 1000).entropy_mass { T := 1999 / 10, P := 101325, rho := 1 } =
      1999 / 10 ∧
    (linearPhase (-100) 1 0 200 1000).enthalpy_mass { T := 1999 / 10, P := 101325, rho := 1 } =
      999 / 10 ∧
    ((210 : ℚ), (999 / 10 : ℚ)) ≠ (1999 / 10, 1999 / 10) ∧
    ((setState_SPorSV (linearPhase (-100) 1 0 200 1000) { T := 210, P := 1, rho := 1 } 205
        101325 (1 / 100) false).exit,
      (setState_SPorSV (linearPhase (-100) 1 0 200 1000) { T := 210, P := 1, rho := 1 } 205
        101325 (1 / 100) false).iters) = (Exit.noConvergence, 500) :=
  ⟨by decide!, by decide!, by decide!, by decide!, by decide!, by decide!, by decide!⟩

/-- C25 (counterexample): `setState_HPorUV(Htarget = 995, p = 101325, dTtol = 1/100)` in
the enthalpy/pressure mode on `kinkPhase` at 990 K.  The first iteration goes to 1040 K
and leaves the bracket `Tbot = 990`, `Ttop = 1000.1`.  In the second iteration
`Told = 1040`, the Newton step proposes 995 K and the safeguard replaces it by
`Told + 0.75 (Tbot - Told) = 1002.5`, three quarters of the way to `Tbot`; three quarters
of the way to the midpoint `995.05` of the bracket would be `1006.2875`. -/
theorem setState_safeguard_not_to_midpoint :
    ((nextsHP kinkPhase 995 101325 (1 / 100) false (10001 / 10) (1999 / 10) 1
        (startHP kinkPhase { T := 990, P := 1, rho := 1 } 101325 false).2.2).bind
      (proposeHP 995)).map (fun c => (c.Told, c.Tnew, c.dt, c.Tbot, c.Ttop)) =
      some (1040, 2005 / 2, -75 / 2, 990, 10001 / 10) ∧
    (1040 : ℚ) + clip ((995 - 1040) / 1) (-100) 100 = 995 ∧
    (2005 / 2 : ℚ) = 1040 + 3 / 4 * (990 - 1040) ∧
    (2005 / 2 : ℚ) ≠ 1040 + 3 / 4 * ((990 + 10001 / 10) / 2 - 1040) :=
  ⟨by decide!, by decide!, by decide!, by decide!⟩

/-- What `proposeHP` returns. -/
theorem proposeHP_some {Htarget : ℚ} {s c : NewtonState σ}
    (h : proposeHP Htarget s = some c) :
    ∃ q, fdiv (Htarget - s.Hnew) s.Cpnew = some q ∧
      c = safeguardHP Htarget
        { (if s.Cpnew < 0 then
            { s with Told := s.Tnew, Hold := s.Hnew, unstablePhase := true,
                     Tunstable := s.Tnew }
           else { s with Told := s.Tnew, Hold := s.Hnew }) with
          dt := clip q (-100) 100, Tnew := s.Tnew + clip q (-100) 100 } := by
  unfold proposeHP at h
  dsimp only at h
  by_cases hc : s.Cpnew < 0
  · simp only [hc, if_true] at h ⊢
    cases hq : fdiv (Htarget - s.Hnew) s.Cpnew with
    | none => simp [hq] at h
    | some q =>
      simp only [hq, Option.some.injEq] at h
      exact ⟨q, rfl, h.symm⟩
  · simp only [hc, if_false] at h ⊢
    cases hq : fdiv (Htarget - s.Hnew) s.Cpnew with
    | none => simp [hq] at h
    | some q =>
      simp only [hq, Option.some.injEq] at h
      exact ⟨q, rfl, h.symm⟩

/-- With a heat capacity that is not zero `proposeHP` returns a state. -/
theorem proposeHP_isSome (Htarget : ℚ) (s : NewtonState σ) (hcp : s.Cpnew ≠ 0) :
    ∃ c, proposeHP Htarget s = some c := by
  unfold proposeHP
  dsimp only
  by_cases hc : s.Cpnew < 0 <;> simp only [hc, if_true, if_false, fdiv, hcp] <;>
    exact ⟨_, rfl⟩

/-- The pass through the body of the Newton loop of `setState_HPorUV` in terms of
`proposeHP`: the locals at its end are those at the end of the inner loop, with or without
the update of the bracket. -/
theorem newtonStepHP_state (P : ThermoPhase σ) (Htarget p dTtol : ℚ) (doUV : Bool)
    (Tmax Tmin : ℚ) {s c : NewtonState σ} (h : proposeHP Htarget s = some c) :
    (newtonStepHP P Htarget p dTtol doUV Tmax Tmin s).state =
        stabilityLoopHP P p doUV 10
          (probeMinHP P Htarget p doUV Tmin (probeMaxHP P Htarget p doUV Tmax c)) ∨
      (newtonStepHP P Htarget p dTtol doUV Tmax Tmin s).state =
        bracketHP Htarget (stabilityLoopHP P p doUV 10
          (probeMinHP P Htarget p doUV Tmin (probeMaxHP P Htarget p doUV Tmax c))) := by
  obtain ⟨q, hq, rfl⟩ := proposeHP_some h
  unfold newtonStepHP
  dsimp only
  by_cases hc : s.Cpnew < 0 <;> simp only [hc, if_true, if_false, hq] <;> repeat' split
  all_goals simp only [Step.state]
  all_goals first
    | exact Or.inl rfl
    | exact Or.inr rfl
    | simp

/-- C25 (amended): in a Newton iteration of `setState_HPorUV` (with a heat capacity that
is not zero) the temperature proposed after the safeguard is the clipped Newton proposal
`Told + clip(q, -100, 100)` with `q = (Htarget - Hold) / cpd`, or, when the safeguard
overrides, `Told + 0.75 (Tbot - Told)` (only with `Hbot < Htarget`) or
`Told + 0.75 (Ttop - Told)` (only with `Htop > Htarget`): three quarters of the way from
`Told` to one end of the bracket.  The iteration goes on from this proposal with the
probes and the inner loop. -/
theorem setState_safeguard_to_bracket_end (P : ThermoPhase σ) (Htarget p dTtol : ℚ)
    (doUV : Bool) (Tmax Tmin : ℚ) (s : NewtonState σ) (hcp : s.Cpnew ≠ 0) :
    ∃ c, proposeHP Htarget s = some c ∧ c.Told = s.Tnew ∧
      ((c.dt = clip ((Htarget - s.Hnew) / s.Cpnew) (-100) 100 ∧
          c.Tnew = s.Tnew + clip ((Htarget - s.Hnew) / s.Cpnew) (-100) 100) ∨
        (s.Hbot < Htarget ∧ c.dt = 3 / 4 * (s.Tbot - s.Tnew) ∧
          c.Tnew = s.Tnew + 3 / 4 * (s.Tbot - s.Tnew)) ∨
        (s.Htop > Htarget ∧ c.dt = 3 / 4 * (s.Ttop - s.Tnew) ∧
          c.Tnew = s.Tnew + 3 / 4 * (s.Ttop - s.Tnew))) ∧
      ((newtonStepHP P Htarget p dTtol doUV Tmax Tmin s).state =
          stabilityLoopHP P p doUV 10
            (probeMinHP P Htarget p doUV Tmin (probeMaxHP P Htarget p doUV Tmax c)) ∨
        (newtonStepHP P Htarget p dTtol doUV Tmax Tmin s).state =
          bracketHP Htarget (stabilityLoopHP P p doUV 10
            (probeMinHP P Htarget p doUV Tmin (probeMaxHP P Htarget p doUV Tmax c)))) := by
  obtain ⟨c, hc⟩ := proposeHP_isSome Htarget s hcp
  refine ⟨c, hc, ?_, ?_, newtonStepHP_state P Htarget p dTtol doUV Tmax Tmin hc⟩
  all_goals
    obtain ⟨q, hq, rfl⟩ := proposeHP_some hc
    have hq' : q = (Htarget - s.Hnew) / s.Cpnew := by
      simp only [fdiv, hcp, if_false, Option.some.injEq] at hq
      exact hq.symm
    subst hq'
    unfold safeguardHP
    by_cases hn : s.Cpnew < 0 <;> simp only [hn, if_true, if_false] <;>
      split_ifs with a b d
  all_goals first
    | rfl
    | exact Or.inl ⟨rfl, rfl⟩
    | exact Or.inr (Or.inl ⟨b.1, rfl, rfl⟩)
    | exact Or.inr (Or.inr ⟨d.1, rfl, rfl⟩)

/-- Witness of `setState_safeguard_to_bracket_end`: the first Newton iteration on
`kinkPhase` at 990 K with the target `995`, where the safeguard leaves the Newton proposal
of 1040 K. -/
theorem setState_safeguard_to_bracket_end_witness :
    (startHP kinkPhase { T := 990, P := 1, rho := 1 } 101325 false).2.2.Cpnew ≠ 0 ∧
    (proposeHP 995 (startHP kinkPhase { T := 990, P := 1, rho := 1 } 101325 false).2.2).map
      (fun c => (c.Told, c.Tnew, c.dt)) = some (990, 1040, 50) ∧
    ∃ c, proposeHP 995 (startHP kinkPhase { T := 990, P := 1, rho := 1 } 101325 false).2.2 =
        some c ∧
      c.Told = (startHP kinkPhase { T := 990, P := 1, rho := 1 } 101325 false).2.2.Tnew ∧
      ((c.dt = clip ((995 -
              (startHP kinkPhase { T := 990, P := 1, rho := 1 } 101325 false).2.2.Hnew) /
            (startHP kinkPhase { T := 990, P := 1, rho := 1 } 101325 false).2.2.Cpnew)
            (-100) 100 ∧
          c.Tnew = (startHP kinkPhase { T := 990, P := 1, rho := 1 } 101325 false).2.2.Tnew +
            clip ((995 -
              (startHP kinkPhase { T := 990, P := 1, rho := 1 } 101325 false).2.2.Hnew) /
            (startHP kinkPhase { T := 990, P := 1, rho := 1 } 101325 false).2.2.Cpnew)
            (-100) 100) ∨
        ((startHP kinkPhase { T := 990, P := 1, rho := 1 } 101325 false).2.2.Hbot < 995 ∧
          c.dt = 3 / 4 *
            ((startHP kinkPhase { T := 990, P := 1, rho := 1 } 101325 false).2.2.Tbot -
              (startHP kinkPhase { T := 990, P := 1, rho := 1 } 101325 false).2.2.Tnew) ∧
          c.Tnew = (startHP kinkPhase { T := 990, P := 1, rho := 1 } 101325 false).2.2.Tnew +
            3 / 4 *
              ((startHP kinkPhase { T := 990, P := 1, rho := 1 } 101325 false).2.2.Tbot -
                (startHP kinkPhase { T := 990, P := 1, rho := 1 } 101325 false).2.2.Tnew)) ∨
        ((startHP kinkPhase { T := 990, P := 1, rho := 1 } 101325 false).2.2.Htop > 995 ∧
          c.dt = 3 / 4 *
            ((startHP kinkPhase { T := 990, P := 1, rho := 1 } 101325 false).2.2.Ttop -
              (startHP kinkPhase { T := 990, P := 1, rho := 1 } 101325 false).2.2.Tnew) ∧
          c.Tnew = (startHP kinkPhase { T := 990, P := 1, rho := 1 } 101325 false).2.2.Tnew +
            3 / 4 *
              ((startHP kinkPhase { T := 990, P := 1, rho := 1 } 101325 false).2.2.Ttop -
                (startHP kinkPhase { T := 990, P := 1, rho := 1 } 101325 false).2.2.Tnew))) ∧
      ((newtonStepHP kinkPhase 995 101325 (1 / 100) false (10001 / 10) (1999 / 10)
          (startHP kinkPhase { T := 990, P := 1, rho := 1 } 101325 false).2.2).state =
          stabilityLoopHP kinkPhase 101325 false 10
            (probeMinHP kinkPhase 995 101325 false (1999 / 10)
              (probeMaxHP kinkPhase 995 101325 false (10001 / 10) c)) ∨
        (newtonStepHP kinkPhase 995 101325 (1 / 100) false (10001 / 10) (1999 / 10)
          (startHP kinkPhase { T := 990, P := 1, rho := 1 } 101325 false).2.2).state =
          bracketHP 995 (stabilityLoopHP kinkPhase 101325 false 10
            (probeMinHP kinkPhase 995 101325 false (1999 / 10)
              (probeMaxHP kinkPhase 995 101325 false (10001 / 10) c)))) :=
  ⟨by decide!, by decide!,
    setState_safeguard_to_bracket_end kinkPhase 995 101325 (1 / 100) false (10001 / 10)
      (1999 / 10) (startHP kinkPhase { T := 990, P := 1, rho := 1 } 101325 false).2.2
      (by decide!)⟩

/-! ### The temperatures that are set -/

theorem tempsSet_TP (P : ThermoPhase σ) (w : Traced σ) (t p : ℚ) (b : Bool) :
    tempsSet (setState_conditional_TP P w t p b).log = tempsSet w.log ++ [t] := by
  cases b <;>
    simp [setState_conditional_TP, callSetTemperature, callSetPressure, tempsSet,
      List.filterMap_append]

theorem tempsSet_evalH (P : ThermoPhase σ) (d : Bool) (w : Traced σ) :
    tempsSet (evalH P d w).2.log = tempsSet w.log := by
  cases d <;> simp [evalH, note, tempsSet, List.filterMap_append]

theorem tempsSet_evalS (P : ThermoPhase σ) (w : Traced σ) :
    tempsSet (evalS P w).2.log = tempsSet w.log := by
  simp [evalS, note, tempsSet, List.filterMap_append]

theorem tempsSet_evalCp (P : ThermoPhase σ) (d : Bool) (w : Traced σ) :
    tempsSet (evalCp P d w).2.log = tempsSet w.log := by
  cases d <;> simp [evalCp, note, tempsSet, List.filterMap_append]

/-- A pass through the inner loop of `setState_HPorUV` sets one temperature; it lies in
`[lo, hi]` when `Told >= 0` and `Told`, `Told + dt` do, and so does the next
`Told + dt`. -/
theorem stabilityPassHP_temps (P : ThermoPhase σ) (p : ℚ) (doUV : Bool) (s : NewtonState σ)
    (lo hi : ℚ) (h0 : 0 ≤ s.Told) (hT : lo ≤ s.Told ∧ s.Told ≤ hi)
    (hN : lo ≤ s.Told + s.dt ∧ s.Told + s.dt ≤ hi) :
    tempsSet (stabilityPassHP P p doUV s).1.w.log =
        tempsSet s.w.log ++ [(stabilityPassHP P p doUV s).1.Tnew] ∧
      (lo ≤ (stabilityPassHP P p doUV s).1.Tnew ∧ (stabilityPassHP P p doUV s).1.Tnew ≤ hi) ∧
      (stabilityPassHP P p doUV s).1.Told = s.Told ∧
      lo ≤ (stabilityPassHP P p doUV s).1.Told + (stabilityPassHP P p doUV s).1.dt ∧
      (stabilityPassHP P p doUV s).1.Told + (stabilityPassHP P p doUV s).1.dt ≤ hi := by
  obtain ⟨a1, a2⟩ := hT
  obtain ⟨b1, b2⟩ := hN
  simp only [stabilityPassHP]
  split_ifs <;>
    refine ⟨by simp only [tempsSet_evalCp, tempsSet_evalH, tempsSet_TP], ?_, rfl, ?_, ?_⟩ <;>
    dsimp only <;> (try constructor) <;> linarith

theorem stabilityLoopHP_temps (P : ThermoPhase σ) (p : ℚ) (doUV : Bool) (k : Nat)
    (s : NewtonState σ) (lo hi : ℚ) (h0 : 0 ≤ s.Told) (hT : lo ≤ s.Told ∧ s.Told ≤ hi)
    (hN : lo ≤ s.Told + s.dt ∧ s.Told + s.dt ≤ hi) :
    ∃ l, tempsSet (stabilityLoopHP P p doUV k s).w.log = tempsSet s.w.log ++ l ∧
      (∀ t ∈ l, lo ≤ t ∧ t ≤ hi) ∧ (1 ≤ k → l ≠ []) := by
  induction k generalizing s with
  | zero => exact ⟨[], by simp [stabilityLoopHP], by simp, by simp⟩
  | succ k ih =>
    obtain ⟨e1, e2, e3, e4, e5⟩ := stabilityPassHP_temps P p doUV s lo hi h0 hT hN
    rw [stabilityLoopHP]
    split_ifs
    · exact ⟨[_], e1, by simpa using e2, by simp⟩
    · obtain ⟨l, f1, f2, -⟩ := ih (stabilityPassHP P p doUV s).1 (by rw [e3]; exact h0)
        (by rw [e3]; exact hT) ⟨e4, e5⟩
      refine ⟨(stabilityPassHP P p doUV s).1.Tnew :: l, by rw [f1, e1]; simp, ?_, by simp⟩
      intro x hx
      rcases List.mem_cons.mp hx with rfl | hx
      · exact e2
      · exact f2 x hx

/-- A pass through the inner loop of `setState_SPorSV` sets one temperature; it lies in
`[lo, hi]` when `Told` and `Told + dt` do, and so does the next `Told + dt`. -/
theorem stabilityPassSP_temps (P : ThermoPhase σ) (p : ℚ) (doSV : Bool) (s : NewtonStateS σ)
    (lo hi : ℚ) (hT : lo ≤ s.Told ∧ s.Told ≤ hi)
    (hN : lo ≤ s.Told + s.dt ∧ s.Told + s.dt ≤ hi) :
    tempsSet (stabilityPassSP P p doSV s).1.w.log =
        tempsSet s.w.log ++ [(stabilityPassSP P p doSV s).1.Tnew] ∧
      (lo ≤ (stabilityPassSP P p doSV s).1.Tnew ∧ (stabilityPassSP P p doSV s).1.Tnew ≤ hi) ∧
      (stabilityPassSP P p doSV s).1.Told = s.Told ∧
      lo ≤ (stabilityPassSP P p doSV s).1.Told + (stabilityPassSP P p doSV s).1.dt ∧
      (stabilityPassSP P p doSV s).1.Told + (stabilityPassSP P p doSV s).1.dt ≤ hi := by
  obtain ⟨a1, a2⟩ := hT
  obtain ⟨b1, b2⟩ := hN
  simp only [stabilityPassSP]
  split_ifs <;>
    refine ⟨by simp only [tempsSet_evalCp, tempsSet_evalS, tempsSet_TP], ?_, rfl, ?_, ?_⟩ <;>
    dsimp only <;> (try constructor) <;> linarith

theorem stabilityLoopSP_temps (P : ThermoPhase σ) (p : ℚ) (doSV : Bool) (k : Nat)
    (s : NewtonStateS σ) (lo hi : ℚ) (hT : lo ≤ s.Told ∧ s.Told ≤ hi)
    (hN : lo ≤ s.Told + s.dt ∧ s.Told + s.dt ≤ hi) :
    ∃ l, tempsSet (stabilityLoopSP P p doSV k s).w.log = tempsSet s.w.log ++ l ∧
      (∀ t ∈ l, lo ≤ t ∧ t ≤ hi) ∧ (1 ≤ k → l ≠ []) := by
  induction k generalizing s with
  | zero => exact ⟨[], by simp [stabilityLoopSP], by simp, by simp⟩
  | succ k ih =>
    obtain ⟨e1, e2, e3, e4, e5⟩ := stabilityPassSP_temps P p doSV s lo hi hT hN
    rw [stabilityLoopSP]
    split_ifs
    · exact ⟨[_], e1, by simpa using e2, by simp⟩
    · obtain ⟨l, f1, f2, -⟩ := ih (stabilityPassSP P p doSV s).1 (by rw [e3]; exact hT)
        ⟨e4, e5⟩
      refine ⟨(stabilityPassSP P p doSV s).1.Tnew :: l, by rw [f1, e1]; simp, ?_, by simp⟩
      intro x hx
      rcases List.mem_cons.mp hx with rfl | hx
      · exact e2
      · exact f2 x hx

/-- What `proposeSP` returns. -/
theorem proposeSP_some {Starget : ℚ} {s c : NewtonStateS σ}
    (h : proposeSP Starget s = some c) :
    ∃ q, fdiv ((Starget - s.Snew) * s.Tnew) s.Cpnew = some q ∧
      c = safeguardSP Starget
        { (if s.Cpnew < 0 then
            { s with Told := s.Tnew, Sold := s.Snew, unstablePhase := true,
                     Tunstable := s.Tnew }
           else { s with Told := s.Tnew, Sold := s.Snew }) with
          dt := clip q (-100) 100, Tnew := s.Tnew + clip q (-100) 100 } := by
  unfold proposeSP at h
  dsimp only at h
  by_cases hc : s.Cpnew < 0
  · simp only [hc, if_true] at h ⊢
    cases hq : fdiv ((Starget - s.Snew) * s.Tnew) s.Cpnew with
    | none => simp [hq] at h
    | some q =>
      simp only [hq, Option.some.injEq] at h
      exact ⟨q, rfl, h.symm⟩
  · simp only [hc, if_false] at h ⊢
    cases hq : fdiv ((Starget - s.Snew) * s.Tnew) s.Cpnew with
    | none => simp [hq] at h
    | some q =>
      simp only [hq, Option.some.injEq] at h
      exact ⟨q, rfl, h.symm⟩

/-- With a heat capacity that is not zero `proposeSP` returns a state. -/
theorem proposeSP_isSome (Starget : ℚ) (s : NewtonStateS σ) (hcp : s.Cpnew ≠ 0) :
    ∃ c, proposeSP Starget s = some c := by
  unfold proposeSP
  dsimp only
  by_cases hc : s.Cpnew < 0 <;> simp only [hc, if_true, if_false, fdiv, hcp] <;>
    exact ⟨_, rfl⟩

/-- The pass through the body of the Newton loop of `setState_SPorSV` in terms of
`proposeSP`. -/
theorem newtonStepSP_state (P : ThermoPhase σ) (Starget p dTtol : ℚ) (doSV : Bool)
    (Tmax Tmin : ℚ) {s c : NewtonStateS σ} (h : proposeSP Starget s = some c) :
    (newtonStepSP P Starget p dTtol doSV Tmax Tmin s).state =
        stabilityLoopSP P p doSV 10 (probeSP P Starget p doSV Tmax Tmin c) ∨
      (newtonStepSP P Starget p dTtol doSV Tmax Tmin s).state =
        bracketSP Starget
          (stabilityLoopSP P p doSV 10 (probeSP P Starget p doSV Tmax Tmin c)) := by
  obtain ⟨q, hq, rfl⟩ := proposeSP_some h
  unfold newtonStepSP
  dsimp only
  by_cases hc : s.Cpnew < 0 <;> simp only [hc, if_true, if_false, hq] <;> repeat' split
  all_goals simp only [Step.state]
  all_goals first
    | exact Or.inl rfl
    | exact Or.inr rfl
    | simp

/-- The state that `proposeHP` returns has `Tnew = Told + dt`, starts from the old
temperature and has made no call. -/
theorem proposeHP_facts {Htarget : ℚ} {s c : NewtonState σ}
    (h : proposeHP Htarget s = some c) :
    c.Tnew = c.Told + c.dt ∧ c.Told = s.Tnew ∧ c.w = s.w := by
  obtain ⟨q, -, rfl⟩ := proposeHP_some h
  unfold safeguardHP
  by_cases hc : s.Cpnew < 0 <;> simp only [hc, if_true, if_false] <;> split_ifs <;>
    exact ⟨rfl, rfl, rfl⟩

theorem proposeSP_facts {Starget : ℚ} {s c : NewtonStateS σ}
    (h : proposeSP Starget s = some c) :
    c.Tnew = c.Told + c.dt ∧ c.Told = s.Tnew ∧ c.w = s.w := by
  obtain ⟨q, -, rfl⟩ := proposeSP_some h
  unfold safeguardSP
  by_cases hc : s.Cpnew < 0 <;> simp only [hc, if_true, if_false] <;> split_ifs <;>
    exact ⟨rfl, rfl, rfl⟩

/-- The probes of `setState_HPorUV` do nothing for a proposal inside the bounds. -/
theorem probesHP_inside (P : ThermoPhase σ) (Htarget p : ℚ) (doUV : Bool) (Tmax Tmin : ℚ)
    (c : NewtonState σ) (h : Tmin ≤ c.Tnew ∧ c.Tnew ≤ Tmax) :
    probeMinHP P Htarget p doUV Tmin (probeMaxHP P Htarget p doUV Tmax c) = c := by
  have h1 : ¬ c.Tnew > Tmax := not_lt.mpr h.2
  have h2 : ¬ c.Tnew < Tmin := not_lt.mpr h.1
  simp only [probeMaxHP, h1, false_and, if_false, probeMinHP, h2]

/-- The probes of `setState_SPorSV` do nothing for a proposal inside the bounds. -/
theorem probeSP_inside (P : ThermoPhase σ) (Starget p : ℚ) (doSV : Bool) (Tmax Tmin : ℚ)
    (c : NewtonStateS σ) (h : Tmin ≤ c.Tnew ∧ c.Tnew ≤ Tmax) :
    probeSP P Starget p doSV Tmax Tmin c = c := by
  have h1 : ¬ c.Tnew > Tmax := not_lt.mpr h.2
  have h2 : ¬ c.Tnew < Tmin := not_lt.mpr h.1
  simp only [probeSP, h1, false_and, if_false, h2]

/-- C21 (counterexample): `setState_HPorUV(Htarget = 995, p = 101325, dTtol = 1/100)` in
the enthalpy/pressure mode on `kinkPhase` at 990 K, with the search bounds
`[199.9, 1000.1]`.  The first Newton step proposes 1040 K; the probe sets the upper bound
`1000.1`, finds `H = 1000.1 >= Htarget` there and moves `(Ttop, Htop)`, but the proposal
stands and the inner loop sets 1040 K, with `ignoreBounds` unset.  The second iteration
sets 1002.5 K, the third 995 K, where the call returns. -/
theorem setState_trial_outside_bounds :
    tiny ≤ 101325 ∧
    (startHP kinkPhase { T := 990, P := 1, rho := 1 } 101325 false).1 = 10001 / 10 ∧
    (startHP kinkPhase { T := 990, P := 1, rho := 1 } 101325 false).2.1 = 1999 / 10 ∧
    (nextsHP kinkPhase 995 101325 (1 / 100) false (10001 / 10) (1999 / 10) 1
        (startHP kinkPhase { T := 990, P := 1, rho := 1 } 101325 false).2.2).map
      (fun s => (tempsSet s.w.log, s.w.ph.T, s.ignoreBounds)) =
      some ([10001 / 10, 1040], 1040, false) ∧
    ¬ ((1999 / 10 : ℚ) ≤ 1040 ∧ (1040 : ℚ) ≤ 10001 / 10) ∧
    ((setState_HPorUV kinkPhase { T := 990, P := 1, rho := 1 } 995 101325 (1 / 100)
        false).exit,
      (setState_HPorUV kinkPhase { T := 990, P := 1, rho := 1 } 995 101325 (1 / 100)
        false).iters,
      tempsSet (setState_HPorUV kinkPhase { T := 990, P := 1, rho := 1 } 995 101325
        (1 / 100) false).w.log) =
      (Exit.returned, 3, [10001 / 10, 1040, 10001 / 10, 2005 / 2, 995]) :=
  ⟨by decide!, by decide!, by decide!, by decide!, by decide!, by decide!⟩

/-- C21 (amended): a Newton iteration (with a heat capacity that is not zero) that starts
at a temperature `Told` inside the search bounds `[Tmin, Tmax]` (and `Told >= 0` in
`setState_HPorUV`) and whose proposal after the safeguard lies inside the bounds sets one
or more temperatures, all of them inside the bounds.  Nothing moves a proposal that lies
outside the bounds back into them. -/
theorem setState_trial_temperatures (P : ThermoPhase σ) (target p dTtol : ℚ) (b : Bool)
    (Tmax Tmin : ℚ) (s : NewtonState σ) (u : NewtonStateS σ)
    (hs : s.Cpnew ≠ 0) (hu : u.Cpnew ≠ 0) (h0 : 0 ≤ s.Tnew)
    (hTs : Tmin ≤ s.Tnew ∧ s.Tnew ≤ Tmax) (hTu : Tmin ≤ u.Tnew ∧ u.Tnew ≤ Tmax) :
    (∃ c, proposeHP target s = some c ∧
      (Tmin ≤ c.Tnew ∧ c.Tnew ≤ Tmax →
        ∃ l, l ≠ [] ∧
          tempsSet (newtonStepHP P target p dTtol b Tmax Tmin s).state.w.log =
            tempsSet s.w.log ++ l ∧
          ∀ t ∈ l, Tmin ≤ t ∧ t ≤ Tmax)) ∧
    (∃ d, proposeSP target u = some d ∧
      (Tmin ≤ d.Tnew ∧ d.Tnew ≤ Tmax →
        ∃ l, l ≠ [] ∧
          tempsSet (newtonStepSP P target p dTtol b Tmax Tmin u).state.w.log =
            tempsSet u.w.log ++ l ∧
          ∀ t ∈ l, Tmin ≤ t ∧ t ≤ Tmax)) := by
  constructor
  · obtain ⟨c, hc⟩ := proposeHP_isSome target s hs
    refine ⟨c, hc, fun hin => ?_⟩
    obtain ⟨f1, f2, f3⟩ := proposeHP_facts hc
    obtain ⟨l, g1, g2, g3⟩ := stabilityLoopHP_temps P p b 10 c Tmin Tmax
      (by rw [f2]; exact h0) (by rw [f2]; exact hTs) (by rw [← f1]; exact hin)
    rw [f3] at g1
    refine ⟨l, g3 (by norm_num), ?_, g2⟩
    rcases newtonStepHP_state P target p dTtol b Tmax Tmin hc with e | e
    · rw [e, probesHP_inside P target p b Tmax Tmin c hin]
      exact g1
    · rw [e, bracketHP_w, probesHP_inside P target p b Tmax Tmin c hin]
      exact g1
  · obtain ⟨d, hd⟩ := proposeSP_isSome target u hu
    refine ⟨d, hd, fun hin => ?_⟩
    obtain ⟨f1, f2, f3⟩ := proposeSP_facts hd
    obtain ⟨l, g1, g2, g3⟩ := stabilityLoopSP_temps P p b 10 d Tmin Tmax
      (by rw [f2]; exact hTu) (by rw [← f1]; exact hin)
    rw [f3] at g1
    refine ⟨l, g3 (by norm_num), ?_, g2⟩
    rcases newtonStepSP_state P target p dTtol b Tmax Tmin hd with e | e
    · rw [e, probeSP_inside P target p b Tmax Tmin d hin]
      exact g1
    · rw [e, bracketSP_w, probeSP_inside P target p b Tmax Tmin d hin]
      exact g1

/-- Witness of `setState_trial_temperatures`: the first Newton iteration of either
function on the synthetic phase with `H(T) = S(T) = T`, `Cp = 1` at 300 K with the target
`350` and the bounds `[199.9, 1000.1]`; the proposals are 350 K and 400 K. -/
theorem setState_trial_temperatures_witness :
    roomHP.Cpnew ≠ 0 ∧
    roomSP.Cpnew ≠ 0 ∧
    (0 : ℚ) ≤ roomHP.Tnew ∧
    ((1999 / 10 : ℚ) ≤ roomHP.Tnew ∧ roomHP.Tnew ≤ 10001 / 10) ∧
    ((1999 / 10 : ℚ) ≤ roomSP.Tnew ∧ roomSP.Tnew ≤ 10001 / 10) ∧
    ((proposeHP 350 roomHP).map (fun c => c.Tnew),
      (proposeSP 350 roomSP).map (fun c => c.Tnew)) = (some 350, some 400) ∧
    (tempsSet (newtonStepHP (linearPhase 0 1 0 200 1000) 350 101325 (1 / 100) false
        (10001 / 10) (1999 / 10) roomHP).state.w.log,
      tempsSet (newtonStepSP (linearPhase 0 1 0 200 1000) 350 101325 (1 / 100) false
        (10001 / 10) (1999 / 10) roomSP).state.w.log) = ([350], [400]) ∧
    ((∃ c, proposeHP 350 roomHP = some c ∧
      ((1999 / 10 : ℚ) ≤ c.Tnew ∧ c.Tnew ≤ 10001 / 10 →
        ∃ l, l ≠ [] ∧
          tempsSet (newtonStepHP (linearPhase 0 1 0 200 1000) 350 101325 (1 / 100) false
            (10001 / 10) (1999 / 10) roomHP).state.w.log = tempsSet roomHP.w.log ++ l ∧
          ∀ t ∈ l, (1999 / 10 : ℚ) ≤ t ∧ t ≤ 10001 / 10)) ∧
    (∃ d, proposeSP 350 roomSP = some d ∧
      ((1999 / 10 : ℚ) ≤ d.Tnew ∧ d.Tnew ≤ 10001 / 10 →
        ∃ l, l ≠ [] ∧
          tempsSet (newtonStepSP (linearPhase 0 1 0 200 1000) 350 101325 (1 / 100) false
            (10001 / 10) (1999 / 10) roomSP).state.w.log = tempsSet roomSP.w.log ++ l ∧
          ∀ t ∈ l, (1999 / 10 : ℚ) ≤ t ∧ t ≤ 10001 / 10))) :=
  ⟨by decide!, by decide!, by decide!, by decide!, by decide!, by decide!, by decide!,
    setState_trial_temperatures (linearPhase 0 1 0 200 1000) 350 101325 (1 / 100) false
      (10001 / 10) (1999 / 10) roomHP roomSP
      (by decide!) (by decide!) (by decide!) (by decide!) (by decide!)⟩

/-! ### The bracket of `setState_HPorUV` -/

/-! ### Scaling the property -/

/-- C22, counterexample: scaling the property changes the run.  On the phase with
`H(T) = (T - 300)^2` and `Cp(T) = 2 (T - 300)`, from 350 K with the target `0` and
`dTtol = 1`, `setState_HPorUV` returns in the sixth iteration, after six trial
temperatures; with the property and the target multiplied by `k = 10^-14` it returns in
the first iteration, after one trial temperature, because the scaled heat capacity is
below the floor `1.0E-5` of the convergence test. -/
theorem setState_HP_scaling_changes_run :
    (((setState_HPorUV squarePhase { T := 350, P := 1, rho := 1 } 0 101325 1 false).exit,
      (setState_HPorUV squarePhase { T := 350, P := 1, rho := 1 } 0 101325 1 false).iters),
     tempsSet
      (setState_HPorUV squarePhase { T := 350, P := 1, rho := 1 } 0 101325 1 false).w.log) =
      ((Exit.returned, 6), [325, 625 / 2, 1225 / 4, 2425 / 8, 4825 / 16, 9625 / 32]) ∧
    (((setState_HPorUV (scalePhase (1 / 10 ^ 14) squarePhase) { T := 350, P := 1, rho := 1 }
        (1 / 10 ^ 14 * 0) 101325 1 false).exit,
      (setState_HPorUV (scalePhase (1 / 10 ^ 14) squarePhase) { T := 350, P := 1, rho := 1 }
        (1 / 10 ^ 14 * 0) 101325 1 false).iters),
     tempsSet
      (setState_HPorUV (scalePhase (1 / 10 ^ 14) squarePhase) { T := 350, P := 1, rho := 1 }
        (1 / 10 ^ 14 * 0) 101325 1 false).w.log) =
      ((Exit.returned, 1), [325]) := by
  decide!

end Cantera

/-! ## Theorems about the embedding over an arbitrary arithmetic -/

namespace VCSnonideal

namespace Fl

variable {F : Type}

/-! ### The loop of `vcsUtil_root1d`, in every arithmetic -/

theorem loopBody_its (A : Arith F) (mlequ : Mlequ F) (xmin xmax : F) (func : F → F → F)
    (FuncTargVal fnorm : F) (s : LoopState F) :
    (loopBody A mlequ xmin xmax func FuncTargVal fnorm s).its = s.its + 1 := rfl

theorem loopBody_evals (A : Arith F) (mlequ : Mlequ F) (xmin xmax : F) (func : F → F → F)
    (FuncTargVal fnorm : F) (s : LoopState F) :
    (loopBody A mlequ xmin xmax func FuncTargVal fnorm s).evals =
      s.evals ++ [(loopBody A mlequ xmin xmax func FuncTargVal fnorm s).x2] := rfl

theorem loopBody_f2 (A : Arith F) (mlequ : Mlequ F) (xmin xmax : F) (func : F → F → F)
    (FuncTargVal fnorm : F) (s : LoopState F) :
    (loopBody A mlequ xmin xmax func FuncTargVal fnorm s).f2 =
      func (loopBody A mlequ xmin xmax func FuncTargVal fnorm s).x2 FuncTargVal := rfl

theorem loopBody_converged (A : Arith F) (mlequ : Mlequ F) (xmin xmax : F)
    (func : F → F → F) (FuncTargVal fnorm : F) (s : LoopState F) :
    (loopBody A mlequ xmin xmax func FuncTargVal fnorm s).converged =
      (s.converged ||
        A.lt (A.fabs (A.div (loopBody A mlequ xmin xmax func FuncTargVal fnorm s).f2 fnorm))
          (A.lit (1 / 100000))) := rfl

theorem loopBody_retn_fl (A : Arith F) (mlequ : Mlequ F) (xmin xmax : F) (func : F → F → F)
    (FuncTargVal fnorm : F) (s : LoopState F)
    (hm : ∀ c0 c1 c2 b, (mlequ c0 c1 c2 b).1 ≠ VCS_FAILED_CONVERGENCE)
    (hs : s.retn ≠ VCS_FAILED_CONVERGENCE) :
    (loopBody A mlequ xmin xmax func FuncTargVal fnorm s).retn ≠ VCS_FAILED_CONVERGENCE := by
  show (candidate A mlequ xmin xmax s).1 ≠ VCS_FAILED_CONVERGENCE
  simp only [candidate, quadStep]
  split_ifs <;> first | exact hs | exact hm _ _ _ _

theorem iterate_its (A : Arith F) (mlequ : Mlequ F) (xmin xmax : F) (func : F → F → F)
    (FuncTargVal fnorm : F) (k : Nat) (s : LoopState F) :
    ((loopBody A mlequ xmin xmax func FuncTargVal fnorm)^[k] s).its = s.its + k ∧
    ((loopBody A mlequ xmin xmax func FuncTargVal fnorm)^[k] s).evals.length =
      s.evals.length + k := by
  induction k generalizing s with
  | zero => exact ⟨rfl, rfl⟩
  | succ k ih =>
    rw [Function.iterate_succ_apply]
    obtain ⟨a, b⟩ := ih (loopBody A mlequ xmin xmax func FuncTargVal fnorm s)
    rw [a, b, loopBody_its, loopBody_evals]
    simp only [List.length_append, List.length_singleton]
    omega

/-- The loop `do ... while`, entered with `converged` unset and `n` further passes
allowed: it ends with `converged` unset exactly when the convergence test fails after
each of the `n + 1` passes, and then it has made all of them; in any case it has made
between one and `n + 1` passes, each with one call of `func`. -/
theorem doWhile_spec (A : Arith F) (mlequ : Mlequ F) (xmin xmax : F) (func : F → F → F)
    (FuncTargVal fnorm : F) (n : Nat) (s : LoopState F) (hs : s.converged = false) :
    ((doWhile A mlequ xmin xmax func FuncTargVal fnorm n s).converged = false ↔
      ∀ k, 1 ≤ k → k ≤ n + 1 →
        A.lt (A.fabs (A.div
          ((loopBody A mlequ xmin xmax func FuncTargVal fnorm)^[k] s).f2 fnorm))
          (A.lit (1 / 100000)) = false) ∧
    ((doWhile A mlequ xmin xmax func FuncTargVal fnorm n s).converged = false →
      doWhile A mlequ xmin xmax func FuncTargVal fnorm n s =
        (loopBody A mlequ xmin xmax func FuncTargVal fnorm)^[n + 1] s) ∧
    (∃ k, 1 ≤ k ∧ k ≤ n + 1 ∧
      doWhile A mlequ xmin xmax func FuncTargVal fnorm n s =
        (loopBody A mlequ xmin xmax func FuncTargVal fnorm)^[k] s) := by
  induction n generalizing s with
  | zero =>
    have hc := loopBody_converged A mlequ xmin xmax func FuncTargVal fnorm s
    rw [hs, Bool.false_or] at hc
    refine ⟨?_, fun _ => rfl, 1, le_refl _, le_refl _, rfl⟩
    simp only [doWhile, hc]
    constructor
    · intro h k h1 h2
      have : k = 1 := by omega
      subst this
      exact h
    · intro h
      exact h 1 (le_refl _) (le_refl _)
  | succ n ih =>
    have hc := loopBody_converged A mlequ xmin xmax func FuncTargVal fnorm s
    rw [hs, Bool.false_or] at hc
    rw [doWhile]
    by_cases ht : (loopBody A mlequ xmin xmax func FuncTargVal fnorm s).converged = true
    · rw [if_pos ht]
      refine ⟨?_, ?_, 1, le_refl _, by omega, rfl⟩
      · constructor
        · intro h
          rw [ht] at h
          cases h
        · intro h
          have := h 1 (le_refl _) (by omega)
          rw [Function.iterate_one, ← hc, ht] at this
          cases this
      · intro h
        rw [ht] at h
        cases h
    · rw [if_neg ht]
      have ht' : (loopBody A mlequ xmin xmax func FuncTargVal fnorm s).converged = false := by
        simpa using ht
      obtain ⟨i1, i2, k, k1, k2, i3⟩ :=
        ih (loopBody A mlequ xmin xmax func FuncTargVal fnorm s) ht'
      refine ⟨?_, ?_, k + 1, by omega, by omega, ?_⟩
      · rw [i1]
        constructor
        · intro h k h1 h2
          rcases Nat.eq_or_lt_of_le h1 with e | e
          · subst e
            rw [Function.iterate_one, ← hc]
            exact ht'
          · obtain ⟨j, rfl⟩ : ∃ j, k = j + 1 := ⟨k - 1, by omega⟩
            rw [Function.iterate_succ_apply]
            exact h j (by omega) (by omega)
        · intro h k h1 h2
          have := h (k + 1) (by omega) (by omega)
          rwa [Function.iterate_succ_apply] at this
      · intro h
        rw [i2 h, ← Function.iterate_succ_apply]
      · rw [i3, ← Function.iterate_succ_apply]

theorem iterate_retn (A : Arith F) (mlequ : Mlequ F) (xmin xmax : F) (func : F → F → F)
    (FuncTargVal fnorm : F)
    (hm : ∀ c0 c1 c2 b, (mlequ c0 c1 c2 b).1 ≠ VCS_FAILED_CONVERGENCE)
    (k : Nat) (s : LoopState F) (hs : s.retn ≠ VCS_FAILED_CONVERGENCE) :
    ((loopBody A mlequ xmin xmax func FuncTargVal fnorm)^[k] s).retn ≠
      VCS_FAILED_CONVERGENCE := by
  induction k generalizing s with
  | zero => exact hs
  | succ k ih =>
    rw [Function.iterate_succ_apply]
    exact ih _ (loopBody_retn_fl A mlequ xmin xmax func FuncTargVal fnorm s hm hs)

theorem iterate_last (A : Arith F) (mlequ : Mlequ F) (xmin xmax : F) (func : F → F → F)
    (FuncTargVal fnorm : F) (k : Nat) (s : LoopState F) :
    ((loopBody A mlequ xmin xmax func FuncTargVal fnorm)^[k + 1] s).evals.getLast? =
      some ((loopBody A mlequ xmin xmax func FuncTargVal fnorm)^[k + 1] s).x2 ∧
    ((loopBody A mlequ xmin xmax func FuncTargVal fnorm)^[k + 1] s).f2 =
      func ((loopBody A mlequ xmin xmax func FuncTargVal fnorm)^[k + 1] s).x2
        FuncTargVal := by
  rw [Function.iterate_succ_apply']
  constructor
  · rw [loopBody_evals]
    simp
  · exact loopBody_f2 A mlequ xmin xmax func FuncTargVal fnorm _

theorem startState_proj_fl (A : Arith F) (x1 f1 x2 f2 : F) :
    (startState A x1 f1 x2 f2).converged = false ∧ (startState A x1 f1 x2 f2).its = 0 ∧
    (startState A x1 f1 x2 f2).retn = VCS_SUCCESS ∧
    (startState A x1 f1 x2 f2).evals = [x1, x2] := by
  simp only [startState, initState]
  split_ifs <;> exact ⟨rfl, rfl, rfl, rfl⟩

end Fl

end VCSnonideal

namespace VCSnonideal

namespace Fl

open Examples

variable {F : Type}

/-- C29: in every arithmetic, for every `func`, every `vcsUtil_mlequ` and every input,
`vcsUtil_root1d` (a total function) makes at most `max(1, itmax)` passes through the loop
body and at most `2 + max(1, itmax)` calls of `func`, one per start-up point reached and
one per pass.  When the loop is entered (valid bounds, no exact match at the two start-up
points) the body runs at least once, also for `itmax <= 0`, the calls are exactly
`2 + its`, and a run in which the convergence test fails after every pass makes all
`max(1, itmax)` passes. -/
theorem root1d_call_budget (A : Arith F) (mlequ : Mlequ F) (xmin xmax : F) (itmax : Int)
    (func : F → F → F) (FuncTargVal xbest : F) :
    ((vcsUtil_root1d A mlequ xmin xmax itmax func FuncTargVal xbest).its : Int) ≤
      max 1 itmax ∧
    ((vcsUtil_root1d A mlequ xmin xmax itmax func FuncTargVal xbest).evals.length : Int) ≤
      2 + max 1 itmax ∧
    (vcsUtil_root1d A mlequ xmin xmax itmax func FuncTargVal xbest).evals.length ≤
      2 + (vcsUtil_root1d A mlequ xmin xmax itmax func FuncTargVal xbest).its ∧
    (A.le xmax xmin = false →
      A.eq (func (firstPoint A xmin xmax xbest) FuncTargVal) (A.lit 0) = false →
      A.eq (func (secondPoint A xmin xmax (firstPoint A xmin xmax xbest)) FuncTargVal)
        (A.lit 0) = false →
      1 ≤ (vcsUtil_root1d A mlequ xmin xmax itmax func FuncTargVal xbest).its ∧
      (vcsUtil_root1d A mlequ xmin xmax itmax func FuncTargVal xbest).evals.length =
        2 + (vcsUtil_root1d A mlequ xmin xmax itmax func FuncTargVal xbest).its ∧
      ((∀ k : Nat, 1 ≤ k → (k : Int) ≤ max 1 itmax →
          A.lt (A.fabs (A.div
            ((loopBody A mlequ xmin xmax func FuncTargVal
                (fnormAt A xmin xmax func FuncTargVal xbest))^[k]
              (startAt A xmin xmax func FuncTargVal xbest)).f2
            (fnormAt A xmin xmax func FuncTargVal xbest))) (A.lit (1 / 100000)) = false) →
        ((vcsUtil_root1d A mlequ xmin xmax itmax func FuncTargVal xbest).its : Int) =
          max 1 itmax)) := by
  have hmax : ((itmax.toNat - 1 + 1 : Nat) : Int) = max 1 itmax := by omega
  cases hb : A.le xmax xmin with
  | true =>
    simp only [vcsUtil_root1d, hb, if_true, List.length_nil]
    refine ⟨by omega, by omega, by omega, fun h => ?_⟩
    cases h
  | false =>
  cases h1 : A.eq (func (firstPoint A xmin xmax xbest) FuncTargVal) (A.lit 0) with
  | true =>
    simp only [vcsUtil_root1d, hb, h1, if_true, Bool.false_eq_true, if_false,
      List.length_singleton]
    refine ⟨by omega, by omega, by omega, fun _ h => ?_⟩
    cases h
  | false =>
  cases h2 : A.eq (func (secondPoint A xmin xmax (firstPoint A xmin xmax xbest))
      FuncTargVal) (A.lit 0) with
  | true =>
    simp only [vcsUtil_root1d, hb, h1, h2, if_true, Bool.false_eq_true, if_false,
      List.length_cons, List.length_nil]
    refine ⟨by omega, by omega, by omega, fun _ _ h => ?_⟩
    cases h
  | false =>
  obtain ⟨p1, p2, -, p4⟩ := startState_proj_fl A (firstPoint A xmin xmax xbest)
    (func (firstPoint A xmin xmax xbest) FuncTargVal)
    (secondPoint A xmin xmax (firstPoint A xmin xmax xbest))
    (func (secondPoint A xmin xmax (firstPoint A xmin xmax xbest)) FuncTargVal)
  obtain ⟨d1, d2, k, k1, k2, d3⟩ := doWhile_spec A mlequ xmin xmax func FuncTargVal
    (fnormAt A xmin xmax func FuncTargVal xbest) (itmax.toNat - 1)
    (startAt A xmin xmax func FuncTargVal xbest) p1
  obtain ⟨e1, e2⟩ := iterate_its A mlequ xmin xmax func FuncTargVal
    (fnormAt A xmin xmax func FuncTargVal xbest) k (startAt A xmin xmax func FuncTargVal xbest)
  have r1 : (vcsUtil_root1d A mlequ xmin xmax itmax func FuncTargVal xbest).its =
      (doWhile A mlequ xmin xmax func FuncTargVal
        (fnormAt A xmin xmax func FuncTargVal xbest) (itmax.toNat - 1)
        (startAt A xmin xmax func FuncTargVal xbest)).its := by
    simp only [vcsUtil_root1d, hb, h1, h2, Bool.false_eq_true, if_false]
    rfl
  have r2 : (vcsUtil_root1d A mlequ xmin xmax itmax func FuncTargVal xbest).evals =
      (doWhile A mlequ xmin xmax func FuncTargVal
        (fnormAt A xmin xmax func FuncTargVal xbest) (itmax.toNat - 1)
        (startAt A xmin xmax func FuncTargVal xbest)).evals := by
    simp only [vcsUtil_root1d, hb, h1, h2, Bool.false_eq_true, if_false]
    rfl
  have q2 : (startAt A xmin xmax func FuncTargVal xbest).its = 0 := p2
  have q4 : (startAt A xmin xmax func FuncTargVal xbest).evals.length = 2 := by
    show (startState A _ _ _ _).evals.length = 2
    rw [p4]
    rfl
  rw [r1, r2, d3, e1, e2, q2, q4]
  refine ⟨by omega, by omega, by omega, fun _ _ _ => ⟨by omega, by omega, fun hall => ?_⟩⟩
  have hfalse := d1.2 (fun j j1 j2 => hall j j1 (by omega))
  have hk := d2 hfalse
  rw [d3] at hk
  have := congrArg LoopState.its hk
  rw [e1, (iterate_its A mlequ xmin xmax func FuncTargVal
    (fnormAt A xmin xmax func FuncTargVal xbest) (itmax.toNat - 1 + 1)
    (startAt A xmin xmax func FuncTargVal xbest)).1] at this
  omega

theorem mlequX_retn (c0 c1 c2 b : XQ × XQ × XQ) :
    (mlequX c0 c1 c2 b).1 ≠ VCS_FAILED_CONVERGENCE := by
  unfold mlequX
  split
  · split <;> simp [VCS_FAILED_CONVERGENCE]
  · simp [VCS_FAILED_CONVERGENCE]

end Fl

end VCSnonideal

namespace VCSnonideal

namespace Fl

open Examples

variable {F : Type}

/-- C6: in every arithmetic, for every `func` and every valid input (`xmax <= xmin` false,
`itmax >= 1`, no exact match at the two start-up points), with a `vcsUtil_mlequ` that never
returns `VCS_FAILED_CONVERGENCE`: `vcsUtil_root1d` returns `VCS_FAILED_CONVERGENCE` if and
only if the test `fabs(fnew / fnorm) < 1.0E-5` fails for the residual `fnew` of the point
evaluated in each of the `itmax` passes through the loop body.  In that case all `itmax`
passes were made, `func` was called `2 + itmax` times, and the returned `*xbest` is the
point evaluated in the last pass. -/
theorem root1d_failed_convergence (A : Arith F) (mlequ : Mlequ F) (xmin xmax : F)
    (itmax : Int) (func : F → F → F) (FuncTargVal xbest : F)
    (hb : A.le xmax xmin = false) (hit : 1 ≤ itmax)
    (h1 : A.eq (func (firstPoint A xmin xmax xbest) FuncTargVal) (A.lit 0) = false)
    (h2 : A.eq (func (secondPoint A xmin xmax (firstPoint A xmin xmax xbest)) FuncTargVal)
      (A.lit 0) = false)
    (hm : ∀ c0 c1 c2 b, (mlequ c0 c1 c2 b).1 ≠ VCS_FAILED_CONVERGENCE) :
    ((vcsUtil_root1d A mlequ xmin xmax itmax func FuncTargVal xbest).retn =
        VCS_FAILED_CONVERGENCE ↔
      ∀ k : Nat, 1 ≤ k → (k : Int) ≤ itmax →
        A.lt (A.fabs (A.div
          (func ((loopBody A mlequ xmin xmax func FuncTargVal
                (fnormAt A xmin xmax func FuncTargVal xbest))^[k]
              (startAt A xmin xmax func FuncTargVal xbest)).x2 FuncTargVal)
          (fnormAt A xmin xmax func FuncTargVal xbest))) (A.lit (1 / 100000)) = false) ∧
    ((vcsUtil_root1d A mlequ xmin xmax itmax func FuncTargVal xbest).retn =
        VCS_FAILED_CONVERGENCE →
      ((vcsUtil_root1d A mlequ xmin xmax itmax func FuncTargVal xbest).its : Int) = itmax ∧
      (vcsUtil_root1d A mlequ xmin xmax itmax func FuncTargVal xbest).xbest =
        ((loopBody A mlequ xmin xmax func FuncTargVal
            (fnormAt A xmin xmax func FuncTargVal xbest))^[itmax.toNat]
          (startAt A xmin xmax func FuncTargVal xbest)).x2 ∧
      (vcsUtil_root1d A mlequ xmin xmax itmax func FuncTargVal xbest).evals.getLast? =
        some (vcsUtil_root1d A mlequ xmin xmax itmax func FuncTargVal xbest).xbest ∧
      (vcsUtil_root1d A mlequ xmin xmax itmax func FuncTargVal xbest).evals.length =
        2 + itmax.toNat) := by
  have hn : itmax.toNat - 1 + 1 = itmax.toNat := by omega
  obtain ⟨p1, p2, p3, p4⟩ := startState_proj_fl A (firstPoint A xmin xmax xbest)
    (func (firstPoint A xmin xmax xbest) FuncTargVal)
    (secondPoint A xmin xmax (firstPoint A xmin xmax xbest))
    (func (secondPoint A xmin xmax (firstPoint A xmin xmax xbest)) FuncTargVal)
  obtain ⟨d1, d2, k, k1, k2, d3⟩ := doWhile_spec A mlequ xmin xmax func FuncTargVal
    (fnormAt A xmin xmax func FuncTargVal xbest) (itmax.toNat - 1)
    (startAt A xmin xmax func FuncTargVal xbest) p1
  have hr : vcsUtil_root1d A mlequ xmin xmax itmax func FuncTargVal xbest =
      { retn :=
          if (doWhile A mlequ xmin xmax func FuncTargVal
              (fnormAt A xmin xmax func FuncTargVal xbest) (itmax.toNat - 1)
              (startAt A xmin xmax func FuncTargVal xbest)).converged
          then (doWhile A mlequ xmin xmax func FuncTargVal
              (fnormAt A xmin xmax func FuncTargVal xbest) (itmax.toNat - 1)
              (startAt A xmin xmax func FuncTargVal xbest)).retn
          else VCS_FAILED_CONVERGENCE,
        xbest := (doWhile A mlequ xmin xmax func FuncTargVal
              (fnormAt A xmin xmax func FuncTargVal xbest) (itmax.toNat - 1)
              (startAt A xmin xmax func FuncTargVal xbest)).x2,
        evals := (doWhile A mlequ xmin xmax func FuncTargVal
              (fnormAt A xmin xmax func FuncTargVal xbest) (itmax.toNat - 1)
              (startAt A xmin xmax func FuncTargVal xbest)).evals,
        its := (doWhile A mlequ xmin xmax func FuncTargVal
              (fnormAt A xmin xmax func FuncTargVal xbest) (itmax.toNat - 1)
              (startAt A xmin xmax func FuncTargVal xbest)).its } := by
    simp only [vcsUtil_root1d, hb, h1, h2, Bool.false_eq_true, if_false]
    rfl
  have hret : (doWhile A mlequ xmin xmax func FuncTargVal
      (fnormAt A xmin xmax func FuncTargVal xbest) (itmax.toNat - 1)
      (startAt A xmin xmax func FuncTargVal xbest)).retn ≠ VCS_FAILED_CONVERGENCE := by
    rw [d3]
    refine iterate_retn A mlequ xmin xmax func FuncTargVal _ hm k _ ?_
    show (startState A _ _ _ _).retn ≠ VCS_FAILED_CONVERGENCE
    rw [p3]
    decide
  have hiff : (vcsUtil_root1d A mlequ xmin xmax itmax func FuncTargVal xbest).retn =
      VCS_FAILED_CONVERGENCE ↔
      (doWhile A mlequ xmin xmax func FuncTargVal
        (fnormAt A xmin xmax func FuncTargVal xbest) (itmax.toNat - 1)
        (startAt A xmin xmax func FuncTargVal xbest)).converged = false := by
    rw [hr]
    dsimp only
    cases hc : (doWhile A mlequ xmin xmax func FuncTargVal
        (fnormAt A xmin xmax func FuncTargVal xbest) (itmax.toNat - 1)
        (startAt A xmin xmax func FuncTargVal xbest)).converged with
    | true => simp [hret]
    | false => simp
  have hf2 : ∀ j : Nat, 1 ≤ j →
      ((loopBody A mlequ xmin xmax func FuncTargVal
          (fnormAt A xmin xmax func FuncTargVal xbest))^[j]
        (startAt A xmin xmax func FuncTargVal xbest)).f2 =
      func ((loopBody A mlequ xmin xmax func FuncTargVal
          (fnormAt A xmin xmax func FuncTargVal xbest))^[j]
        (startAt A xmin xmax func FuncTargVal xbest)).x2 FuncTargVal := by
    intro j hj
    obtain ⟨i, rfl⟩ : ∃ i, j = i + 1 := ⟨j - 1, by omega⟩
    exact (iterate_last A mlequ xmin xmax func FuncTargVal _ i _).2
  constructor
  · rw [hiff, d1]
    constructor
    · intro h j j1 j2
      rw [← hf2 j j1]
      exact h j j1 (by omega)
    · intro h j j1 j2
      rw [hf2 j j1]
      exact h j j1 (by omega)
  · intro h
    have hc := d2 (hiff.mp h)
    rw [hn] at hc
    rw [hr]
    dsimp only
    rw [hc]
    obtain ⟨e1, e2⟩ := iterate_its A mlequ xmin xmax func FuncTargVal
      (fnormAt A xmin xmax func FuncTargVal xbest) itmax.toNat
      (startAt A xmin xmax func FuncTargVal xbest)
    have q2 : (startAt A xmin xmax func FuncTargVal xbest).its = 0 := p2
    have q4 : (startAt A xmin xmax func FuncTargVal xbest).evals.length = 2 := by
      show (startState A _ _ _ _).evals.length = 2
      rw [p4]
      rfl
    refine ⟨by rw [e1, q2]; omega, rfl, ?_, by rw [e2, q4]⟩
    obtain ⟨i, hi⟩ : ∃ i, itmax.toNat = i + 1 := ⟨itmax.toNat - 1, by omega⟩
    rw [hi]
    exact (iterate_last A mlequ xmin xmax func FuncTargVal _ i _).1

/-- A run of C6 that fails and one that converges, both of one pass and with values
that are all exactly representable: `f(x) = x - 90` and `f(x) = x - 94` on `[0, 100]`
with the guess 96 and `itmax = 1`.  The start-up points are 96 and 95; the first run
evaluates 93 (the step to 90 is cut to twice the distance of the start-up points), fails
the test with the residual 3 and returns `VCS_FAILED_CONVERGENCE` with `x = 93`; the
second evaluates 94, meets the test and returns `VCS_SUCCESS`. -/
theorem root1d_failed_convergence_witness :
    (XQ.arith.le (XQ.fin 100) (XQ.fin 0) = false ∧ (1 : Int) ≤ 1 ∧
      XQ.arith.eq (residualX (fun x => x - 90)
        (firstPoint XQ.arith (XQ.fin 0) (XQ.fin 100) (XQ.fin 96)) (XQ.fin 0))
        (XQ.arith.lit 0) = false ∧
      XQ.arith.eq (residualX (fun x => x - 90)
        (secondPoint XQ.arith (XQ.fin 0) (XQ.fin 100)
          (firstPoint XQ.arith (XQ.fin 0) (XQ.fin 100) (XQ.fin 96))) (XQ.fin 0))
        (XQ.arith.lit 0) = false) ∧
    ((vcsUtil_root1d XQ.arith mlequX (XQ.fin 0) (XQ.fin 100) 1 (residualX (fun x => x - 90))
        (XQ.fin 0) (XQ.fin 96)).retn = VCS_FAILED_CONVERGENCE ↔
      ∀ k : Nat, 1 ≤ k → (k : Int) ≤ 1 →
        XQ.arith.lt (XQ.arith.fabs (XQ.arith.div
          (residualX (fun x => x - 90)
            ((loopBody XQ.arith mlequX (XQ.fin 0) (XQ.fin 100) (residualX (fun x => x - 90))
                (XQ.fin 0)
                (fnormAt XQ.arith (XQ.fin 0) (XQ.fin 100) (residualX (fun x => x - 90))
                  (XQ.fin 0) (XQ.fin 96)))^[k]
              (startAt XQ.arith (XQ.fin 0) (XQ.fin 100) (residualX (fun x => x - 90))
                (XQ.fin 0) (XQ.fin 96))).x2 (XQ.fin 0))
          (fnormAt XQ.arith (XQ.fin 0) (XQ.fin 100) (residualX (fun x => x - 90))
            (XQ.fin 0) (XQ.fin 96)))) (XQ.arith.lit (1 / 100000)) = false) ∧
    vcsUtil_root1d XQ.arith mlequX (XQ.fin 0) (XQ.fin 100) 1 (residualX (fun x => x - 90))
        (XQ.fin 0) (XQ.fin 96) =
      { retn := VCS_FAILED_CONVERGENCE, xbest := XQ.fin 93,
        evals := [XQ.fin 96, XQ.fin 95, XQ.fin 93], its := 1 } ∧
    vcsUtil_root1d XQ.arith mlequX (XQ.fin 0) (XQ.fin 100) 1 (residualX (fun x => x - 94))
        (XQ.fin 0) (XQ.fin 96) =
      { retn := VCS_SUCCESS, xbest := XQ.fin 94,
        evals := [XQ.fin 96, XQ.fin 95, XQ.fin 94], its := 1 } :=
  ⟨⟨by decide!, by decide, by decide!, by decide!⟩,
    (root1d_failed_convergence XQ.arith mlequX (XQ.fin 0) (XQ.fin 100) 1
      (residualX (fun x => x - 90)) (XQ.fin 0) (XQ.fin 96) (by decide!) (by decide)
      (by decide!) (by decide!) mlequX_retn).1,
    by decide!, by decide!⟩

/-- A run of C29 with values that are all exactly representable: `f(x) = x - 90` on
`[0, 100]` with the guess 96 and `itmax = -5`.  The loop body runs once: `func` is called
at 96, 95 and 93, and the call returns `VCS_FAILED_CONVERGENCE` with `x = 93`. -/
theorem root1d_call_budget_witness :
    (((vcsUtil_root1d XQ.arith mlequX (XQ.fin 0) (XQ.fin 100) (-5)
        (residualX (fun x => x - 90)) (XQ.fin 0) (XQ.fin 96)).its : Int) ≤ max 1 (-5) ∧
      ((vcsUtil_root1d XQ.arith mlequX (XQ.fin 0) (XQ.fin 100) (-5)
        (residualX (fun x => x - 90)) (XQ.fin 0) (XQ.fin 96)).evals.length : Int) ≤
          2 + max 1 (-5)) ∧
    vcsUtil_root1d XQ.arith mlequX (XQ.fin 0) (XQ.fin 100) (-5) (residualX (fun x => x - 90))
        (XQ.fin 0) (XQ.fin 96) =
      { retn := VCS_FAILED_CONVERGENCE, xbest := XQ.fin 93,
        evals := [XQ.fin 96, XQ.fin 95, XQ.fin 93], its := 1 } ∧
    (vcsUtil_root1d XQ.arith mlequX (XQ.fin (-1)) (XQ.fin 1) 4 halfMinus (XQ.fin 0)
        (XQ.fin 0)).evals = [XQ.fin 0, XQ.fin 0, XQ.nan, XQ.nan, XQ.nan, XQ.nan] ∧
    (vcsUtil_root1d XQ.arith mlequX (XQ.fin (-1)) (XQ.fin 1) 4 halfMinus (XQ.fin 0)
        (XQ.fin 0)).its = 4 :=
  ⟨⟨(root1d_call_budget XQ.arith mlequX (XQ.fin 0) (XQ.fin 100) (-5)
      (residualX (fun x => x - 90)) (XQ.fin 0) (XQ.fin 96)).1,
    (root1d_call_budget XQ.arith mlequX (XQ.fin 0) (XQ.fin 100) (-5)
      (residualX (fun x => x - 90)) (XQ.fin 0) (XQ.fin 96)).2.1⟩,
    by decide!, by decide!, by decide!⟩

end Fl

end VCSnonideal

namespace VCSnonideal

namespace Fl

open Examples

/-! ### The run at the guess `0`: a NaN among the recorded points -/

/-- C11 (failing input): `vcsUtil_root1d(-1, 1, 4, func, ..., 0, ..., &x)` with `x = 0`
and `f(x) = 1/2 - x`, in the arithmetic with NaN.  The start-up points are `x1 = 0` and
`x2 = 1.1 * 0 = 0`, both with the residual `1/2 > 0`: `xPosF = 0` is recorded and
`foundStraddle` is unset.  In the first pass `slope = (f2 - f1) / (x2 - x1)` is `0/0`, a
NaN; `slope == 0.0` is false and `xnew = x2 - f2 / slope` is NaN, no clamp moves it, and
`fnew = func(NaN)` is NaN.  As `fnew > 0.0` is false, the else branch records
`xNegF = NaN` and sets `foundStraddle`: the residual at the recorded `xNegF` is NaN, it is
neither `<= 0` nor `< 0`, and no sign change was seen.  The call makes all four passes and
returns `VCS_FAILED_CONVERGENCE` with `x = NaN`. -/
theorem root1d_nan_recorded_as_negative :
    ((startAt XQ.arith (XQ.fin (-1)) (XQ.fin 1) halfMinus (XQ.fin 0) (XQ.fin 0)).x1,
      (startAt XQ.arith (XQ.fin (-1)) (XQ.fin 1) halfMinus (XQ.fin 0) (XQ.fin 0)).x2,
      (startAt XQ.arith (XQ.fin (-1)) (XQ.fin 1) halfMinus (XQ.fin 0) (XQ.fin 0)).f2,
      (startAt XQ.arith (XQ.fin (-1)) (XQ.fin 1) halfMinus (XQ.fin 0)
        (XQ.fin 0)).foundStraddle) = (XQ.fin 0, XQ.fin 0, XQ.fin (1 / 2), false) ∧
    (fun s : LoopState XQ =>
        ((s.x2, s.f2), (s.foundPosF, s.foundNegF, s.foundStraddle, s.posStraddle),
          (s.xPosF, s.xNegF), s.converged))
      (loopBody XQ.arith mlequX (XQ.fin (-1)) (XQ.fin 1) halfMinus (XQ.fin 0)
        (fnormAt XQ.arith (XQ.fin (-1)) (XQ.fin 1) halfMinus (XQ.fin 0) (XQ.fin 0))
        (startAt XQ.arith (XQ.fin (-1)) (XQ.fin 1) halfMinus (XQ.fin 0) (XQ.fin 0))) =
      ((XQ.nan, XQ.nan), (true, true, true, false), (XQ.fin 0, XQ.nan), false) ∧
    XQ.arith.le (halfMinus XQ.nan (XQ.fin 0)) (XQ.arith.lit 0) = false ∧
    XQ.arith.lt (halfMinus XQ.nan (XQ.fin 0)) (XQ.arith.lit 0) = false ∧
    vcsUtil_root1d XQ.arith mlequX (XQ.fin (-1)) (XQ.fin 1) 4 halfMinus (XQ.fin 0)
        (XQ.fin 0) =
      { retn := VCS_FAILED_CONVERGENCE, xbest := XQ.nan,
        evals := [XQ.fin 0, XQ.fin 0, XQ.nan, XQ.nan, XQ.nan, XQ.nan], its := 4 } :=
  ⟨by decide!, by decide!, by decide!, by decide!, by decide!⟩

/-- C13 (failing input): the second pass of the same call,
`vcsUtil_root1d(-1, 1, 4, func, ..., 0, ..., &x)` with `x = 0` and `f(x) = 1/2 - x`.  It
starts with `foundStraddle` set, `xPosF = 0` and `xNegF = NaN`, and with `x2 = NaN`: the
secant estimate is NaN, every clamp compares with NaN and leaves it, and `func` is called
at NaN, which lies in no interval (`xPosF <= xnew` and `xnew <= xPosF` are both false).
The distance `|xPosF - xNegF|` of the recorded points is NaN before and after the pass. -/
theorem root1d_nan_evaluated_in_straddle :
    (fun s : LoopState XQ => (s.foundStraddle, s.xPosF, s.xNegF, s.x2))
      (loopBody XQ.arith mlequX (XQ.fin (-1)) (XQ.fin 1) halfMinus (XQ.fin 0)
        (fnormAt XQ.arith (XQ.fin (-1)) (XQ.fin 1) halfMinus (XQ.fin 0) (XQ.fin 0))
        (startAt XQ.arith (XQ.fin (-1)) (XQ.fin 1) halfMinus (XQ.fin 0) (XQ.fin 0))) =
      (true, XQ.fin 0, XQ.nan, XQ.nan) ∧
    (fun s : LoopState XQ => (s.evals, s.xPosF, s.xNegF))
      ((loopBody XQ.arith mlequX (XQ.fin (-1)) (XQ.fin 1) halfMinus (XQ.fin 0)
        (fnormAt XQ.arith (XQ.fin (-1)) (XQ.fin 1) halfMinus (XQ.fin 0) (XQ.fin 0)))^[2]
        (startAt XQ.arith (XQ.fin (-1)) (XQ.fin 1) halfMinus (XQ.fin 0) (XQ.fin 0))) =
      ([XQ.fin 0, XQ.fin 0, XQ.nan, XQ.nan], XQ.fin 0, XQ.nan) ∧
    XQ.arith.le (XQ.fin 0) XQ.nan = false ∧ XQ.arith.le XQ.nan (XQ.fin 0) = false ∧
    XQ.arith.fabs (XQ.arith.sub (XQ.fin 0) XQ.nan) = XQ.nan ∧
    XQ.arith.le XQ.nan XQ.nan = false :=
  ⟨by decide!, by decide!, by decide!, by decide!, by decide!, by decide!⟩

end Fl

end VCSnonideal

namespace Cantera

namespace Fl

variable {F σ : Type}

/-! ### The Newton loops, in every arithmetic -/

theorem newtonStepHP_cases (A : Arith F) (P : ThermoPhase F σ) (Htarget p dTtol : F)
    (doUV : Bool) (Tmax Tmin : F) (s : NewtonState F σ) :
    (returnsHP A P Htarget p dTtol doUV Tmax Tmin s = false ∧
      newtonStepHP A P Htarget p dTtol doUV Tmax Tmin s =
        Step.next (passHP A P Htarget p doUV Tmax Tmin s)) ∨
    (returnsHP A P Htarget p dTtol doUV Tmax Tmin s = true ∧
      (newtonStepHP A P Htarget p dTtol doUV Tmax Tmin s =
          Step.done (trialHP A P Htarget p doUV Tmax Tmin s) ∨
        newtonStepHP A P Htarget p dTtol doUV Tmax Tmin s =
          Step.done (passHP A P Htarget p doUV Tmax Tmin s))) := by
  unfold newtonStepHP returnsHP passHP
  dsimp only
  cases h1 : A.eq (trialHP A P Htarget p doUV Tmax Tmin s).Hnew Htarget with
  | true => exact Or.inr ⟨rfl, Or.inl (by simp)⟩
  | false =>
    cases h2 : convTestHP A Htarget dTtol s.Cpnew
        (bracketHP A Htarget (trialHP A P Htarget p doUV Tmax Tmin s)) with
    | true => exact Or.inr ⟨rfl, Or.inr (by simp)⟩
    | false => exact Or.inl ⟨rfl, by simp⟩

theorem newtonStepSP_cases (A : Arith F) (P : ThermoPhase F σ) (Starget p dTtol : F)
    (doSV : Bool) (Tmax Tmin : F) (s : NewtonStateS F σ) :
    (returnsSP A P Starget p dTtol doSV Tmax Tmin s = false ∧
      newtonStepSP A P Starget p dTtol doSV Tmax Tmin s =
        Step.next (passSP A P Starget p doSV Tmax Tmin s)) ∨
    (returnsSP A P Starget p dTtol doSV Tmax Tmin s = true ∧
      (newtonStepSP A P Starget p dTtol doSV Tmax Tmin s =
          Step.done (trialSP A P Starget p doSV Tmax Tmin s) ∨
        newtonStepSP A P Starget p dTtol doSV Tmax Tmin s =
          Step.done (passSP A P Starget p doSV Tmax Tmin s))) := by
  unfold newtonStepSP returnsSP passSP
  dsimp only
  cases h1 : A.eq (trialSP A P Starget p doSV Tmax Tmin s).Snew Starget with
  | true => exact Or.inr ⟨rfl, Or.inl (by simp)⟩
  | false =>
    cases h2 : convTestSP A Starget dTtol s.Cpnew
        (bracketSP A Starget (trialSP A P Starget p doSV Tmax Tmin s)) with
    | true => exact Or.inr ⟨rfl, Or.inr (by simp)⟩
    | false => exact Or.inl ⟨rfl, by simp⟩

/-- The Newton loop of `setState_HPorUV` with `k` iterations to go: it ends in the
`throw` exactly when none of the `k` passes reaches a `return`, after `k` passes; it ends
in a `return` exactly when one of them does, in the first such pass. -/
theorem newtonLoopHP_spec (A : Arith F) (P : ThermoPhase F σ) (Htarget p dTtol : F)
    (doUV : Bool) (Tmax Tmin : F) (k n : Nat) (s : NewtonState F σ) :
    ((newtonLoopHP A P Htarget p dTtol doUV Tmax Tmin k n s).exit = Exit.noConvergence ↔
      ∀ j, j < k → returnsHP A P Htarget p dTtol doUV Tmax Tmin
        ((passHP A P Htarget p doUV Tmax Tmin)^[j] s) = false) ∧
    ((newtonLoopHP A P Htarget p dTtol doUV Tmax Tmin k n s).exit = Exit.noConvergence →
      (newtonLoopHP A P Htarget p dTtol doUV Tmax Tmin k n s).iters = n + k ∧
      (newtonLoopHP A P Htarget p dTtol doUV Tmax Tmin k n s).w =
        ((passHP A P Htarget p doUV Tmax Tmin)^[k] s).w) ∧
    ((newtonLoopHP A P Htarget p dTtol doUV Tmax Tmin k n s).exit = Exit.returned ↔
      ∃ j, j < k ∧ returnsHP A P Htarget p dTtol doUV Tmax Tmin
        ((passHP A P Htarget p doUV Tmax Tmin)^[j] s) = true) ∧
    ((newtonLoopHP A P Htarget p dTtol doUV Tmax Tmin k n s).exit = Exit.returned →
      ∃ j, j < k ∧ (newtonLoopHP A P Htarget p dTtol doUV Tmax Tmin k n s).iters = n + j + 1 ∧
        returnsHP A P Htarget p dTtol doUV Tmax Tmin
          ((passHP A P Htarget p doUV Tmax Tmin)^[j] s) = true ∧
        (∀ i, i < j → returnsHP A P Htarget p dTtol doUV Tmax Tmin
          ((passHP A P Htarget p doUV Tmax Tmin)^[i] s) = false) ∧
        ((newtonLoopHP A P Htarget p dTtol doUV Tmax Tmin k n s).w =
            (trialHP A P Htarget p doUV Tmax Tmin
              ((passHP A P Htarget p doUV Tmax Tmin)^[j] s)).w ∨
          (newtonLoopHP A P Htarget p dTtol doUV Tmax Tmin k n s).w =
            ((passHP A P Htarget p doUV Tmax Tmin)^[j + 1] s).w)) ∧
    n ≤ (newtonLoopHP A P Htarget p dTtol doUV Tmax Tmin k n s).iters ∧
    (newtonLoopHP A P Htarget p dTtol doUV Tmax Tmin k n s).iters ≤ n + k ∧
    (newtonLoopHP A P Htarget p dTtol doUV Tmax Tmin k n s).exit ≠ Exit.inputTooSmall := by
  induction k generalizing n s with
  | zero =>
    have hne : Exit.noConvergence ≠ Exit.returned := by decide
    refine ⟨⟨fun _ j hj => absurd hj (Nat.not_lt_zero _), fun _ => rfl⟩, fun _ => ⟨rfl, rfl⟩,
      ⟨fun h => absurd h hne, fun ⟨j, hj, _⟩ => absurd hj (Nat.not_lt_zero _)⟩,
      fun h => absurd h hne, le_refl _, le_refl _, ?_⟩
    show Exit.noConvergence ≠ Exit.inputTooSmall
    decide
  | succ k ih =>
    rcases newtonStepHP_cases A P Htarget p dTtol doUV Tmax Tmin s with ⟨hr, hs⟩ | ⟨hr, hs⟩
    · obtain ⟨i1, i2, i3, i4, i5, i6, i7⟩ :=
        ih (n + 1) (passHP A P Htarget p doUV Tmax Tmin s)
      simp only [newtonLoopHP, hs]
      refine ⟨?_, ?_, ?_, ?_, by omega, by omega, i7⟩
      · rw [i1]
        constructor
        · intro h j hj
          cases j with
          | zero => exact hr
          | succ j =>
            rw [Function.iterate_succ_apply]
            exact h j (by omega)
        · intro h j hj
          have := h (j + 1) (by omega)
          rwa [Function.iterate_succ_apply] at this
      · intro h
        obtain ⟨a, b⟩ := i2 h
        exact ⟨by omega, by rw [b, ← Function.iterate_succ_apply]⟩
      · rw [i3]
        constructor
        · rintro ⟨j, hj, h⟩
          exact ⟨j + 1, by omega, by rwa [Function.iterate_succ_apply]⟩
        · rintro ⟨j, hj, h⟩
          cases j with
          | zero =>
            rw [Function.iterate_zero, id] at h
            rw [hr] at h
            cases h
          | succ j =>
            rw [Function.iterate_succ_apply] at h
            exact ⟨j, by omega, h⟩
      · intro h
        obtain ⟨j, hj, a, b, c, d⟩ := i4 h
        refine ⟨j + 1, by omega, by omega, by rwa [Function.iterate_succ_apply], ?_, ?_⟩
        · intro i hi
          cases i with
          | zero => exact hr
          | succ i =>
            rw [Function.iterate_succ_apply]
            exact c i (by omega)
        · rw [Function.iterate_succ_apply, Function.iterate_succ_apply]
          exact d
    · have hex : (newtonLoopHP A P Htarget p dTtol doUV Tmax Tmin (k + 1) n s).exit =
          Exit.returned ∧
          (newtonLoopHP A P Htarget p dTtol doUV Tmax Tmin (k + 1) n s).iters = n + 1 ∧
          ((newtonLoopHP A P Htarget p dTtol doUV Tmax Tmin (k + 1) n s).w =
              (trialHP A P Htarget p doUV Tmax Tmin s).w ∨
            (newtonLoopHP A P Htarget p dTtol doUV Tmax Tmin (k + 1) n s).w =
              (passHP A P Htarget p doUV Tmax Tmin s).w) := by
        rcases hs with hs | hs <;> simp only [newtonLoopHP, hs] <;> simp
      obtain ⟨e1, e2, e3⟩ := hex
      refine ⟨?_, ?_, ?_, ?_, by omega, by omega, by rw [e1]; decide⟩
      · constructor
        · intro h
          rw [e1] at h
          cases h
        · intro h
          have := h 0 (by omega)
          rw [Function.iterate_zero, id, hr] at this
          cases this
      · intro h
        rw [e1] at h
        cases h
      · exact ⟨fun _ => ⟨0, by omega, hr⟩, fun _ => e1⟩
      · intro _
        exact ⟨0, by omega, e2, hr, fun i hi => absurd hi (Nat.not_lt_zero _), e3⟩

/-- The Newton loop of `setState_SPorSV` with `k` iterations to go: it ends in the
`throw` exactly when none of the `k` passes reaches a `return`, after `k` passes; it ends
in a `return` exactly when one of them does, in the first such pass. -/
theorem newtonLoopSP_spec (A : Arith F) (P : ThermoPhase F σ) (Starget p dTtol : F)
    (doSV : Bool) (Tmax Tmin : F) (k n : Nat) (s : NewtonStateS F σ) :
    ((newtonLoopSP A P Starget p dTtol doSV Tmax Tmin k n s).exit = Exit.noConvergence ↔
      ∀ j, j < k → returnsSP A P Starget p dTtol doSV Tmax Tmin
        ((passSP A P Starget p doSV Tmax Tmin)^[j] s) = false) ∧
    ((newtonLoopSP A P Starget p dTtol doSV Tmax Tmin k n s).exit = Exit.noConvergence →
      (newtonLoopSP A P Starget p dTtol doSV Tmax Tmin k n s).iters = n + k ∧
      (newtonLoopSP A P Starget p dTtol doSV Tmax Tmin k n s).w =
        ((passSP A P Starget p doSV Tmax Tmin)^[k] s).w) ∧
    ((newtonLoopSP A P Starget p dTtol doSV Tmax Tmin k n s).exit = Exit.returned ↔
      ∃ j, j < k ∧ returnsSP A P Starget p dTtol doSV Tmax Tmin
        ((passSP A P Starget p doSV Tmax Tmin)^[j] s) = true) ∧
    ((newtonLoopSP A P Starget p dTtol doSV Tmax Tmin k n s).exit = Exit.returned →
      ∃ j, j < k ∧ (newtonLoopSP A P Starget p dTtol doSV Tmax Tmin k n s).iters = n + j + 1 ∧
        returnsSP A P Starget p dTtol doSV Tmax Tmin
          ((passSP A P Starget p doSV Tmax Tmin)^[j] s) = true ∧
        (∀ i, i < j → returnsSP A P Starget p dTtol doSV Tmax Tmin
          ((passSP A P Starget p doSV Tmax Tmin)^[i] s) = false) ∧
        ((newtonLoopSP A P Starget p dTtol doSV Tmax Tmin k n s).w =
            (trialSP A P Starget p doSV Tmax Tmin
              ((passSP A P Starget p doSV Tmax Tmin)^[j] s)).w ∨
          (newtonLoopSP A P Starget p dTtol doSV Tmax Tmin k n s).w =
            ((passSP A P Starget p doSV Tmax Tmin)^[j + 1] s).w)) ∧
    n ≤ (newtonLoopSP A P Starget p dTtol doSV Tmax Tmin k n s).iters ∧
    (newtonLoopSP A P Starget p dTtol doSV Tmax Tmin k n s).iters ≤ n + k ∧
    (newtonLoopSP A P Starget p dTtol doSV Tmax Tmin k n s).exit ≠ Exit.inputTooSmall := by
  induction k generalizing n s with
  | zero =>
    have hne : Exit.noConvergence ≠ Exit.returned := by decide
    refine ⟨⟨fun _ j hj => absurd hj (Nat.not_lt_zero _), fun _ => rfl⟩, fun _ => ⟨rfl, rfl⟩,
      ⟨fun h => absurd h hne, fun ⟨j, hj, _⟩ => absurd hj (Nat.not_lt_zero _)⟩,
      fun h => absurd h hne, le_refl _, le_refl _, ?_⟩
    show Exit.noConvergence ≠ Exit.inputTooSmall
    decide
  | succ k ih =>
    rcases newtonStepSP_cases A P Starget p dTtol doSV Tmax Tmin s with ⟨hr, hs⟩ | ⟨hr, hs⟩
    · obtain ⟨i1, i2, i3, i4, i5, i6, i7⟩ :=
        ih (n + 1) (passSP A P Starget p doSV Tmax Tmin s)
      simp only [newtonLoopSP, hs]
      refine ⟨?_, ?_, ?_, ?_, by omega, by omega, i7⟩
      · rw [i1]
        constructor
        · intro h j hj
          cases j with
          | zero => exact hr
          | succ j =>
            rw [Function.iterate_succ_apply]
            exact h j (by omega)
        · intro h j hj
          have := h (j + 1) (by omega)
          rwa [Function.iterate_succ_apply] at this
      · intro h
        obtain ⟨a, b⟩ := i2 h
        exact ⟨by omega, by rw [b, ← Function.iterate_succ_apply]⟩
      · rw [i3]
        constructor
        · rintro ⟨j, hj, h⟩
          exact ⟨j + 1, by omega, by rwa [Function.iterate_succ_apply]⟩
        · rintro ⟨j, hj, h⟩
          cases j with
          | zero =>
            rw [Function.iterate_zero, id] at h
            rw [hr] at h
            cases h
          | succ j =>
            rw [Function.iterate_succ_apply] at h
            exact ⟨j, by omega, h⟩
      · intro h
        obtain ⟨j, hj, a, b, c, d⟩ := i4 h
        refine ⟨j + 1, by omega, by omega, by rwa [Function.iterate_succ_apply], ?_, ?_⟩
        · intro i hi
          cases i with
          | zero => exact hr
          | succ i =>
            rw [Function.iterate_succ_apply]
            exact c i (by omega)
        · rw [Function.iterate_succ_apply, Function.iterate_succ_apply]
          exact d
    · have hex : (newtonLoopSP A P Starget p dTtol doSV Tmax Tmin (k + 1) n s).exit =
          Exit.returned ∧
          (newtonLoopSP A P Starget p dTtol doSV Tmax Tmin (k + 1) n s).iters = n + 1 ∧
          ((newtonLoopSP A P Starget p dTtol doSV Tmax Tmin (k + 1) n s).w =
              (trialSP A P Starget p doSV Tmax Tmin s).w ∨
            (newtonLoopSP A P Starget p dTtol doSV Tmax Tmin (k + 1) n s).w =
              (passSP A P Starget p doSV Tmax Tmin s).w) := by
        rcases hs with hs | hs <;> simp only [newtonLoopSP, hs] <;> simp
      obtain ⟨e1, e2, e3⟩ := hex
      refine ⟨?_, ?_, ?_, ?_, by omega, by omega, by rw [e1]; decide⟩
      · constructor
        · intro h
          rw [e1] at h
          cases h
        · intro h
          have := h 0 (by omega)
          rw [Function.iterate_zero, id, hr] at this
          cases this
      · intro h
        rw [e1] at h
        cases h
      · exact ⟨fun _ => ⟨0, by omega, hr⟩, fun _ => e1⟩
      · intro _
        exact ⟨0, by omega, e2, hr, fun i hi => absurd hi (Nat.not_lt_zero _), e3⟩

end Fl

end Cantera

namespace Cantera

namespace Fl

variable {F σ : Type}

/-! ### The evaluations of the heat capacity -/

theorem cpCalls_TP (P : ThermoPhase F σ) (w : Traced F σ) (t p : F) (b : Bool) :
    cpCalls (setState_conditional_TP P w t p b).log = cpCalls w.log := by
  cases b <;>
    simp [setState_conditional_TP, callSetTemperature, callSetPressure, cpCalls]

theorem cpCalls_evalH (P : ThermoPhase F σ) (d : Bool) (w : Traced F σ) :
    cpCalls (evalH P d w).2.log = cpCalls w.log := by
  cases d <;> simp [evalH, note, cpCalls]

theorem cpCalls_evalS (P : ThermoPhase F σ) (w : Traced F σ) :
    cpCalls (evalS P w).2.log = cpCalls w.log := by
  simp [evalS, note, cpCalls]

theorem cpCalls_evalCp (P : ThermoPhase F σ) (d : Bool) (w : Traced F σ) :
    cpCalls (evalCp P d w).2.log = cpCalls w.log + 1 := by
  cases d <;> simp [evalCp, note, cpCalls]

theorem cpCalls_note_enthalpy (w : Traced F σ) :
    cpCalls (note w Call.enthalpy_mass).log = cpCalls w.log := by
  simp [note, cpCalls]

theorem proposeHP_w (A : Arith F) (Htarget : F) (s : NewtonState F σ) :
    (proposeHP A Htarget s).w = s.w := by
  simp only [proposeHP]
  split_ifs <;> rfl

theorem proposeSP_w (A : Arith F) (Starget : F) (s : NewtonStateS F σ) :
    (proposeSP A Starget s).w = s.w := by
  simp only [proposeSP]
  split_ifs <;> rfl

theorem bracketHP_w_fl (A : Arith F) (Htarget : F) (s : NewtonState F σ) :
    (bracketHP A Htarget s).w = s.w := by
  unfold bracketHP
  split_ifs <;> rfl

theorem bracketSP_w_fl (A : Arith F) (Starget : F) (s : NewtonStateS F σ) :
    (bracketSP A Starget s).w = s.w := by
  unfold bracketSP
  split_ifs <;> rfl

theorem probeMaxHP_cp (A : Arith F) (P : ThermoPhase F σ) (Htarget p : F) (doUV : Bool)
    (Tmax : F) (s : NewtonState F σ) :
    cpCalls (probeMaxHP A P Htarget p doUV Tmax s).w.log = cpCalls s.w.log := by
  simp only [probeMaxHP]
  split_ifs <;> simp only [cpCalls_evalH, cpCalls_TP]

theorem probeMinHP_cp (A : Arith F) (P : ThermoPhase F σ) (Htarget p : F) (doUV : Bool)
    (Tmin : F) (s : NewtonState F σ) :
    cpCalls (probeMinHP A P Htarget p doUV Tmin s).w.log = cpCalls s.w.log := by
  simp only [probeMinHP]
  split_ifs <;> simp only [cpCalls_evalH, cpCalls_TP]

theorem probeSP_cp (A : Arith F) (P : ThermoPhase F σ) (Starget p : F) (doSV : Bool)
    (Tmax Tmin : F) (s : NewtonStateS F σ) :
    cpCalls (probeSP A P Starget p doSV Tmax Tmin s).w.log = cpCalls s.w.log := by
  simp only [probeSP]
  split_ifs <;> simp only [cpCalls_evalS, cpCalls_TP, cpCalls_note_enthalpy]

theorem stabilityPassHP_cp (A : Arith F) (P : ThermoPhase F σ) (p : F) (doUV : Bool)
    (s : NewtonState F σ) :
    cpCalls (stabilityPassHP A P p doUV s).1.w.log = cpCalls s.w.log + 1 := by
  simp only [stabilityPassHP]
  split_ifs <;> simp only [cpCalls_evalCp, cpCalls_evalH, cpCalls_TP]

theorem stabilityPassSP_cp (A : Arith F) (P : ThermoPhase F σ) (p : F) (doSV : Bool)
    (s : NewtonStateS F σ) :
    cpCalls (stabilityPassSP A P p doSV s).1.w.log = cpCalls s.w.log + 1 := by
  simp only [stabilityPassSP]
  split_ifs <;> simp only [cpCalls_evalCp, cpCalls_evalS, cpCalls_TP]

theorem stabilityLoopHP_cp (A : Arith F) (P : ThermoPhase F σ) (p : F) (doUV : Bool) (n : Nat)
    (s : NewtonState F σ) :
    cpCalls (stabilityLoopHP A P p doUV n s).w.log ≤ cpCalls s.w.log + n ∧
    (1 ≤ n → cpCalls s.w.log + 1 ≤ cpCalls (stabilityLoopHP A P p doUV n s).w.log) := by
  induction n generalizing s with
  | zero => exact ⟨le_refl _, fun h => absurd h (by omega)⟩
  | succ n ih =>
    have h1 := stabilityPassHP_cp A P p doUV s
    rw [stabilityLoopHP]
    split_ifs
    · exact ⟨by omega, fun _ => by omega⟩
    · obtain ⟨a, b⟩ := ih (stabilityPassHP A P p doUV s).1
      refine ⟨by omega, fun _ => ?_⟩
      cases n with
      | zero => simp only [stabilityLoopHP]; omega
      | succ n => have := b (by omega); omega

theorem stabilityLoopSP_cp (A : Arith F) (P : ThermoPhase F σ) (p : F) (doSV : Bool) (n : Nat)
    (s : NewtonStateS F σ) :
    cpCalls (stabilityLoopSP A P p doSV n s).w.log ≤ cpCalls s.w.log + n ∧
    (1 ≤ n → cpCalls s.w.log + 1 ≤ cpCalls (stabilityLoopSP A P p doSV n s).w.log) := by
  induction n generalizing s with
  | zero => exact ⟨le_refl _, fun h => absurd h (by omega)⟩
  | succ n ih =>
    have h1 := stabilityPassSP_cp A P p doSV s
    rw [stabilityLoopSP]
    split_ifs
    · exact ⟨by omega, fun _ => by omega⟩
    · obtain ⟨a, b⟩ := ih (stabilityPassSP A P p doSV s).1
      refine ⟨by omega, fun _ => ?_⟩
      cases n with
      | zero => simp only [stabilityLoopSP]; omega
      | succ n => have := b (by omega); omega

theorem trialHP_cp (A : Arith F) (P : ThermoPhase F σ) (Htarget p : F) (doUV : Bool)
    (Tmax Tmin : F) (s : NewtonState F σ) :
    cpCalls s.w.log + 1 ≤ cpCalls (trialHP A P Htarget p doUV Tmax Tmin s).w.log ∧
    cpCalls (trialHP A P Htarget p doUV Tmax Tmin s).w.log ≤ cpCalls s.w.log + 10 := by
  obtain ⟨a, b⟩ := stabilityLoopHP_cp A P p doUV 10
    (probeHP A P Htarget p doUV Tmax Tmin (proposeHP A Htarget s))
  have c : cpCalls (probeHP A P Htarget p doUV Tmax Tmin (proposeHP A Htarget s)).w.log =
      cpCalls s.w.log := by
    rw [probeHP, probeMinHP_cp, probeMaxHP_cp, proposeHP_w]
  have b := b (by omega)
  rw [c] at a b
  exact ⟨b, a⟩

theorem trialSP_cp (A : Arith F) (P : ThermoPhase F σ) (Starget p : F) (doSV : Bool)
    (Tmax Tmin : F) (s : NewtonStateS F σ) :
    cpCalls s.w.log + 1 ≤ cpCalls (trialSP A P Starget p doSV Tmax Tmin s).w.log ∧
    cpCalls (trialSP A P Starget p doSV Tmax Tmin s).w.log ≤ cpCalls s.w.log + 10 := by
  obtain ⟨a, b⟩ := stabilityLoopSP_cp A P p doSV 10
    (probeSP A P Starget p doSV Tmax Tmin (proposeSP A Starget s))
  have c : cpCalls (probeSP A P Starget p doSV Tmax Tmin (proposeSP A Starget s)).w.log =
      cpCalls s.w.log := by
    rw [probeSP_cp, proposeSP_w]
  have b := b (by omega)
  rw [c] at a b
  exact ⟨b, a⟩

theorem passHP_iterate_cp (A : Arith F) (P : ThermoPhase F σ) (Htarget p : F) (doUV : Bool)
    (Tmax Tmin : F) (j : Nat) (s : NewtonState F σ) :
    cpCalls s.w.log + j ≤ cpCalls ((passHP A P Htarget p doUV Tmax Tmin)^[j] s).w.log ∧
    cpCalls ((passHP A P Htarget p doUV Tmax Tmin)^[j] s).w.log ≤ cpCalls s.w.log + 10 * j := by
  induction j generalizing s with
  | zero => exact ⟨le_refl _, le_refl _⟩
  | succ j ih =>
    rw [Function.iterate_succ_apply]
    obtain ⟨a, b⟩ := ih (passHP A P Htarget p doUV Tmax Tmin s)
    obtain ⟨c, d⟩ := trialHP_cp A P Htarget p doUV Tmax Tmin s
    have e : (passHP A P Htarget p doUV Tmax Tmin s).w =
        (trialHP A P Htarget p doUV Tmax Tmin s).w := bracketHP_w_fl A Htarget _
    rw [e] at a b
    exact ⟨by omega, by omega⟩

theorem passSP_iterate_cp (A : Arith F) (P : ThermoPhase F σ) (Starget p : F) (doSV : Bool)
    (Tmax Tmin : F) (j : Nat) (s : NewtonStateS F σ) :
    cpCalls s.w.log + j ≤ cpCalls ((passSP A P Starget p doSV Tmax Tmin)^[j] s).w.log ∧
    cpCalls ((passSP A P Starget p doSV Tmax Tmin)^[j] s).w.log ≤ cpCalls s.w.log + 10 * j := by
  induction j generalizing s with
  | zero => exact ⟨le_refl _, le_refl _⟩
  | succ j ih =>
    rw [Function.iterate_succ_apply]
    obtain ⟨a, b⟩ := ih (passSP A P Starget p doSV Tmax Tmin s)
    obtain ⟨c, d⟩ := trialSP_cp A P Starget p doSV Tmax Tmin s
    have e : (passSP A P Starget p doSV Tmax Tmin s).w =
        (trialSP A P Starget p doSV Tmax Tmin s).w := bracketSP_w_fl A Starget _
    rw [e] at a b
    exact ⟨by omega, by omega⟩

theorem startHP_cp (A : Arith F) (P : ThermoPhase F σ) (ph : σ) (p : F) (doUV : Bool) :
    cpCalls (startHP A P ph p doUV).2.2.w.log = 1 := by
  simp only [startHP, initHP]
  rw [cpCalls_evalCp, cpCalls_evalH]
  split_ifs <;> (try rw [cpCalls_TP]) <;>
    simp [note, callSetDensity, callSetPressure, cpCalls]

theorem startSP_cp (A : Arith F) (P : ThermoPhase F σ) (ph : σ) (p : F) (doSV : Bool) :
    cpCalls (startSP A P ph p doSV).2.2.w.log = 1 := by
  simp only [startSP, initSP]
  rw [cpCalls_evalCp, cpCalls_evalS]
  split_ifs <;> (try rw [cpCalls_TP]) <;>
    simp [note, callSetDensity, callSetPressure, cpCalls]

/-- The count of the evaluations of the heat capacity in a Newton loop of
`setState_HPorUV`: at least one and at most ten for each iteration started. -/
theorem newtonLoopHP_cp (A : Arith F) (P : ThermoPhase F σ) (Htarget p dTtol : F)
    (doUV : Bool) (Tmax Tmin : F) (k : Nat) (s : NewtonState F σ) :
    cpCalls s.w.log + (newtonLoopHP A P Htarget p dTtol doUV Tmax Tmin k 0 s).iters ≤
      cpCalls (newtonLoopHP A P Htarget p dTtol doUV Tmax Tmin k 0 s).w.log ∧
    cpCalls (newtonLoopHP A P Htarget p dTtol doUV Tmax Tmin k 0 s).w.log ≤
      cpCalls s.w.log + 10 * (newtonLoopHP A P Htarget p dTtol doUV Tmax Tmin k 0 s).iters := by
  obtain ⟨-, i2, -, i4, -, -, i7⟩ := newtonLoopHP_spec A P Htarget p dTtol doUV Tmax Tmin k 0 s
  cases hex : (newtonLoopHP A P Htarget p dTtol doUV Tmax Tmin k 0 s).exit with
  | inputTooSmall => exact absurd hex i7
  | noConvergence =>
    obtain ⟨a, b⟩ := i2 hex
    obtain ⟨c, d⟩ := passHP_iterate_cp A P Htarget p doUV Tmax Tmin k s
    rw [a, b]
    exact ⟨by omega, by omega⟩
  | returned =>
    obtain ⟨j, -, a, -, -, b⟩ := i4 hex
    obtain ⟨c, d⟩ := passHP_iterate_cp A P Htarget p doUV Tmax Tmin j s
    obtain ⟨c1, d1⟩ := passHP_iterate_cp A P Htarget p doUV Tmax Tmin (j + 1) s
    obtain ⟨e, f⟩ := trialHP_cp A P Htarget p doUV Tmax Tmin
      ((passHP A P Htarget p doUV Tmax Tmin)^[j] s)
    rw [a]
    rcases b with b | b <;> rw [b] <;> exact ⟨by omega, by omega⟩

/-- The count of the evaluations of the heat capacity in a Newton loop of
`setState_SPorSV`: at least one and at most ten for each iteration started. -/
theorem newtonLoopSP_cp (A : Arith F) (P : ThermoPhase F σ) (Starget p dTtol : F)
    (doSV : Bool) (Tmax Tmin : F) (k : Nat) (s : NewtonStateS F σ) :
    cpCalls s.w.log + (newtonLoopSP A P Starget p dTtol doSV Tmax Tmin k 0 s).iters ≤
      cpCalls (newtonLoopSP A P Starget p dTtol doSV Tmax Tmin k 0 s).w.log ∧
    cpCalls (newtonLoopSP A P Starget p dTtol doSV Tmax Tmin k 0 s).w.log ≤
      cpCalls s.w.log + 10 * (newtonLoopSP A P Starget p dTtol doSV Tmax Tmin k 0 s).iters := by
  obtain ⟨-, i2, -, i4, -, -, i7⟩ := newtonLoopSP_spec A P Starget p dTtol doSV Tmax Tmin k 0 s
  cases hex : (newtonLoopSP A P Starget p dTtol doSV Tmax Tmin k 0 s).exit with
  | inputTooSmall => exact absurd hex i7
  | noConvergence =>
    obtain ⟨a, b⟩ := i2 hex
    obtain ⟨c, d⟩ := passSP_iterate_cp A P Starget p doSV Tmax Tmin k s
    rw [a, b]
    exact ⟨by omega, by omega⟩
  | returned =>
    obtain ⟨j, -, a, -, -, b⟩ := i4 hex
    obtain ⟨c, d⟩ := passSP_iterate_cp A P Starget p doSV Tmax Tmin j s
    obtain ⟨c1, d1⟩ := passSP_iterate_cp A P Starget p doSV Tmax Tmin (j + 1) s
    obtain ⟨e, f⟩ := trialSP_cp A P Starget p doSV Tmax Tmin
      ((passSP A P Starget p doSV Tmax Tmin)^[j] s)
    rw [a]
    rcases b with b | b <;> rw [b] <;> exact ⟨by omega, by omega⟩

end Fl

end Cantera

namespace Cantera

namespace Fl

open Examples

variable {F σ : Type}

theorem returnsHP_false (A : Arith F) (P : ThermoPhase F σ) (Htarget p dTtol : F)
    (doUV : Bool) (Tmax Tmin : F) (s : NewtonState F σ) :
    returnsHP A P Htarget p dTtol doUV Tmax Tmin s = false ↔
      A.eq (trialHP A P Htarget p doUV Tmax Tmin s).Hnew Htarget = false ∧
      A.lt (A.fabs (A.div (A.sub Htarget (passHP A P Htarget p doUV Tmax Tmin s).Hnew)
          (A.max (A.fabs Htarget)
            (A.mul (A.max (A.fabs s.Cpnew) (A.lit (1 / 100000))) dTtol))))
        (A.mul (A.lit (1 / 100000)) dTtol) = false ∧
      A.lt (A.fabs (passHP A P Htarget p doUV Tmax Tmin s).dt) dTtol = false := by
  simp only [returnsHP, convTestHP, Bool.or_eq_false_iff]

theorem returnsSP_false (A : Arith F) (P : ThermoPhase F σ) (Starget p dTtol : F)
    (doSV : Bool) (Tmax Tmin : F) (s : NewtonStateS F σ) :
    returnsSP A P Starget p dTtol doSV Tmax Tmin s = false ↔
      A.eq (trialSP A P Starget p doSV Tmax Tmin s).Snew Starget = false ∧
      A.lt (A.fabs (A.div
          (A.mul (A.sub Starget (passSP A P Starget p doSV Tmax Tmin s).Snew)
            (passSP A P Starget p doSV Tmax Tmin s).Tnew)
          (A.max (A.fabs Starget)
            (A.mul (A.max (A.fabs s.Cpnew) (A.lit (1 / 100000))) dTtol))))
        (A.mul (A.lit (1 / 100000)) dTtol) = false ∧
      A.lt (A.fabs (passSP A P Starget p doSV Tmax Tmin s).dt) dTtol = false := by
  simp only [returnsSP, convTestSP, Bool.or_eq_false_iff]

theorem returnsHP_true (A : Arith F) (P : ThermoPhase F σ) (Htarget p dTtol : F)
    (doUV : Bool) (Tmax Tmin : F) (s : NewtonState F σ) :
    returnsHP A P Htarget p dTtol doUV Tmax Tmin s = true ↔
      (A.eq (trialHP A P Htarget p doUV Tmax Tmin s).Hnew Htarget = true ∨
      A.lt (A.fabs (A.div (A.sub Htarget (passHP A P Htarget p doUV Tmax Tmin s).Hnew)
          (A.max (A.fabs Htarget)
            (A.mul (A.max (A.fabs s.Cpnew) (A.lit (1 / 100000))) dTtol))))
        (A.mul (A.lit (1 / 100000)) dTtol) = true ∨
      A.lt (A.fabs (passHP A P Htarget p doUV Tmax Tmin s).dt) dTtol = true) := by
  simp only [returnsHP, convTestHP, Bool.or_eq_true]

theorem setState_HPorUV_loop (A : Arith F) (P : ThermoPhase F σ) (ph : σ)
    (Htarget p dTtol : F) (doUV : Bool) (Tmax Tmin : F) (s0 : NewtonState F σ)
    (hp : A.lt p (A.lit (1 / 10 ^ 300)) = false)
    (hs : startHP A P ph p doUV = (Tmax, Tmin, s0)) :
    setState_HPorUV A P ph Htarget p dTtol doUV =
      newtonLoopHP A P Htarget p dTtol doUV Tmax Tmin 500 0 s0 := by
  simp only [setState_HPorUV, hp, Bool.false_eq_true, if_false, hs]

theorem setState_SPorSV_loop (A : Arith F) (P : ThermoPhase F σ) (ph : σ)
    (Starget p dTtol : F) (doSV : Bool) (Tmax Tmin : F) (s0 : NewtonStateS F σ)
    (hp : A.lt p (A.lit (1 / 10 ^ 300)) = false)
    (hs : startSP A P ph p doSV = (Tmax, Tmin, s0)) :
    setState_SPorSV A P ph Starget p dTtol doSV =
      newtonLoopSP A P Starget p dTtol doSV Tmax Tmin 500 0 s0 := by
  simp only [setState_SPorSV, hp, Bool.false_eq_true, if_false, hs]

/-- C19: in every arithmetic, for every phase and every input with an admitted `p`
(`p < 1.0E-300` false), `setState_HPorUV` and `setState_SPorSV` start at most 500 Newton
iterations, each with at least one and at most ten evaluations of the heat capacity (a
pass through the loop body from any locals `s` adds between one and ten of them to the
trace; one more is made before the loop), and the call ends in the `throw` of
`No convergence in 500 iterations` if and only if in each of 500 passes through the loop
body the exact match `Hnew == Htarget` is false and both parts of the convergence test,
`HConvErr < 0.00001 * dTtol` and `fabs(dt) < dTtol`, are false; all 500 iterations were
then made.  Here `(Tmax, Tmin, s0)` are the bounds and the locals with which the loop is
entered, the locals at the start of pass `n` are those that `n` passes without a `return`
leave behind, `trialHP` gives the locals of a pass after its inner loop and `passHP`
after its update of the bracket. -/
theorem setState_iteration_budget (A : Arith F) (P : ThermoPhase F σ) (ph : σ)
    (target p dTtol : F) (mode : Bool) (Tmax Tmin : F) (s0 : NewtonState F σ)
    (Umax Umin : F) (u0 : NewtonStateS F σ)
    (hp : A.lt p (A.lit (1 / 10 ^ 300)) = false)
    (hs : startHP A P ph p mode = (Tmax, Tmin, s0))
    (hu : startSP A P ph p mode = (Umax, Umin, u0)) :
    ((setState_HPorUV A P ph target p dTtol mode).iters ≤ 500 ∧
      (setState_HPorUV A P ph target p dTtol mode).iters + 1 ≤
        cpCalls (setState_HPorUV A P ph target p dTtol mode).w.log ∧
      cpCalls (setState_HPorUV A P ph target p dTtol mode).w.log ≤
        1 + 10 * (setState_HPorUV A P ph target p dTtol mode).iters ∧
      ((setState_HPorUV A P ph target p dTtol mode).exit = Exit.noConvergence ↔
        ∀ n, n < 500 →
          A.eq (trialHP A P target p mode Tmax Tmin
            ((passHP A P target p mode Tmax Tmin)^[n] s0)).Hnew target = false ∧
          A.lt (A.fabs (A.div
              (A.sub target (passHP A P target p mode Tmax Tmin
                ((passHP A P target p mode Tmax Tmin)^[n] s0)).Hnew)
              (A.max (A.fabs target)
                (A.mul (A.max (A.fabs ((passHP A P target p mode Tmax Tmin)^[n] s0).Cpnew)
                  (A.lit (1 / 100000))) dTtol))))
            (A.mul (A.lit (1 / 100000)) dTtol) = false ∧
          A.lt (A.fabs (passHP A P target p mode Tmax Tmin
            ((passHP A P target p mode Tmax Tmin)^[n] s0)).dt) dTtol = false) ∧
      ((setState_HPorUV A P ph target p dTtol mode).exit = Exit.noConvergence →
        (setState_HPorUV A P ph target p dTtol mode).iters = 500) ∧
      (∀ s : NewtonState F σ,
        cpCalls s.w.log + 1 ≤ cpCalls (passHP A P target p mode Tmax Tmin s).w.log ∧
        cpCalls (passHP A P target p mode Tmax Tmin s).w.log ≤ cpCalls s.w.log + 10)) ∧
    ((setState_SPorSV A P ph target p dTtol mode).iters ≤ 500 ∧
      (setState_SPorSV A P ph target p dTtol mode).iters + 1 ≤
        cpCalls (setState_SPorSV A P ph target p dTtol mode).w.log ∧
      cpCalls (setState_SPorSV A P ph target p dTtol mode).w.log ≤
        1 + 10 * (setState_SPorSV A P ph target p dTtol mode).iters ∧
      ((setState_SPorSV A P ph target p dTtol mode).exit = Exit.noConvergence ↔
        ∀ n, n < 500 →
          A.eq (trialSP A P target p mode Umax Umin
            ((passSP A P target p mode Umax Umin)^[n] u0)).Snew target = false ∧
          A.lt (A.fabs (A.div
              (A.mul
                (A.sub target (passSP A P target p mode Umax Umin
                  ((passSP A P target p mode Umax Umin)^[n] u0)).Snew)
                (passSP A P target p mode Umax Umin
                  ((passSP A P target p mode Umax Umin)^[n] u0)).Tnew)
              (A.max (A.fabs target)
                (A.mul (A.max (A.fabs ((passSP A P target p mode Umax Umin)^[n] u0).Cpnew)
                  (A.lit (1 / 100000))) dTtol))))
            (A.mul (A.lit (1 / 100000)) dTtol) = false ∧
          A.lt (A.fabs (passSP A P target p mode Umax Umin
            ((passSP A P target p mode Umax Umin)^[n] u0)).dt) dTtol = false) ∧
      ((setState_SPorSV A P ph target p dTtol mode).exit = Exit.noConvergence →
        (setState_SPorSV A P ph target p dTtol mode).iters = 500) ∧
      (∀ s : NewtonStateS F σ,
        cpCalls s.w.log + 1 ≤ cpCalls (passSP A P target p mode Umax Umin s).w.log ∧
        cpCalls (passSP A P target p mode Umax Umin s).w.log ≤ cpCalls s.w.log + 10)) := by
  constructor
  · have e := setState_HPorUV_loop A P ph target p dTtol mode Tmax Tmin s0 hp hs
    obtain ⟨i1, i2, -, -, -, i6, -⟩ :=
      newtonLoopHP_spec A P target p dTtol mode Tmax Tmin 500 0 s0
    obtain ⟨c1, c2⟩ := newtonLoopHP_cp A P target p dTtol mode Tmax Tmin 500 s0
    have hc : cpCalls s0.w.log = 1 := by
      have := startHP_cp A P ph p mode
      rwa [hs] at this
    rw [hc] at c1 c2
    rw [e]
    refine ⟨by omega, by omega, c2, ?_, fun h => by have := (i2 h).1; omega, fun s => ?_⟩
    · rw [i1]
      constructor
      · intro h n hn
        exact (returnsHP_false A P target p dTtol mode _ _ _).mp (h n hn)
      · intro h n hn
        exact (returnsHP_false A P target p dTtol mode _ _ _).mpr (h n hn)
    · have := passHP_iterate_cp A P target p mode Tmax Tmin 1 s
      simpa using this
  · have e := setState_SPorSV_loop A P ph target p dTtol mode Umax Umin u0 hp hu
    obtain ⟨i1, i2, -, -, -, i6, -⟩ :=
      newtonLoopSP_spec A P target p dTtol mode Umax Umin 500 0 u0
    obtain ⟨c1, c2⟩ := newtonLoopSP_cp A P target p dTtol mode Umax Umin 500 u0
    have hc : cpCalls u0.w.log = 1 := by
      have := startSP_cp A P ph p mode
      rwa [hu] at this
    rw [hc] at c1 c2
    rw [e]
    refine ⟨by omega, by omega, c2, ?_, fun h => by have := (i2 h).1; omega, fun s => ?_⟩
    · rw [i1]
      constructor
      · intro h n hn
        exact (returnsSP_false A P target p dTtol mode _ _ _).mp (h n hn)
      · intro h n hn
        exact (returnsSP_false A P target p dTtol mode _ _ _).mpr (h n hn)
    · have := passSP_iterate_cp A P target p mode Umax Umin 1 s
      simpa using this

end Fl

end Cantera

namespace Cantera

namespace Fl

open Examples

/-- A run of C19 that exhausts the 500 iterations: the phase with enthalpy, entropy and
heat capacity all zero at 300 K, target 5, `p = 101325`, `dTtol = 1/128`.  The Newton step
divides by the heat capacity zero, the quotient is clipped to 100 K, and each of the 500
iterations raises the temperature by 100 K; both functions end in the `throw` at
50300 K.  On the phase with the heat capacity `1/8` up to 992 K and `1` above, from
976 K with the target 994, `setState_HPorUV` returns in the second iteration after three
evaluations of the heat capacity. -/
theorem setState_iteration_budget_witness :
    XQ.arith.lt (XQ.fin 101325) (XQ.arith.lit (1 / 10 ^ 300)) = false ∧
    ((setState_HPorUV XQ.arith flatPhase (atT 300) (XQ.fin 5) (XQ.fin 101325)
        (XQ.fin (1 / 128)) false).iters ≤ 500 ∧
      ((setState_HPorUV XQ.arith flatPhase (atT 300) (XQ.fin 5) (XQ.fin 101325)
          (XQ.fin (1 / 128)) false).exit = Exit.noConvergence →
        (setState_HPorUV XQ.arith flatPhase (atT 300) (XQ.fin 5) (XQ.fin 101325)
          (XQ.fin (1 / 128)) false).iters = 500)) ∧
    (fun r : SetStateResult XQ XState => ((r.exit, r.iters), r.w.ph.T))
      (setState_HPorUV XQ.arith flatPhase (atT 300) (XQ.fin 5) (XQ.fin 101325)
        (XQ.fin (1 / 128)) false) = ((Exit.noConvergence, 500), XQ.fin 50300) ∧
    (fun r : SetStateResult XQ XState => ((r.exit, r.iters), r.w.ph.T))
      (setState_SPorSV XQ.arith flatPhase (atT 300) (XQ.fin 5) (XQ.fin 101325)
        (XQ.fin (1 / 128)) false) = ((Exit.noConvergence, 500), XQ.fin 50300) ∧
    (fun r : SetStateResult XQ XState => ((r.exit, r.iters), cpCalls r.w.log, r.w.ph.T))
      (setState_HPorUV XQ.arith stepPhaseX (atT 976) (XQ.fin 994) (XQ.fin 101325)
        (XQ.fin (1 / 128)) false) = ((Exit.returned, 2), 3, XQ.fin 994) :=
  ⟨by decide!,
    ⟨(setState_iteration_budget XQ.arith flatPhase (atT 300) (XQ.fin 5) (XQ.fin 101325)
        (XQ.fin (1 / 128)) false _ _ _ _ _ _ (by decide!) rfl rfl).1.1,
      (setState_iteration_budget XQ.arith flatPhase (atT 300) (XQ.fin 5) (XQ.fin 101325)
        (XQ.fin (1 / 128)) false _ _ _ _ _ _ (by decide!) rfl rfl).1.2.2.2.2.1⟩,
    by decide!, by decide!, by decide!⟩

end Fl

end Cantera

namespace Cantera

namespace Fl

variable {F σ : Type}

/-! ### The probes at the bounds and the flag `ignoreBounds` -/

theorem tempsSet_TP_fl (P : ThermoPhase F σ) (w : Traced F σ) (t p : F) (b : Bool) :
    tempsSet (setState_conditional_TP P w t p b).log = tempsSet w.log ++ [t] := by
  cases b <;>
    simp [setState_conditional_TP, callSetTemperature, callSetPressure, tempsSet]

theorem tempsSet_evalH_fl (P : ThermoPhase F σ) (d : Bool) (w : Traced F σ) :
    tempsSet (evalH P d w).2.log = tempsSet w.log := by
  cases d <;> simp [evalH, note, tempsSet]

theorem tempsSet_evalCp_fl (P : ThermoPhase F σ) (d : Bool) (w : Traced F σ) :
    tempsSet (evalCp P d w).2.log = tempsSet w.log := by
  cases d <;> simp [evalCp, note, tempsSet]

end Fl

end Cantera

namespace Cantera

namespace Fl

open Examples

variable {F σ : Type}

end Fl

end Cantera

namespace Cantera

namespace Fl

open Examples

variable {F σ : Type}

end Fl

end Cantera

namespace Cantera

namespace Fl

open Examples

end Fl

end Cantera

namespace Cantera

namespace Fl

open Examples

variable {F σ : Type}

/-! ### The bracket of `setState_HPorUV`, in every arithmetic -/

theorem startHP_sampled (A : Arith F) (P : ThermoPhase F σ) (ph : σ) (p : F) (doUV : Bool) :
    Sampled A P p doUV (startHP A P ph p doUV).2.2.Ttop (startHP A P ph p doUV).2.2.Htop ∧
    Sampled A P p doUV (startHP A P ph p doUV).2.2.Tbot (startHP A P ph p doUV).2.2.Hbot := by
  have key : Sampled A P p doUV (startHP A P ph p doUV).2.2.Tnew
      (startHP A P ph p doUV).2.2.Hnew := by
    simp only [startHP, initHP]
    split_ifs with h1 h2 h3 h4 h5 h6 h7 h8
    all_goals first
      | exact Or.inl ⟨_, rfl⟩
      | exact Or.inr ⟨_, Or.inl rfl, rfl⟩
      | (refine Or.inr ⟨_, Or.inr ?_, rfl⟩
         simp only [Arith.ne, Bool.not_eq_true', Bool.not_eq_false, Bool.not_eq_true] at *
         assumption)
  exact ⟨key, key⟩

theorem proposeHP_bracket (A : Arith F) (Htarget : F) (s : NewtonState F σ) :
    (proposeHP A Htarget s).Ttop = s.Ttop ∧ (proposeHP A Htarget s).Htop = s.Htop ∧
    (proposeHP A Htarget s).Tbot = s.Tbot ∧ (proposeHP A Htarget s).Hbot = s.Hbot := by
  simp only [proposeHP]
  split_ifs <;> exact ⟨rfl, rfl, rfl, rfl⟩

theorem probeHP_bracket (A : Arith F) (hA : A.Ordered) (P : ThermoPhase F σ)
    (Htarget p : F) (doUV : Bool) (Tmax Tmin : F) (c : NewtonState F σ) :
    (Sampled A P p doUV c.Ttop c.Htop →
      Sampled A P p doUV (probeHP A P Htarget p doUV Tmax Tmin c).Ttop
        (probeHP A P Htarget p doUV Tmax Tmin c).Htop) ∧
    (Sampled A P p doUV c.Tbot c.Hbot →
      Sampled A P p doUV (probeHP A P Htarget p doUV Tmax Tmin c).Tbot
        (probeHP A P Htarget p doUV Tmax Tmin c).Hbot) ∧
    (A.ge c.Htop Htarget = true →
      (probeHP A P Htarget p doUV Tmax Tmin c).Htop = c.Htop) ∧
    (A.le c.Hbot Htarget = true →
      (probeHP A P Htarget p doUV Tmax Tmin c).Hbot = c.Hbot) := by
  simp only [probeHP, probeMinHP, probeMaxHP]
  refine ⟨fun h1 => ?_, fun h2 => ?_, fun h3 => ?_, fun h4 => ?_⟩
  all_goals split_ifs
  all_goals first
    | rfl
    | assumption
    | exact Or.inl ⟨_, rfl⟩
    | (exfalso
       have := hA.le_not_lt _ _ h3
       simp_all [Arith.gt, Arith.ge])
    | (exfalso
       have := hA.le_not_lt _ _ h4
       simp_all [Arith.gt, Arith.ge])

theorem stabilityPassHP_bracket (A : Arith F) (P : ThermoPhase F σ) (p : F) (doUV : Bool)
    (s : NewtonState F σ) :
    (stabilityPassHP A P p doUV s).1.Ttop = s.Ttop ∧
    (stabilityPassHP A P p doUV s).1.Htop = s.Htop ∧
    (stabilityPassHP A P p doUV s).1.Tbot = s.Tbot ∧
    (stabilityPassHP A P p doUV s).1.Hbot = s.Hbot ∧
    Sampled A P p doUV (stabilityPassHP A P p doUV s).1.Tnew
      (stabilityPassHP A P p doUV s).1.Hnew := by
  simp only [stabilityPassHP]
  split_ifs <;> exact ⟨rfl, rfl, rfl, rfl, Or.inl ⟨_, rfl⟩⟩

theorem stabilityLoopHP_bracket (A : Arith F) (P : ThermoPhase F σ) (p : F) (doUV : Bool)
    (k : Nat) (s : NewtonState F σ) :
    (stabilityLoopHP A P p doUV (k + 1) s).Ttop = s.Ttop ∧
    (stabilityLoopHP A P p doUV (k + 1) s).Htop = s.Htop ∧
    (stabilityLoopHP A P p doUV (k + 1) s).Tbot = s.Tbot ∧
    (stabilityLoopHP A P p doUV (k + 1) s).Hbot = s.Hbot ∧
    Sampled A P p doUV (stabilityLoopHP A P p doUV (k + 1) s).Tnew
      (stabilityLoopHP A P p doUV (k + 1) s).Hnew := by
  induction k generalizing s with
  | zero =>
    simp only [stabilityLoopHP]
    split_ifs <;> exact stabilityPassHP_bracket A P p doUV s
  | succ k ih =>
    obtain ⟨a1, a2, a3, a4, a5⟩ := stabilityPassHP_bracket A P p doUV s
    rw [stabilityLoopHP]
    split_ifs
    · exact ⟨a1, a2, a3, a4, a5⟩
    · obtain ⟨b1, b2, b3, b4, b5⟩ := ih (stabilityPassHP A P p doUV s).1
      exact ⟨b1.trans a1, b2.trans a2, b3.trans a3, b4.trans a4, b5⟩

/-- The body of the Newton loop up to the end of the inner loop keeps the pairs of the
bracket sampled and leaves `(Tnew, Hnew)` sampled; it keeps `Htop >= Htarget` with the
same `Htop`, and `Hbot <= Htarget` with the same `Hbot`. -/
theorem trialHP_bracket (A : Arith F) (hA : A.Ordered) (P : ThermoPhase F σ)
    (Htarget p : F) (doUV : Bool) (Tmax Tmin : F) (s : NewtonState F σ) :
    (Sampled A P p doUV s.Ttop s.Htop →
      Sampled A P p doUV (trialHP A P Htarget p doUV Tmax Tmin s).Ttop
        (trialHP A P Htarget p doUV Tmax Tmin s).Htop) ∧
    (Sampled A P p doUV s.Tbot s.Hbot →
      Sampled A P p doUV (trialHP A P Htarget p doUV Tmax Tmin s).Tbot
        (trialHP A P Htarget p doUV Tmax Tmin s).Hbot) ∧
    Sampled A P p doUV (trialHP A P Htarget p doUV Tmax Tmin s).Tnew
      (trialHP A P Htarget p doUV Tmax Tmin s).Hnew ∧
    KeepsTop A Htarget s (trialHP A P Htarget p doUV Tmax Tmin s) ∧
    KeepsBot A Htarget s (trialHP A P Htarget p doUV Tmax Tmin s) := by
  obtain ⟨a1, a2, a3, a4⟩ := proposeHP_bracket A Htarget s
  obtain ⟨b1, b2, b3, b4⟩ := probeHP_bracket A hA P Htarget p doUV Tmax Tmin
    (proposeHP A Htarget s)
  obtain ⟨c1, c2, c3, c4, c5⟩ := stabilityLoopHP_bracket A P p doUV 9
    (probeHP A P Htarget p doUV Tmax Tmin (proposeHP A Htarget s))
  rw [a1, a2] at b1
  rw [a3, a4] at b2
  rw [a2] at b3
  rw [a4] at b4
  unfold trialHP KeepsTop KeepsBot
  rw [c1, c2, c3, c4]
  refine ⟨b1, b2, c5, fun h => ?_, fun h => ?_⟩
  · rw [b3 h]
    exact ⟨h, (hA.le_self _ _ h).2⟩
  · rw [b4 h]
    exact ⟨h, (hA.le_self _ _ h).1⟩

/-- The update of the bracket after the inner loop. -/
theorem bracketHP_bracket (A : Arith F) (hA : A.Ordered) (P : ThermoPhase F σ)
    (Htarget p : F) (doUV : Bool) (r : NewtonState F σ)
    (hr : Sampled A P p doUV r.Tnew r.Hnew) :
    (Sampled A P p doUV r.Ttop r.Htop →
      Sampled A P p doUV (bracketHP A Htarget r).Ttop (bracketHP A Htarget r).Htop) ∧
    (Sampled A P p doUV r.Tbot r.Hbot →
      Sampled A P p doUV (bracketHP A Htarget r).Tbot (bracketHP A Htarget r).Hbot) ∧
    KeepsTop A Htarget r (bracketHP A Htarget r) ∧
    KeepsBot A Htarget r (bracketHP A Htarget r) := by
  unfold bracketHP KeepsTop KeepsBot
  refine ⟨fun h1 => ?_, fun h2 => ?_, fun h3 => ?_, fun h4 => ?_⟩
  · split_ifs <;> first | exact hr | exact h1
  · split_ifs <;> first | exact hr | exact h2
  · have n3 := hA.le_not_lt _ _ h3
    have s3 := (hA.le_self _ _ h3).2
    split_ifs with c1 c2
    · simp only [Bool.and_eq_true, Bool.or_eq_true, n3, Bool.false_eq_true, false_or,
        Arith.gt] at c1
      exact ⟨hA.lt_le _ _ c1.1, hA.lt_le _ _ c1.2⟩
    · exact ⟨h3, s3⟩
    · exact ⟨h3, s3⟩
  · have n4 := hA.le_not_lt _ _ h4
    have s4 := (hA.le_self _ _ h4).1
    split_ifs with c1 c2
    · exact ⟨h4, s4⟩
    · simp only [Bool.and_eq_true, Bool.or_eq_true, Arith.gt, n4, Bool.false_eq_true,
        false_or] at c2
      exact ⟨hA.lt_le _ _ c2.1, hA.lt_le _ _ c2.2⟩
    · exact ⟨h4, s4⟩

theorem KeepsTop_trans (A : Arith F) (hA : A.Ordered) (Htarget : F)
    {a b c : NewtonState F σ} (h1 : KeepsTop A Htarget a b) (h2 : KeepsTop A Htarget b c) :
    KeepsTop A Htarget a c := by
  intro h
  obtain ⟨x1, x2⟩ := h1 h
  obtain ⟨y1, y2⟩ := h2 x1
  exact ⟨y1, hA.le_trans _ _ _ y2 x2⟩

theorem KeepsBot_trans (A : Arith F) (hA : A.Ordered) (Htarget : F)
    {a b c : NewtonState F σ} (h1 : KeepsBot A Htarget a b) (h2 : KeepsBot A Htarget b c) :
    KeepsBot A Htarget a c := by
  intro h
  obtain ⟨x1, x2⟩ := h1 h
  obtain ⟨y1, y2⟩ := h2 x1
  exact ⟨y1, hA.le_trans _ _ _ x2 y2⟩

/-- One pass through the body that reaches no `return`. -/
theorem passHP_bracket (A : Arith F) (hA : A.Ordered) (P : ThermoPhase F σ)
    (Htarget p : F) (doUV : Bool) (Tmax Tmin : F) (s : NewtonState F σ) :
    (Sampled A P p doUV s.Ttop s.Htop →
      Sampled A P p doUV (passHP A P Htarget p doUV Tmax Tmin s).Ttop
        (passHP A P Htarget p doUV Tmax Tmin s).Htop) ∧
    (Sampled A P p doUV s.Tbot s.Hbot →
      Sampled A P p doUV (passHP A P Htarget p doUV Tmax Tmin s).Tbot
        (passHP A P Htarget p doUV Tmax Tmin s).Hbot) ∧
    KeepsTop A Htarget s (passHP A P Htarget p doUV Tmax Tmin s) ∧
    KeepsBot A Htarget s (passHP A P Htarget p doUV Tmax Tmin s) ∧
    KeepsTop A Htarget (trialHP A P Htarget p doUV Tmax Tmin s)
      (passHP A P Htarget p doUV Tmax Tmin s) ∧
    KeepsBot A Htarget (trialHP A P Htarget p doUV Tmax Tmin s)
      (passHP A P Htarget p doUV Tmax Tmin s) := by
  obtain ⟨a1, a2, a3, a4, a5⟩ := trialHP_bracket A hA P Htarget p doUV Tmax Tmin s
  obtain ⟨b1, b2, b3, b4⟩ := bracketHP_bracket A hA P Htarget p doUV
    (trialHP A P Htarget p doUV Tmax Tmin s) a3
  exact ⟨fun h => b1 (a1 h), fun h => b2 (a2 h), KeepsTop_trans A hA Htarget a4 b3,
    KeepsBot_trans A hA Htarget a5 b4, b3, b4⟩

theorem passHP_iterate_bracket (A : Arith F) (hA : A.Ordered) (P : ThermoPhase F σ)
    (Htarget p : F) (doUV : Bool) (Tmax Tmin : F) (s : NewtonState F σ) (m : Nat) :
    (Sampled A P p doUV s.Ttop s.Htop →
      Sampled A P p doUV ((passHP A P Htarget p doUV Tmax Tmin)^[m] s).Ttop
        ((passHP A P Htarget p doUV Tmax Tmin)^[m] s).Htop) ∧
    (Sampled A P p doUV s.Tbot s.Hbot →
      Sampled A P p doUV ((passHP A P Htarget p doUV Tmax Tmin)^[m] s).Tbot
        ((passHP A P Htarget p doUV Tmax Tmin)^[m] s).Hbot) ∧
    KeepsTop A Htarget s ((passHP A P Htarget p doUV Tmax Tmin)^[m + 1] s) ∧
    KeepsBot A Htarget s ((passHP A P Htarget p doUV Tmax Tmin)^[m + 1] s) ∧
    KeepsTop A Htarget s
      (trialHP A P Htarget p doUV Tmax Tmin ((passHP A P Htarget p doUV Tmax Tmin)^[m] s)) ∧
    KeepsBot A Htarget s
      (trialHP A P Htarget p doUV Tmax Tmin ((passHP A P Htarget p doUV Tmax Tmin)^[m] s)) ∧
    KeepsTop A Htarget (trialHP A P Htarget p doUV Tmax Tmin s)
      ((passHP A P Htarget p doUV Tmax Tmin)^[m + 1] s) ∧
    KeepsBot A Htarget (trialHP A P Htarget p doUV Tmax Tmin s)
      ((passHP A P Htarget p doUV Tmax Tmin)^[m + 1] s) ∧
    (1 ≤ m →
      KeepsTop A Htarget (trialHP A P Htarget p doUV Tmax Tmin s)
        (trialHP A P Htarget p doUV Tmax Tmin
          ((passHP A P Htarget p doUV Tmax Tmin)^[m] s)) ∧
      KeepsBot A Htarget (trialHP A P Htarget p doUV Tmax Tmin s)
        (trialHP A P Htarget p doUV Tmax Tmin
          ((passHP A P Htarget p doUV Tmax Tmin)^[m] s))) := by
  induction m generalizing s with
  | zero =>
    obtain ⟨a1, a2, a3, a4, a5, a6⟩ := passHP_bracket A hA P Htarget p doUV Tmax Tmin s
    obtain ⟨t1, t2, t3, t4, t5⟩ := trialHP_bracket A hA P Htarget p doUV Tmax Tmin s
    exact ⟨fun h => h, fun h => h, a3, a4, t4, t5, a5, a6, fun h => absurd h (by omega)⟩
  | succ m ih =>
    obtain ⟨a1, a2, a3, a4, a5, a6⟩ := passHP_bracket A hA P Htarget p doUV Tmax Tmin s
    obtain ⟨i1, i2, i3, i4, i5, i6, -, -, -⟩ := ih (passHP A P Htarget p doUV Tmax Tmin s)
    have e1 : (passHP A P Htarget p doUV Tmax Tmin)^[m + 1] s =
        (passHP A P Htarget p doUV Tmax Tmin)^[m] (passHP A P Htarget p doUV Tmax Tmin s) :=
      Function.iterate_succ_apply _ _ _
    have e2 : (passHP A P Htarget p doUV Tmax Tmin)^[m + 1 + 1] s =
        (passHP A P Htarget p doUV Tmax Tmin)^[m + 1]
          (passHP A P Htarget p doUV Tmax Tmin s) :=
      Function.iterate_succ_apply _ _ _
    rw [e1, e2]
    exact ⟨fun h => i1 (a1 h), fun h => i2 (a2 h), KeepsTop_trans A hA Htarget a3 i3,
      KeepsBot_trans A hA Htarget a4 i4, KeepsTop_trans A hA Htarget a3 i5,
      KeepsBot_trans A hA Htarget a4 i6, KeepsTop_trans A hA Htarget a5 i3,
      KeepsBot_trans A hA Htarget a6 i4, fun _ => ⟨KeepsTop_trans A hA Htarget a5 i5,
      KeepsBot_trans A hA Htarget a6 i6⟩⟩

end Fl

end Cantera

namespace XQ

theorem lt_le_xq (a b : XQ) (h : lt a b = true) : le a b = true := by
  simp [le, h]

theorem le_not_lt_xq (a b : XQ) (h : le a b = true) : lt b a = false := by
  cases a <;> cases b <;> simp_all [le, lt, eq] <;>
    (rcases h with h | h <;> linarith)

theorem le_trans_xq (a b c : XQ) (h1 : le a b = true) (h2 : le b c = true) :
    le a c = true := by
  cases a <;> cases b <;> cases c <;> simp_all [le, lt, eq] <;>
    (rcases h1 with h1 | h1 <;> rcases h2 with h2 | h2 <;>
      first
        | (left; linarith)
        | (right; linarith))

theorem le_self_xq (a b : XQ) (h : le a b = true) : le a a = true ∧ le b b = true := by
  cases a <;> cases b <;> simp_all [le, lt, eq]

/-- The order of `XQ` has the properties of the order of the floating-point values. -/
theorem arith_ordered : arith.Ordered :=
  ⟨lt_le_xq, le_not_lt_xq, le_trans_xq, le_self_xq⟩

end XQ

namespace Cantera

namespace Fl

open Examples

variable {F σ : Type}

/-- C30: in every arithmetic whose comparisons are those of an order (`a < b` implies
`a <= b`, `a <= b` excludes `b < a`, `<=` is transitive, and operands of a true `<=`
compare `<=` to themselves, which NaN does not), for every phase and every input of
`setState_HPorUV`: at the start of every pass through the body of the Newton loop (for
`n = 0` the start of the loop) and after the inner loop of that pass, the pairs
`(Ttop, Htop)` and `(Tbot, Hbot)` hold a temperature together with the value read from
the phase at that temperature.  If `Htop >= Htarget` holds at one of these points, then
at every later point of the run (after the inner loop or at the end of an equal or later
pass) `Htop >= Htarget` holds and `Htop` is `<=` its earlier value; if `Hbot <= Htarget`
holds, then at every later point `Hbot <= Htarget` holds and the earlier value of `Hbot`
is `<=` the later one.  Here `(Tmax, Tmin, s0)` are the bounds and the locals with which
the loop is entered, the locals at the start of pass `n` are those that `n` passes
without a `return` leave behind, `trialHP` gives the locals of a pass after its inner
loop (where the `return` on an exact match is) and `passHP` the locals after its update
of the bracket (where the `return` on convergence is). -/
theorem setState_HP_bracket_kept (A : Arith F) (hA : A.Ordered) (P : ThermoPhase F σ)
    (ph : σ) (Htarget p : F) (doUV : Bool) (Tmax Tmin : F) (s0 : NewtonState F σ)
    (hs : startHP A P ph p doUV = (Tmax, Tmin, s0)) (n m : Nat) :
    (∀ s : NewtonState F σ,
      s ∈ [(passHP A P Htarget p doUV Tmax Tmin)^[n] s0,
           trialHP A P Htarget p doUV Tmax Tmin
             ((passHP A P Htarget p doUV Tmax Tmin)^[n] s0)] →
      Sampled A P p doUV s.Ttop s.Htop ∧ Sampled A P p doUV s.Tbot s.Hbot) ∧
    (∀ e l : NewtonState F σ,
      (e, l) ∈
        [((passHP A P Htarget p doUV Tmax Tmin)^[n] s0,
          trialHP A P Htarget p doUV Tmax Tmin
            ((passHP A P Htarget p doUV Tmax Tmin)^[n + m] s0)),
         ((passHP A P Htarget p doUV Tmax Tmin)^[n] s0,
          (passHP A P Htarget p doUV Tmax Tmin)^[n + m + 1] s0),
         (trialHP A P Htarget p doUV Tmax Tmin
            ((passHP A P Htarget p doUV Tmax Tmin)^[n] s0),
          (passHP A P Htarget p doUV Tmax Tmin)^[n + m + 1] s0),
         (trialHP A P Htarget p doUV Tmax Tmin
            ((passHP A P Htarget p doUV Tmax Tmin)^[n] s0),
          trialHP A P Htarget p doUV Tmax Tmin
            ((passHP A P Htarget p doUV Tmax Tmin)^[n + m + 1] s0))] →
      (A.ge e.Htop Htarget = true →
        A.ge l.Htop Htarget = true ∧ A.le l.Htop e.Htop = true) ∧
      (A.le e.Hbot Htarget = true →
        A.le l.Hbot Htarget = true ∧ A.le e.Hbot l.Hbot = true)) := by
  have h0 := startHP_sampled A P ph p doUV
  rw [hs] at h0
  obtain ⟨a1, a2, -, -, -, -, -, -, -⟩ :=
    passHP_iterate_bracket A hA P Htarget p doUV Tmax Tmin s0 n
  have hn1 := a1 h0.1
  have hn2 := a2 h0.2
  obtain ⟨t1, t2, -, -, -⟩ := trialHP_bracket A hA P Htarget p doUV Tmax Tmin
    ((passHP A P Htarget p doUV Tmax Tmin)^[n] s0)
  obtain ⟨-, -, b3, b4, b5, b6, b7, b8, -⟩ :=
    passHP_iterate_bracket A hA P Htarget p doUV Tmax Tmin
      ((passHP A P Htarget p doUV Tmax Tmin)^[n] s0) m
  obtain ⟨-, -, -, -, -, -, -, -, c9⟩ :=
    passHP_iterate_bracket A hA P Htarget p doUV Tmax Tmin
      ((passHP A P Htarget p doUV Tmax Tmin)^[n] s0) (m + 1)
  have e1 : ∀ k : Nat, (passHP A P Htarget p doUV Tmax Tmin)^[k]
      ((passHP A P Htarget p doUV Tmax Tmin)^[n] s0) =
      (passHP A P Htarget p doUV Tmax Tmin)^[n + k] s0 := by
    intro k
    rw [Nat.add_comm, Function.iterate_add_apply]
  rw [e1] at b3 b4 b5 b6 b7 b8
  have c9 := c9 (by omega)
  rw [e1, ← Nat.add_assoc] at c9
  refine ⟨?_, ?_⟩
  · intro s hmem
    simp only [List.mem_cons, List.mem_singleton, List.not_mem_nil, or_false] at hmem
    rcases hmem with rfl | rfl
    · exact ⟨hn1, hn2⟩
    · exact ⟨t1 hn1, t2 hn2⟩
  · intro e l hmem
    simp only [List.mem_cons, List.mem_singleton, List.not_mem_nil, or_false,
      Prod.mk.injEq] at hmem
    rcases hmem with ⟨rfl, rfl⟩ | ⟨rfl, rfl⟩ | ⟨rfl, rfl⟩ | ⟨rfl, rfl⟩
    · exact ⟨b5, b6⟩
    · exact ⟨b3, b4⟩
    · exact ⟨b7, b8⟩
    · exact ⟨c9.1, c9.2⟩

end Fl

end Cantera

namespace Cantera

namespace Fl

open Examples

/-- A run of C30: `setState_HPorUV(Htarget = 8, p = 1, dTtol)` in the enthalpy/pressure
mode on the phase with `H(T) = (T - 300)^2 / 128` and `Cp = (T - 300) / 64`, at 364 K.
The loop is entered with `Htop = Hbot = H(364) = 32 >= 8`; the first pass sets
`364 + (8 - 32) / 1 = 340` K, reads `H = 12.5` there and takes `(340, 12.5)` as the new
upper end of the bracket: `Htop` is still `>= Htarget` and has not increased, and it is
the value read right after 340 K was set. -/
theorem setState_HP_bracket_kept_witness :
    XQ.arith.Ordered ∧
    XQ.arith.ge (startHP XQ.arith bowlPhaseX (atT 364) (XQ.fin 1) false).2.2.Htop
      (XQ.fin 8) = true ∧
    (XQ.arith.ge
        (passHP XQ.arith bowlPhaseX (XQ.fin 8) (XQ.fin 1) false
          (startHP XQ.arith bowlPhaseX (atT 364) (XQ.fin 1) false).1
          (startHP XQ.arith bowlPhaseX (atT 364) (XQ.fin 1) false).2.1
          (startHP XQ.arith bowlPhaseX (atT 364) (XQ.fin 1) false).2.2).Htop
        (XQ.fin 8) = true ∧
      XQ.arith.le
        (passHP XQ.arith bowlPhaseX (XQ.fin 8) (XQ.fin 1) false
          (startHP XQ.arith bowlPhaseX (atT 364) (XQ.fin 1) false).1
          (startHP XQ.arith bowlPhaseX (atT 364) (XQ.fin 1) false).2.1
          (startHP XQ.arith bowlPhaseX (atT 364) (XQ.fin 1) false).2.2).Htop
        (startHP XQ.arith bowlPhaseX (atT 364) (XQ.fin 1) false).2.2.Htop = true) ∧
    (fun s : NewtonState XQ XState => ((s.Ttop, s.Htop), (s.Tbot, s.Hbot)))
      (startHP XQ.arith bowlPhaseX (atT 364) (XQ.fin 1) false).2.2 =
      ((XQ.fin 364, XQ.fin 32), (XQ.fin 364, XQ.fin 32)) ∧
    (fun s : NewtonState XQ XState => ((s.Ttop, s.Htop), (s.Tbot, s.Hbot)))
      (passHP XQ.arith bowlPhaseX (XQ.fin 8) (XQ.fin 1) false
        (startHP XQ.arith bowlPhaseX (atT 364) (XQ.fin 1) false).1
        (startHP XQ.arith bowlPhaseX (atT 364) (XQ.fin 1) false).2.1
        (startHP XQ.arith bowlPhaseX (atT 364) (XQ.fin 1) false).2.2) =
      ((XQ.fin 340, XQ.fin (25 / 2)), (XQ.fin 364, XQ.fin 32)) :=
  ⟨XQ.arith_ordered, by decide!,
    ((setState_HP_bracket_kept XQ.arith XQ.arith_ordered bowlPhaseX (atT 364) (XQ.fin 8)
      (XQ.fin 1) false _ _ _ rfl 0 0).2 _ _
      (List.mem_cons_of_mem _ (List.mem_cons_self _ _))).1 (by decide!),
    by decide!, by decide!⟩

end Fl

end Cantera

namespace XQ

theorem mul_fin_fin (k q : ℚ) (hk : 0 < k) : mul (fin k) (fin q) = fin (k * q) := by
  have hk0 : k ≠ 0 := ne_of_gt hk
  have h1 : ¬ k < 0 := not_lt.mpr (le_of_lt hk)
  by_cases hq : q = 0
  · subst hq
    simp [mul, val, signBit, zero, h1]
  · simp [mul, val, hk0, hq]

theorem mul_fin_negZero (k : ℚ) (hk : 0 < k) : mul (fin k) negZero = negZero := by
  have h1 : ¬ k < 0 := not_lt.mpr (le_of_lt hk)
  simp [mul, val, signBit, zero, h1]

theorem mul_fin_posInf (k : ℚ) (hk : 0 < k) : mul (fin k) posInf = posInf := by
  have hk0 : k ≠ 0 := ne_of_gt hk
  have h1 : ¬ k < 0 := not_lt.mpr (le_of_lt hk)
  simp [mul, val, signBit, inf, h1, hk0]

theorem mul_fin_negInf (k : ℚ) (hk : 0 < k) : mul (fin k) negInf = negInf := by
  have hk0 : k ≠ 0 := ne_of_gt hk
  have h1 : ¬ k < 0 := not_lt.mpr (le_of_lt hk)
  simp [mul, val, signBit, inf, h1, hk0]

theorem mul_fin_nan (k : ℚ) : mul (fin k) nan = nan := by
  simp [mul]

end XQ

namespace XQ

theorem mul_neg_pos_left (k q : ℚ) (hk : 0 < k) : k * q < 0 ↔ q < 0 := by
  constructor
  · intro h
    by_contra hq
    have : 0 ≤ k * q := mul_nonneg (le_of_lt hk) (not_lt.mp hq)
    linarith
  · intro h
    exact mul_neg_of_pos_of_neg hk h

theorem scale_lt (k : ℚ) (hk : 0 < k) (a b : XQ) :
    lt (mul (fin k) a) (mul (fin k) b) = lt a b := by
  cases a <;> cases b <;>
    simp [mul_fin_fin, mul_fin_negZero, mul_fin_posInf, mul_fin_negInf, mul_fin_nan, hk, lt,
      mul_pos_iff_of_pos_left, mul_neg_pos_left]

theorem scale_eq (k : ℚ) (hk : 0 < k) (a b : XQ) :
    eq (mul (fin k) a) (mul (fin k) b) = eq a b := by
  have hk0 : k ≠ 0 := ne_of_gt hk
  cases a <;> cases b <;>
    simp [mul_fin_fin, mul_fin_negZero, mul_fin_posInf, mul_fin_negInf, mul_fin_nan, hk, eq,
      hk0]

theorem scale_le (k : ℚ) (hk : 0 < k) (a b : XQ) :
    le (mul (fin k) a) (mul (fin k) b) = le a b := by
  simp only [le, scale_lt k hk, scale_eq k hk]

theorem scale_neg (k : ℚ) (hk : 0 < k) (a : XQ) :
    neg (mul (fin k) a) = mul (fin k) (neg a) := by
  have hk0 : k ≠ 0 := ne_of_gt hk
  cases a with
  | fin q =>
    by_cases hq : q = 0
    · subst hq
      simp [mul_fin_fin, mul_fin_negZero, hk, neg]
    · simp [mul_fin_fin, hk, neg, hq, hk0]
  | negZero => simp [mul_fin_fin, mul_fin_negZero, hk, neg]
  | posInf => simp [mul_fin_posInf, mul_fin_negInf, hk, neg]
  | negInf => simp [mul_fin_posInf, mul_fin_negInf, hk, neg]
  | nan => simp [mul_fin_nan, neg]

theorem scale_add (k : ℚ) (hk : 0 < k) (a b : XQ) :
    add (mul (fin k) a) (mul (fin k) b) = mul (fin k) (add a b) := by
  cases a <;> cases b <;>
    simp [mul_fin_fin, mul_fin_negZero, mul_fin_posInf, mul_fin_negInf, mul_fin_nan, hk, add,
      mul_add]

theorem scale_sub (k : ℚ) (hk : 0 < k) (a b : XQ) :
    sub (mul (fin k) a) (mul (fin k) b) = mul (fin k) (sub a b) := by
  simp only [sub, scale_neg k hk, scale_add k hk]

theorem scale_fabs (k : ℚ) (hk : 0 < k) (a : XQ) :
    fabs (mul (fin k) a) = mul (fin k) (fabs a) := by
  cases a <;>
    simp [mul_fin_fin, mul_fin_negZero, mul_fin_posInf, mul_fin_negInf, mul_fin_nan, hk, fabs,
      abs_mul, abs_of_pos hk]

theorem scale_lt_zero (k : ℚ) (hk : 0 < k) (a : XQ) :
    lt (mul (fin k) a) (fin 0) = lt a (fin 0) := by
  cases a <;>
    simp [mul_fin_fin, mul_fin_negZero, mul_fin_posInf, mul_fin_negInf, mul_fin_nan, hk, lt,
      mul_neg_pos_left]

end XQ

namespace XQ

theorem signBit_scale (k : ℚ) (hk : 0 < k) (a : XQ) :
    signBit (mul (fin k) a) = signBit a := by
  cases a <;>
    simp [mul_fin_fin, mul_fin_negZero, mul_fin_posInf, mul_fin_negInf, mul_fin_nan, hk,
      signBit, mul_neg_pos_left]

theorem val_scale (k : ℚ) (hk : 0 < k) (a : XQ) :
    val (mul (fin k) a) = (val a).map (fun q => k * q) := by
  cases a <;>
    simp [mul_fin_fin, mul_fin_negZero, mul_fin_posInf, mul_fin_negInf, mul_fin_nan, hk, val]

theorem scale_zero (k : ℚ) (hk : 0 < k) (s : Bool) : mul (fin k) (zero s) = zero s := by
  cases s <;> simp [zero, mul_fin_fin, mul_fin_negZero, hk]

theorem scale_inf (k : ℚ) (hk : 0 < k) (s : Bool) : mul (fin k) (inf s) = inf s := by
  cases s <;> simp [inf, mul_fin_posInf, mul_fin_negInf, hk]

theorem mul_nan_right (a : XQ) : mul a nan = nan := by
  cases a <;> rfl

theorem div_nan_right (a : XQ) : div a nan = nan := by
  cases a <;> rfl

theorem scale_mul (k : ℚ) (hk : 0 < k) (a t : XQ) :
    mul (mul (fin k) a) t = mul (fin k) (mul a t) := by
  have hk0 : k ≠ 0 := ne_of_gt hk
  by_cases ha : a = nan
  · subst ha
    simp [mul_fin_nan, mul]
  by_cases ht : t = nan
  · subst ht
    rw [mul_nan_right, mul_nan_right, mul_fin_nan]
  have e1 : mul a t = (match a.val, t.val with
    | some x, some y =>
      if x * y = 0 then zero (a.signBit != t.signBit) else fin (x * y)
    | some x, none => if x = 0 then nan else inf (a.signBit != t.signBit)
    | none, some y => if y = 0 then nan else inf (a.signBit != t.signBit)
    | none, none => inf (a.signBit != t.signBit)) := by
    cases a <;> cases t <;> first | rfl | exact absurd rfl ha | exact absurd rfl ht
  have ha2 : mul (fin k) a ≠ nan := by
    cases a <;> simp [mul_fin_fin, mul_fin_negZero, mul_fin_posInf, mul_fin_negInf, hk] at ha ⊢
  have e2 : mul (mul (fin k) a) t = (match (mul (fin k) a).val, t.val with
    | some x, some y =>
      if x * y = 0 then zero ((mul (fin k) a).signBit != t.signBit) else fin (x * y)
    | some x, none => if x = 0 then nan else inf ((mul (fin k) a).signBit != t.signBit)
    | none, some y => if y = 0 then nan else inf ((mul (fin k) a).signBit != t.signBit)
    | none, none => inf ((mul (fin k) a).signBit != t.signBit)) := by
    generalize mul (fin k) a = b at ha2
    cases b <;> cases t <;> first | rfl | exact absurd rfl ha2 | exact absurd rfl ht
  rw [e2, e1, signBit_scale k hk, val_scale k hk]
  cases hav : a.val with
  | none =>
    cases htv : t.val with
    | none => simp [scale_inf k hk]
    | some y =>
      by_cases hy : y = 0
      · simp [hy, mul_fin_nan]
      · simp [hy, scale_inf k hk]
  | some x =>
    cases htv : t.val with
    | none =>
      by_cases hx : x = 0
      · simp [hx, mul_fin_nan]
      · simp [hx, hk0, scale_inf k hk]
    | some y =>
      by_cases hxy : x * y = 0
      · have : k * x * y = 0 := by rw [mul_assoc, hxy, mul_zero]
        simp [hxy, this, scale_zero k hk]
      · have : k * x * y ≠ 0 := by
          rw [mul_assoc]
          exact mul_ne_zero hk0 hxy
        simp [hxy, this, mul_fin_fin, hk, mul_assoc, hk0]

theorem scale_div (k : ℚ) (hk : 0 < k) (a b : XQ) :
    div (mul (fin k) a) (mul (fin k) b) = div a b := by
  have hk0 : k ≠ 0 := ne_of_gt hk
  by_cases ha : a = nan
  · subst ha
    simp [mul_fin_nan, div]
  by_cases hb : b = nan
  · subst hb
    rw [mul_fin_nan, div_nan_right, div_nan_right]
  have e1 : ∀ a b : XQ, a ≠ nan → b ≠ nan → div a b = (match a.val, b.val with
    | some x, some y =>
      if y = 0 then (if x = 0 then nan else inf (a.signBit != b.signBit))
      else if x = 0 then zero (a.signBit != b.signBit) else fin (x / y)
    | some _, none => zero (a.signBit != b.signBit)
    | none, some _ => inf (a.signBit != b.signBit)
    | none, none => nan) := by
    intro a b ha hb
    cases a <;> cases b <;> first | rfl | exact absurd rfl ha | exact absurd rfl hb
  have ha2 : mul (fin k) a ≠ nan := by
    cases a <;> simp [mul_fin_fin, mul_fin_negZero, mul_fin_posInf, mul_fin_negInf, hk] at ha ⊢
  have hb2 : mul (fin k) b ≠ nan := by
    cases b <;> simp [mul_fin_fin, mul_fin_negZero, mul_fin_posInf, mul_fin_negInf, hk] at hb ⊢
  rw [e1 _ _ ha2 hb2, e1 _ _ ha hb, signBit_scale k hk, signBit_scale k hk, val_scale k hk,
    val_scale k hk]
  cases hav : a.val with
  | none =>
    cases hbv : b.val with
    | none => simp
    | some y => simp
  | some x =>
    cases hbv : b.val with
    | none => simp
    | some y =>
      by_cases hy : y = 0
      · by_cases hx : x = 0
        · simp [hx, hy]
        · simp [hx, hy, hk0]
      · by_cases hx : x = 0
        · simp [hx, hy, hk0]
        · simp [hx, hy, hk0, mul_div_mul_left]

/-- In the arithmetic of `XQ` the multiplication by a literal `k > 0` is exact on all
values. -/
theorem arith_scaling (k : ℚ) (hk : 0 < k) (t : XQ) :
    arith.Scaling k t (fun _ => True) (fun _ => True) where
  mem _ _ := trivial
  sub_mem _ _ _ _ := trivial
  fabs_mem _ _ := trivial
  mul_mem _ _ := trivial
  lt a b _ _ := scale_lt k hk a b
  le a b _ _ := scale_le k hk a b
  eq a b _ _ := scale_eq k hk a b
  lt_zero a _ := scale_lt_zero k hk a
  sub a b _ _ := scale_sub k hk a b
  fabs a _ := scale_fabs k hk a
  mul a _ := scale_mul k hk (fabs a) t
  div a b _ _ := scale_div k hk a b

end XQ

namespace Cantera

namespace Fl

variable {F σ : Type}

/-! ### Scaling of the property in `setState_HPorUV` -/

theorem evalH_scalePhase (A : Arith F) (k : ℚ) (P : ThermoPhase F σ) (doUV : Bool)
    (w : Traced F σ) :
    evalH (scalePhase A k P) doUV w =
      (A.mul (A.lit k) (evalH P doUV w).1, (evalH P doUV w).2) := by
  cases doUV <;> rfl

theorem evalCp_scalePhase (A : Arith F) (k : ℚ) (P : ThermoPhase F σ) (doUV : Bool)
    (w : Traced F σ) :
    evalCp (scalePhase A k P) doUV w =
      (A.mul (A.lit k) (evalCp P doUV w).1, (evalCp P doUV w).2) := by
  cases doUV <;> rfl

theorem setState_conditional_TP_scalePhase (A : Arith F) (k : ℚ) (P : ThermoPhase F σ)
    (w : Traced F σ) (t p : F) (set_p : Bool) :
    setState_conditional_TP (scalePhase A k P) w t p set_p =
      setState_conditional_TP P w t p set_p := by
  cases set_p <;> rfl

theorem proposeHP_scale (A : Arith F) (k : ℚ) (dTtol : F) (D1 D2 : F → Prop)
    (hk : A.Scaling k dTtol D1 D2) (Htarget : F) (hT : D1 Htarget)
    (t s : NewtonState F σ) (h : ScaledHP A k D1 t s) :
    ScaledHP A k D1 (proposeHP A (A.mul (A.lit k) Htarget) t) (proposeHP A Htarget s) := by
  obtain ⟨h1, h2, h3, h4, h5, h6, h7, h8, h9, h10, h11, h12, h13, h14, m1, m2, m3, m4, f1, f2⟩ := h
  rcases t with ⟨tw, tTnew, tHnew, tCpnew, tHtop, tTtop, tHbot, tTbot, tTold, tHold, tdt,
    tib, tup, tTu, tupn⟩
  rcases s with ⟨sw, sTnew, sHnew, sCpnew, sHtop, sTtop, sHbot, sTbot, sTold, sHold, sdt,
    sib, sup, sTu, supn⟩
  simp only at h1 h2 h3 h4 h5 h6 h7 h8 h9 h10 h11 h12 h13 h14 m1 m2 m3 m4 f1 f2
  subst h1 h2 h3 h4 h5 h6 h7 h8 h9 h10 h11 h12 h13 h14
  have l1 := hk.lt_zero _ m2
  have l2 := hk.sub _ _ hT m1
  have l3 := hk.div _ _ (hk.sub_mem _ _ hT m1) (hk.mem _ m2)
  have l4 := hk.lt _ _ (hk.mem _ m4) (hk.mem _ hT)
  have l5 := hk.lt _ _ (hk.mem _ hT) (hk.mem _ m3)
  cases c1 : A.lt sCpnew (A.lit 0) <;>
    simp only [proposeHP, Arith.gt, l1, c1, l2, l3, l4, l5, Bool.false_eq_true, if_false,
      if_true] <;>
    split_ifs <;> constructor <;> first | rfl | assumption

end Fl

end Cantera

namespace Cantera

namespace Fl

variable {F σ : Type}

theorem probeMaxHP_scale (A : Arith F) (k : ℚ) (dTtol : F) (D1 D2 : F → Prop)
    (hk : A.Scaling k dTtol D1 D2) (P : ThermoPhase F σ) (Htarget p : F) (doUV : Bool)
    (hT : D1 Htarget) (hP : ∀ w, D1 (evalH P doUV w).1 ∧ D1 (evalCp P doUV w).1)
    (Tmax : F) (t s : NewtonState F σ) (h : ScaledHP A k D1 t s) :
    ScaledHP A k D1 (probeMaxHP A (scalePhase A k P) (A.mul (A.lit k) Htarget) p doUV Tmax t)
      (probeMaxHP A P Htarget p doUV Tmax s) := by
  obtain ⟨h1, h2, h3, h4, h5, h6, h7, h8, h9, h10, h11, h12, h13, h14, m1, m2, m3, m4, f1, f2⟩ := h
  rcases t with ⟨tw, tTnew, tHnew, tCpnew, tHtop, tTtop, tHbot, tTbot, tTold, tHold, tdt,
    tib, tup, tTu, tupn⟩
  rcases s with ⟨sw, sTnew, sHnew, sCpnew, sHtop, sTtop, sHbot, sTbot, sTold, sHold, sdt,
    sib, sup, sTu, supn⟩
  simp only at h1 h2 h3 h4 h5 h6 h7 h8 h9 h10 h11 h12 h13 h14 m1 m2 m3 m4 f1 f2
  subst h1 h2 h3 h4 h5 h6 h7 h8 h9 h10 h11 h12 h13 h14
  have l1 : ∀ w, A.le (A.mul (A.lit k) Htarget) (A.mul (A.lit k) (evalH P doUV w).1) =
      A.le Htarget (evalH P doUV w).1 := fun w => hk.le _ _ (hk.mem _ hT) (hk.mem _ (hP w).1)
  have l2 := hk.lt _ _ (hk.mem _ m3) (hk.mem _ hT)
  simp only [probeMaxHP, Arith.ge, setState_conditional_TP_scalePhase, evalH_scalePhase, l1, l2]
  split_ifs <;> constructor <;> first | rfl | assumption | exact (hP _).1

theorem probeMinHP_scale (A : Arith F) (k : ℚ) (dTtol : F) (D1 D2 : F → Prop)
    (hk : A.Scaling k dTtol D1 D2) (P : ThermoPhase F σ) (Htarget p : F) (doUV : Bool)
    (hT : D1 Htarget) (hP : ∀ w, D1 (evalH P doUV w).1 ∧ D1 (evalCp P doUV w).1)
    (Tmin : F) (t s : NewtonState F σ) (h : ScaledHP A k D1 t s) :
    ScaledHP A k D1 (probeMinHP A (scalePhase A k P) (A.mul (A.lit k) Htarget) p doUV Tmin t)
      (probeMinHP A P Htarget p doUV Tmin s) := by
  obtain ⟨h1, h2, h3, h4, h5, h6, h7, h8, h9, h10, h11, h12, h13, h14, m1, m2, m3, m4, f1, f2⟩ := h
  rcases t with ⟨tw, tTnew, tHnew, tCpnew, tHtop, tTtop, tHbot, tTbot, tTold, tHold, tdt,
    tib, tup, tTu, tupn⟩
  rcases s with ⟨sw, sTnew, sHnew, sCpnew, sHtop, sTtop, sHbot, sTbot, sTold, sHold, sdt,
    sib, sup, sTu, supn⟩
  simp only at h1 h2 h3 h4 h5 h6 h7 h8 h9 h10 h11 h12 h13 h14 m1 m2 m3 m4 f1 f2
  subst h1 h2 h3 h4 h5 h6 h7 h8 h9 h10 h11 h12 h13 h14
  have l1 : ∀ w, A.le (A.mul (A.lit k) (evalH P doUV w).1) (A.mul (A.lit k) Htarget) =
      A.le (evalH P doUV w).1 Htarget := fun w => hk.le _ _ (hk.mem _ (hP w).1) (hk.mem _ hT)
  have l2 := hk.lt _ _ (hk.mem _ hT) (hk.mem _ m4)
  simp only [probeMinHP, Arith.gt, setState_conditional_TP_scalePhase, evalH_scalePhase, l1, l2]
  split_ifs <;> constructor <;> first | rfl | assumption | exact (hP _).1

theorem stabilityPassHP_scale (A : Arith F) (k : ℚ) (dTtol : F) (D1 D2 : F → Prop)
    (hk : A.Scaling k dTtol D1 D2) (P : ThermoPhase F σ) (p : F) (doUV : Bool)
    (hP : ∀ w, D1 (evalH P doUV w).1 ∧ D1 (evalCp P doUV w).1)
    (hF : ∀ w, A.lt (A.fabs (evalCp P doUV w).1) (A.lit (1 / 100000)) = false ∧
      A.lt (A.fabs (A.mul (A.lit k) (evalCp P doUV w).1)) (A.lit (1 / 100000)) = false)
    (t s : NewtonState F σ) (h : ScaledHP A k D1 t s) :
    ScaledHP A k D1 (stabilityPassHP A (scalePhase A k P) p doUV t).1
      (stabilityPassHP A P p doUV s).1 ∧
    (stabilityPassHP A (scalePhase A k P) p doUV t).2 = (stabilityPassHP A P p doUV s).2 := by
  obtain ⟨h1, h2, h3, h4, h5, h6, h7, h8, h9, h10, h11, h12, h13, h14, m1, m2, m3, m4, f1, f2⟩ := h
  rcases t with ⟨tw, tTnew, tHnew, tCpnew, tHtop, tTtop, tHbot, tTbot, tTold, tHold, tdt,
    tib, tup, tTu, tupn⟩
  rcases s with ⟨sw, sTnew, sHnew, sCpnew, sHtop, sTtop, sHbot, sTbot, sTold, sHold, sdt,
    sib, sup, sTu, supn⟩
  simp only at h1 h2 h3 h4 h5 h6 h7 h8 h9 h10 h11 h12 h13 h14 m1 m2 m3 m4 f1 f2
  subst h1 h2 h3 h4 h5 h6 h7 h8 h9 h10 h11 h12 h13 h14
  have l1 : ∀ w, A.lt (A.mul (A.lit k) (evalCp P doUV w).1) (A.lit 0) =
      A.lt (evalCp P doUV w).1 (A.lit 0) := fun w => hk.lt_zero _ (hP w).2
  cases c1 : A.lt (A.add tTold tdt) (A.div tTold (A.lit 3)) <;>
    simp only [stabilityPassHP, setState_conditional_TP_scalePhase, evalH_scalePhase,
      evalCp_scalePhase, l1, c1, Bool.false_eq_true, if_false, if_true] <;>
    split_ifs <;> refine ⟨?_, rfl⟩ <;> constructor <;>
    first
      | rfl
      | assumption
      | exact (hP _).1
      | exact (hP _).2
      | exact (hF _).1
      | exact (hF _).2

theorem stabilityLoopHP_scale (A : Arith F) (k : ℚ) (dTtol : F) (D1 D2 : F → Prop)
    (hk : A.Scaling k dTtol D1 D2) (P : ThermoPhase F σ) (p : F) (doUV : Bool)
    (hP : ∀ w, D1 (evalH P doUV w).1 ∧ D1 (evalCp P doUV w).1)
    (hF : ∀ w, A.lt (A.fabs (evalCp P doUV w).1) (A.lit (1 / 100000)) = false ∧
      A.lt (A.fabs (A.mul (A.lit k) (evalCp P doUV w).1)) (A.lit (1 / 100000)) = false)
    (n : Nat) (t s : NewtonState F σ) (h : ScaledHP A k D1 t s) :
    ScaledHP A k D1 (stabilityLoopHP A (scalePhase A k P) p doUV n t)
      (stabilityLoopHP A P p doUV n s) := by
  induction n generalizing t s with
  | zero => exact h
  | succ n ih =>
    obtain ⟨a1, a2⟩ := stabilityPassHP_scale A k dTtol D1 D2 hk P p doUV hP hF t s h
    rw [stabilityLoopHP, stabilityLoopHP, a2]
    split_ifs
    · exact a1
    · exact ih _ _ a1

theorem trialHP_scale (A : Arith F) (k : ℚ) (dTtol : F) (D1 D2 : F → Prop)
    (hk : A.Scaling k dTtol D1 D2) (P : ThermoPhase F σ) (Htarget p : F) (doUV : Bool)
    (hT : D1 Htarget) (hP : ∀ w, D1 (evalH P doUV w).1 ∧ D1 (evalCp P doUV w).1)
    (hF : ∀ w, A.lt (A.fabs (evalCp P doUV w).1) (A.lit (1 / 100000)) = false ∧
      A.lt (A.fabs (A.mul (A.lit k) (evalCp P doUV w).1)) (A.lit (1 / 100000)) = false)
    (Tmax Tmin : F) (t s : NewtonState F σ) (h : ScaledHP A k D1 t s) :
    ScaledHP A k D1
      (trialHP A (scalePhase A k P) (A.mul (A.lit k) Htarget) p doUV Tmax Tmin t)
      (trialHP A P Htarget p doUV Tmax Tmin s) := by
  unfold trialHP probeHP
  exact stabilityLoopHP_scale A k dTtol D1 D2 hk P p doUV hP hF 10 _ _
    (probeMinHP_scale A k dTtol D1 D2 hk P Htarget p doUV hT hP Tmin _ _
      (probeMaxHP_scale A k dTtol D1 D2 hk P Htarget p doUV hT hP Tmax _ _
        (proposeHP_scale A k dTtol D1 D2 hk Htarget hT t s h)))

theorem bracketHP_scale (A : Arith F) (k : ℚ) (dTtol : F) (D1 D2 : F → Prop)
    (hk : A.Scaling k dTtol D1 D2) (Htarget : F) (hT : D1 Htarget)
    (t s : NewtonState F σ) (h : ScaledHP A k D1 t s) :
    ScaledHP A k D1 (bracketHP A (A.mul (A.lit k) Htarget) t) (bracketHP A Htarget s) := by
  obtain ⟨h1, h2, h3, h4, h5, h6, h7, h8, h9, h10, h11, h12, h13, h14, m1, m2, m3, m4, f1, f2⟩ := h
  rcases t with ⟨tw, tTnew, tHnew, tCpnew, tHtop, tTtop, tHbot, tTbot, tTold, tHold, tdt,
    tib, tup, tTu, tupn⟩
  rcases s with ⟨sw, sTnew, sHnew, sCpnew, sHtop, sTtop, sHbot, sTbot, sTold, sHold, sdt,
    sib, sup, sTu, supn⟩
  simp only at h1 h2 h3 h4 h5 h6 h7 h8 h9 h10 h11 h12 h13 h14 m1 m2 m3 m4 f1 f2
  subst h1 h2 h3 h4 h5 h6 h7 h8 h9 h10 h11 h12 h13 h14
  have l1 := hk.lt _ _ (hk.mem _ hT) (hk.mem _ m1)
  have l2 := hk.lt _ _ (hk.mem _ m3) (hk.mem _ hT)
  have l3 := hk.lt _ _ (hk.mem _ m1) (hk.mem _ m3)
  have l4 := hk.lt _ _ (hk.mem _ m1) (hk.mem _ hT)
  have l5 := hk.lt _ _ (hk.mem _ hT) (hk.mem _ m4)
  have l6 := hk.lt _ _ (hk.mem _ m4) (hk.mem _ m1)
  simp only [bracketHP, Arith.gt, l1, l2, l3, l4, l5, l6]
  split_ifs <;> constructor <;> first | rfl | assumption

theorem convTestHP_scale (A : Arith F) (k : ℚ) (dTtol : F) (D1 D2 : F → Prop)
    (hk : A.Scaling k dTtol D1 D2) (Htarget : F) (hT : D1 Htarget) (cpd : F) (hc : D1 cpd)
    (f1 : A.lt (A.fabs cpd) (A.lit (1 / 100000)) = false)
    (f2 : A.lt (A.fabs (A.mul (A.lit k) cpd)) (A.lit (1 / 100000)) = false)
    (t s : NewtonState F σ) (h : ScaledHP A k D1 t s) :
    convTestHP A (A.mul (A.lit k) Htarget) dTtol (A.mul (A.lit k) cpd) t =
      convTestHP A Htarget dTtol cpd s := by
  have l1 := hk.sub _ _ hT h.memHnew
  have l2 := hk.fabs _ hc
  have l3 := hk.fabs _ hT
  have l4 := hk.mul _ hc
  have l5 := hk.lt _ _ (hk.fabs_mem _ hT) (hk.mul_mem _ hc)
  have l6 := hk.div _ _ (hk.sub_mem _ _ hT h.memHnew) (hk.fabs_mem _ hT)
  have l7 := hk.div _ _ (hk.sub_mem _ _ hT h.memHnew) (hk.mul_mem _ hc)
  simp only [convTestHP, h.Hnew, h.dt, Arith.max, f1, f2, Bool.false_eq_true, if_false, l1]
  rw [l2, l3, l4, l5]
  split_ifs
  · rw [l7]
  · rw [l6]

end Fl

end Cantera

namespace Cantera

namespace Fl

variable {F σ : Type}

theorem newtonStepHP_scale (A : Arith F) (k : ℚ) (dTtol : F) (D1 D2 : F → Prop)
    (hk : A.Scaling k dTtol D1 D2) (P : ThermoPhase F σ) (Htarget p : F) (doUV : Bool)
    (hT : D1 Htarget) (hP : ∀ w, D1 (evalH P doUV w).1 ∧ D1 (evalCp P doUV w).1)
    (hF : ∀ w, A.lt (A.fabs (evalCp P doUV w).1) (A.lit (1 / 100000)) = false ∧
      A.lt (A.fabs (A.mul (A.lit k) (evalCp P doUV w).1)) (A.lit (1 / 100000)) = false)
    (Tmax Tmin : F) (t s : NewtonState F σ) (h : ScaledHP A k D1 t s) :
    (∃ t1 s1, ScaledHP A k D1 t1 s1 ∧
      newtonStepHP A (scalePhase A k P) (A.mul (A.lit k) Htarget) p dTtol doUV Tmax Tmin t =
        Step.next t1 ∧
      newtonStepHP A P Htarget p dTtol doUV Tmax Tmin s = Step.next s1) ∨
    (∃ t1 s1, ScaledHP A k D1 t1 s1 ∧
      newtonStepHP A (scalePhase A k P) (A.mul (A.lit k) Htarget) p dTtol doUV Tmax Tmin t =
        Step.done t1 ∧
      newtonStepHP A P Htarget p dTtol doUV Tmax Tmin s = Step.done s1) := by
  have a1 := trialHP_scale A k dTtol D1 D2 hk P Htarget p doUV hT hP hF Tmax Tmin t s h
  have a2 := bracketHP_scale A k dTtol D1 D2 hk Htarget hT _ _ a1
  have a3 := convTestHP_scale A k dTtol D1 D2 hk Htarget hT s.Cpnew h.memCpnew h.floor
    (by rw [← h.Cpnew]; exact h.floorScaled) _ _ a2
  have a4 := hk.eq _ _ (hk.mem _ a1.memHnew) (hk.mem _ hT)
  rw [← a1.Hnew] at a4
  rw [← h.Cpnew] at a3
  simp only [newtonStepHP, a3, a4]
  split_ifs
  · exact Or.inr ⟨_, _, a1, rfl, rfl⟩
  · exact Or.inr ⟨_, _, a2, rfl, rfl⟩
  · exact Or.inl ⟨_, _, a2, rfl, rfl⟩

theorem newtonLoopHP_scale (A : Arith F) (k : ℚ) (dTtol : F) (D1 D2 : F → Prop)
    (hk : A.Scaling k dTtol D1 D2) (P : ThermoPhase F σ) (Htarget p : F) (doUV : Bool)
    (hT : D1 Htarget) (hP : ∀ w, D1 (evalH P doUV w).1 ∧ D1 (evalCp P doUV w).1)
    (hF : ∀ w, A.lt (A.fabs (evalCp P doUV w).1) (A.lit (1 / 100000)) = false ∧
      A.lt (A.fabs (A.mul (A.lit k) (evalCp P doUV w).1)) (A.lit (1 / 100000)) = false)
    (Tmax Tmin : F) (j n : Nat) (t s : NewtonState F σ) (h : ScaledHP A k D1 t s) :
    newtonLoopHP A (scalePhase A k P) (A.mul (A.lit k) Htarget) p dTtol doUV Tmax Tmin j n t =
      newtonLoopHP A P Htarget p dTtol doUV Tmax Tmin j n s := by
  induction j generalizing n t s with
  | zero => simp only [newtonLoopHP, h.w]
  | succ j ih =>
    rcases newtonStepHP_scale A k dTtol D1 D2 hk P Htarget p doUV hT hP hF Tmax Tmin t s h with
      ⟨t1, s1, r, e1, e2⟩ | ⟨t1, s1, r, e1, e2⟩
    · rw [newtonLoopHP, newtonLoopHP, e1, e2]
      exact ih _ _ _ r
    · rw [newtonLoopHP, newtonLoopHP, e1, e2]
      simp only [r.w]

theorem initHP_scale (A : Arith F) (k : ℚ) (D1 : F → Prop) (P : ThermoPhase F σ) (p : F)
    (doUV : Bool) (hP : ∀ w, D1 (evalH P doUV w).1 ∧ D1 (evalCp P doUV w).1)
    (hF : ∀ w, A.lt (A.fabs (evalCp P doUV w).1) (A.lit (1 / 100000)) = false ∧
      A.lt (A.fabs (A.mul (A.lit k) (evalCp P doUV w).1)) (A.lit (1 / 100000)) = false)
    (w : Traced F σ) :
    (initHP A (scalePhase A k P) p doUV w).1 = (initHP A P p doUV w).1 ∧
    (initHP A (scalePhase A k P) p doUV w).2.1 = (initHP A P p doUV w).2.1 ∧
    ScaledHP A k D1 (initHP A (scalePhase A k P) p doUV w).2.2 (initHP A P p doUV w).2.2 := by
  refine ⟨rfl, rfl, ?_⟩
  simp only [initHP, setState_conditional_TP_scalePhase, evalH_scalePhase, evalCp_scalePhase]
  constructor <;>
    first
      | rfl
      | exact (hP _).1
      | exact (hP _).2
      | exact (hF _).1
      | exact (hF _).2

theorem startHP_scale (A : Arith F) (k : ℚ) (D1 : F → Prop) (P : ThermoPhase F σ) (ph : σ)
    (p : F) (doUV : Bool) (hP : ∀ w, D1 (evalH P doUV w).1 ∧ D1 (evalCp P doUV w).1)
    (hF : ∀ w, A.lt (A.fabs (evalCp P doUV w).1) (A.lit (1 / 100000)) = false ∧
      A.lt (A.fabs (A.mul (A.lit k) (evalCp P doUV w).1)) (A.lit (1 / 100000)) = false) :
    (startHP A (scalePhase A k P) ph p doUV).1 = (startHP A P ph p doUV).1 ∧
    (startHP A (scalePhase A k P) ph p doUV).2.1 = (startHP A P ph p doUV).2.1 ∧
    ScaledHP A k D1 (startHP A (scalePhase A k P) ph p doUV).2.2 (startHP A P ph p doUV).2.2 := by
  have e : ∀ w : Traced F σ,
      (if doUV then callSetDensity (scalePhase A k P) w (A.div (A.lit 1) p)
        else callSetPressure (scalePhase A k P) w p) =
      (if doUV then callSetDensity P w (A.div (A.lit 1) p) else callSetPressure P w p) := by
    intro w
    cases doUV <;> rfl
  simp only [startHP, e]
  exact initHP_scale A k D1 P p doUV hP hF _

/-- C22 (amended): in every arithmetic, let `k` be a factor whose multiplication is exact
on the values concerned (`Arith.Scaling`: it keeps order and sign, commutes with `-`,
`fabs` and the product with `dTtol`, and cancels in a quotient; `D1` holds of the target
and of every value of the property and of its derivative), and let `fabs(Cp) < 1.0E-5` be
false for every value `Cp` of the derivative and for `k * Cp`.  Then `setState_HPorUV` on
the phase whose property and derivative are `k * H` and `k * Cp`, with the target
`k * Htarget`, makes the same run as on `H`, `Cp` with the target `Htarget`, for the same
phase object, `p`, `dTtol` and mode: the two calls leave the same result, that is, they
end in the same way after the same number of Newton iterations and have made the same
calls on the phase, with the same arguments (so the same temperatures were set), leaving
the phase object in the same state. -/
theorem setState_HP_scaled (A : Arith F) (k : ℚ) (D1 D2 : F → Prop) (P : ThermoPhase F σ)
    (ph : σ) (Htarget p dTtol : F) (doUV : Bool)
    (hk : A.Scaling k dTtol D1 D2) (hT : D1 Htarget)
    (hP : ∀ w, D1 (evalH P doUV w).1 ∧ D1 (evalCp P doUV w).1)
    (hF : ∀ w, A.lt (A.fabs (evalCp P doUV w).1) (A.lit (1 / 100000)) = false ∧
      A.lt (A.fabs (A.mul (A.lit k) (evalCp P doUV w).1)) (A.lit (1 / 100000)) = false) :
    setState_HPorUV A (scalePhase A k P) ph (A.mul (A.lit k) Htarget) p dTtol doUV =
      setState_HPorUV A P ph Htarget p dTtol doUV := by
  obtain ⟨a1, a2, a3⟩ := startHP_scale A k D1 P ph p doUV hP hF
  unfold setState_HPorUV
  split_ifs
  · rfl
  · rw [a1, a2]
    exact newtonLoopHP_scale A k dTtol D1 D2 hk P Htarget p doUV hT hP hF _ _ 500 0 _ _ a3

end Fl

end Cantera

namespace Cantera

namespace Fl

open Examples

theorem stepPhaseX_floor (k : ℚ) (hk : 1 ≤ k) (w : Traced XQ XState) :
    XQ.arith.lt (XQ.arith.fabs (evalCp stepPhaseX false w).1) (XQ.arith.lit (1 / 100000)) =
      false ∧
    XQ.arith.lt (XQ.arith.fabs (XQ.arith.mul (XQ.arith.lit k) (evalCp stepPhaseX false w).1))
      (XQ.arith.lit (1 / 100000)) = false := by
  have hk0 : 0 < k := by linarith
  have e : (evalCp stepPhaseX false w).1 = XQ.nan ∨
      (evalCp stepPhaseX false w).1 = XQ.fin (1 / 8) ∨
      (evalCp stepPhaseX false w).1 = XQ.fin 1 := by
    simp only [evalCp, stepPhaseX, tablePhase, atTemp]
    cases w.ph.T.val with
    | none => exact Or.inl rfl
    | some q =>
      by_cases hq : q ≤ 992
      · simp [hq]
      · simp [hq]
  rcases e with e | e | e <;> rw [e] <;>
    simp only [XQ.arith, XQ.mul_fin_nan, XQ.mul_fin_fin k _ hk0, XQ.fabs, XQ.lt,
      decide_eq_false_iff_not, not_lt, and_self, true_and]
  · refine ⟨?_, ?_⟩
    · rw [abs_of_pos (by norm_num)]
      norm_num
    · rw [abs_of_pos (by positivity)]
      linarith
  · refine ⟨?_, ?_⟩
    · rw [abs_of_pos (by norm_num)]
      norm_num
    · rw [abs_of_pos (by positivity)]
      linarith

/-- A run of C22 (amended) with values that are all exactly representable: the phase with
`Cp = 1/8` up to 992 K and `Cp = 1` above, `H(T) = 992 + (T - 992) / 8` up to 992 K and
`H(T) = T` above, at 976 K, with `Htarget = 994`, `p = 101325`, `dTtol = 1/128` in the
enthalpy/pressure mode, and the factor `k = 2`.  Both calls set 1008 K, where the value is
above the target, then 994 K, where it is the target, and return in the second Newton
iteration. -/
theorem setState_HP_scaled_witness :
    XQ.arith.Scaling 2 (XQ.fin (1 / 128)) (fun _ => True) (fun _ => True) ∧
    (∀ w : Traced XQ XState,
      XQ.arith.lt (XQ.arith.fabs (evalCp stepPhaseX false w).1) (XQ.arith.lit (1 / 100000)) =
        false ∧
      XQ.arith.lt
        (XQ.arith.fabs (XQ.arith.mul (XQ.arith.lit 2) (evalCp stepPhaseX false w).1))
        (XQ.arith.lit (1 / 100000)) = false) ∧
    setState_HPorUV XQ.arith (scalePhase XQ.arith 2 stepPhaseX) (atT 976)
        (XQ.arith.mul (XQ.arith.lit 2) (XQ.fin 994)) (XQ.fin 101325) (XQ.fin (1 / 128))
        false =
      setState_HPorUV XQ.arith stepPhaseX (atT 976) (XQ.fin 994) (XQ.fin 101325)
        (XQ.fin (1 / 128)) false ∧
    (fun r : SetStateResult XQ XState => ((r.exit, r.iters), tempsSet r.w.log, r.w.ph.T))
      (setState_HPorUV XQ.arith (scalePhase XQ.arith 2 stepPhaseX) (atT 976) (XQ.fin 1988)
        (XQ.fin 101325) (XQ.fin (1 / 128)) false) =
      ((Exit.returned, 2), [XQ.fin 1008, XQ.fin 994], XQ.fin 994) ∧
    (fun r : SetStateResult XQ XState => ((r.exit, r.iters), tempsSet r.w.log, r.w.ph.T))
      (setState_HPorUV XQ.arith stepPhaseX (atT 976) (XQ.fin 994) (XQ.fin 101325)
        (XQ.fin (1 / 128)) false) =
      ((Exit.returned, 2), [XQ.fin 1008, XQ.fin 994], XQ.fin 994) ∧
    (stepPhaseX.enthalpy_mass (atT 976), stepPhaseX.cp_mass (atT 976),
      (scalePhase XQ.arith 2 stepPhaseX).enthalpy_mass (atT 976),
      (scalePhase XQ.arith 2 stepPhaseX).cp_mass (atT 976)) =
      (XQ.fin 990, XQ.fin (1 / 8), XQ.fin 1980, XQ.fin (1 / 4)) :=
  ⟨XQ.arith_scaling 2 (by norm_num) _, stepPhaseX_floor 2 (by norm_num),
    setState_HP_scaled XQ.arith 2 (fun _ => True) (fun _ => True) stepPhaseX (atT 976)
      (XQ.fin 994) (XQ.fin 101325) (XQ.fin (1 / 128)) false
      (XQ.arith_scaling 2 (by norm_num) _) trivial (fun _ => ⟨trivial, trivial⟩)
      (stepPhaseX_floor 2 (by norm_num)),
    by decide!, by decide!, by decide!⟩

end Fl

end Cantera

namespace Cantera

namespace Fl

variable {F σ : Type}

/-! ### The first Newton iteration of `setState_HPorUV` -/

theorem startHP_fields (A : Arith F) (P : ThermoPhase F σ) (ph : σ) (p : F) (doUV : Bool) :
    (startHP A P ph p doUV).2.2.unstablePhase = false ∧
    (startHP A P ph p doUV).2.2.ignoreBounds = false ∧
    (startHP A P ph p doUV).2.2.Hbot = (startHP A P ph p doUV).2.2.Hnew ∧
    (startHP A P ph p doUV).2.2.Htop = (startHP A P ph p doUV).2.2.Hnew :=
  ⟨rfl, rfl, rfl, rfl⟩

/-- The body of the Newton loop up to the end of the inner loop, entered with the locals of
the start of the call, when the heat capacity is not negative and neither the safeguard,
nor a bound, nor the limit `Told / 3` cuts the Newton step: the step is taken as it is,
and the inner loop is left after its first pass. -/
theorem trialHP_plain (A : Arith F) (P : ThermoPhase F σ) (Htarget p : F) (doUV : Bool)
    (Tmax Tmin : F) (s : NewtonState F σ) (dt T1 : F)
    (hu : s.unstablePhase = false) (hi : s.ignoreBounds = false)
    (hb : s.Hbot = s.Hnew) (ht : s.Htop = s.Hnew)
    (hdt : dt = clip A (A.div (A.sub Htarget s.Hnew) s.Cpnew) (A.lit (-100)) (A.lit 100))
    (hT1 : T1 = A.add s.Tnew dt)
    (hc : A.lt s.Cpnew (A.lit 0) = false)
    (hdn : A.le dt (A.lit 0) = true → A.lt s.Hnew Htarget = false)
    (hup : A.le dt (A.lit 0) = false → A.gt s.Hnew Htarget = false)
    (hmax : A.gt T1 Tmax = false) (hmin : A.lt T1 Tmin = false)
    (hthird : A.lt T1 (A.div s.Tnew (A.lit 3)) = false)
    (hc1 : A.lt (evalCp P doUV
      (evalH P doUV (setState_conditional_TP P s.w T1 p (!doUV))).2).1 (A.lit 0) = false) :
    trialHP A P Htarget p doUV Tmax Tmin s =
      { s with
        Told := s.Tnew, Hold := s.Hnew, dt := dt, Tnew := T1,
        w := (evalCp P doUV (evalH P doUV (setState_conditional_TP P s.w T1 p (!doUV))).2).2,
        Hnew := (evalH P doUV (setState_conditional_TP P s.w T1 p (!doUV))).1,
        Cpnew := (evalCp P doUV
          (evalH P doUV (setState_conditional_TP P s.w T1 p (!doUV))).2).1,
        unstablePhaseNew := false } := by
  rcases s with ⟨sw, sTnew, sHnew, sCpnew, sHtop, sTtop, sHbot, sTbot, sTold, sHold, sdt,
    sib, sup, sTu, supn⟩
  simp only at hu hi hb ht hdt hT1 hc hdn hup hmax hmin hthird hc1
  subst hu hi
  have hb2 := hb.symm
  have ht2 := ht.symm
  subst hb2
  subst ht2
  have e1 : proposeHP A Htarget
      { w := sw, Tnew := sTnew, Hnew := sHnew, Cpnew := sCpnew, Htop := sHnew, Ttop := sTtop,
        Hbot := sHnew, Tbot := sTbot, Told := sTold, Hold := sHold, dt := sdt,
        ignoreBounds := false, unstablePhase := false, Tunstable := sTu,
        unstablePhaseNew := supn } =
      { w := sw, Tnew := T1, Hnew := sHnew, Cpnew := sCpnew, Htop := sHnew, Ttop := sTtop,
        Hbot := sHnew, Tbot := sTbot, Told := sTnew, Hold := sHnew, dt := dt,
        ignoreBounds := false, unstablePhase := false, Tunstable := sTu,
        unstablePhaseNew := supn } := by
    cases hle : A.le dt (A.lit 0) with
    | true =>
      have h1 := hdn hle
      simp only [proposeHP, hc, ← hdt, ← hT1, hle, h1, Bool.false_eq_true, if_false,
        Bool.and_false, Bool.false_and, Bool.or_false, Bool.false_or, Bool.not_false,
        Bool.and_true, if_true]
    | false =>
      have h1 := hup hle
      simp only [Arith.gt] at h1
      simp only [proposeHP, hc, ← hdt, ← hT1, hle, h1, Arith.gt, Bool.false_eq_true, if_false,
        Bool.and_false, Bool.false_and, Bool.or_false, Bool.false_or, Bool.not_false,
        Bool.and_true, if_true]
  simp only [Arith.gt] at hmax
  simp only [trialHP, e1, probeHP, probeMaxHP, probeMinHP, Arith.gt, hmax, hmin,
    Bool.false_and, Bool.false_eq_true, if_false]
  rw [show (10 : Nat) = 9 + 1 from rfl, stabilityLoopHP]
  simp only [stabilityPassHP, ← hT1, hthird, hc1, Bool.false_eq_true, if_false, if_true]

end Fl

end Cantera

namespace Cantera

namespace Fl

variable {F σ : Type}

theorem bracketHP_Hnew_dt (A : Arith F) (Htarget : F) (s : NewtonState F σ) :
    (bracketHP A Htarget s).Hnew = s.Hnew ∧ (bracketHP A Htarget s).dt = s.dt := by
  unfold bracketHP
  split_ifs <;> exact ⟨rfl, rfl⟩

/-- The Newton loop with at least one iteration to go: when the first pass returns, one
iteration was made and the phase is left as the inner loop of that pass left it; when it
does not, a second iteration is started. -/
theorem newtonLoopHP_first (A : Arith F) (P : ThermoPhase F σ) (Htarget p dTtol : F)
    (doUV : Bool) (Tmax Tmin : F) (k : Nat) (s : NewtonState F σ) :
    (returnsHP A P Htarget p dTtol doUV Tmax Tmin s = true →
      (newtonLoopHP A P Htarget p dTtol doUV Tmax Tmin (k + 1) 0 s).exit = Exit.returned ∧
      (newtonLoopHP A P Htarget p dTtol doUV Tmax Tmin (k + 1) 0 s).iters = 1 ∧
      (newtonLoopHP A P Htarget p dTtol doUV Tmax Tmin (k + 1) 0 s).w =
        (trialHP A P Htarget p doUV Tmax Tmin s).w) ∧
    (returnsHP A P Htarget p dTtol doUV Tmax Tmin s = false → 1 ≤ k →
      2 ≤ (newtonLoopHP A P Htarget p dTtol doUV Tmax Tmin (k + 1) 0 s).iters) := by
  rcases newtonStepHP_cases A P Htarget p dTtol doUV Tmax Tmin s with ⟨hr, hs⟩ | ⟨hr, hs | hs⟩
  · refine ⟨fun h => absurd h (by simp [hr]), fun _ hk => ?_⟩
    rw [newtonLoopHP, hs]
    obtain ⟨k, rfl⟩ : ∃ j, k = j + 1 := ⟨k - 1, by omega⟩
    rcases newtonStepHP_cases A P Htarget p dTtol doUV Tmax Tmin
      (passHP A P Htarget p doUV Tmax Tmin s) with ⟨-, h2⟩ | ⟨-, h2 | h2⟩
    · simp only [newtonLoopHP, h2]
      exact (newtonLoopHP_spec A P Htarget p dTtol doUV Tmax Tmin k (0 + 1 + 1) _).2.2.2.2.1
    · simp only [newtonLoopHP, h2]
      exact le_refl _
    · simp only [newtonLoopHP, h2]
      exact le_refl _
  · refine ⟨fun _ => ?_, fun h => absurd h (by simp [hr])⟩
    rw [newtonLoopHP, hs]
    exact ⟨rfl, rfl, rfl⟩
  · refine ⟨fun _ => ?_, fun h => absurd h (by simp [hr])⟩
    rw [newtonLoopHP, hs]
    exact ⟨rfl, rfl, bracketHP_w_fl A Htarget _⟩

/-- C9 (amended): in every arithmetic, for every phase and every input of
`setState_HPorUV` with an admitted `p`: let `dt` be the Newton step
`clip((Htarget - H) / Cp, -100, 100)` computed from the value `H` and the heat capacity
`Cp` that the phase has at the start, `T1 = T + dt` the proposed temperature and `H1` the
value read after `T1` was set.  If the heat capacity at the start is not negative, the
step has the direction of `Htarget - H` (`dt <= 0` excludes `H < Htarget`, otherwise
`H > Htarget` is excluded), `T1` is not beyond `Tmax` or `Tmin` and not below `T / 3`, and
the heat capacity at `T1` is not negative, then the first Newton iteration sets on the
phase the one temperature `T1`, and the call returns after exactly one iteration if and
only if `H1 == Htarget` or the convergence test
`HConvErr < 0.00001 * dTtol || fabs(dt) < dTtol` is met there; it then leaves the phase
with `T1` the one temperature set in the loop.  If the tests fail, a second iteration is
started. -/
theorem setState_HP_first_iteration (A : Arith F) (P : ThermoPhase F σ) (ph : σ)
    (Htarget p dTtol : F) (doUV : Bool) (Tmax Tmin : F) (s0 : NewtonState F σ) (dt T1 H1 : F)
    (hp : A.lt p (A.lit (1 / 10 ^ 300)) = false)
    (hs : startHP A P ph p doUV = (Tmax, Tmin, s0))
    (hdt : dt = clip A (A.div (A.sub Htarget s0.Hnew) s0.Cpnew) (A.lit (-100)) (A.lit 100))
    (hT1 : T1 = A.add s0.Tnew dt)
    (hH1 : H1 = (evalH P doUV (setState_conditional_TP P s0.w T1 p (!doUV))).1)
    (hc : A.lt s0.Cpnew (A.lit 0) = false)
    (hdn : A.le dt (A.lit 0) = true → A.lt s0.Hnew Htarget = false)
    (hup : A.le dt (A.lit 0) = false → A.gt s0.Hnew Htarget = false)
    (hmax : A.gt T1 Tmax = false) (hmin : A.lt T1 Tmin = false)
    (hthird : A.lt T1 (A.div s0.Tnew (A.lit 3)) = false)
    (hc1 : A.lt (evalCp P doUV
      (evalH P doUV (setState_conditional_TP P s0.w T1 p (!doUV))).2).1 (A.lit 0) = false) :
    tempsSet (trialHP A P Htarget p doUV Tmax Tmin s0).w.log = tempsSet s0.w.log ++ [T1] ∧
    (trialHP A P Htarget p doUV Tmax Tmin s0).Hnew = H1 ∧
    (((setState_HPorUV A P ph Htarget p dTtol doUV).exit = Exit.returned ∧
        (setState_HPorUV A P ph Htarget p dTtol doUV).iters = 1) ↔
      (A.eq H1 Htarget = true ∨
        A.lt (A.fabs (A.div (A.sub Htarget H1)
            (A.max (A.fabs Htarget)
              (A.mul (A.max (A.fabs s0.Cpnew) (A.lit (1 / 100000))) dTtol))))
          (A.mul (A.lit (1 / 100000)) dTtol) = true ∨
        A.lt (A.fabs dt) dTtol = true)) ∧
    ((setState_HPorUV A P ph Htarget p dTtol doUV).exit = Exit.returned ∧
        (setState_HPorUV A P ph Htarget p dTtol doUV).iters = 1 →
      tempsSet (setState_HPorUV A P ph Htarget p dTtol doUV).w.log =
        tempsSet s0.w.log ++ [T1] ∧
      (setState_HPorUV A P ph Htarget p dTtol doUV).w.ph =
        (setState_conditional_TP P s0.w T1 p (!doUV)).ph) ∧
    (A.eq H1 Htarget = false →
      A.lt (A.fabs (A.div (A.sub Htarget H1)
          (A.max (A.fabs Htarget)
            (A.mul (A.max (A.fabs s0.Cpnew) (A.lit (1 / 100000))) dTtol))))
        (A.mul (A.lit (1 / 100000)) dTtol) = false →
      A.lt (A.fabs dt) dTtol = false →
      2 ≤ (setState_HPorUV A P ph Htarget p dTtol doUV).iters) := by
  obtain ⟨f1, f2, f3, f4⟩ := startHP_fields A P ph p doUV
  rw [hs] at f1 f2 f3 f4
  have ht := trialHP_plain A P Htarget p doUV Tmax Tmin s0 dt T1 f1 f2 f3 f4 hdt hT1 hc hdn
    hup hmax hmin hthird hc1
  have hlog : tempsSet (trialHP A P Htarget p doUV Tmax Tmin s0).w.log =
      tempsSet s0.w.log ++ [T1] := by
    rw [ht]
    simp only [tempsSet_evalCp_fl, tempsSet_evalH_fl, tempsSet_TP_fl]
  have hH : (trialHP A P Htarget p doUV Tmax Tmin s0).Hnew = H1 := by
    rw [ht, hH1]
  have hd : (trialHP A P Htarget p doUV Tmax Tmin s0).dt = dt := by
    rw [ht]
  have hph : (trialHP A P Htarget p doUV Tmax Tmin s0).w.ph =
      (setState_conditional_TP P s0.w T1 p (!doUV)).ph := by
    rw [ht]
    cases doUV <;> rfl
  obtain ⟨b1, b2⟩ := bracketHP_Hnew_dt A Htarget (trialHP A P Htarget p doUV Tmax Tmin s0)
  have hpH : (passHP A P Htarget p doUV Tmax Tmin s0).Hnew = H1 := by
    unfold passHP
    rw [b1, hH]
  have hpd : (passHP A P Htarget p doUV Tmax Tmin s0).dt = dt := by
    unfold passHP
    rw [b2, hd]
  have hT := returnsHP_true A P Htarget p dTtol doUV Tmax Tmin s0
  have hF := returnsHP_false A P Htarget p dTtol doUV Tmax Tmin s0
  rw [hH, hpH, hpd] at hT hF
  obtain ⟨c1, c2⟩ := newtonLoopHP_first A P Htarget p dTtol doUV Tmax Tmin 499 s0
  simp only [Nat.reduceAdd] at c1 c2
  rw [setState_HPorUV_loop A P ph Htarget p dTtol doUV Tmax Tmin s0 hp hs]
  refine ⟨hlog, hH, ⟨fun h => ?_, fun h => ?_⟩, fun h => ?_, fun h1 h2 h3 => ?_⟩
  · rw [← hT]
    cases hr : returnsHP A P Htarget p dTtol doUV Tmax Tmin s0 with
    | true => rfl
    | false =>
      have := c2 hr (by omega)
      omega
  · obtain ⟨d1, d2, -⟩ := c1 (hT.mpr h)
    exact ⟨d1, d2⟩
  · have hr : returnsHP A P Htarget p dTtol doUV Tmax Tmin s0 = true := by
      cases hr : returnsHP A P Htarget p dTtol doUV Tmax Tmin s0 with
      | true => rfl
      | false =>
        have := c2 hr (by omega)
        omega
    obtain ⟨-, -, d3⟩ := c1 hr
    rw [d3]
    exact ⟨hlog, hph⟩
  · exact c2 (hF.mpr ⟨h1, h2, h3⟩) (by omega)

end Fl

end Cantera

namespace Cantera

namespace Fl

open Examples

/-- A run of C9 (amended): the phase with `Cp = 1/2` and `H(T) = T / 2 + 10` at 300 K,
`Htarget = 185`, `p = 101325`, `dTtol = 1/128`, enthalpy/pressure mode.  The Newton step
is `(185 - 160) / (1/2) = 50`, the one temperature set is 350 K, where `H` is the
target, and the call returns in its first iteration with the phase at 350 K. -/
theorem setState_HP_first_iteration_witness :
    XQ.arith.lt (XQ.fin 101325) (XQ.arith.lit (1 / 10 ^ 300)) = false ∧
    ((setState_HPorUV XQ.arith linPhaseX (atT 300) (XQ.fin 185) (XQ.fin 101325)
        (XQ.fin (1 / 128)) false).exit = Exit.returned ∧
      (setState_HPorUV XQ.arith linPhaseX (atT 300) (XQ.fin 185) (XQ.fin 101325)
        (XQ.fin (1 / 128)) false).iters = 1) ∧
    (fun s : NewtonState XQ XState =>
        ((s.Tnew, s.Hnew, s.Cpnew),
          clip XQ.arith (XQ.arith.div (XQ.arith.sub (XQ.fin 185) s.Hnew) s.Cpnew)
            (XQ.arith.lit (-100)) (XQ.arith.lit 100)))
      (startHP XQ.arith linPhaseX (atT 300) (XQ.fin 101325) false).2.2 =
      ((XQ.fin 300, XQ.fin 160, XQ.fin (1 / 2)), XQ.fin 50) ∧
    (fun r : SetStateResult XQ XState => ((r.exit, r.iters), tempsSet r.w.log, r.w.ph.T))
      (setState_HPorUV XQ.arith linPhaseX (atT 300) (XQ.fin 185) (XQ.fin 101325)
        (XQ.fin (1 / 128)) false) = ((Exit.returned, 1), [XQ.fin 350], XQ.fin 350) :=
  ⟨by decide!,
    (setState_HP_first_iteration XQ.arith linPhaseX (atT 300) (XQ.fin 185) (XQ.fin 101325)
      (XQ.fin (1 / 128)) false _ _ _ _ _ _ (by decide!) rfl rfl rfl rfl (by decide!)
      (by decide!) (by decide!) (by decide!) (by decide!) (by decide!)
      (by decide!)).2.2.1.mpr (Or.inl (by decide!)),
    by decide!, by decide!⟩

end Fl

end Cantera

namespace VCSnonideal

namespace Fl

variable {F : Type}

/-! ### The first loop iteration of `vcsUtil_root1d` -/

/-- The candidate of the first loop iteration: the secant point through the two start-up
points, when the slope is not zero, the step-size heuristics find the point within reach,
the point is inside `[xmin, xmax]` and, when the start-up points straddle the root, not
outside of the interval between them. -/
theorem candidate_secant (A : Arith F) (mlequ : Mlequ F) (xmin xmax x1 f1 x2 f2 xs : F)
    (hxs : xs = A.sub x2 (A.div f2 (A.div (A.sub f2 f1) (A.sub x2 x1))))
    (hslope : A.eq (A.div (A.sub f2 f1) (A.sub x2 x1)) (A.lit 0) = false)
    (hin : ((A.gt xs x1 && A.lt xs x2) || (A.lt xs x1 && A.gt xs x2)) = true →
      A.lt (A.fabs (A.sub xs x1)) (A.div (A.fabs (A.sub x2 x1)) (A.lit 10)) = false ∧
      A.lt (A.fabs (A.sub xs x2)) (A.div (A.fabs (A.sub x2 x1)) (A.lit 10)) = false)
    (hout : ((A.gt xs x1 && A.lt xs x2) || (A.lt xs x1 && A.gt xs x2)) = false →
      A.lt (A.fabs (A.mul (A.lit 2) (A.fabs (A.sub x2 x1)))) (A.fabs (A.sub xs x2)) = false)
    (hmax : A.gt xs xmax = false) (hmin : A.lt xs xmin = false)
    (hpn : A.gt f1 (A.lit 0) = true → A.gt f2 (A.lit 0) = false →
      if A.gt x1 x2 then A.lt xs x2 = false ∧ A.gt xs x1 = false
      else A.gt xs x2 = false ∧ A.lt xs x1 = false)
    (hnp : A.gt f1 (A.lit 0) = false → A.gt f2 (A.lit 0) = true →
      if A.gt x2 x1 then A.gt xs x2 = false ∧ A.lt xs x1 = false
      else A.lt xs x2 = false ∧ A.gt xs x1 = false) :
    candidate A mlequ xmin xmax (startState A x1 f1 x2 f2) = (VCS_SUCCESS, xs) := by
  have e1 : (startState A x1 f1 x2 f2).x1 = x1 ∧ (startState A x1 f1 x2 f2).x2 = x2 ∧
      (startState A x1 f1 x2 f2).f1 = f1 ∧ (startState A x1 f1 x2 f2).f2 = f2 ∧
      (startState A x1 f1 x2 f2).its = 0 ∧ (startState A x1 f1 x2 f2).retn = VCS_SUCCESS := by
    simp only [startState, initState]
    split_ifs <;> exact ⟨rfl, rfl, rfl, rfl, rfl, rfl⟩
  obtain ⟨p1, p2, p3, p4, p5, p6⟩ := e1
  have e2 : linearStep A (startState A x1 f1 x2 f2) = xs := by
    simp only [linearStep, p1, p2, p3, p4, hslope, Bool.false_eq_true, if_false, hxs]
  have e3 : quadStep A mlequ (startState A x1 f1 x2 f2) xs = (VCS_SUCCESS, xs) := by
    simp only [quadStep, p5, p6, gt_iff_lt, lt_self_iff_false, if_false]
  have e4 : stepHeuristics A x1 x2 xs = xs := by
    cases hb : ((A.gt xs x1 && A.lt xs x2) || (A.lt xs x1 && A.gt xs x2)) with
    | true =>
      obtain ⟨a1, a2⟩ := hin hb
      simp only [stepHeuristics, hb, if_true, a1, a2, Bool.false_eq_true, if_false]
    | false =>
      have a1 := hout hb
      simp only [stepHeuristics, hb, a1, Bool.false_eq_true, if_false]
  have e5 : boundStep A xmin xmax x2 xs = xs := by
    simp only [boundStep, hmax, hmin, Bool.false_eq_true, if_false]
  have e6 : straddleStep A (startState A x1 f1 x2 f2) xs = xs := by
    cases g1 : A.gt f1 (A.lit 0) with
    | true =>
      cases g2 : A.gt f2 (A.lit 0) with
      | true =>
        simp [straddleStep, startState, initState, g1, g2]
      | false =>
        have h := hpn g1 g2
        cases g3 : A.gt x1 x2 with
        | true =>
          simp only [g3, if_true] at h
          simp [straddleStep, startState, initState, g1, g2, g3, h.1, h.2]
        | false =>
          simp only [g3, Bool.false_eq_true, if_false] at h
          simp [straddleStep, startState, initState, g1, g2, g3, h.1, h.2]
    | false =>
      cases g2 : A.gt f2 (A.lit 0) with
      | true =>
        have h := hnp g1 g2
        cases g3 : A.gt x2 x1 with
        | true =>
          simp only [g3, if_true] at h
          simp [straddleStep, startState, initState, g1, g2, g3, h.1, h.2]
        | false =>
          simp only [g3, Bool.false_eq_true, if_false] at h
          simp [straddleStep, startState, initState, g1, g2, g3, h.1, h.2]
      | false =>
        simp [straddleStep, startState, initState, g1, g2]
  simp only [candidate, e2, e3, p1, p2, e4, e5, e6]

theorem iterate_evals_head (A : Arith F) (mlequ : Mlequ F) (xmin xmax : F)
    (func : F → F → F) (FuncTargVal fnorm : F) (k : Nat) (s : LoopState F) :
    ∃ l, ((loopBody A mlequ xmin xmax func FuncTargVal fnorm)^[k] s).evals = s.evals ++ l := by
  induction k generalizing s with
  | zero => exact ⟨[], by simp⟩
  | succ k ih =>
    rw [Function.iterate_succ_apply]
    obtain ⟨l, e⟩ := ih (loopBody A mlequ xmin xmax func FuncTargVal fnorm s)
    rw [e, loopBody_evals]
    exact ⟨(loopBody A mlequ xmin xmax func FuncTargVal fnorm s).x2 :: l, by simp⟩

end Fl

end VCSnonideal

namespace VCSnonideal

namespace Fl

variable {F : Type}

/-- The first pass through the loop body from the start state, when its candidate is the
point `xs`. -/
theorem loopBody_first (A : Arith F) (mlequ : Mlequ F) (xmin xmax : F) (func : F → F → F)
    (FuncTargVal fnorm x1 f1 x2 f2 xs : F)
    (hc : candidate A mlequ xmin xmax (startState A x1 f1 x2 f2) = (VCS_SUCCESS, xs)) :
    (loopBody A mlequ xmin xmax func FuncTargVal fnorm (startState A x1 f1 x2 f2)).x2 = xs ∧
    (loopBody A mlequ xmin xmax func FuncTargVal fnorm (startState A x1 f1 x2 f2)).retn =
      VCS_SUCCESS ∧
    (loopBody A mlequ xmin xmax func FuncTargVal fnorm (startState A x1 f1 x2 f2)).its = 1 ∧
    (loopBody A mlequ xmin xmax func FuncTargVal fnorm (startState A x1 f1 x2 f2)).evals =
      [x1, x2, xs] ∧
    (loopBody A mlequ xmin xmax func FuncTargVal fnorm (startState A x1 f1 x2 f2)).converged =
      A.lt (A.fabs (A.div (func xs FuncTargVal) fnorm)) (A.lit (1 / 100000)) := by
  obtain ⟨q1, q2, q3, q4⟩ := startState_proj_fl A x1 f1 x2 f2
  have r1 : (loopBody A mlequ xmin xmax func FuncTargVal fnorm
      (startState A x1 f1 x2 f2)).x2 = xs := by
    show (candidate A mlequ xmin xmax (startState A x1 f1 x2 f2)).2 = xs
    rw [hc]
  have r2 : (loopBody A mlequ xmin xmax func FuncTargVal fnorm
      (startState A x1 f1 x2 f2)).retn = VCS_SUCCESS := by
    show (candidate A mlequ xmin xmax (startState A x1 f1 x2 f2)).1 = VCS_SUCCESS
    rw [hc]
  refine ⟨r1, r2, ?_, ?_, ?_⟩
  · rw [loopBody_its, q2]
  · rw [loopBody_evals, q4, r1]
    rfl
  · rw [loopBody_converged, q1, loopBody_f2, r1, Bool.false_or]

/-- C8 (amended): in every arithmetic, for every `func`, target and `itmax`: let `x1`,
`x2` be the two start-up points of `vcsUtil_root1d`, `f1`, `f2` the residuals there, both
not zero, and `xs = x2 - f2 / ((f2 - f1) / (x2 - x1))` the secant point through them, as
computed.  If the slope is not zero, `xs` is within reach of the step-size heuristics
(strictly between `x1` and `x2` and not closer than `|x2 - x1| / 10` to either, or not
between them and not farther than `2 |x2 - x1|` from `x2`), `xs` is inside `[xmin, xmax]`
and, when `f1` and `f2` differ in sign, not outside of the interval between `x1` and
`x2`, then the first loop iteration calls `func` at `xs`, and the call returns
`VCS_SUCCESS` after exactly one loop iteration if and only if the residual at `xs`
passes the test `fabs(fnew / fnorm) < 1.0E-5`; the returned `*xbest` is then `xs`, after
the three calls of `func` at `x1`, `x2`, `xs`.  If the test fails and `itmax >= 2`, a
second iteration is made. -/
theorem root1d_first_iteration (A : Arith F) (mlequ : Mlequ F) (xmin xmax : F)
    (itmax : Int) (func : F → F → F) (FuncTargVal xbest x1 f1 x2 f2 xs : F)
    (hx1 : x1 = firstPoint A xmin xmax xbest) (hf1 : f1 = func x1 FuncTargVal)
    (hx2 : x2 = secondPoint A xmin xmax x1) (hf2 : f2 = func x2 FuncTargVal)
    (hxs : xs = A.sub x2 (A.div f2 (A.div (A.sub f2 f1) (A.sub x2 x1))))
    (hb : A.le xmax xmin = false)
    (h1 : A.eq f1 (A.lit 0) = false) (h2 : A.eq f2 (A.lit 0) = false)
    (hslope : A.eq (A.div (A.sub f2 f1) (A.sub x2 x1)) (A.lit 0) = false)
    (hin : ((A.gt xs x1 && A.lt xs x2) || (A.lt xs x1 && A.gt xs x2)) = true →
      A.lt (A.fabs (A.sub xs x1)) (A.div (A.fabs (A.sub x2 x1)) (A.lit 10)) = false ∧
      A.lt (A.fabs (A.sub xs x2)) (A.div (A.fabs (A.sub x2 x1)) (A.lit 10)) = false)
    (hout : ((A.gt xs x1 && A.lt xs x2) || (A.lt xs x1 && A.gt xs x2)) = false →
      A.lt (A.fabs (A.mul (A.lit 2) (A.fabs (A.sub x2 x1)))) (A.fabs (A.sub xs x2)) = false)
    (hmax : A.gt xs xmax = false) (hmin : A.lt xs xmin = false)
    (hpn : A.gt f1 (A.lit 0) = true → A.gt f2 (A.lit 0) = false →
      if A.gt x1 x2 then A.lt xs x2 = false ∧ A.gt xs x1 = false
      else A.gt xs x2 = false ∧ A.lt xs x1 = false)
    (hnp : A.gt f1 (A.lit 0) = false → A.gt f2 (A.lit 0) = true →
      if A.gt x2 x1 then A.gt xs x2 = false ∧ A.lt xs x1 = false
      else A.lt xs x2 = false ∧ A.gt xs x1 = false) :
    (∃ l, (vcsUtil_root1d A mlequ xmin xmax itmax func FuncTargVal xbest).evals =
      x1 :: x2 :: xs :: l) ∧
    (((vcsUtil_root1d A mlequ xmin xmax itmax func FuncTargVal xbest).retn = VCS_SUCCESS ∧
        (vcsUtil_root1d A mlequ xmin xmax itmax func FuncTargVal xbest).its = 1) ↔
      A.lt (A.fabs (A.div (func xs FuncTargVal) (fnormOf A FuncTargVal f1 f2)))
        (A.lit (1 / 100000)) = true) ∧
    ((vcsUtil_root1d A mlequ xmin xmax itmax func FuncTargVal xbest).retn = VCS_SUCCESS ∧
        (vcsUtil_root1d A mlequ xmin xmax itmax func FuncTargVal xbest).its = 1 →
      (vcsUtil_root1d A mlequ xmin xmax itmax func FuncTargVal xbest).xbest = xs ∧
      (vcsUtil_root1d A mlequ xmin xmax itmax func FuncTargVal xbest).evals = [x1, x2, xs]) ∧
    (A.lt (A.fabs (A.div (func xs FuncTargVal) (fnormOf A FuncTargVal f1 f2)))
        (A.lit (1 / 100000)) = false → 2 ≤ itmax →
      2 ≤ (vcsUtil_root1d A mlequ xmin xmax itmax func FuncTargVal xbest).its) := by
  have hc := candidate_secant A mlequ xmin xmax x1 f1 x2 f2 xs hxs hslope hin hout hmax hmin
    hpn hnp
  obtain ⟨b1, b2, b3, b4, b5⟩ := loopBody_first A mlequ xmin xmax func FuncTargVal
    (fnormOf A FuncTargVal f1 f2) x1 f1 x2 f2 xs hc
  have hne : VCS_FAILED_CONVERGENCE ≠ VCS_SUCCESS := by decide
  have hr : vcsUtil_root1d A mlequ xmin xmax itmax func FuncTargVal xbest =
      { retn := if (doWhile A mlequ xmin xmax func FuncTargVal (fnormOf A FuncTargVal f1 f2)
            (itmax.toNat - 1) (startState A x1 f1 x2 f2)).converged
          then (doWhile A mlequ xmin xmax func FuncTargVal (fnormOf A FuncTargVal f1 f2)
            (itmax.toNat - 1) (startState A x1 f1 x2 f2)).retn
          else VCS_FAILED_CONVERGENCE,
        xbest := (doWhile A mlequ xmin xmax func FuncTargVal (fnormOf A FuncTargVal f1 f2)
            (itmax.toNat - 1) (startState A x1 f1 x2 f2)).x2,
        evals := (doWhile A mlequ xmin xmax func FuncTargVal (fnormOf A FuncTargVal f1 f2)
            (itmax.toNat - 1) (startState A x1 f1 x2 f2)).evals,
        its := (doWhile A mlequ xmin xmax func FuncTargVal (fnormOf A FuncTargVal f1 f2)
            (itmax.toNat - 1) (startState A x1 f1 x2 f2)).its } := by
    subst hx1 hf1 hx2 hf2
    simp only [vcsUtil_root1d, hb, h1, h2, Bool.false_eq_true, if_false]
  rw [hr]
  cases hcv : A.lt (A.fabs (A.div (func xs FuncTargVal) (fnormOf A FuncTargVal f1 f2)))
      (A.lit (1 / 100000)) with
  | true =>
    rw [hcv] at b5
    have hd : doWhile A mlequ xmin xmax func FuncTargVal (fnormOf A FuncTargVal f1 f2)
        (itmax.toNat - 1) (startState A x1 f1 x2 f2) =
        loopBody A mlequ xmin xmax func FuncTargVal (fnormOf A FuncTargVal f1 f2)
          (startState A x1 f1 x2 f2) := by
      cases itmax.toNat - 1 with
      | zero => rw [doWhile]
      | succ n =>
        rw [doWhile]
        simp only [b5, if_true]
    rw [hd]
    simp only [b1, b2, b3, b4, b5, if_true]
    exact ⟨⟨[], rfl⟩, ⟨fun _ => trivial, fun _ => ⟨trivial, trivial⟩⟩,
      fun _ => ⟨trivial, trivial⟩, fun h => absurd h (by simp)⟩
  | false =>
    rw [hcv] at b5
    cases hn : itmax.toNat - 1 with
    | zero =>
      have hd : doWhile A mlequ xmin xmax func FuncTargVal (fnormOf A FuncTargVal f1 f2)
          0 (startState A x1 f1 x2 f2) =
          loopBody A mlequ xmin xmax func FuncTargVal (fnormOf A FuncTargVal f1 f2)
            (startState A x1 f1 x2 f2) := by
        rw [doWhile]
      rw [hd]
      simp only [b1, b3, b4, b5, Bool.false_eq_true, if_false]
      refine ⟨⟨[], rfl⟩, ⟨fun h => absurd h.1 hne, fun h => absurd h (by simp)⟩,
        fun h => absurd h.1 hne, fun _ h2 => ?_⟩
      omega
    | succ n =>
      have hd : doWhile A mlequ xmin xmax func FuncTargVal (fnormOf A FuncTargVal f1 f2)
          (n + 1) (startState A x1 f1 x2 f2) =
          doWhile A mlequ xmin xmax func FuncTargVal (fnormOf A FuncTargVal f1 f2) n
            (loopBody A mlequ xmin xmax func FuncTargVal (fnormOf A FuncTargVal f1 f2)
              (startState A x1 f1 x2 f2)) := by
        rw [doWhile]
        simp only [b5, Bool.false_eq_true, if_false]
      obtain ⟨-, -, k, k1, -, hk⟩ := doWhile_spec A mlequ xmin xmax func FuncTargVal
        (fnormOf A FuncTargVal f1 f2) n _ b5
      obtain ⟨i1, -⟩ := iterate_its A mlequ xmin xmax func FuncTargVal
        (fnormOf A FuncTargVal f1 f2) k
        (loopBody A mlequ xmin xmax func FuncTargVal (fnormOf A FuncTargVal f1 f2)
          (startState A x1 f1 x2 f2))
      obtain ⟨l, i2⟩ := iterate_evals_head A mlequ xmin xmax func FuncTargVal
        (fnormOf A FuncTargVal f1 f2) k
        (loopBody A mlequ xmin xmax func FuncTargVal (fnormOf A FuncTargVal f1 f2)
          (startState A x1 f1 x2 f2))
      rw [hd, hk]
      dsimp only
      rw [i1, i2, b3, b4]
      refine ⟨⟨l, rfl⟩, ⟨fun h => ?_, fun h => absurd h (by simp)⟩, fun h => ?_, fun _ _ => ?_⟩
      · omega
      · omega
      · omega

end Fl

end VCSnonideal

namespace VCSnonideal

namespace Fl

open Examples

/-- A run of C8 (amended) with values that are all exactly representable: `f(x) = x - 47`
on `[0, 50]` with the guess 48, the target 0 and `itmax = 5`.  The start-up points are 48
and 47.5 with the residuals 1 and 0.5, the slope is 1 and the secant point is 47, the
root; it is an extrapolation by `0.5 <= 2 * 0.5`.  The first loop iteration calls `func`
at 47, and the call returns `VCS_SUCCESS` after one iteration with `x = 47`. -/
theorem root1d_first_iteration_witness :
    ((vcsUtil_root1d XQ.arith mlequX (XQ.fin 0) (XQ.fin 50) 5 (residualX (fun x => x - 47))
        (XQ.fin 0) (XQ.fin 48)).retn = VCS_SUCCESS ∧
      (vcsUtil_root1d XQ.arith mlequX (XQ.fin 0) (XQ.fin 50) 5 (residualX (fun x => x - 47))
        (XQ.fin 0) (XQ.fin 48)).its = 1) ∧
    (firstPoint XQ.arith (XQ.fin 0) (XQ.fin 50) (XQ.fin 48),
      secondPoint XQ.arith (XQ.fin 0) (XQ.fin 50)
        (firstPoint XQ.arith (XQ.fin 0) (XQ.fin 50) (XQ.fin 48))) =
      (XQ.fin 48, XQ.fin (95 / 2)) ∧
    XQ.arith.sub (XQ.fin (95 / 2))
      (XQ.arith.div (XQ.fin (1 / 2))
        (XQ.arith.div (XQ.arith.sub (XQ.fin (1 / 2)) (XQ.fin 1))
          (XQ.arith.sub (XQ.fin (95 / 2)) (XQ.fin 48)))) = XQ.fin 47 ∧
    vcsUtil_root1d XQ.arith mlequX (XQ.fin 0) (XQ.fin 50) 5 (residualX (fun x => x - 47))
        (XQ.fin 0) (XQ.fin 48) =
      { retn := VCS_SUCCESS, xbest := XQ.fin 47,
        evals := [XQ.fin 48, XQ.fin (95 / 2), XQ.fin 47], its := 1 } :=
  ⟨(root1d_first_iteration XQ.arith mlequX (XQ.fin 0) (XQ.fin 50) 5
      (residualX (fun x => x - 47)) (XQ.fin 0) (XQ.fin 48) _ _ _ _ _ rfl rfl rfl rfl rfl
      (by decide!) (by decide!) (by decide!) (by decide!) (by decide!) (by decide!)
      (by decide!) (by decide!) (by decide!) (by decide!)).2.1.mpr (by decide!),
    by decide!, by decide!, by decide!⟩

end Fl

end VCSnonideal
